import Mathlib

/-!
# OHOS hidapi shim (`src/hidapi/ohos/hid.cpp`): report buffers, report queue, device handles

Shallow embedding of the C++ classes `hid_buffer`, `hid_buffer_pool`, `hid_device_ref`,
`CHIDDevice` and of the public `hid_*` entry points, and of the joystick list of
`src/joystick/ohos/SDL_sysjoystick.c`, followed by the theorems about them.

Conventions of the embedding

* A byte (`uint8_t`) and a wide character (`wchar_t`) are natural numbers.
* A block of memory reached through a pointer is the list of the bytes starting at that
  pointer.  A write past the end of the list shows up as growth of the list.
* `size_t` is a natural number reduced modulo `2 ^ 64` where the source increments or
  decrements it; `(int)x` of a `size_t` is the two's complement wrap to 32 bits.
* `int` fields that are only incremented, decremented and compared (`m_nRefCount`,
  `m_nDeviceRefCount`, `m_nId`) are mathematical integers.
* A singly linked chain of nodes (`m_pNext`, `next`) is the list of its nodes, first node
  first; a tail pointer is the last element of that list.
* The build is the one without `DEBUG`: `LOGV` and `LOGD` expand to nothing.
-/

namespace OhosHid

/-! ## Machine arithmetic and memory -/

/-- Number of values of `size_t`. -/
abbrev SIZE_MOD : Nat := 18446744073709551616

/-- The conversion `(int)x` of a `size_t` value: reduction to 32 bits, two's complement. -/
def toInt32 (x : Nat) : Int :=
  if x % 4294967296 < 2147483648 then Int.ofNat (x % 4294967296)
  else Int.ofNat (x % 4294967296) - 4294967296

/-- The store `p[off] = v` on the memory block starting at `p`. -/
def poke (mem : List Nat) (off : Nat) (v : Nat) : List Nat :=
  mem.take off ++ [v] ++ mem.drop (off + 1)

/-- The call `SDL_memcpy(dst + off, src, n)`: the `n` first bytes of `src` replace the bytes
`off .. off + n` of `dst`. -/
def memcpy (dst : List Nat) (off : Nat) (src : List Nat) (n : Nat) : List Nat :=
  dst.take off ++ src.take n ++ dst.drop (off + n)

/-! ## `hid_buffer` -/

/-- The class `hid_buffer`.  `m_pData` is the allocated block (empty for `nullptr`);
`news` is a ghost counter of the `new uint8_t[...]` expressions this buffer has executed. -/
structure hid_buffer where
  m_pData : List Nat
  m_nSize : Nat
  m_nAllocated : Nat
  news : Nat
deriving DecidableEq

namespace hid_buffer

/-- The default constructor `hid_buffer()`. -/
def empty : hid_buffer :=
  { m_pData := [], m_nSize := 0, m_nAllocated := 0, news := 0 }

/-- The method `hid_buffer::assign`.  A block obtained from `new uint8_t[nSize]` is modelled
as `nSize` zero bytes; all of them are overwritten by the copy that follows. -/
def assign (b : hid_buffer) (pData : List Nat) (nSize : Nat) : hid_buffer :=
  let b1 : hid_buffer :=
    if nSize > b.m_nAllocated then
      { b with m_pData := List.replicate nSize 0, m_nAllocated := nSize, news := b.news + 1 }
    else b
  { b1 with m_nSize := nSize, m_pData := memcpy b1.m_pData 0 pData nSize }

/-- The method `hid_buffer::clear`. -/
def clear (b : hid_buffer) : hid_buffer :=
  { b with m_nSize := 0 }

/-- The method `hid_buffer::size`. -/
def size (b : hid_buffer) : Nat := b.m_nSize

/-- The method `hid_buffer::data`. -/
def data (b : hid_buffer) : List Nat := b.m_pData

/-- The report a buffer holds: the `size()` first bytes of `data()`. -/
def report (b : hid_buffer) : List Nat := b.data.take b.size

end hid_buffer

/-! ## `hid_buffer_pool` -/

/-- The class `hid_buffer_pool`.  `m_pHead` is the chain of queued entries from `m_pHead`
to `m_pTail`, `m_pFree` the chain of retired entries; an entry is its `m_buffer`.
`news` is a ghost counter of the `new hid_buffer_entry` expressions executed. -/
structure hid_buffer_pool where
  m_nSize : Nat
  m_pHead : List hid_buffer
  m_pFree : List hid_buffer
  news : Nat
deriving DecidableEq

namespace hid_buffer_pool

/-- The constructor `hid_buffer_pool()`. -/
def empty : hid_buffer_pool :=
  { m_nSize := 0, m_pHead := [], m_pFree := [], news := 0 }

/-- The method `hid_buffer_pool::size`. -/
def size (q : hid_buffer_pool) : Nat := q.m_nSize

/-- The method `hid_buffer_pool::front`, `m_pHead->m_buffer`.  The source dereferences
`m_pHead` without a test; the callers test `size()` first. -/
def front (q : hid_buffer_pool) : hid_buffer := q.m_pHead.headD hid_buffer.empty

/-- The method `hid_buffer_pool::pop_front`. -/
def pop_front (q : hid_buffer_pool) : hid_buffer_pool :=
  match q.m_pHead with
  | [] => q
  | pEntry :: rest =>
    { q with m_pHead := rest, m_pFree := pEntry :: q.m_pFree,
             m_nSize := (q.m_nSize + SIZE_MOD - 1) % SIZE_MOD }

/-- The method `hid_buffer_pool::emplace_back`. -/
def emplace_back (q : hid_buffer_pool) (pData : List Nat) (nSize : Nat) : hid_buffer_pool :=
  match q.m_pFree with
  | pEntry :: rest =>
    { q with m_pFree := rest, m_pHead := q.m_pHead ++ [pEntry.assign pData nSize],
             m_nSize := (q.m_nSize + 1) % SIZE_MOD }
  | [] =>
    { q with m_pHead := q.m_pHead ++ [hid_buffer.empty.assign pData nSize],
             m_nSize := (q.m_nSize + 1) % SIZE_MOD, news := q.news + 1 }

/-- The reports held by the queue, oldest first. -/
def reports (q : hid_buffer_pool) : List (List Nat) := q.m_pHead.map hid_buffer.report

end hid_buffer_pool

/-! ## `CHIDDevice` -/

/-- Modelled from the spec: `struct hid_device_info` is declared in `hidapi.h`, which is not
among the sources; these are the members `hid.cpp` reads (the spec's DeviceInfo: path, vendor
id, product id, manufacturer/product/serial strings). -/
structure hid_device_info where
  path : List Nat
  vendor_id : Nat
  product_id : Nat
  serial_number : List Nat
  manufacturer_string : List Nat
  product_string : List Nat
deriving DecidableEq

/-- The struct `hid_device_`, the session object handed to the callers of `hid_open_path`. -/
structure hid_device_ where
  m_nId : Int
  m_nDeviceRefCount : Int
deriving DecidableEq

/-- A pointer `hid_device *`: `nullptr` or the address of a session object in the heap of
session objects (`Sessions`).  The entry points that only read `device->m_nId` take the
object pointed at instead. -/
abbrev hid_device_ptr := Option Nat

/-- The class `CHIDDevice`.  The member `next` is not a field: the functions on handles in
memory take the map `next` from the address of a handle to the `m_pObject` of its member
`next`; in the registry chain it is given by the position of the handle (`nextRef`).
`deletes` is a ghost counter of the `delete` expressions applied to the object. -/
structure CHIDDevice where
  m_nRefCount : Int
  m_nId : Int
  m_pInfo : hid_device_info
  m_pDevice : hid_device_ptr
  m_bIsBLESteamController : Bool
  m_vecData : hid_buffer_pool
  m_bIsWaitingForOpen : Bool
  m_bOpenResult : Bool
  m_bIsWaitingForReportResponse : Bool
  m_nReportResponseError : Int
  m_reportResponse : hid_buffer
  deletes : Nat
deriving DecidableEq

namespace CHIDDevice

/-- The constructor `CHIDDevice(int nDeviceID, hid_device_info *pInfo)` with the default
member initialisers. -/
def new (nDeviceID : Int) (pInfo : hid_device_info) : CHIDDevice :=
  { m_nRefCount := 0, m_nId := nDeviceID, m_pInfo := pInfo, m_pDevice := none,
    m_bIsBLESteamController :=
      if pInfo.vendor_id = 0x28DE ∧ pInfo.product_id = 0x1106 then true else false,
    m_vecData := hid_buffer_pool.empty,
    m_bIsWaitingForOpen := false, m_bOpenResult := false,
    m_bIsWaitingForReportResponse := false, m_nReportResponseError := 0,
    m_reportResponse := hid_buffer.empty, deletes := 0 }

/-- The method `CHIDDevice::GetId`. -/
def GetId (d : CHIDDevice) : Int := d.m_nId

/-- The method `CHIDDevice::GetDeviceInfo`. -/
def GetDeviceInfo (d : CHIDDevice) : hid_device_info := d.m_pInfo

/-- The method `CHIDDevice::GetDevice`. -/
def GetDevice (d : CHIDDevice) : hid_device_ptr := d.m_pDevice

/-- The method `CHIDDevice::ProcessInput`. -/
def ProcessInput (d : CHIDDevice) (pBuf : List Nat) (nBufSize : Nat) : CHIDDevice :=
  let MAX_REPORT_QUEUE_SIZE : Nat := 16
  let q := if d.m_vecData.size ≥ MAX_REPORT_QUEUE_SIZE then d.m_vecData.pop_front
           else d.m_vecData
  { d with m_vecData := q.emplace_back pBuf nBufSize }

/-- The method `CHIDDevice::GetInput`: the returned `int`, the caller's memory at `data`
after the call, and the handle after the call. -/
def GetInput (d : CHIDDevice) (data : List Nat) (length : Nat) :
    Int × List Nat × CHIDDevice :=
  if d.m_vecData.size = 0 then (0, data, d)
  else
    let buffer := d.m_vecData.front
    let nDataLen := if buffer.size > length then length else buffer.size
    if d.m_bIsBLESteamController then
      (toInt32 ((nDataLen + 1) % SIZE_MOD),
       memcpy (poke data 0 0x03) 1 buffer.data nDataLen,
       { d with m_vecData := d.m_vecData.pop_front })
    else
      (toInt32 nDataLen,
       memcpy data 0 buffer.data nDataLen,
       { d with m_vecData := d.m_vecData.pop_front })

/-- The method `CHIDDevice::IncrementRefCount`: the returned value and the handle. -/
def IncrementRefCount (d : CHIDDevice) : Int × CHIDDevice :=
  (d.m_nRefCount + 1, { d with m_nRefCount := d.m_nRefCount + 1 })

/-- The method `CHIDDevice::DecrementRefCount`: the returned value and the handle. -/
def DecrementRefCount (d : CHIDDevice) : Int × CHIDDevice :=
  (d.m_nRefCount - 1, { d with m_nRefCount := d.m_nRefCount - 1 })

/-- The expression `delete p` as far as the object itself goes: the body of `~CHIDDevice`
(`FreeHIDDeviceInfo(m_pInfo)`) and the deallocation, recorded in the ghost counter.  The
destruction of the member `next`, which follows the body of the destructor, is the recursive
call of `releaseObject.cascade`. -/
def delete (d : CHIDDevice) : CHIDDevice :=
  { d with deletes := d.deletes + 1 }

/-- The method `CHIDDevice::WriteReport`. -/
def WriteReport (_d : CHIDDevice) (_pData : List Nat) (_nDataLen : Nat) (_bFeature : Bool) :
    Int := 0

/-- The method `CHIDDevice::ReadReport`: the returned `int`; the caller's memory and the
handle are not touched. -/
def ReadReport (_d : CHIDDevice) (_pData : List Nat) (_nDataLen : Nat) (_bFeature : Bool) :
    Int := 0

/-- The method `CHIDDevice::ProcessReportResponse`. -/
def ProcessReportResponse (d : CHIDDevice) (pBuf : List Nat) (nBufSize : Nat) : CHIDDevice :=
  if d.m_bIsWaitingForReportResponse then
    { d with m_reportResponse := d.m_reportResponse.assign pBuf nBufSize,
             m_bIsWaitingForReportResponse := false,
             m_nReportResponseError := 0 }
  else d

end CHIDDevice

/-! ## Sequences of queue calls -/

/-- One call on the report queue of a handle. -/
inductive InputCall where
  | ProcessInput (pBuf : List Nat) (nBufSize : Nat)
  | GetInput (data : List Nat) (length : Nat)
deriving DecidableEq

/-- The handle after one queue call. -/
def InputCall.apply (d : CHIDDevice) : InputCall → CHIDDevice
  | .ProcessInput pBuf nBufSize => d.ProcessInput pBuf nBufSize
  | .GetInput data length => (d.GetInput data length).2.2

/-- The handle after a sequence of queue calls. -/
def runInput (d : CHIDDevice) (calls : List InputCall) : CHIDDevice :=
  calls.foldl InputCall.apply d

/-- The handle after `ProcessInput` of each payload in turn, with its full length. -/
def pushAll (d : CHIDDevice) (payloads : List (List Nat)) : CHIDDevice :=
  payloads.foldl (fun acc p => acc.ProcessInput p p.length) d

/-- A reader that calls `GetInput(data, length)` until it returns 0 and collects, for each
call that returned `n ≠ 0`, the `n` first bytes of `data`.  `fuel` bounds the number of
calls. -/
def drain : Nat → CHIDDevice → List Nat → Nat → List (List Nat)
  | 0, _, _, _ => []
  | fuel + 1, d, data, length =>
    let r := d.GetInput data length
    if r.1 = 0 then []
    else r.2.1.take r.1.toNat :: drain fuel r.2.2 r.2.1 length

/-! ## `hid_device_ref` -/

/-- The class `hid_device_ref<CHIDDevice>`: its member `m_pObject`, `nullptr` or the address
of a handle. -/
abbrev hid_device_ref := Option Nat

/-- The handles in memory; the address of a handle is its index. -/
abbrev Heap := List CHIDDevice

/-- The statement `if (m_pObject && m_pObject->DecrementRefCount() == 0) delete m_pObject;`
of `SetObject`, with the destructor that `delete` runs: after its body, `~CHIDDevice`
destroys the member `next` of the handle, and `~hid_device_ref` is `SetObject(nullptr)`,
the same statement on the handle that `next` points at.  `next a` is the `m_pObject` of the
member `next` of the handle at address `a`; `fuel` bounds the number of handles visited.
The store `m_pObject = nullptr` into the member `next` of the handle that is being destroyed
is not recorded: that member goes with the handle. -/
def releaseObject.cascade (next : Nat → hid_device_ref) : Nat → Heap → hid_device_ref → Heap
  | _, heap, none => heap
  | 0, heap, some _ => heap
  | fuel + 1, heap, some a =>
    match heap[a]? with
    | none => heap
    | some d =>
      if d.DecrementRefCount.1 = 0 then
        releaseObject.cascade next fuel (heap.set a d.DecrementRefCount.2.delete) (next a)
      else heap.set a d.DecrementRefCount.2

/-- The statement `if (m_pObject && m_pObject->DecrementRefCount() == 0) delete m_pObject;`
of `SetObject`.  Every handle deleted on the way had the count 1 and is left with the count
0, so at most `heap.length` handles are deleted and one more is visited. -/
def releaseObject (next : Nat → hid_device_ref) (heap : Heap) (m_pObject : hid_device_ref) :
    Heap :=
  releaseObject.cascade next (heap.length + 1) heap m_pObject

/-- The statement `if (m_pObject) m_pObject->IncrementRefCount();` of `SetObject`, executed
after `m_pObject = pObject`. -/
def acquireObject (heap : Heap) (pObject : hid_device_ref) : Heap :=
  match pObject with
  | none => heap
  | some b =>
    match heap[b]? with
    | none => heap
    | some d => heap.set b d.IncrementRefCount.2

/-- The method `hid_device_ref::SetObject`: the heap and the reference after the call. -/
def SetObject (next : Nat → hid_device_ref) (heap : Heap) (m_pObject : hid_device_ref)
    (pObject : hid_device_ref) : Heap × hid_device_ref :=
  (acquireObject (releaseObject next heap m_pObject) pObject, pObject)

/-- The handles of a program state, the `m_pObject` of the member `next` of each handle (by
address), and the `hid_device_ref` objects outside the handles. -/
structure RefSystem where
  heap : Heap
  next : List hid_device_ref
  refs : List hid_device_ref
deriving DecidableEq

/-- One operation on a `hid_device_ref` object; references are named by their index.
`assignNext r` is the statement `r = r->next`. -/
inductive RefOp where
  | construct (pObject : Option Nat)
  | copy (rhs : Nat)
  | assignPtr (r : Nat) (pObject : Option Nat)
  | assignRef (r : Nat) (rhs : Nat)
  | assignNext (r : Nat)
  | destroy (r : Nat)
deriving DecidableEq

/-- The member `m_pObject` of reference `i` (`nullptr` for an index that names none). -/
def RefSystem.obj (s : RefSystem) (i : Nat) : hid_device_ref := (s.refs[i]?).join

/-- The member `m_pObject` of the member `next` of the handle at address `a`. -/
def RefSystem.nextOf (s : RefSystem) (a : Nat) : hid_device_ref := (s.next[a]?).join

/-- The state after one operation: the constructors `hid_device_ref(T *)` and
`hid_device_ref(const hid_device_ref &)`, the two `operator=` and the destructor, each a
call of `SetObject`. -/
def RefSystem.step (s : RefSystem) : RefOp → RefSystem
  | .construct pObject =>
    let r := SetObject s.nextOf s.heap none pObject
    { s with heap := r.1, refs := s.refs ++ [r.2] }
  | .copy rhs =>
    let r := SetObject s.nextOf s.heap none (s.obj rhs)
    { s with heap := r.1, refs := s.refs ++ [r.2] }
  | .assignPtr i pObject =>
    let r := SetObject s.nextOf s.heap (s.obj i) pObject
    { s with heap := r.1, refs := s.refs.set i r.2 }
  | .assignRef i rhs =>
    let r := SetObject s.nextOf s.heap (s.obj i) (s.obj rhs)
    { s with heap := r.1, refs := s.refs.set i r.2 }
  | .assignNext i =>
    let r := SetObject s.nextOf s.heap (s.obj i) ((s.obj i).bind s.nextOf)
    { s with heap := r.1, refs := s.refs.set i r.2 }
  | .destroy i =>
    let r := SetObject s.nextOf s.heap (s.obj i) none
    { s with heap := r.1, refs := s.refs.eraseIdx i }

/-- The state after a sequence of operations. -/
def RefSystem.run (s : RefSystem) (ops : List RefOp) : RefSystem :=
  ops.foldl RefSystem.step s

/-- The statement of `SetObject` that acquires `pObject`, seen from the handle at
address `a`. -/
def acquired (pObject : hid_device_ref) (a : Nat) (d : CHIDDevice) : CHIDDevice :=
  if pObject = some a then d.IncrementRefCount.2 else d

/-! ## The registry `g_Devices` and the public entry points -/

/-- The member `pDevice->next` of the handle at address `a` of the registry chain. -/
def nextRef (g : Heap) (a : Nat) : hid_device_ref :=
  if a + 1 < g.length then some (a + 1) else none

/-- The value of the global reference `g_Devices`: the first handle of the chain. -/
def g_DevicesRef (g : Heap) : hid_device_ref :=
  if 0 < g.length then some 0 else none

/-- The loop of `FindDevice` after `pDevice = g_Devices`: test `pDevice`, compare the id,
advance with `pDevice = pDevice->next`.  `fuel` bounds the number of iterations. -/
def FindDevice.loop (nDeviceId : Int) : Nat → Heap → hid_device_ref → Heap × hid_device_ref
  | 0, g, pDevice => (g, pDevice)
  | fuel + 1, g, pDevice =>
    match pDevice with
    | none => (g, none)
    | some a =>
      match g[a]? with
      | none => (g, pDevice)
      | some d =>
        if d.GetId = nDeviceId then (g, pDevice)
        else
          let r := SetObject (nextRef g) g pDevice (nextRef g a)
          FindDevice.loop nDeviceId fuel r.1 r.2

/-- The function `FindDevice`: the registry after the call and the returned reference.  The
chain has `g.length` handles, so `g.length + 1` iterations reach its end. -/
def FindDevice (g : Heap) (nDeviceId : Int) : Heap × hid_device_ref :=
  let r := SetObject (nextRef g) g none (g_DevicesRef g)
  FindDevice.loop nDeviceId (g.length + 1) r.1 r.2

/-- The destructor of the local `pDevice` at the end of an entry point. -/
def releaseLocal (g : Heap) (pDevice : hid_device_ref) : Heap :=
  (SetObject (nextRef g) g pDevice none).1

/-- The function `hid_write`: the returned `int` and the registry. -/
def hid_write (g : Heap) (device : Option hid_device_) (data : List Nat) (length : Nat) :
    Int × Heap :=
  match device with
  | none => (-1, g)
  | some dev =>
    let r := FindDevice g dev.m_nId
    match r.2.bind (fun a => r.1[a]?) with
    | some d => (d.WriteReport data length false, releaseLocal r.1 r.2)
    | none => (-1, releaseLocal r.1 r.2)

/-- The function `hid_send_feature_report`: the returned `int` and the registry. -/
def hid_send_feature_report (g : Heap) (device : Option hid_device_) (data : List Nat)
    (length : Nat) : Int × Heap :=
  match device with
  | none => (-1, g)
  | some dev =>
    let r := FindDevice g dev.m_nId
    match r.2.bind (fun a => r.1[a]?) with
    | some d => (d.WriteReport data length true, releaseLocal r.1 r.2)
    | none => (-1, releaseLocal r.1 r.2)

/-- The difference `getms() - start` of two `uint32_t` values. -/
def elapsed (now start : Nat) : Nat :=
  (now % 4294967296 + 4294967296 - start % 4294967296) % 4294967296

/-- The conversion of the `int` `milliseconds` to `unsigned` in the comparison
`(getms() - start) < milliseconds`. -/
def toUInt32 (x : Int) : Nat := (x % 4294967296).toNat

/-- The `do … while` loop of `hid_read_timeout`.  `clock` lists the values the successive
calls of `getms()` in the loop condition return; `none` when the list ends before the loop
does.  No other thread runs in between. -/
def hid_read_timeout.poll (start : Nat) (milliseconds : Int) (length : Nat) :
    List Nat → CHIDDevice → List Nat → Option (Int × List Nat × CHIDDevice)
  | [], d, data =>
    let r := d.GetInput data length
    if r.1 = 0 then none else some r
  | now :: later, d, data =>
    let r := d.GetInput data length
    if r.1 = 0 ∧ elapsed now start < toUInt32 milliseconds then
      hid_read_timeout.poll start milliseconds length later r.2.2 r.2.1
    else some r

/-- The part of `hid_read_timeout` executed on the handle found: the first `GetInput` and,
when it returned 0 and `milliseconds > 0`, the polling loop started at `start = getms()`, the
first value of `clock`. -/
def hid_read_timeout.onDevice (d : CHIDDevice) (data : List Nat) (length : Nat)
    (milliseconds : Int) (clock : List Nat) : Option (Int × List Nat × CHIDDevice) :=
  let r := d.GetInput data length
  if r.1 = 0 ∧ milliseconds > 0 then
    match clock with
    | [] => none
    | start :: later => hid_read_timeout.poll start milliseconds length later r.2.2 r.2.1
  else some r

/-- The function `hid_read_timeout`: the returned `int`, the caller's memory at `data` and
the registry after the call; `clock` lists the values returned by the calls of `getms()`. -/
def hid_read_timeout (g : Heap) (device : Option hid_device_) (data : List Nat)
    (length : Nat) (milliseconds : Int) (clock : List Nat) :
    Option (Int × List Nat × Heap) :=
  match device with
  | none => some (-1, data, g)
  | some dev =>
    let r := FindDevice g dev.m_nId
    match r.2 with
    | none => some (-1, data, releaseLocal r.1 none)
    | some a =>
      match r.1[a]? with
      | none => some (-1, data, releaseLocal r.1 (some a))
      | some d =>
        (hid_read_timeout.onDevice d data length milliseconds clock).map
          (fun res => (res.1, res.2.1, releaseLocal (r.1.set a res.2.2) (some a)))

/-- The function `hid_read`. -/
def hid_read (g : Heap) (device : Option hid_device_) (data : List Nat) (length : Nat) :
    Option (Int × List Nat × Heap) :=
  hid_read_timeout g device data length 0 []

/-- The function `hid_get_feature_report`: the returned `int`, the caller's memory at `data`
and the registry. -/
def hid_get_feature_report (g : Heap) (device : Option hid_device_) (data : List Nat)
    (length : Nat) : Int × List Nat × Heap :=
  match device with
  | none => (-1, data, g)
  | some dev =>
    let r := FindDevice g dev.m_nId
    match r.2.bind (fun a => r.1[a]?) with
    | some d => (d.ReadReport data length true, data, releaseLocal r.1 r.2)
    | none => (-1, data, releaseLocal r.1 r.2)

/-- The function `hid_get_input_report`: the returned `int`, the caller's memory at `data`
and the registry. -/
def hid_get_input_report (g : Heap) (device : Option hid_device_) (data : List Nat)
    (length : Nat) : Int × List Nat × Heap :=
  match device with
  | none => (-1, data, g)
  | some dev =>
    let r := FindDevice g dev.m_nId
    match r.2.bind (fun a => r.1[a]?) with
    | some d => (d.ReadReport data length false, data, releaseLocal r.1 r.2)
    | none => (-1, data, releaseLocal r.1 r.2)

/-- The call `wcsncpy(dest, src, n)`, `src` given without its terminating null: at most `n`
characters of `src`, then nulls up to `n` characters. -/
def wcsncpy (dest : List Nat) (src : List Nat) (n : Nat) : List Nat :=
  (src.take n ++ List.replicate (n - src.length) 0) ++ dest.drop n

/-- The function `hid_get_manufacturer_string`: the returned `int`, the caller's memory at
`string` and the registry. -/
def hid_get_manufacturer_string (g : Heap) (device : Option hid_device_) (string : List Nat)
    (maxlen : Nat) : Int × List Nat × Heap :=
  match device with
  | none => (-1, string, g)
  | some dev =>
    let r := FindDevice g dev.m_nId
    match r.2.bind (fun a => r.1[a]?) with
    | some d =>
      (0, wcsncpy string d.GetDeviceInfo.manufacturer_string maxlen, releaseLocal r.1 r.2)
    | none => (-1, string, releaseLocal r.1 r.2)

/-- The function `hid_get_product_string`: the returned `int`, the caller's memory at
`string` and the registry. -/
def hid_get_product_string (g : Heap) (device : Option hid_device_) (string : List Nat)
    (maxlen : Nat) : Int × List Nat × Heap :=
  match device with
  | none => (-1, string, g)
  | some dev =>
    let r := FindDevice g dev.m_nId
    match r.2.bind (fun a => r.1[a]?) with
    | some d =>
      (0, wcsncpy string d.GetDeviceInfo.product_string maxlen, releaseLocal r.1 r.2)
    | none => (-1, string, releaseLocal r.1 r.2)

/-- The function `hid_get_serial_number_string`: the returned `int`, the caller's memory at
`string` and the registry. -/
def hid_get_serial_number_string (g : Heap) (device : Option hid_device_)
    (string : List Nat) (maxlen : Nat) : Int × List Nat × Heap :=
  match device with
  | none => (-1, string, g)
  | some dev =>
    let r := FindDevice g dev.m_nId
    match r.2.bind (fun a => r.1[a]?) with
    | some d =>
      (0, wcsncpy string d.GetDeviceInfo.serial_number maxlen, releaseLocal r.1 r.2)
    | none => (-1, string, releaseLocal r.1 r.2)

/-- The function `hid_get_device_info`: the returned pointer (`none` for `NULL`) and the
registry. -/
def hid_get_device_info (g : Heap) (device : Option hid_device_) :
    Option hid_device_info × Heap :=
  match device with
  | none => (none, g)
  | some dev =>
    let r := FindDevice g dev.m_nId
    match r.2.bind (fun a => r.1[a]?) with
    | some d => (some d.GetDeviceInfo, releaseLocal r.1 r.2)
    | none => (none, releaseLocal r.1 r.2)

/-- Every handle of the registry chain is referenced, by `g_Devices` or by the member
`next` of its predecessor: its count is at least 1. -/
def Registered (g : Heap) : Prop :=
  ∀ d ∈ g, 1 ≤ d.m_nRefCount

/-! ## Opening and closing sessions -/

namespace CHIDDevice

/-- The method `CHIDDevice::SetOpenPending`. -/
def SetOpenPending (d : CHIDDevice) : CHIDDevice :=
  { d with m_bIsWaitingForOpen := true }

/-- The method `CHIDDevice::SetOpenResult`. -/
def SetOpenResult (d : CHIDDevice) (bResult : Bool) : CHIDDevice :=
  if d.m_bIsWaitingForOpen then
    { d with m_bOpenResult := bResult, m_bIsWaitingForOpen := false }
  else d

/-- The method `CHIDDevice::Close`, whose body is empty. -/
def Close (d : CHIDDevice) (_bDeleteDevice : Bool) : CHIDDevice := d

end CHIDDevice

/-- The heap of `hid_device` session objects: the object at each address, `none` once it has
been deleted. -/
abbrev Sessions := List (Option hid_device_)

/-- What the external service does during one `BOpen`: the boolean the bridge call returns,
whether `SetOpenPending` ran on the handle during that call, and the `SetOpenResult(b)` that
arrives during the wait (`none` when the wait of 60 s times out). -/
structure OpenReply where
  result : Bool
  pending : Bool
  completion : Option Bool
deriving DecidableEq

/-- The method `CHIDDevice::BOpen`: the returned `bool`, the handle and the heap of session
objects.  The bridge call and the wait on `m_cv` are taken from `reply`; `new hid_device`
takes the next address of the heap. -/
def CHIDDevice.BOpen (d : CHIDDevice) (reply : OpenReply) (sessions : Sessions) :
    Bool × CHIDDevice × Sessions :=
  let d1 : CHIDDevice := { d with m_bIsWaitingForOpen := false }
  let d2 : CHIDDevice := if reply.pending then d1.SetOpenPending else d1
  let d3 : CHIDDevice := { d2 with m_bOpenResult := reply.result }
  let d4 : CHIDDevice :=
    if d3.m_bIsWaitingForOpen then
      match reply.completion with
      | some bResult => d3.SetOpenResult bResult
      | none => d3
    else d3
  if !d4.m_bOpenResult then (false, d4, sessions)
  else
    (true, { d4 with m_pDevice := some sessions.length },
      sessions ++ [some { m_nId := d4.m_nId, m_nDeviceRefCount := 1 }])

/-- The state the session entry points work on: the registry chain, the heap of session
objects, and two ghost logs, of the ids passed to the bridge open call
(`g_midHIDDeviceManagerOpen`) and to the bridge close call (`g_midHIDDeviceManagerClose`). -/
structure HidState where
  g_Devices : Heap
  sessions : Sessions
  opens : List Int
  closes : List Int
deriving DecidableEq

/-- The loop of `hid_open_path` after `pCurr = g_Devices`: test `pCurr`, compare the path
(`SDL_strcmp(...) == 0`), advance with `pCurr = pCurr->next`.  It stops at the first handle
with the path, or with `pCurr` null at the end of the chain. -/
def hid_open_path.loop (path : List Nat) : Nat → Heap → hid_device_ref → Heap × hid_device_ref
  | 0, g, pCurr => (g, pCurr)
  | fuel + 1, g, pCurr =>
    match pCurr with
    | none => (g, none)
    | some a =>
      match g[a]? with
      | none => (g, pCurr)
      | some d =>
        if d.GetDeviceInfo.path = path then (g, pCurr)
        else
          let r := SetObject (nextRef g) g pCurr (nextRef g a)
          hid_open_path.loop path fuel r.1 r.2

/-- The function `hid_open_path`: the returned pointer and the state.  `reply` is what the
external service does if `BOpen` is reached. -/
def hid_open_path (s : HidState) (path : List Nat) (reply : OpenReply) :
    hid_device_ptr × HidState :=
  let r0 := SetObject (nextRef s.g_Devices) s.g_Devices none (g_DevicesRef s.g_Devices)
  let r := hid_open_path.loop path (s.g_Devices.length + 1) r0.1 r0.2
  match r.2.bind (fun a => (r.1[a]?).map (fun d => (a, d))) with
  | none => (none, { s with g_Devices := releaseLocal r.1 r.2 })
  | some (a, d) =>
    match d.GetDevice with
    | some pValue =>
      let sessions1 : Sessions :=
        match s.sessions[pValue]? with
        | some (some v) =>
          s.sessions.set pValue
            (some { v with m_nDeviceRefCount := v.m_nDeviceRefCount + 1 })
        | _ => s.sessions
      (some pValue, { s with g_Devices := releaseLocal r.1 (some a), sessions := sessions1 })
    | none =>
      let g1 := (SetObject (nextRef r.1) r.1 none (some a)).1
      let g2 := releaseLocal g1 (some a)
      match g2[a]? with
      | none => (none, { s with g_Devices := releaseLocal g2 (some a) })
      | some e =>
        let o := e.BOpen reply s.sessions
        let g3 := g2.set a o.2.1
        (if o.1 then o.2.1.GetDevice else none,
         { s with g_Devices := releaseLocal g3 (some a), sessions := o.2.2,
                  opens := s.opens ++ [e.m_nId] })

/-- The function `hid_close`. -/
def hid_close (s : HidState) (device : hid_device_ptr) : HidState :=
  match device with
  | none => s
  | some p =>
    match s.sessions[p]? with
    | some (some v) =>
      let v1 : hid_device_ := { v with m_nDeviceRefCount := v.m_nDeviceRefCount - 1 }
      let sessions1 := s.sessions.set p (some v1)
      if v1.m_nDeviceRefCount = 0 then
        let r := FindDevice s.g_Devices v1.m_nId
        match r.2.bind (fun a => (r.1[a]?).map (fun d => (a, d))) with
        | some (a, d) =>
          { s with g_Devices := releaseLocal (r.1.set a (d.Close true)) r.2,
                   sessions := sessions1 }
        | none =>
          { s with g_Devices := releaseLocal r.1 r.2, sessions := sessions1.set p none }
      else { s with sessions := sessions1 }
    | _ => s

/-- The function `hid_error`: the returned pointer, always `NULL`. -/
def hid_error (_device : hid_device_ptr) : Option (List Nat) := none

/-! ## Device infos in memory and `hid_enumerate` -/

/-- The heap of the blocks obtained from `malloc` and `SDL_strdup`: the characters of the
block at each address, `none` once the block has been freed. -/
abbrev Store := List (Option (List Nat))

/-- Modelled from the spec: `struct hid_device_info` (declared in `hidapi.h`, which is not
among the sources) as it lies in memory: the members `path`, `serial_number`,
`manufacturer_string` and `product_string` are the addresses of the blocks that hold the
null-terminated strings.  The member `next` is the position in the list of structs. -/
structure hid_device_info_mem where
  path : Nat
  vendor_id : Nat
  product_id : Nat
  serial_number : Nat
  manufacturer_string : Nat
  product_string : Nat
deriving DecidableEq

namespace Store

/-- The characters of the block at address `a` (none for a freed or unknown address). -/
def block (mem : Store) (a : Nat) : List Nat := ((mem[a]?).join).getD []

/-- The string at address `a`: the characters before the first null. -/
def str (mem : Store) (a : Nat) : List Nat := (mem.block a).takeWhile (fun c => c ≠ 0)

/-- The call `malloc(n)`: a block of `n` characters at the next address; its content is
modelled as nulls. -/
def malloc (mem : Store) (n : Nat) : Store × Nat :=
  (mem ++ [some (List.replicate n 0)], mem.length)

/-- The call `free(p)`. -/
def free (mem : Store) (a : Nat) : Store := mem.set a none

/-- The device info a struct in memory denotes: its numbers and the strings its pointers
lead to. -/
def load (mem : Store) (p : hid_device_info_mem) : hid_device_info :=
  { path := mem.str p.path, vendor_id := p.vendor_id, product_id := p.product_id,
    serial_number := mem.str p.serial_number,
    manufacturer_string := mem.str p.manufacturer_string,
    product_string := mem.str p.product_string }

end Store

/-- The call `SDL_strdup(s)` of the SDL library: a new block holding the string at `s` and
its terminating null. -/
def SDL_strdup (mem : Store) (s : Nat) : Store × Nat :=
  let len := (mem.str s).length
  let r := mem.malloc (len + 1)
  (r.1.set r.2 (some (memcpy (r.1.block r.2) 0 (mem.block s) (len + 1))), r.2)

/-- The function `CreateWStringFromWString`: the store and the address of the new string. -/
def CreateWStringFromWString (mem : Store) (pwSrc : Nat) : Store × Nat :=
  let nLength := (mem.str pwSrc).length
  let r := mem.malloc (nLength + 1)
  let pwString := memcpy (r.1.block r.2) 0 (mem.block pwSrc) nLength
  (r.1.set r.2 (some (poke pwString nLength 0)), r.2)

/-- The function `CopyHIDDeviceInfo`: the store and the struct `*pCopy`. -/
def CopyHIDDeviceInfo (mem : Store) (pInfo : hid_device_info_mem) :
    Store × hid_device_info_mem :=
  let pCopy := pInfo
  let r1 := SDL_strdup mem pInfo.path
  let pCopy1 := { pCopy with path := r1.2 }
  let r2 := CreateWStringFromWString r1.1 pInfo.product_string
  let pCopy2 := { pCopy1 with product_string := r2.2 }
  let r3 := CreateWStringFromWString r2.1 pInfo.manufacturer_string
  let pCopy3 := { pCopy2 with manufacturer_string := r3.2 }
  let r4 := CreateWStringFromWString r3.1 pInfo.serial_number
  (r4.1, { pCopy3 with serial_number := r4.2 })

/-- The function `FreeHIDDeviceInfo`: the store after the four `free` calls. -/
def FreeHIDDeviceInfo (mem : Store) (pInfo : hid_device_info_mem) : Store :=
  (((mem.free pInfo.path).free pInfo.serial_number).free pInfo.manufacturer_string).free
    pInfo.product_string

/-- The loop of `hid_enumerate` after `pDevice = g_Devices`.  `infoAt a` is the struct
`*m_pInfo` of the handle at address `a` as it lies in memory; `ShouldIgnore v p` is
`SDL_HIDAPI_ShouldIgnoreDevice(HID_API_BUS_UNKNOWN, v, p, 0, 0)`, a function of SDL that is
not among the sources; `root` is the list built so far, newest struct first. -/
def hid_enumerate.loop (ShouldIgnore : Nat → Nat → Bool) (infoAt : Nat → hid_device_info_mem)
    (vendor_id product_id : Nat) :
    Nat → Heap → hid_device_ref → Store → List hid_device_info_mem →
      Heap × Store × List hid_device_info_mem
  | 0, g, _, mem, root => (g, mem, root)
  | fuel + 1, g, pDevice, mem, root =>
    match pDevice with
    | none => (g, mem, root)
    | some a =>
      match g[a]? with
      | none => (g, mem, root)
      | some _ =>
        let info := infoAt a
        let r := SetObject (nextRef g) g pDevice (nextRef g a)
        if ShouldIgnore info.vendor_id info.product_id then
          hid_enumerate.loop ShouldIgnore infoAt vendor_id product_id fuel r.1 r.2 mem root
        else if (vendor_id = 0x0 ∨ info.vendor_id = vendor_id) ∧
            (product_id = 0x0 ∨ info.product_id = product_id) then
          let dev := CopyHIDDeviceInfo mem info
          hid_enumerate.loop ShouldIgnore infoAt vendor_id product_id fuel r.1 r.2 dev.1
            (dev.2 :: root)
        else
          hid_enumerate.loop ShouldIgnore infoAt vendor_id product_id fuel r.1 r.2 mem root

/-- The function `hid_enumerate`: the registry, the store and the returned list of
structs. -/
def hid_enumerate (ShouldIgnore : Nat → Nat → Bool) (infoAt : Nat → hid_device_info_mem)
    (g : Heap) (mem : Store) (vendor_id product_id : Nat) :
    Heap × Store × List hid_device_info_mem :=
  let r := SetObject (nextRef g) g none (g_DevicesRef g)
  hid_enumerate.loop ShouldIgnore infoAt vendor_id product_id (g.length + 1) r.1 r.2 mem []

/-- The function `hid_free_enumeration`: the store after every struct of the list has been
freed. -/
def hid_free_enumeration (mem : Store) : List hid_device_info_mem → Store
  | [] => mem
  | devs :: next => hid_free_enumeration (FreeHIDDeviceInfo mem devs) next

/-! ## `hid_init` -/

/-- The state `hid_init` works on: the flag `g_initialized` and a ghost log of the calls of
the bridge initialise function with their arguments `init_usb`, `init_bluetooth`. -/
structure InitState where
  g_initialized : Bool
  handshakes : List (Bool × Bool)
deriving DecidableEq

/-- The constant `OHOSSDKVersion`. -/
def OHOSSDKVersion : Nat := 9

/-- The function `hid_init`: the returned `int` and the state.  `registered` says whether
`g_midHIDDeviceManagerInitialize` is non-null at the call, `steamHint` is the value of
`SDL_GetHintBoolean(SDL_HINT_JOYSTICK_HIDAPI_STEAM, SDL_FALSE)`. -/
def hid_init (s : InitState) (registered : Bool) (steamHint : Bool) : Int × InitState :=
  if !s.g_initialized && registered then
    let s1 : InitState :=
      if OHOSSDKVersion ≥ 8 then
        let init_usb := true
        let init_bluetooth := if steamHint then true else false
        { s with handshakes := s.handshakes ++ [(init_usb, init_bluetooth)] }
      else s
    (0, { s1 with g_initialized := true })
  else (0, s)

/-- The state after a sequence of `hid_init` calls, each given with `registered` and
`steamHint` at the time of the call. -/
def hid_init.after (s : InitState) (calls : List (Bool × Bool)) : InitState :=
  calls.foldl (fun t c => (hid_init t c.1 c.2).2) s

/-! ## Threads on the reference count of one handle -/

/-- The steps of the methods that touch `m_nRefCount`, each executed as a whole:
`pthread_mutex_lock(&m_refCountLock)`, `nValue = ++m_nRefCount`, `nValue = --m_nRefCount`,
`pthread_mutex_unlock(&m_refCountLock)`, and the statement of `SetObject` that tests the
returned value, `if (... == 0) delete m_pObject;`.  This section follows one handle: of the
`delete` it records the deletion of that handle, not what the destructor does to the handle
that the member `next` holds. -/
inductive RefInstr where
  | lock
  | increment
  | decrement
  | unlock
  | deleteIfZero
deriving DecidableEq

/-- The method `CHIDDevice::IncrementRefCount` as a sequence of steps. -/
def CHIDDevice.IncrementRefCount.steps : List RefInstr :=
  [.lock, .increment, .unlock]

/-- The method `CHIDDevice::DecrementRefCount` as a sequence of steps. -/
def CHIDDevice.DecrementRefCount.steps : List RefInstr :=
  [.lock, .decrement, .unlock]

/-- The statement `if (m_pObject && m_pObject->DecrementRefCount() == 0) delete m_pObject;`
of `SetObject` on a non-null `m_pObject`, as a sequence of steps: the call returns before the
value is tested. -/
def releaseObject.steps : List RefInstr :=
  CHIDDevice.DecrementRefCount.steps ++ [.deleteIfZero]

/-- A thread working on the handle: the steps it has still to execute and its local
`nValue`. -/
structure RefThread where
  code : List RefInstr
  nValue : Int
deriving DecidableEq

/-- One handle, the thread that holds its `m_refCountLock` (`none` when the mutex is free),
the threads, and the ghost log of the steps executed so far, oldest first. -/
structure RefRace where
  handle : CHIDDevice
  m_refCountLock : Option Nat
  threads : List RefThread
  log : List (Nat × RefInstr)
deriving DecidableEq

/-- Thread `t` executes its next step.  A thread that has finished, and a thread whose next
step is `lock` while the mutex is held, leave the state as it is. -/
def RefRace.step (s : RefRace) (t : Nat) : RefRace :=
  match s.threads[t]? with
  | none => s
  | some th =>
    match th.code with
    | [] => s
    | i :: rest =>
      match i with
      | .lock =>
        if s.m_refCountLock = none then
          { s with m_refCountLock := some t,
                   threads := s.threads.set t { th with code := rest },
                   log := s.log ++ [(t, i)] }
        else s
      | .increment =>
        { s with handle := s.handle.IncrementRefCount.2,
                 threads := s.threads.set t
                   { code := rest, nValue := s.handle.IncrementRefCount.1 },
                 log := s.log ++ [(t, i)] }
      | .decrement =>
        { s with handle := s.handle.DecrementRefCount.2,
                 threads := s.threads.set t
                   { code := rest, nValue := s.handle.DecrementRefCount.1 },
                 log := s.log ++ [(t, i)] }
      | .unlock =>
        { s with m_refCountLock := none,
                 threads := s.threads.set t { th with code := rest },
                 log := s.log ++ [(t, i)] }
      | .deleteIfZero =>
        { s with handle := if th.nValue = 0 then s.handle.delete else s.handle,
                 threads := s.threads.set t { th with code := rest },
                 log := s.log ++ [(t, i)] }

/-- The state after the threads have run in the order of `schedule`, one step per entry. -/
def RefRace.run (s : RefRace) (schedule : List Nat) : RefRace :=
  schedule.foldl RefRace.step s

/-- One call of a thread on the count of the handle: `IncrementRefCount()`, when the thread
copies a reference (`SetObject` on a fresh or null reference), or the release statement of
`SetObject`, when it resets or destroys a reference that holds the handle. -/
inductive RefCall where
  | acquire
  | release
deriving DecidableEq

/-- The steps of a call. -/
def RefCall.steps : RefCall → List RefInstr
  | .acquire => CHIDDevice.IncrementRefCount.steps
  | .release => releaseObject.steps

/-- The way every thread of `hid.cpp` uses references.  The thread holds `held` references to
the handle and `extra` references to it are never released (the chain of `g_Devices`); it
copies a reference only while one exists that is not being released, its own or one of the
`extra`; it releases only references it holds; and it has released them all at the end. -/
def RefCall.owning (extra : Nat) : Nat → List RefCall → Bool
  | held, [] => decide (held = 0)
  | held, .acquire :: rest => decide (1 ≤ held + extra) && RefCall.owning extra (held + 1) rest
  | held, .release :: rest => decide (1 ≤ held) && RefCall.owning extra (held - 1) rest

/-- The threads before they start: thread `t` is about to run the calls `progs[t]`, the mutex
is free. -/
def RefRace.start (d : CHIDDevice) (progs : List (List RefCall)) : RefRace :=
  { handle := d, m_refCountLock := none,
    threads := progs.map (fun prog => { code := prog.flatMap RefCall.steps, nValue := 0 }),
    log := [] }

/-! ## Lock events -/

/-- The mutexes of `hid.cpp`: the two global ones and, for the handle at address `a`, its
three members. -/
inductive Mutex where
  | g_DevicesMutex
  | g_DevicesRefCountMutex
  | m_refCountLock (a : Nat)
  | m_dataLock (a : Nat)
  | m_cvLock (a : Nat)
deriving DecidableEq

/-- The mutex is a member of a handle. -/
def Mutex.perHandle : Mutex → Bool
  | .m_refCountLock _ => true
  | .m_dataLock _ => true
  | .m_cvLock _ => true
  | _ => false

/-- The calls `pthread_mutex_lock` and `pthread_mutex_unlock`. -/
inductive LockEv where
  | lock (m : Mutex)
  | unlock (m : Mutex)
deriving DecidableEq

/-- The class `hid_mutex_guard` around the statements of its scope: the constructor locks,
the destructor unlocks. -/
def hid_mutex_guard (m : Mutex) (scope : List LockEv) : List LockEv :=
  [.lock m] ++ scope ++ [.unlock m]

/-- The lock events of `IncrementRefCount` on the handle at address `a`. -/
def CHIDDevice.IncrementRefCount.locks (a : Nat) : List LockEv :=
  [.lock (.m_refCountLock a), .unlock (.m_refCountLock a)]

/-- The lock events of `DecrementRefCount` on the handle at address `a`. -/
def CHIDDevice.DecrementRefCount.locks (a : Nat) : List LockEv :=
  [.lock (.m_refCountLock a), .unlock (.m_refCountLock a)]

/-- One call of `SetObject` as far as locks go: the old `m_pObject`, the new `pObject`, and
`cascade`, the handles released in turn when the old object is deleted (the destructor
destroys the member `next`, which releases the next handle of the chain, and so on; empty
when nothing is deleted). -/
structure SetCall where
  m_pObject : Option Nat
  cascade : List Nat
  pObject : Option Nat
deriving DecidableEq

/-- The lock events of `SetObject`. -/
def SetObject.locks (c : SetCall) : List LockEv :=
  (match c.m_pObject with
   | none => []
   | some a =>
     CHIDDevice.DecrementRefCount.locks a ++
       c.cascade.flatMap CHIDDevice.DecrementRefCount.locks) ++
  (match c.pObject with
   | none => []
   | some b => CHIDDevice.IncrementRefCount.locks b)

/-- The lock events of `BOpen` on the handle at address `a`: none unless
`m_bIsWaitingForOpen` is set after the bridge call; then the guard on `m_cvLock`, inside
which each of the `waits` calls of `pthread_cond_timedwait` unlocks and relocks the mutex. -/
def CHIDDevice.BOpen.locks (a : Nat) (waiting : Bool) (waits : Nat) : List LockEv :=
  if waiting then
    hid_mutex_guard (.m_cvLock a)
      ((List.range waits).flatMap
        (fun _ => [LockEv.unlock (.m_cvLock a), LockEv.lock (.m_cvLock a)]))
  else []

/-- The lock events of `ProcessInput` on the handle at address `a`. -/
def CHIDDevice.ProcessInput.locks (a : Nat) : List LockEv :=
  hid_mutex_guard (.m_dataLock a) []

/-- The lock events of `GetInput` on the handle at address `a`. -/
def CHIDDevice.GetInput.locks (a : Nat) : List LockEv :=
  hid_mutex_guard (.m_dataLock a) []

/-- The lock events of `ProcessReportResponse` on the handle at address `a`. -/
def CHIDDevice.ProcessReportResponse.locks (a : Nat) : List LockEv :=
  hid_mutex_guard (.m_cvLock a) []

/-- The lock events of `FindDevice`: the guard on `g_DevicesMutex` around the loop, whose
`SetObject` calls (`pDevice = g_Devices`, `pDevice = pDevice->next`) are `loop`.  The local
`pDevice` is returned without a copy. -/
def FindDevice.locks (loop : List SetCall) : List LockEv :=
  hid_mutex_guard .g_DevicesMutex (loop.flatMap SetObject.locks)

/-- The lock events of an entry point that calls `FindDevice`, works on the handle found
without a lock, and destroys its local references (`exit`) on return. -/
def lookup.locks (loop exit : List SetCall) : List LockEv :=
  FindDevice.locks loop ++ exit.flatMap SetObject.locks

/-- The lock events of `hid_enumerate`: the guard on `g_DevicesMutex` around the loop. -/
def hid_enumerate.locks (loop : List SetCall) : List LockEv :=
  hid_mutex_guard .g_DevicesMutex (loop.flatMap SetObject.locks)

/-- The lock events of `hid_open_path`: the guards on `g_DevicesRefCountMutex` and
`g_DevicesMutex` around the loop (`loop` lists its `SetObject` calls: the copies into
`pCurr` and `pDevice` and the destructor of `pCurr`), then `BOpen` on the handle found, if
any, then the destructor of `pDevice` (`exit`). -/
def hid_open_path.locks (loop : List SetCall) (bopen : Option (Nat × Bool × Nat))
    (exit : List SetCall) : List LockEv :=
  hid_mutex_guard .g_DevicesRefCountMutex
    (hid_mutex_guard .g_DevicesMutex (loop.flatMap SetObject.locks)) ++
  (match bopen with
   | none => []
   | some (a, waiting, waits) => CHIDDevice.BOpen.locks a waiting waits) ++
  exit.flatMap SetObject.locks

/-- The lock events of `hid_read_timeout`: `FindDevice`, then on the handle found the first
`GetInput` and the `polls` further ones of the loop, then the destructor of `pDevice`. -/
def hid_read_timeout.locks (loop : List SetCall) (found : Option Nat) (polls : Nat)
    (exit : List SetCall) : List LockEv :=
  FindDevice.locks loop ++
  (match found with
   | none => []
   | some a => (List.range (polls + 1)).flatMap (fun _ => CHIDDevice.GetInput.locks a)) ++
  exit.flatMap SetObject.locks

/-- The lock events of `hid_close` on a non-null `device`: the guard on
`g_DevicesRefCountMutex`; when the count reaches 0 (`last`), inside it `FindDevice`, `Close`
and the destructor of `pDevice`. -/
def hid_close.locks (last : Bool) (loop exit : List SetCall) : List LockEv :=
  hid_mutex_guard .g_DevicesRefCountMutex
    (if last then lookup.locks loop exit else [])

/-- The code paths of `hid.cpp` that can run on a thread of their own: the methods of
`CHIDDevice` and `hid_device_ref` and the entry points, each with what decides its lock
events. -/
inductive CodePath where
  | IncrementRefCount (a : Nat)
  | DecrementRefCount (a : Nat)
  | SetObject (c : SetCall)
  | BOpen (a : Nat) (waiting : Bool) (waits : Nat)
  | SetOpenPending (a : Nat)
  | SetOpenResult (a : Nat) (bResult : Bool)
  | ProcessInput (a : Nat)
  | GetInput (a : Nat)
  | WriteReport (a : Nat)
  | ProcessReportResponse (a : Nat)
  | ReadReport (a : Nat)
  | Close (a : Nat)
  | FindDevice (loop : List SetCall)
  | hid_init
  | hid_enumerate (loop : List SetCall)
  | hid_free_enumeration
  | hid_open
  | hid_open_path (loop : List SetCall) (bopen : Option (Nat × Bool × Nat))
      (exit : List SetCall)
  | hid_write (loop exit : List SetCall)
  | hid_read_timeout (loop : List SetCall) (found : Option Nat) (polls : Nat)
      (exit : List SetCall)
  | hid_read (loop : List SetCall) (found : Option Nat) (exit : List SetCall)
  | hid_set_nonblocking
  | hid_send_feature_report (loop exit : List SetCall)
  | hid_get_feature_report (loop exit : List SetCall)
  | hid_get_input_report (loop exit : List SetCall)
  | hid_close (last : Bool) (loop exit : List SetCall)
  | hid_get_manufacturer_string (loop exit : List SetCall)
  | hid_get_product_string (loop exit : List SetCall)
  | hid_get_serial_number_string (loop exit : List SetCall)
  | hid_get_indexed_string
  | hid_get_device_info (loop exit : List SetCall)
  | hid_get_report_descriptor
  | hid_error
  | hid_exit

/-- The lock events of a code path, in the order of execution. -/
def CodePath.locks : CodePath → List LockEv
  | .IncrementRefCount a => CHIDDevice.IncrementRefCount.locks a
  | .DecrementRefCount a => CHIDDevice.DecrementRefCount.locks a
  | .SetObject c => SetObject.locks c
  | .BOpen a waiting waits => CHIDDevice.BOpen.locks a waiting waits
  | .SetOpenPending _ => []
  | .SetOpenResult _ _ => []
  | .ProcessInput a => CHIDDevice.ProcessInput.locks a
  | .GetInput a => CHIDDevice.GetInput.locks a
  | .WriteReport _ => []
  | .ProcessReportResponse a => CHIDDevice.ProcessReportResponse.locks a
  | .ReadReport _ => []
  | .Close _ => []
  | .FindDevice loop => FindDevice.locks loop
  | .hid_init => []
  | .hid_enumerate loop => hid_enumerate.locks loop
  | .hid_free_enumeration => []
  | .hid_open => []
  | .hid_open_path loop bopen exit => hid_open_path.locks loop bopen exit
  | .hid_write loop exit => lookup.locks loop exit
  | .hid_read_timeout loop found polls exit => hid_read_timeout.locks loop found polls exit
  | .hid_read loop found exit => hid_read_timeout.locks loop found 0 exit
  | .hid_set_nonblocking => []
  | .hid_send_feature_report loop exit => lookup.locks loop exit
  | .hid_get_feature_report loop exit => lookup.locks loop exit
  | .hid_get_input_report loop exit => lookup.locks loop exit
  | .hid_close last loop exit => hid_close.locks last loop exit
  | .hid_get_manufacturer_string loop exit => lookup.locks loop exit
  | .hid_get_product_string loop exit => lookup.locks loop exit
  | .hid_get_serial_number_string loop exit => lookup.locks loop exit
  | .hid_get_indexed_string => []
  | .hid_get_device_info loop exit => lookup.locks loop exit
  | .hid_get_report_descriptor => []
  | .hid_error => []
  | .hid_exit => []

/-- The mutexes held after the events, given the mutexes held before. -/
def holdAfter (held : List Mutex) : List LockEv → List Mutex
  | [] => held
  | .lock m :: rest => holdAfter (m :: held) rest
  | .unlock m :: rest => holdAfter (held.erase m) rest

/-- The lock order at one `pthread_mutex_lock(m)` while `held` are held: `g_DevicesMutex` is
not taken while a mutex of a handle is held, and of `m_dataLock` and `m_cvLock` of one handle
neither is taken while the other is held. -/
def allowedLock (held : List Mutex) (m : Mutex) : Bool :=
  match m with
  | .g_DevicesMutex => held.all (fun h => !h.perHandle)
  | .m_dataLock a => !held.contains (.m_cvLock a)
  | .m_cvLock a => !held.contains (.m_dataLock a)
  | _ => true

/-- Every `pthread_mutex_lock` of the events respects the lock order. -/
def disciplined (held : List Mutex) : List LockEv → Bool
  | [] => true
  | .lock m :: rest => allowedLock held m && disciplined (m :: held) rest
  | .unlock m :: rest => disciplined (held.erase m) rest

/-! ## The joystick list (`src/joystick/ohos/SDL_sysjoystick.c`)

The items and the `SDL_Joystick` objects live in two heaps, the address of an object being its
index; `next`, `joystick`, `hwdata`, `SDL_joylist` and `SDL_joylist_tail` are addresses.
`SDL_malloc` takes the next address of the heap, and a freed item is `none`.  The bits of an
`int` used as a mask (`button_mask`, `dpad_state`) are a natural number. -/

/-- The values of the enumerators `SDL_GAMEPAD_BUTTON_DPAD_UP`, `..._DOWN`, `..._LEFT` and
`..._RIGHT`.  They are declared in `SDL_gamepad.h`, which is not among the sources, and are
taken as a parameter. -/
structure GamepadButtons where
  SDL_GAMEPAD_BUTTON_DPAD_UP : Nat
  SDL_GAMEPAD_BUTTON_DPAD_DOWN : Nat
  SDL_GAMEPAD_BUTTON_DPAD_LEFT : Nat
  SDL_GAMEPAD_BUTTON_DPAD_RIGHT : Nat
deriving DecidableEq

/-- The struct `SDL_joylist_item` of `SDL_sysjoystick_c.h`. -/
structure SDL_joylist_item where
  device_instance : Nat
  device_id : Int
  name : List Nat
  guid : List Nat
  is_accelerometer : Bool
  joystick : Option Nat
  nbuttons : Int
  naxes : Int
  nhats : Int
  dpad_state : Nat
  next : Option Nat
deriving DecidableEq

/-- Modelled from the spec: `struct SDL_Joystick` is declared in `../SDL_sysjoystick.h`, which
is not among the sources (the spec names the joystick layer as an external collaborator);
these are the members `SDL_sysjoystick.c` reads and writes. -/
structure SDL_Joystick where
  instance_id : Nat
  hwdata : Option Nat
  nhats : Int
  nbuttons : Int
  naxes : Int
deriving DecidableEq

/-- The calls into the SDL core that post events, in a ghost log: `SDL_SendJoystickButton`
(`state` is true for `SDL_PRESSED`), `SDL_PrivateJoystickAdded`, `SDL_PrivateJoystickRemoved`.
The timestamp is left out. -/
inductive JoyEvent where
  | SendJoystickButton (joystick : Nat) (button : Nat) (state : Bool)
  | PrivateJoystickAdded (instance_id : Nat)
  | PrivateJoystickRemoved (instance_id : Nat)
deriving DecidableEq

/-- The globals `SDL_joylist`, `SDL_joylist_tail` and `numjoysticks` with the two heaps and
the ghost log of events. -/
structure JoyState where
  items : List (Option SDL_joylist_item)
  joysticks : List SDL_Joystick
  SDL_joylist : Option Nat
  SDL_joylist_tail : Option Nat
  numjoysticks : Int
  events : List JoyEvent
deriving DecidableEq

/-- The state at program start: `SDL_joylist = NULL`, `SDL_joylist_tail = NULL`,
`numjoysticks = 0`. -/
def JoyState.empty : JoyState :=
  { items := [], joysticks := [], SDL_joylist := none, SDL_joylist_tail := none,
    numjoysticks := 0, events := [] }

/-- The item at address `a`, if the address holds one. -/
def itemAt (items : List (Option SDL_joylist_item)) (a : Nat) : Option SDL_joylist_item :=
  (items[a]?).join

/-- The store `p->next = v` on the item at address `p`. -/
def setNext (items : List (Option SDL_joylist_item)) (p : Nat) (v : Option Nat) :
    List (Option SDL_joylist_item) :=
  match itemAt items p with
  | some it => items.set p (some { it with next := v })
  | none => items

/-- One loop `while (item) { if (item->device_id == device_id) return item;
item = item->next; }` of `JoystickByDeviceId`: the value returned inside the loop, or `none`
when the loop ends (or the fuel does). -/
def JoystickByDeviceId.loop (items : List (Option SDL_joylist_item)) (device_id : Int) :
    Nat → Option Nat → Option Nat
  | 0, _ => none
  | _ + 1, none => none
  | fuel + 1, some a =>
    match itemAt items a with
    | none => none
    | some it =>
      if it.device_id = device_id then some a
      else JoystickByDeviceId.loop items device_id fuel it.next

/-- The function `JoystickByDeviceId`.  The second loop starts with `item == NULL`, where the
first one has left it.  A chain of items has at most `items.length` of them. -/
def JoystickByDeviceId (s : JoyState) (device_id : Int) : Option Nat :=
  match JoystickByDeviceId.loop s.items device_id (s.items.length + 1) s.SDL_joylist with
  | some a => some a
  | none =>
    match JoystickByDeviceId.loop s.items device_id (s.items.length + 1) none with
    | some a => some a
    | none => none

/-- The function `OHOS_OnHat`: the returned `int` and the state. -/
def OHOS_OnHat (B : GamepadButtons) (s : JoyState) (device_id : Int) (_hat_id : Int)
    (x y : Int) : Int × JoyState :=
  let DPAD_UP_MASK : Nat := 1 <<< B.SDL_GAMEPAD_BUTTON_DPAD_UP
  let DPAD_DOWN_MASK : Nat := 1 <<< B.SDL_GAMEPAD_BUTTON_DPAD_DOWN
  let DPAD_LEFT_MASK : Nat := 1 <<< B.SDL_GAMEPAD_BUTTON_DPAD_LEFT
  let DPAD_RIGHT_MASK : Nat := 1 <<< B.SDL_GAMEPAD_BUTTON_DPAD_RIGHT
  if x ≥ -1 ∧ x ≤ 1 ∧ y ≥ -1 ∧ y ≤ 1 then
    match (JoystickByDeviceId s device_id).bind (fun a => (itemAt s.items a).map (a, ·)) with
    | none => (0, s)
    | some (a, item) =>
      match item.joystick with
      | none => (0, s)
      | some joystick =>
        let d0 : Nat := 0
        let d1 : Nat :=
          if x < 0 then d0 ||| DPAD_LEFT_MASK
          else if x > 0 then d0 ||| DPAD_RIGHT_MASK else d0
        let dpad_state : Nat :=
          if y < 0 then d1 ||| DPAD_UP_MASK
          else if y > 0 then d1 ||| DPAD_DOWN_MASK else d1
        let dpad_delta : Nat := dpad_state ^^^ item.dpad_state
        if dpad_delta ≠ 0 then
          let e1 := if dpad_delta &&& DPAD_UP_MASK ≠ 0 then
            [JoyEvent.SendJoystickButton joystick B.SDL_GAMEPAD_BUTTON_DPAD_UP
              (decide (dpad_state &&& DPAD_UP_MASK ≠ 0))] else []
          let e2 := if dpad_delta &&& DPAD_DOWN_MASK ≠ 0 then
            [JoyEvent.SendJoystickButton joystick B.SDL_GAMEPAD_BUTTON_DPAD_DOWN
              (decide (dpad_state &&& DPAD_DOWN_MASK ≠ 0))] else []
          let e3 := if dpad_delta &&& DPAD_LEFT_MASK ≠ 0 then
            [JoyEvent.SendJoystickButton joystick B.SDL_GAMEPAD_BUTTON_DPAD_LEFT
              (decide (dpad_state &&& DPAD_LEFT_MASK ≠ 0))] else []
          let e4 := if dpad_delta &&& DPAD_RIGHT_MASK ≠ 0 then
            [JoyEvent.SendJoystickButton joystick B.SDL_GAMEPAD_BUTTON_DPAD_RIGHT
              (decide (dpad_state &&& DPAD_RIGHT_MASK ≠ 0))] else []
          (0, { s with events := s.events ++ (e1 ++ e2 ++ e3 ++ e4),
                       items := s.items.set a (some { item with dpad_state := dpad_state }) })
        else (0, s)
  else (-1, s)

/-- What the environment does during one `OHOS_AddJoystick`: the value of the hint
`SDL_HINT_TV_REMOTE_AS_JOYSTICK`, the answer of `HIDAPI_IsDevicePresent`, the GUID that
`SDL_CreateJoystickGUID` returns, whether `SDL_malloc` succeeds, the name
`SDL_CreateJoystickName` returns (`none` for `NULL`) and the id `SDL_GetNextObjectID`
returns. -/
structure AddEnv where
  tvRemoteAsJoystick : Bool
  hidapiPresent : Bool
  guid : List Nat
  mallocOk : Bool
  joystickName : Option (List Nat)
  objectID : Nat
deriving DecidableEq

/-- The store `guid16[i] = SDL_SwapLE16(v)` on the bytes of a GUID. -/
def setGuid16 (guid : List Nat) (i : Nat) (v : Nat) : List Nat :=
  poke (poke guid (2 * i) (v % 256)) (2 * i + 1) (v / 256 % 256)

/-- The constant `OHOS_MAX_NBUTTONS`. -/
def OHOS_MAX_NBUTTONS : Int := 36

/-- The loop `for (i = 0; i < sizeof(button_mask) * 8; ++i) if (button_mask & (1 << i))
item->nbuttons = i + 1;` on an item whose `nbuttons` is `nbuttons`. -/
def nbuttonsLoop (button_mask : Nat) (nbuttons : Int) : Int :=
  (List.range 32).foldl
    (fun nb i => if button_mask &&& (1 <<< i) ≠ 0 then Int.ofNat (i + 1) else nb) nbuttons

/-- The function `OHOS_AddJoystick`: the returned `int` and the state.  `name` and `desc` are
`none` for `NULL`; `button_mask` and `axis_mask` are the 32 bits of the `int` arguments. -/
def OHOS_AddJoystick (B : GamepadButtons) (s : JoyState) (env : AddEnv) (device_id : Int)
    (name : Option (List Nat)) (_desc : Option (List Nat)) (_vendor_id _product_id : Int)
    (is_accelerometer : Bool) (button_mask : Nat) (naxes : Int) (axis_mask : Nat)
    (nhats : Int) : Int × JoyState :=
  if !env.tvRemoteAsJoystick ∧ naxes < 2 ∧ nhats < 1 then (-1, s)
  else if (JoystickByDeviceId s device_id).isSome ∨ name.isNone then (-1, s)
  else if env.hidapiPresent then (-1, s)
  else
    let button_mask1 : Nat :=
      if nhats > 0 then
        button_mask ||| ((1 <<< B.SDL_GAMEPAD_BUTTON_DPAD_UP) |||
                         (1 <<< B.SDL_GAMEPAD_BUTTON_DPAD_DOWN) |||
                         (1 <<< B.SDL_GAMEPAD_BUTTON_DPAD_LEFT) |||
                         (1 <<< B.SDL_GAMEPAD_BUTTON_DPAD_RIGHT))
      else button_mask
    let nhats1 : Int := if nhats > 0 then 0 else nhats
    let guid := setGuid16 (setGuid16 env.guid 6 button_mask1) 7 axis_mask
    if !env.mallocOk then (-1, s)
    else
      match env.joystickName with
      | none => (-1, { s with items := s.items ++ [none] })
      | some itemName =>
        let item : SDL_joylist_item :=
          { device_instance := env.objectID, device_id := device_id, name := itemName,
            guid := guid, is_accelerometer := is_accelerometer, joystick := none,
            nbuttons :=
              if button_mask1 = 0xFFFFFFFF then OHOS_MAX_NBUTTONS
              else nbuttonsLoop button_mask1 0,
            naxes := naxes, nhats := nhats1, dpad_state := 0, next := none }
        let a := s.items.length
        let items1 := s.items ++ [some item]
        let s1 : JoyState :=
          match s.SDL_joylist_tail with
          | none => { s with items := items1, SDL_joylist := some a,
                             SDL_joylist_tail := some a }
          | some t => { s with items := setNext items1 t (some a),
                               SDL_joylist_tail := some a }
        (s1.numjoysticks + 1,
         { s1 with numjoysticks := s1.numjoysticks + 1,
                   events := s1.events ++ [JoyEvent.PrivateJoystickAdded env.objectID] })

/-- The loop of `OHOS_RemoveJoystick`: `prev` and `item` when it ends. -/
def OHOS_RemoveJoystick.loop (items : List (Option SDL_joylist_item)) (device_id : Int) :
    Nat → Option Nat → Option Nat → Option Nat × Option Nat
  | 0, prev, _ => (prev, none)
  | _ + 1, prev, none => (prev, none)
  | fuel + 1, prev, some a =>
    match itemAt items a with
    | none => (prev, none)
    | some it =>
      if it.device_id = device_id then (prev, some a)
      else OHOS_RemoveJoystick.loop items device_id fuel (some a) it.next

/-- The function `OHOS_RemoveJoystick`: the returned `int` and the state. -/
def OHOS_RemoveJoystick (s : JoyState) (device_id : Int) : Int × JoyState :=
  let r := OHOS_RemoveJoystick.loop s.items device_id (s.items.length + 1) none s.SDL_joylist
  match r.2.bind (fun a => (itemAt s.items a).map (a, ·)) with
  | none => (-1, s)
  | some (a, item) =>
    let joysticks1 : List SDL_Joystick :=
      match item.joystick with
      | some j =>
        (match s.joysticks[j]? with
         | some joystick => s.joysticks.set j { joystick with hwdata := none }
         | none => s.joysticks)
      | none => s.joysticks
    let items1 :=
      match r.1 with
      | some prev => setNext s.items prev item.next
      | none => s.items
    let SDL_joylist1 :=
      match r.1 with
      | some _ => s.SDL_joylist
      | none => item.next
    let SDL_joylist_tail1 := if some a = s.SDL_joylist_tail then r.1 else s.SDL_joylist_tail
    (s.numjoysticks - 1,
     { items := items1.set a none, joysticks := joysticks1, SDL_joylist := SDL_joylist1,
       SDL_joylist_tail := SDL_joylist_tail1, numjoysticks := s.numjoysticks - 1,
       events := s.events ++ [JoyEvent.PrivateJoystickRemoved item.device_instance] })

/-- The function `OHOS_JoystickGetCount`. -/
def OHOS_JoystickGetCount (s : JoyState) : Int := s.numjoysticks

/-- The loop `while (device_index > 0) { SDL_assert(item != NULL); device_index--;
item = item->next; }` of `GetJoystickByDevIndex`: `none` when the assertion fails. -/
def GetJoystickByDevIndex.loop (items : List (Option SDL_joylist_item)) :
    Nat → Option Nat → Option (Option Nat)
  | 0, item => some item
  | device_index + 1, item =>
    match item.bind (itemAt items) with
    | none => none
    | some it => GetJoystickByDevIndex.loop items device_index it.next

/-- The function `GetJoystickByDevIndex`: `none` when the assertion `item != NULL` fails,
otherwise the returned pointer. -/
def GetJoystickByDevIndex (s : JoyState) (device_index : Int) : Option (Option Nat) :=
  if device_index < 0 ∨ device_index ≥ s.numjoysticks then some none
  else GetJoystickByDevIndex.loop s.items device_index.toNat s.SDL_joylist

/-- The value `SDL_SetError` returns.  The function belongs to the SDL core, which is not
among the sources; it records the message and returns -1. -/
def SDL_SetError : Int := -1

/-- The function `OHOS_JoystickOpen` on the `SDL_Joystick` at address `joystick`: `none`
when the assertion of `GetJoystickByDevIndex` fails, otherwise the returned `int` and the
state. -/
def OHOS_JoystickOpen (s : JoyState) (joystick : Nat) (device_index : Int) :
    Option (Int × JoyState) :=
  match GetJoystickByDevIndex s device_index with
  | none => none
  | some r =>
    match r.bind (fun a => (itemAt s.items a).map (a, ·)) with
    | none => some (SDL_SetError, s)
    | some (a, item) =>
      match item.joystick with
      | some _ => some (SDL_SetError, s)
      | none =>
        let joysticks1 :=
          match s.joysticks[joystick]? with
          | some _ =>
            s.joysticks.set joystick
              { instance_id := item.device_instance, hwdata := some a,
                nhats := item.nhats, nbuttons := item.nbuttons, naxes := item.naxes }
          | none => s.joysticks
        some (0, { s with joysticks := joysticks1,
                          items := s.items.set a (some { item with joystick := some joystick }) })

/-- The function `OHOS_JoystickClose` on the `SDL_Joystick` at address `joystick`. -/
def OHOS_JoystickClose (s : JoyState) (joystick : Nat) : JoyState :=
  match (s.joysticks[joystick]?).bind (fun j => j.hwdata) with
  | none => s
  | some a =>
    match itemAt s.items a with
    | none => s
    | some item => { s with items := s.items.set a (some { item with joystick := none }) }

/-- One call from the platform layer or the SDL core into the joystick driver.  For
`OHOS_JoystickOpen` the core has allocated the `SDL_Joystick` it passes. -/
inductive JoyOp where
  | OHOS_AddJoystick (env : AddEnv) (device_id : Int) (name desc : Option (List Nat))
      (vendor_id product_id : Int) (is_accelerometer : Bool) (button_mask : Nat) (naxes : Int)
      (axis_mask : Nat) (nhats : Int)
  | OHOS_RemoveJoystick (device_id : Int)
  | OHOS_JoystickOpen (device_index : Int)
  | OHOS_JoystickClose (joystick : Nat)
  | OHOS_OnHat (device_id hat_id x y : Int)
deriving DecidableEq

/-- The state after one call.  A call whose assertion fails leaves the state as it is. -/
def JoyOp.apply (B : GamepadButtons) (s : JoyState) : JoyOp → JoyState
  | .OHOS_AddJoystick env device_id name desc vendor_id product_id is_accelerometer
      button_mask naxes axis_mask nhats =>
    (OhosHid.OHOS_AddJoystick B s env device_id name desc vendor_id product_id
      is_accelerometer button_mask naxes axis_mask nhats).2
  | .OHOS_RemoveJoystick device_id => (OhosHid.OHOS_RemoveJoystick s device_id).2
  | .OHOS_JoystickOpen device_index =>
    let s1 : JoyState :=
      { s with joysticks := s.joysticks ++
          [{ instance_id := 0, hwdata := none, nhats := 0, nbuttons := 0, naxes := 0 }] }
    match OhosHid.OHOS_JoystickOpen s1 s.joysticks.length device_index with
    | some r => r.2
    | none => s
  | .OHOS_JoystickClose joystick => OhosHid.OHOS_JoystickClose s joystick
  | .OHOS_OnHat device_id hat_id x y => (OhosHid.OHOS_OnHat B s device_id hat_id x y).2

/-- The state after a sequence of calls. -/
def runJoy (B : GamepadButtons) (s : JoyState) (ops : List JoyOp) : JoyState :=
  ops.foldl (JoyOp.apply B) s

/-! ## Entry points without implementation -/

/-- The function `hid_open`, whose body is `return NULL;`: the returned pointer and the
state. -/
def hid_open (s : HidState) (_vendor_id _product_id : Nat)
    (_serial_number : Option (List Nat)) : hid_device_ptr × HidState :=
  (none, s)

/-- The function `hid_set_nonblocking`, whose body is `return -1;`: the returned `int` and
the state. -/
def hid_set_nonblocking (s : HidState) (_device : hid_device_ptr) (_nonblock : Int) :
    Int × HidState :=
  (-1, s)

/-- The function `hid_get_indexed_string`, whose body is `return -1;`: the returned `int`,
the caller's memory at `string` and the state. -/
def hid_get_indexed_string (s : HidState) (_device : hid_device_ptr) (_string_index : Int)
    (string : List Nat) (_maxlen : Nat) : Int × List Nat × HidState :=
  (-1, string, s)

/-- The function `hid_get_report_descriptor`, whose body is `return -1;`: the returned
`int`, the caller's memory at `buf` and the state. -/
def hid_get_report_descriptor (s : HidState) (_device : hid_device_ptr) (buf : List Nat)
    (_buf_size : Nat) : Int × List Nat × HidState :=
  (-1, buf, s)

/-! ## Auxiliary definitions of the proofs -/

/-- The queue invariant: the counter `m_nSize` is the number of queued entries, and there
are at most 16 of them. -/
def QueueOk (q : hid_buffer_pool) : Prop :=
  q.m_nSize = q.m_pHead.length ∧ q.m_pHead.length ≤ 16

/-- The `k` last elements of a list. -/
def lastN {α : Type} (k : Nat) (l : List α) : List α := l.drop (l.length - k)

/-- What a queued entry shows to a reader: its report and its size. -/
def view (b : hid_buffer) : List Nat × Nat := (b.report, b.size)

/-- The handle with one more reference. -/
def CHIDDevice.acquire (d : CHIDDevice) : CHIDDevice := d.IncrementRefCount.2

/-- Closed form of `FindDevice` on a registry whose handles are all referenced: the first
handle with the id gains a reference. -/
def findAcquire (nDeviceId : Int) : List CHIDDevice → List CHIDDevice × Option Nat
  | [] => ([], none)
  | d :: rest =>
    if d.GetId = nDeviceId then (d.acquire :: rest, some 0)
    else ((d :: (findAcquire nDeviceId rest).1), (findAcquire nDeviceId rest).2.map (· + 1))

/-- Closed form of the search of `hid_open_path` on a registry whose handles are all
referenced: the first handle with the path gains a reference. -/
def findPathAcquire (path : List Nat) : List CHIDDevice → List CHIDDevice × Option Nat
  | [] => ([], none)
  | d :: rest =>
    if d.GetDeviceInfo.path = path then (d.acquire :: rest, some 0)
    else ((d :: (findPathAcquire path rest).1), (findPathAcquire path rest).2.map (· + 1))

/-- The value of `m_bOpenResult` that `BOpen` tests after the bridge call and the wait. -/
def OpenReply.outcome (reply : OpenReply) : Bool :=
  if reply.pending then
    match reply.completion with
    | some bResult => bResult
    | none => reply.result
  else reply.result

/-- The handle after the bridge call and the wait of `BOpen`, before the session object is
created. -/
def CHIDDevice.afterWait (d : CHIDDevice) (reply : OpenReply) : CHIDDevice :=
  { d with m_bOpenResult := reply.outcome
           m_bIsWaitingForOpen :=
             if reply.pending then
               (match reply.completion with
                | some _ => false
                | none => true)
             else false }

/-- The state after `hid_open_path` has run `BOpen` on the handle `d`. -/
def openedState (s : HidState) (pre : List CHIDDevice) (d : CHIDDevice)
    (post : List CHIDDevice) (reply : OpenReply) : HidState :=
  { s with
    g_Devices := pre ++
      (if reply.outcome then
        { d.afterWait reply with m_pDevice := some s.sessions.length }
       else d.afterWait reply) :: post,
    sessions :=
      if reply.outcome then
        s.sessions ++ [some { m_nId := d.m_nId, m_nDeviceRefCount := 1 }]
      else s.sessions,
    opens := s.opens ++ [d.m_nId] }

/-- The addresses of the four blocks a device info struct points to. -/
def hid_device_info_mem.blocks (p : hid_device_info_mem) : List Nat :=
  [p.path, p.product_string, p.manufacturer_string, p.serial_number]

/-- The four blocks of the struct lie in the store: their addresses have been allocated. -/
def Stored (mem : Store) (p : hid_device_info_mem) : Prop :=
  ∀ b ∈ p.blocks, b < mem.length

/-- The store `m2` differs from `m1` at most in the blocks at the addresses `bs`. -/
def agreeOutside (bs : List Nat) (m1 m2 : Store) : Prop :=
  ∀ a, a ∉ bs → m2[a]? = m1[a]?

/-- The test of `hid_enumerate` on one struct: not ignored, and the vendor and product ids
pass the filter. -/
def enumKeeps (ShouldIgnore : Nat → Nat → Bool) (vendor_id product_id : Nat)
    (info : hid_device_info_mem) : Bool :=
  !ShouldIgnore info.vendor_id info.product_id &&
    (decide (vendor_id = 0 ∨ info.vendor_id = vendor_id) &&
     decide (product_id = 0 ∨ info.product_id = product_id))

/-- The same test on the device info of a handle. -/
def enumKeepsInfo (ShouldIgnore : Nat → Nat → Bool) (vendor_id product_id : Nat)
    (info : hid_device_info) : Bool :=
  !ShouldIgnore info.vendor_id info.product_id &&
    (decide (vendor_id = 0 ∨ info.vendor_id = vendor_id) &&
     decide (product_id = 0 ∨ info.product_id = product_id))

/-- The four blocks `CopyHIDDeviceInfo` allocates for a struct, in the order of
allocation. -/
def copyBlocks (mem : Store) (p : hid_device_info_mem) : List (Option (List Nat)) :=
  [some ((mem.block p.path).take ((mem.str p.path).length + 1)),
   some (mem.str p.product_string ++ [0]),
   some (mem.str p.manufacturer_string ++ [0]),
   some (mem.str p.serial_number ++ [0])]

/-- The struct `CopyHIDDeviceInfo` returns when the next free address is `base`. -/
def copyStruct (base : Nat) (p : hid_device_info_mem) : hid_device_info_mem :=
  { p with path := base, product_string := base + 1, manufacturer_string := base + 2,
           serial_number := base + 3 }

/-- One iteration of the loop of `hid_enumerate` on the handle at address `a`, as a step on
the store and the list built so far. -/
def enumStep (ShouldIgnore : Nat → Nat → Bool) (infoAt : Nat → hid_device_info_mem)
    (vendor_id product_id : Nat) (a : Nat) (st : Store × List hid_device_info_mem) :
    Store × List hid_device_info_mem :=
  if enumKeeps ShouldIgnore vendor_id product_id (infoAt a) then
    ((CopyHIDDeviceInfo st.1 (infoAt a)).1, (CopyHIDDeviceInfo st.1 (infoAt a)).2 :: st.2)
  else st

/-- The iterations of the loop of `hid_enumerate` on the `n` handles from address `start`. -/
def enumFrom (ShouldIgnore : Nat → Nat → Bool) (infoAt : Nat → hid_device_info_mem)
    (vendor_id product_id : Nat) :
    Nat → Nat → Store × List hid_device_info_mem → Store × List hid_device_info_mem
  | _, 0, st => st
  | start, n + 1, st =>
    enumFrom ShouldIgnore infoAt vendor_id product_id (start + 1) n
      (enumStep ShouldIgnore infoAt vendor_id product_id start st)

/-- The structs returned for the kept handles `ks` when the first free address is `base`,
oldest first. -/
def layout (infoAt : Nat → hid_device_info_mem) : Nat → List Nat → List hid_device_info_mem
  | _, [] => []
  | base, a :: ks => copyStruct base (infoAt a) :: layout infoAt (base + 4) ks

/-- The handle with the flag `m_bIsWaitingForOpen` cleared. -/
def CHIDDevice.forgetPending (d : CHIDDevice) : CHIDDevice :=
  { d with m_bIsWaitingForOpen := false }

/-- The addresses of the handles `hid_enumerate` keeps, in the order of the chain of `n`
handles. -/
def keptAddrs (ShouldIgnore : Nat → Nat → Bool) (infoAt : Nat → hid_device_info_mem)
    (vendor_id product_id : Nat) (n : Nat) : List Nat :=
  (List.range' 0 n).filter (fun a => enumKeeps ShouldIgnore vendor_id product_id (infoAt a))

/-- The events respect the lock order when they start with `held` held, and end with the
same mutexes held. -/
def OkAt (held : List Mutex) (t : List LockEv) : Prop :=
  disciplined held t = true ∧ holdAfter held t = held

/-- The button mask `OHOS_AddJoystick` stores: the D-pad bits are added when `nhats > 0`. -/
def addedMask (B : GamepadButtons) (button_mask : Nat) (nhats : Int) : Nat :=
  if nhats > 0 then
    button_mask ||| ((1 <<< B.SDL_GAMEPAD_BUTTON_DPAD_UP) |||
                     (1 <<< B.SDL_GAMEPAD_BUTTON_DPAD_DOWN) |||
                     (1 <<< B.SDL_GAMEPAD_BUTTON_DPAD_LEFT) |||
                     (1 <<< B.SDL_GAMEPAD_BUTTON_DPAD_RIGHT))
  else button_mask

/-- The item `OHOS_AddJoystick` creates. -/
def newItem (B : GamepadButtons) (env : AddEnv) (device_id : Int) (itemName : List Nat)
    (is_accelerometer : Bool) (button_mask : Nat) (naxes : Int) (axis_mask : Nat)
    (nhats : Int) : SDL_joylist_item :=
  { device_instance := env.objectID, device_id := device_id, name := itemName,
    guid := setGuid16 (setGuid16 env.guid 6 (addedMask B button_mask nhats)) 7 axis_mask,
    is_accelerometer := is_accelerometer, joystick := none,
    nbuttons :=
      if addedMask B button_mask nhats = 0xFFFFFFFF then OHOS_MAX_NBUTTONS
      else nbuttonsLoop (addedMask B button_mask nhats) 0,
    naxes := naxes, nhats := if nhats > 0 then 0 else nhats, dpad_state := 0, next := none }

/-- `OHOS_AddJoystick` reaches the allocation of the item: the device is not filtered out as
a remote, its id is not in the list, `name` is not `NULL` and HIDAPI does not handle it. -/
def addPasses (s : JoyState) (env : AddEnv) (device_id : Int) (name : Option (List Nat))
    (naxes nhats : Int) : Bool :=
  (env.tvRemoteAsJoystick || decide (2 ≤ naxes) || decide (1 ≤ nhats)) &&
  (JoystickByDeviceId s device_id).isNone && name.isSome && !env.hidapiPresent

/-- The state after an `OHOS_AddJoystick` that links the new item `item`. -/
def linked (s : JoyState) (env : AddEnv) (item : SDL_joylist_item) : JoyState :=
  { items :=
      (match s.SDL_joylist_tail with
       | none => s.items ++ [some item]
       | some t => setNext (s.items ++ [some item]) t (some s.items.length)),
    joysticks := s.joysticks,
    SDL_joylist :=
      (match s.SDL_joylist_tail with
       | none => some s.items.length
       | some _ => s.SDL_joylist),
    SDL_joylist_tail := some s.items.length,
    numjoysticks := s.numjoysticks + 1,
    events := s.events ++ [JoyEvent.PrivateJoystickAdded env.objectID] }

/-- The value the loop over the bits `0 .. n - 1` leaves in `nbuttons`, starting from 0: 0 if
none of these bits is set, otherwise the index of the highest set one plus one. -/
def HighestBit (m n : Nat) (nb : Int) : Prop :=
  (nb = 0 ∧ ∀ j, j < n → m.testBit j = false) ∨
  (∃ k, k < n ∧ nb = Int.ofNat (k + 1) ∧ m.testBit k = true ∧
    ∀ j, k < j → j < n → m.testBit j = false)

/-- The value `OHOS_OnHat` computes in its local `dpad_state`. -/
def hatState (B : GamepadButtons) (x y : Int) : Nat :=
  ((0 : Nat) |||
    (if x < 0 then 1 <<< B.SDL_GAMEPAD_BUTTON_DPAD_LEFT
     else if x > 0 then 1 <<< B.SDL_GAMEPAD_BUTTON_DPAD_RIGHT else 0)) |||
    (if y < 0 then 1 <<< B.SDL_GAMEPAD_BUTTON_DPAD_UP
     else if y > 0 then 1 <<< B.SDL_GAMEPAD_BUTTON_DPAD_DOWN else 0)

/-- The four D-pad buttons in the order in which `OHOS_OnHat` tests them. -/
def dpadButtons (B : GamepadButtons) : List Nat :=
  [B.SDL_GAMEPAD_BUTTON_DPAD_UP, B.SDL_GAMEPAD_BUTTON_DPAD_DOWN,
   B.SDL_GAMEPAD_BUTTON_DPAD_LEFT, B.SDL_GAMEPAD_BUTTON_DPAD_RIGHT]

/-- The button events for the D-pad bits in which the new state differs from the old one. -/
def hatEvents (B : GamepadButtons) (joystick : Nat) (new old : Nat) : List JoyEvent :=
  ((dpadButtons B).filter (fun k => Bool.xor (new.testBit k) (old.testBit k))).map
    (fun k => JoyEvent.SendJoystickButton joystick k (new.testBit k))

/-- The four values are pairwise different. -/
def GamepadButtons.Distinct (B : GamepadButtons) : Prop :=
  (dpadButtons B).Nodup

/-- The two heaps have the same items as far as the chain goes: the same addresses hold an
item, with the same `device_id` and the same `next`. -/
def SameLinks (items items2 : List (Option SDL_joylist_item)) : Prop :=
  items2.length = items.length ∧
  ∀ b, (itemAt items2 b).map (fun it => (it.device_id, it.next)) =
    (itemAt items b).map (fun it => (it.device_id, it.next))

/-- The chain that starts at `head` consists of the items at the addresses `addrs`, in this
order, and ends with a null `next`. -/
def IsChain (items : List (Option SDL_joylist_item)) : Option Nat → List Nat → Prop
  | head, [] => head = none
  | head, a :: rest =>
    head = some a ∧ ∃ it, itemAt items a = some it ∧ IsChain items it.next rest

/-- The addresses of the items reachable from `head` through `next`, at most `fuel` of them. -/
def walk (items : List (Option SDL_joylist_item)) : Nat → Option Nat → List Nat
  | 0, _ => []
  | _ + 1, none => []
  | fuel + 1, some a =>
    match itemAt items a with
    | none => []
    | some it => a :: walk items fuel it.next

/-- The addresses of the items reachable from `SDL_joylist`. -/
def JoyState.chain (s : JoyState) : List Nat :=
  walk s.items (s.items.length + 1) s.SDL_joylist

/-- The item without its link to the next one. -/
def SDL_joylist_item.unlinked (it : SDL_joylist_item) : SDL_joylist_item :=
  { it with next := none }

/-- The items reachable from `SDL_joylist`, first item first, each without its link. -/
def JoyState.list (s : JoyState) : List SDL_joylist_item :=
  s.chain.filterMap (fun a => (itemAt s.items a).map SDL_joylist_item.unlinked)

/-- The `device_id` of the items at the addresses. -/
def deviceIds (items : List (Option SDL_joylist_item)) (addrs : List Nat) : List Int :=
  addrs.filterMap (fun a => (itemAt items a).map (fun it => it.device_id))

/-- The invariant of the joystick list: `SDL_joylist` starts a chain of distinct items that
ends with a null `next`, `SDL_joylist_tail` is its last item, `numjoysticks` its length, and
the `device_id` of its items are pairwise different. -/
def JoyWf (s : JoyState) : Prop :=
  ∃ addrs, IsChain s.items s.SDL_joylist addrs ∧ addrs.Nodup ∧
    s.SDL_joylist_tail = addrs.getLast? ∧ s.numjoysticks = Int.ofNat addrs.length ∧
    (deviceIds s.items addrs).Nodup

/-- The item at address `a` has the `device_id`. -/
def hasId (items : List (Option SDL_joylist_item)) (device_id : Int) (a : Nat) : Bool :=
  decide ((itemAt items a).map (fun it => it.device_id) = some device_id)

/-- The state after an `OHOS_RemoveJoystick` whose loop ends with `prev` and the item `item`
at address `a`. -/
def removed (s : JoyState) (prev : Option Nat) (a : Nat) (item : SDL_joylist_item) :
    JoyState :=
  { items :=
      (match prev with
       | some p => setNext s.items p item.next
       | none => s.items).set a none,
    joysticks :=
      (match item.joystick with
       | some j =>
         (match s.joysticks[j]? with
          | some joystick => s.joysticks.set j { joystick with hwdata := none }
          | none => s.joysticks)
       | none => s.joysticks),
    SDL_joylist :=
      (match prev with
       | some _ => s.SDL_joylist
       | none => item.next),
    SDL_joylist_tail := if some a = s.SDL_joylist_tail then prev else s.SDL_joylist_tail,
    numjoysticks := s.numjoysticks - 1,
    events := s.events ++ [JoyEvent.PrivateJoystickRemoved item.device_instance] }

/-- The references a thread still has to release, less the ones it still has to acquire: the
number of `decrement` steps less the number of `increment` steps of its code. -/
def balance : List RefInstr → Int
  | [] => 0
  | .increment :: rest => balance rest - 1
  | .decrement :: rest => balance rest + 1
  | _ :: rest => balance rest

/-- At every point of the code the balance is not negative, and where the next step is an
`increment` the balance and the references never released add up to 1 at least. -/
def disciplined_code (extra : Nat) : List RefInstr → Bool
  | [] => true
  | i :: rest =>
    decide (0 ≤ balance (i :: rest)) &&
    (decide (i ≠ .increment) || decide (1 ≤ (extra : Int) + balance (i :: rest))) &&
    disciplined_code extra rest

/-- The code is a sequence of whole calls. -/
def wholeCalls : List RefInstr → Bool
  | [] => true
  | .lock :: .increment :: .unlock :: rest => wholeCalls rest
  | .lock :: .decrement :: .unlock :: .deleteIfZero :: rest => wholeCalls rest
  | _ => false

/-- The code of a thread at any point of its run: whole calls, after what is left of the
call it is in. -/
def midCall (code : List RefInstr) : Prop :=
  wholeCalls code = true ∨
  ∃ rest, wholeCalls rest = true ∧
    (code = .increment :: .unlock :: rest ∨ code = .unlock :: rest ∨
     code = .decrement :: .unlock :: .deleteIfZero :: rest ∨
     code = .unlock :: .deleteIfZero :: rest ∨ code = .deleteIfZero :: rest)

/-- The thread is between a decrement that has returned 0 and the `delete` that follows
it. -/
def RefThread.deleting (th : RefThread) : Bool :=
  decide (th.nValue = 0) &&
  (match th.code with
   | .deleteIfZero :: _ => true
   | .unlock :: .deleteIfZero :: _ => true
   | _ => false)

/-- The invariant of the runs of threads that use references as every thread of `hid.cpp`
does: the count is the number of references never released plus the balances of the
threads, and the handle has been deleted or is about to be deleted by one thread exactly
when the count is 0. -/
def RefRace.Owned (extra : Nat) (s : RefRace) : Prop :=
  s.handle.m_nRefCount = (extra : Int) + (s.threads.map (fun th => balance th.code)).sum ∧
  (∀ th ∈ s.threads, disciplined_code extra th.code = true ∧ midCall th.code) ∧
  s.handle.deletes + s.threads.countP RefThread.deleting =
    (if s.handle.m_nRefCount = 0 then 1 else 0)

/-- The number of handles whose count is 1: the handles a cascade of destructors can still
delete. -/
def countOnes (heap : Heap) : Nat :=
  heap.countP (fun d => decide (d.m_nRefCount = 1))

/-! ## Sample data of the witnesses -/

/-- A device info of a controller that is not the Bluetooth Steam Controller. -/
def sampleInfo : hid_device_info :=
  { path := [65], vendor_id := 0x045E, product_id := 0x028E, serial_number := [49],
    manufacturer_string := [77], product_string := [80] }

/-- A freshly constructed handle with id 7. -/
def sampleDevice : CHIDDevice := CHIDDevice.new 7 sampleInfo

/-- The marker payloads `[1], [2], …, [n]`. -/
def markers (n : Nat) : List (List Nat) := (List.range n).map (fun i => [i + 1])

/-- The handle with id 7 once it is in the registry chain, referenced once. -/
def sampleRegistered : CHIDDevice := { sampleDevice with m_nRefCount := 1 }

/-- A registry of two handles, ids 7 and 8, each referenced once. -/
def sampleRegistry : Heap :=
  [sampleRegistered, { CHIDDevice.new 8 sampleInfo with m_nRefCount := 1 }]

/-- A registered handle of id 7 holding an empty report and then the report `[5]`. -/
def sampleQueued : CHIDDevice :=
  { (sampleDevice.ProcessInput [] 0).ProcessInput [5] 1 with m_nRefCount := 1 }

/-- A registered handle of id 7 whose response slot is awaiting. -/
def sampleAwaiting : CHIDDevice :=
  { sampleRegistered with m_bIsWaitingForReportResponse := true }

/-- A registered handle of id 8 whose path is `"B"`. -/
def sampleOther : CHIDDevice :=
  { CHIDDevice.new 8 { sampleInfo with path := [66] } with m_nRefCount := 1 }

/-- A state whose registry holds the handle with id 7 and path `"A"`, not yet opened. -/
def sampleClosedState : HidState :=
  { g_Devices := [sampleRegistered], sessions := [], opens := [], closes := [] }

/-- A state whose registry holds the handle with id 7, opened once through session 0. -/
def sampleOpenState : HidState :=
  { g_Devices := [{ sampleRegistered with m_pDevice := some 0, m_bOpenResult := true }],
    sessions := [some { m_nId := 7, m_nDeviceRefCount := 1 }], opens := [7], closes := [] }

/-- A store holding the strings of two device infos: `"A"`, `"1"`, `"M"`, `"P"` at the
addresses 0 to 3 and `"B"`, `"1"`, `"M"`, `"P"` at the addresses 4 to 7. -/
def sampleStore : Store :=
  [some [65, 0], some [49, 0], some [77, 0], some [80, 0],
   some [66, 0], some [49, 0], some [77, 0], some [80, 0]]

/-- The structs of the two device infos in `sampleStore`. -/
def sampleInfoAt (a : Nat) : hid_device_info_mem :=
  if a = 0 then
    { path := 0, vendor_id := 0x045E, product_id := 0x028E, serial_number := 1,
      manufacturer_string := 2, product_string := 3 }
  else
    { path := 4, vendor_id := 0x045E, product_id := 0x028E, serial_number := 5,
      manufacturer_string := 6, product_string := 7 }

/-- The device info of the Bluetooth Steam Controller (vendor `0x28DE`, product `0x1106`). -/
def sampleBLEInfo : hid_device_info :=
  { sampleInfo with vendor_id := 0x28DE, product_id := 0x1106 }

/-- A registered handle of a Bluetooth Steam Controller, id 7, holding the report `[1, 2]`. -/
def sampleBLE : CHIDDevice :=
  { (CHIDDevice.new 7 sampleBLEInfo).ProcessInput [1, 2] 2 with m_nRefCount := 1 }

/-- A registered handle of id 7 holding the report `[5]`. -/
def sampleOneReport : CHIDDevice :=
  { sampleDevice.ProcessInput [5] 1 with m_nRefCount := 1 }

/-- One thread that releases the only reference to the handle with id 7. -/
def sampleRace : RefRace := RefRace.start sampleRegistered [[.release]]

/-- The handle with id 7 with two references, one held by each of two threads: thread 0
releases its reference; thread 1 copies its reference and releases both. -/
def sampleOwners : RefRace :=
  RefRace.start { sampleRegistered with m_nRefCount := 2 }
    [[.release], [.acquire, .release, .release]]

/-- One reference, the only one, to the handle with id 7. -/
def sampleOwner : RefSystem :=
  { heap := [sampleRegistered], next := [none], refs := [some 0] }

/-- Two handles, with ids 7 and 8 and count 1 each: a reference `r` holds the first, whose
member `next` holds the second.  Nothing else refers to them. -/
def sampleChain : RefSystem :=
  { heap := [sampleRegistered, { CHIDDevice.new 8 sampleInfo with m_nRefCount := 1 }],
    next := [some 1, none], refs := [some 0] }

/-- The values SDL 3 gives the four D-pad enumerators. -/
def sampleButtons : GamepadButtons :=
  { SDL_GAMEPAD_BUTTON_DPAD_UP := 11, SDL_GAMEPAD_BUTTON_DPAD_DOWN := 12,
    SDL_GAMEPAD_BUTTON_DPAD_LEFT := 13, SDL_GAMEPAD_BUTTON_DPAD_RIGHT := 14 }

/-- An environment in which every step of `OHOS_AddJoystick` succeeds. -/
def sampleEnv : AddEnv :=
  { tvRemoteAsJoystick := true, hidapiPresent := false, guid := List.replicate 16 0,
    mallocOk := true, joystickName := some [80, 97, 100], objectID := 1 }

/-- The call `OHOS_AddJoystick(device_id, "Pad", NULL, 0, 0, SDL_FALSE, 3, 2, 3, 1)`, during
which `SDL_GetNextObjectID` returns the number `device_id`. -/
def sampleAdd (device_id : Int) : JoyOp :=
  .OHOS_AddJoystick { sampleEnv with objectID := device_id.toNat } device_id
    (some [80, 97, 100]) none 0 0 false 3 2 3 1

/-- Two devices are added and the first one is opened. -/
def sampleJoyOps : List JoyOp := [sampleAdd 7, sampleAdd 9, .OHOS_JoystickOpen 0]

/-- The state after `sampleJoyOps`. -/
def sampleJoyState : JoyState := runJoy sampleButtons JoyState.empty sampleJoyOps

/-- The item of device 7 in the state after `sampleJoyOps`: opened by the joystick at
address 0 and followed by the item at address 1. -/
def sampleItem : SDL_joylist_item :=
  { newItem sampleButtons { sampleEnv with objectID := 7 } 7 [80, 97, 100] false 3 2 3 1 with
    joystick := some 0, next := some 1 }

/-! ## Theorems -/

/-! ### Memory and `hid_buffer` -/

theorem memcpy_zero (dst src : List Nat) (n : Nat) :
    memcpy dst 0 src n = src.take n ++ dst.drop n := by
  simp [memcpy]

theorem take_memcpy_zero (dst src : List Nat) (n : Nat) (h : n ≤ src.length) :
    (memcpy dst 0 src n).take n = src.take n := by
  rw [memcpy_zero, List.take_append_of_le_length (by simp [h])]
  simp [List.take_take]

theorem hid_buffer.report_assign (b : hid_buffer) (p : List Nat) (n : Nat) (h : n ≤ p.length) :
    (b.assign p n).report = p.take n := by
  unfold hid_buffer.report hid_buffer.data hid_buffer.size hid_buffer.assign
  exact take_memcpy_zero _ _ _ h

/-- C4: after `assign(p, n)` the size is `n` and the `n` first bytes of `data()` are those of
`p`; the capacity becomes `max(old capacity, n)`; the buffer executes no `new` exactly when
`n` is not larger than the capacity, and then the bytes of the block after the first `n` are
kept; neither `assign` nor `clear` shrinks the capacity, and `clear` allocates nothing. -/
theorem C4_assign (b : hid_buffer) (p : List Nat) (n : Nat) (h : n ≤ p.length) :
    (b.assign p n).size = n ∧
    (b.assign p n).data.take n = p.take n ∧
    (b.assign p n).m_nAllocated = max b.m_nAllocated n ∧
    ((b.assign p n).news = b.news ↔ n ≤ b.m_nAllocated) ∧
    (n ≤ b.m_nAllocated → (b.assign p n).data.drop n = b.data.drop n) ∧
    b.m_nAllocated ≤ (b.assign p n).m_nAllocated ∧
    b.clear.m_nAllocated = b.m_nAllocated ∧
    b.clear.news = b.news := by
  refine ⟨rfl, ?_, ?_, ?_, ?_, ?_, rfl, rfl⟩
  · exact take_memcpy_zero _ _ _ h
  · unfold hid_buffer.assign
    by_cases hc : n > b.m_nAllocated
    · simp [hc]; omega
    · simp [hc]; omega
  · unfold hid_buffer.assign
    by_cases hc : n > b.m_nAllocated
    · simp [hc]
    · simp [hc]; omega
  · intro hc
    have : ¬ n > b.m_nAllocated := by omega
    simp [hid_buffer.assign, hid_buffer.data, this, memcpy_zero, h]
  · unfold hid_buffer.assign
    by_cases hc : n > b.m_nAllocated
    · simp [hc]; omega
    · simp [hc]

/-- Witness of C4: a 2-byte payload assigned to an empty buffer. -/
theorem C4_assign_witness :
    2 ≤ [10, 20, 30].length ∧
    (hid_buffer.empty.assign [10, 20, 30] 2).size = 2 ∧
    (hid_buffer.empty.assign [10, 20, 30] 2).data.take 2 = [10, 20] :=
  ⟨by decide, (C4_assign hid_buffer.empty [10, 20, 30] 2 (by decide)).1,
    (C4_assign hid_buffer.empty [10, 20, 30] 2 (by decide)).2.1⟩

/-! ### The report queue -/

theorem pop_front_head (q : hid_buffer_pool) :
    q.pop_front.m_pHead = q.m_pHead.tail := by
  unfold hid_buffer_pool.pop_front
  cases h : q.m_pHead <;> simp [h]

theorem pop_front_size (q : hid_buffer_pool) (h : q.m_nSize = q.m_pHead.length)
    (hb : q.m_pHead.length ≤ 16) :
    q.pop_front.m_nSize = q.m_pHead.tail.length := by
  unfold hid_buffer_pool.pop_front
  cases hq : q.m_pHead with
  | nil => simp [hq] at h ⊢; exact h
  | cons e rest =>
    simp only [hq, List.length_cons, List.tail_cons, SIZE_MOD] at h hb ⊢
    omega

theorem emplace_back_head (q : hid_buffer_pool) (p : List Nat) (n : Nat) :
    ∃ e : hid_buffer, (q.emplace_back p n).m_pHead = q.m_pHead ++ [e.assign p n] := by
  unfold hid_buffer_pool.emplace_back
  cases hq : q.m_pFree with
  | nil => exact ⟨hid_buffer.empty, by simp⟩
  | cons e rest => exact ⟨e, by simp⟩

theorem emplace_back_size (q : hid_buffer_pool) (p : List Nat) (n : Nat) :
    (q.emplace_back p n).m_nSize = (q.m_nSize + 1) % SIZE_MOD := by
  unfold hid_buffer_pool.emplace_back
  cases hq : q.m_pFree <;> simp

theorem ProcessInput_head (d : CHIDDevice) (p : List Nat) (n : Nat)
    (h : QueueOk d.m_vecData) :
    ∃ e : hid_buffer, (d.ProcessInput p n).m_vecData.m_pHead =
      (if d.m_vecData.m_pHead.length = 16 then d.m_vecData.m_pHead.tail
        else d.m_vecData.m_pHead) ++ [e.assign p n] := by
  obtain ⟨h1, h2⟩ := h
  unfold CHIDDevice.ProcessInput
  simp only [hid_buffer_pool.size]
  by_cases hc : d.m_vecData.m_pHead.length = 16
  · have : d.m_vecData.m_nSize ≥ 16 := by omega
    simp only [this, hc, if_true]
    obtain ⟨e, he⟩ := emplace_back_head d.m_vecData.pop_front p n
    exact ⟨e, by rw [he, pop_front_head]⟩
  · have : ¬ d.m_vecData.m_nSize ≥ 16 := by omega
    simp only [this, hc, if_false]
    exact emplace_back_head _ p n

theorem ProcessInput_ok (d : CHIDDevice) (p : List Nat) (n : Nat)
    (h : QueueOk d.m_vecData) : QueueOk (d.ProcessInput p n).m_vecData := by
  obtain ⟨e, he⟩ := ProcessInput_head d p n h
  obtain ⟨h1, h2⟩ := h
  refine ⟨?_, ?_⟩
  · rw [he]
    unfold CHIDDevice.ProcessInput
    simp only [hid_buffer_pool.size, emplace_back_size, SIZE_MOD]
    by_cases hc : d.m_vecData.m_pHead.length = 16
    · have : d.m_vecData.m_nSize ≥ 16 := by omega
      simp only [this, hc, if_true, pop_front_size _ h1 h2, List.length_append,
        List.length_tail, List.length_singleton]
    · have : ¬ d.m_vecData.m_nSize ≥ 16 := by omega
      simp only [this, hc, if_false, List.length_append, List.length_singleton]
      omega
  · rw [he]
    by_cases hc : d.m_vecData.m_pHead.length = 16
    · simp [hc]
    · simp only [hc, if_false, List.length_append, List.length_singleton]; omega

theorem GetInput_queue (d : CHIDDevice) (data : List Nat) (length : Nat) :
    (d.GetInput data length).2.2.m_vecData =
      if d.m_vecData.m_nSize = 0 then d.m_vecData else d.m_vecData.pop_front := by
  unfold CHIDDevice.GetInput
  simp only [hid_buffer_pool.size]
  by_cases h0 : d.m_vecData.m_nSize = 0
  · simp [h0]
  · by_cases hb : d.m_bIsBLESteamController <;> simp [h0, hb]

theorem GetInput_ok (d : CHIDDevice) (data : List Nat) (length : Nat)
    (h : QueueOk d.m_vecData) : QueueOk (d.GetInput data length).2.2.m_vecData := by
  rw [GetInput_queue]
  by_cases h0 : d.m_vecData.m_nSize = 0
  · simpa [h0] using h
  · simp only [h0, if_false]
    obtain ⟨h1, h2⟩ := h
    refine ⟨?_, ?_⟩
    · rw [pop_front_size _ h1 h2, pop_front_head]
    · rw [pop_front_head, List.length_tail]; omega

theorem runInput_ok (calls : List InputCall) (d : CHIDDevice) (h : QueueOk d.m_vecData) :
    QueueOk (runInput d calls).m_vecData := by
  induction calls generalizing d with
  | nil => exact h
  | cons c cs ih =>
    unfold runInput
    rw [List.foldl_cons]
    apply ih
    cases c with
    | ProcessInput p n => exact ProcessInput_ok d p n h
    | GetInput data length => exact GetInput_ok d data length h

/-- C1: starting from an empty report queue, after each call of every finite sequence of
`ProcessInput` and `GetInput` calls (the first `k` calls of `calls`, for every `k`) the queue
holds at most 16 reports: both `size()` and the number of queued entries are at most 16. -/
theorem C1_queue_at_most_16 (d : CHIDDevice) (calls : List InputCall)
    (hempty : d.m_vecData.size = 0 ∧ d.m_vecData.m_pHead = []) (k : Nat) :
    (runInput d (calls.take k)).m_vecData.size ≤ 16 ∧
    (runInput d (calls.take k)).m_vecData.m_pHead.length ≤ 16 := by
  have h0 : QueueOk d.m_vecData := by
    obtain ⟨h1, h2⟩ := hempty
    simp only [hid_buffer_pool.size] at h1
    exact ⟨by rw [h1, h2]; rfl, by rw [h2]; simp⟩
  have h := runInput_ok (calls.take k) d h0
  unfold hid_buffer_pool.size
  exact ⟨by rw [h.1]; exact h.2, h.2⟩

/-- Witness of C1: twenty pushes on a fresh handle, observed after all twenty. -/
theorem C1_queue_at_most_16_witness :
    (sampleDevice.m_vecData.size = 0 ∧ sampleDevice.m_vecData.m_pHead = []) ∧
    (runInput sampleDevice
      (((markers 20).map (fun p => InputCall.ProcessInput p 1)).take 20)).m_vecData.size
      ≤ 16 :=
  ⟨by decide,
   (C1_queue_at_most_16 sampleDevice ((markers 20).map (fun p => InputCall.ProcessInput p 1))
      (by decide) 20).1⟩

/-- C2: on a queue whose counter is consistent, `ProcessInput(p, n)` on exactly 16 reports
`r :: rs` leaves `rs` followed by the payload, and on fewer than 16 reports it appends the
payload and removes nothing. -/
theorem C2_ProcessInput (d : CHIDDevice) (p : List Nat) (n : Nat)
    (hsize : d.m_vecData.size = d.m_vecData.m_pHead.length) (hn : n ≤ p.length) :
    (∀ r rs, d.m_vecData.reports = r :: rs → rs.length = 15 →
        (d.ProcessInput p n).m_vecData.reports = rs ++ [p.take n]) ∧
    (d.m_vecData.reports.length < 16 →
        (d.ProcessInput p n).m_vecData.reports = d.m_vecData.reports ++ [p.take n]) := by
  unfold hid_buffer_pool.reports
  simp only [hid_buffer_pool.size] at hsize
  constructor
  · intro r rs hr hlen
    have hl : d.m_vecData.m_pHead.length = 16 := by
      have := congrArg List.length hr
      simp at this; omega
    obtain ⟨e, he⟩ := ProcessInput_head d p n ⟨hsize, by omega⟩
    rw [he]
    simp only [hl, if_true, List.map_append, List.map_cons, List.map_nil,
      hid_buffer.report_assign _ _ _ hn]
    rw [List.map_tail, hr, List.tail_cons]
  · intro hlen
    simp only [List.length_map] at hlen
    obtain ⟨e, he⟩ := ProcessInput_head d p n ⟨hsize, by omega⟩
    rw [he]
    have : ¬ d.m_vecData.m_pHead.length = 16 := by omega
    simp only [this, if_false, List.map_append, List.map_cons, List.map_nil,
      hid_buffer.report_assign _ _ _ hn]

/-- Witness of C2: a seventeenth push on a full queue drops the oldest report `[1]`. -/
theorem C2_ProcessInput_witness :
    (pushAll sampleDevice (markers 16)).m_vecData.size =
      (pushAll sampleDevice (markers 16)).m_vecData.m_pHead.length ∧
    1 ≤ [99].length ∧
    ((pushAll sampleDevice (markers 16)).ProcessInput [99] 1).m_vecData.reports =
      (markers 16).tail ++ [[99]] :=
  ⟨by decide, by decide,
   (C2_ProcessInput (pushAll sampleDevice (markers 16)) [99] 1 (by decide) (by decide)).1
      [1] (markers 16).tail (by decide) (by decide)⟩

theorem toInt32_small (x : Nat) (h : x < 2147483648) : toInt32 x = Int.ofNat x := by
  unfold toInt32
  have : x % 4294967296 = x := Nat.mod_eq_of_lt (by omega)
  simp [this, h]
theorem lastN_append_lastN {α : Type} (k : Nat) (xs ys : List α) :
    lastN k (lastN k xs ++ ys) = lastN k (xs ++ ys) := by
  unfold lastN
  by_cases h : xs.length ≤ k
  · have : xs.length - k = 0 := by omega
    simp [this]
  · have e1 : (List.drop (xs.length - k) xs ++ ys).length - k = ys.length := by
      simp only [List.length_append, List.length_drop]; omega
    have e2 : (xs ++ ys).length - k = (xs.length - k) + ys.length := by
      simp only [List.length_append]; omega
    have e3 : List.drop (xs.length - k) (xs ++ ys) = List.drop (xs.length - k) xs ++ ys :=
      List.drop_append_of_le_length (by omega)
    rw [e1, e2, ← List.drop_drop, e3]

theorem lastN_snoc_16 {α : Type} (l : List α) (a : α) (h : l.length ≤ 16) :
    (if l.length = 16 then l.tail else l) ++ [a] = lastN 16 (l ++ [a]) := by
  unfold lastN
  by_cases hc : l.length = 16
  · simp only [hc, if_true, List.length_append, List.length_singleton]
    cases l with
    | nil => simp at hc
    | cons x xs => simp
  · have h1 : (l ++ [a]).length - 16 = 0 := by
      simp only [List.length_append, List.length_singleton]; omega
    rw [h1, List.drop_zero]
    simp [hc]

theorem view_assign (e : hid_buffer) (p : List Nat) :
    view (e.assign p p.length) = (p, p.length) := by
  unfold view
  rw [hid_buffer.report_assign _ _ _ (le_refl _)]
  simp [hid_buffer.size, hid_buffer.assign]

theorem pushAll_views (ps : List (List Nat)) (d : CHIDDevice) (h : QueueOk d.m_vecData) :
    QueueOk (pushAll d ps).m_vecData ∧
    (pushAll d ps).m_bIsBLESteamController = d.m_bIsBLESteamController ∧
    (pushAll d ps).m_vecData.m_pHead.map view =
      lastN 16 (d.m_vecData.m_pHead.map view ++ ps.map (fun p => (p, p.length))) := by
  induction ps generalizing d with
  | nil =>
    refine ⟨h, rfl, ?_⟩
    have h1 : (List.map view d.m_vecData.m_pHead ++
        List.map (fun p : List Nat => (p, p.length)) []).length - 16 = 0 := by
      have := h.2
      simp only [List.map_nil, List.append_nil, List.length_map]; omega
    unfold lastN
    rw [h1, List.drop_zero]
    simp [pushAll]
  | cons p ps ih =>
    have hok := ProcessInput_ok d p p.length h
    obtain ⟨i1, i2, i3⟩ := ih (d.ProcessInput p p.length) hok
    obtain ⟨e, he⟩ := ProcessInput_head d p p.length h
    have hstep : pushAll d (p :: ps) = pushAll (d.ProcessInput p p.length) ps := rfl
    rw [hstep]
    refine ⟨i1, by rw [i2]; rfl, ?_⟩
    rw [i3, he, List.map_append, List.map_cons, List.map_nil, view_assign]
    have hl : (List.map view d.m_vecData.m_pHead).length ≤ 16 := by simpa using h.2
    have := lastN_snoc_16 (List.map view d.m_vecData.m_pHead) (p, p.length) hl
    simp only [List.length_map] at this
    have hm : List.map view (if d.m_vecData.m_pHead.length = 16 then d.m_vecData.m_pHead.tail
        else d.m_vecData.m_pHead) =
        (if d.m_vecData.m_pHead.length = 16 then (List.map view d.m_vecData.m_pHead).tail
        else List.map view d.m_vecData.m_pHead) := by
      split <;> simp [List.map_tail]
    rw [hm, this, lastN_append_lastN]
    simp

theorem drain_views (bs : List hid_buffer) (d : CHIDDevice) (data : List Nat)
    (length fuel : Nat)
    (hble : d.m_bIsBLESteamController = false)
    (hq : d.m_vecData.m_pHead = bs) (hok : QueueOk d.m_vecData)
    (hb : ∀ b ∈ bs, (view b).1 ≠ [] ∧ (view b).2 = (view b).1.length ∧
        (view b).2 ≤ length ∧ (view b).2 < 2147483648)
    (hfuel : bs.length < fuel) :
    drain fuel d data length = bs.map (fun b => (view b).1) := by
  induction bs generalizing d data fuel with
  | nil =>
    cases fuel with
    | zero => simp at hfuel
    | succ f =>
      have h0 : d.m_vecData.m_nSize = 0 := by rw [hok.1, hq]; rfl
      simp [drain, CHIDDevice.GetInput, hid_buffer_pool.size, h0]
  | cons b bs ih =>
    cases fuel with
    | zero => simp at hfuel
    | succ f =>
      obtain ⟨hb1, hb2, hb3, hb4⟩ := hb b (List.mem_cons_self _ _)
      simp only [view, hid_buffer.report, hid_buffer.size, hid_buffer.data] at hb1 hb2 hb3 hb4
      have hsz : d.m_vecData.m_nSize = bs.length + 1 := by rw [hok.1, hq]; rfl
      have h0 : ¬ d.m_vecData.m_nSize = 0 := by omega
      have hfront : d.m_vecData.front = b := by simp [hid_buffer_pool.front, hq]
      have hpos : 0 < b.m_nSize := by
        rcases Nat.eq_zero_or_pos b.m_nSize with hz | hz
        · rw [hz] at hb1; simp at hb1
        · exact hz
      have hlen : b.m_nSize ≤ b.m_pData.length := by
        rw [List.length_take] at hb2; omega
      have hr : d.GetInput data length =
          (Int.ofNat b.m_nSize, memcpy data 0 b.m_pData b.m_nSize,
            { d with m_vecData := d.m_vecData.pop_front }) := by
        unfold CHIDDevice.GetInput
        have hgt : ¬ b.m_nSize > length := by omega
        simp only [hid_buffer_pool.size, h0, if_false, hble, hfront, hid_buffer.size,
          hid_buffer.data, hgt, toInt32_small _ hb4]
        rfl
      have hne : ¬ (Int.ofNat b.m_nSize = 0) := by
        intro hcon
        have : (b.m_nSize : Int) = 0 := hcon
        omega
      unfold drain
      simp only [hr, hne, if_false, List.map_cons]
      have htake : List.take (Int.ofNat b.m_nSize).toNat (memcpy data 0 b.m_pData b.m_nSize)
          = (view b).1 := by
        simp only [Int.toNat_ofNat, view, hid_buffer.report, hid_buffer.size, hid_buffer.data,
          memcpy_zero]
        rw [List.take_append_of_le_length (by simp [hlen])]
        simp [List.take_take]
      rw [htake]
      congr 1
      apply ih
      · exact hble
      · show d.m_vecData.pop_front.m_pHead = bs
        rw [pop_front_head, hq]; rfl
      · refine ⟨?_, ?_⟩
        · show d.m_vecData.pop_front.m_nSize = d.m_vecData.pop_front.m_pHead.length
          rw [pop_front_size _ hok.1 hok.2, pop_front_head]
        · show d.m_vecData.pop_front.m_pHead.length ≤ 16
          rw [pop_front_head, List.length_tail]; have := hok.2; omega
      · intro x hx; exact hb x (List.mem_cons_of_mem _ hx)
      · simp at hfuel; omega

/-- C3: for every sequence `ps` of non-empty payloads (each no longer than the reader's
buffer and shorter than `2 ^ 31` bytes, the range of the returned `int`) pushed with
`ProcessInput` onto the empty queue of a handle that is not a BLE Steam Controller, draining
with `GetInput` until it returns 0 (17 calls suffice) yields exactly the last
`min(n, 16)` payloads in push order. -/
theorem C3_drain (d : CHIDDevice) (ps : List (List Nat)) (data : List Nat)
    (length fuel : Nat)
    (hble : d.m_bIsBLESteamController = false)
    (hempty : d.m_vecData.size = 0 ∧ d.m_vecData.m_pHead = [])
    (hps : ∀ p ∈ ps, p ≠ [] ∧ p.length ≤ length ∧ p.length < 2147483648)
    (hfuel : 16 < fuel) :
    drain fuel (pushAll d ps) data length = ps.drop (ps.length - min ps.length 16) := by
  have h0 : QueueOk d.m_vecData := by
    obtain ⟨h1, h2⟩ := hempty
    simp only [hid_buffer_pool.size] at h1
    exact ⟨by rw [h1, h2]; rfl, by rw [h2]; simp⟩
  obtain ⟨q1, q2, q3⟩ := pushAll_views ps d h0
  rw [hempty.2, List.map_nil, List.nil_append] at q3
  have hmem : ∀ b ∈ (pushAll d ps).m_vecData.m_pHead, ∃ p ∈ ps, view b = (p, p.length) := by
    intro b hbm
    have : view b ∈ lastN 16 (ps.map (fun p => (p, p.length))) := by
      rw [← q3]; exact List.mem_map_of_mem _ hbm
    have := List.mem_of_mem_drop this
    obtain ⟨p, hp, hpe⟩ := List.mem_map.mp this
    exact ⟨p, hp, hpe.symm⟩
  rw [drain_views _ (pushAll d ps) data length fuel (by rw [q2]; exact hble) rfl q1 ?_ ?_]
  · have : List.map (fun b => (view b).1) (pushAll d ps).m_vecData.m_pHead =
        List.map Prod.fst (List.map view (pushAll d ps).m_vecData.m_pHead) := by
      simp [List.map_map]
    rw [this, q3]
    unfold lastN
    rw [List.map_drop, List.map_map]
    have hid : (Prod.fst ∘ fun p : List Nat => (p, p.length)) = id := by
      funext p; rfl
    rw [hid, List.map_id, List.length_map]
    congr 1
    omega
  · intro b hbm
    obtain ⟨p, hp, hpe⟩ := hmem b hbm
    obtain ⟨a1, a2, a3⟩ := hps p hp
    rw [hpe]
    exact ⟨a1, rfl, a2, a3⟩
  · have := q1.2; omega

/-- Witness of C3: twenty pushes of the marker bytes 1..20 drain as 5, 6, …, 20. -/
theorem C3_drain_witness :
    drain 17 (pushAll sampleDevice (markers 20)) [0] 1 =
      [[5], [6], [7], [8], [9], [10], [11], [12], [13], [14], [15], [16], [17], [18], [19],
       [20]] :=
  (C3_drain sampleDevice (markers 20) [0] 1 17 (by decide) (by decide) (by decide)
    (by decide)).trans (by decide)

/-! ### Reference counting -/

theorem cascade_none (next : Nat → hid_device_ref) (fuel : Nat) (heap : Heap) :
    releaseObject.cascade next fuel heap none = heap := by
  cases fuel <;> rfl

theorem releaseObject_none (next : Nat → hid_device_ref) (heap : Heap) :
    releaseObject next heap none = heap :=
  cascade_none next _ heap

theorem cascade_keep (next : Nat → hid_device_ref) (fuel : Nat) (heap : Heap) (a : Nat)
    (d : CHIDDevice) (hd : heap[a]? = some d) (h : d.m_nRefCount ≠ 1) :
    releaseObject.cascade next (fuel + 1) heap (some a) = heap.set a d.DecrementRefCount.2 := by
  have hne : ¬ d.DecrementRefCount.1 = 0 := by
    simp only [CHIDDevice.DecrementRefCount]
    omega
  rw [releaseObject.cascade]
  simp only [hd, if_neg hne]

theorem cascade_delete (next : Nat → hid_device_ref) (fuel : Nat) (heap : Heap) (a : Nat)
    (d : CHIDDevice) (hd : heap[a]? = some d) (h : d.m_nRefCount = 1) :
    releaseObject.cascade next (fuel + 1) heap (some a) =
      releaseObject.cascade next fuel (heap.set a d.DecrementRefCount.2.delete) (next a) := by
  have he : d.DecrementRefCount.1 = 0 := by
    simp only [CHIDDevice.DecrementRefCount]
    omega
  rw [releaseObject.cascade]
  simp only [hd, if_pos he]

theorem releaseObject_keep (next : Nat → hid_device_ref) (heap : Heap) (a : Nat)
    (d : CHIDDevice) (hd : heap[a]? = some d) (h : d.m_nRefCount ≠ 1) :
    releaseObject next heap (some a) = heap.set a d.DecrementRefCount.2 :=
  cascade_keep next _ heap a d hd h

theorem releaseObject_delete_null (next : Nat → hid_device_ref) (heap : Heap) (a : Nat)
    (d : CHIDDevice) (hd : heap[a]? = some d) (h : d.m_nRefCount = 1) (hn : next a = none) :
    releaseObject next heap (some a) = heap.set a d.DecrementRefCount.2.delete := by
  unfold releaseObject
  rw [cascade_delete next _ heap a d hd h, hn, cascade_none]

theorem getElem?_lt_of_some (heap : Heap) (a : Nat) (d : CHIDDevice) (hd : heap[a]? = some d) :
    a < heap.length := by
  by_contra hc
  rw [List.getElem?_eq_none (by omega)] at hd
  cases hd

theorem countOnes_le (heap : Heap) : countOnes heap ≤ heap.length :=
  List.countP_le_length _

theorem countOnes_set (heap : Heap) : ∀ (a : Nat) (d e : CHIDDevice), heap[a]? = some d →
    d.m_nRefCount = 1 → e.m_nRefCount ≠ 1 → countOnes (heap.set a e) + 1 = countOnes heap := by
  induction heap with
  | nil => intro a d e hd; cases hd
  | cons x xs ih =>
    intro a d e hd h1 h0
    cases a with
    | zero =>
      simp only [List.getElem?_cons_zero, Option.some.injEq] at hd
      subst hd
      simp [countOnes, List.countP_cons, h1, h0]
    | succ n =>
      simp only [List.getElem?_cons_succ] at hd
      have := ih n d e hd h1 h0
      simp only [countOnes, List.set_cons_succ, List.countP_cons] at this ⊢
      omega

/-- The cascade of destructors ends before the fuel does: more fuel than there are handles of
count 1 gives the same heap. -/
theorem cascade_fuel (next : Nat → hid_device_ref) :
    ∀ (fuel1 fuel2 : Nat) (heap : Heap) (m : hid_device_ref),
      countOnes heap < fuel1 → countOnes heap < fuel2 →
      releaseObject.cascade next fuel1 heap m = releaseObject.cascade next fuel2 heap m := by
  intro fuel1
  induction fuel1 with
  | zero => intro fuel2 heap m h; omega
  | succ f1 ih =>
    intro fuel2 heap m h1 h2
    cases m with
    | none => rw [cascade_none, cascade_none]
    | some a =>
      obtain ⟨f2, rfl⟩ : ∃ f2, fuel2 = f2 + 1 := ⟨fuel2 - 1, by omega⟩
      cases hd : heap[a]? with
      | none =>
        rw [releaseObject.cascade, releaseObject.cascade]
        simp only [hd]
      | some d =>
        by_cases hc : d.m_nRefCount = 1
        · rw [cascade_delete next f1 heap a d hd hc, cascade_delete next f2 heap a d hd hc]
          have hs := countOnes_set heap a d d.DecrementRefCount.2.delete hd hc
            (by simp only [CHIDDevice.DecrementRefCount, CHIDDevice.delete]; omega)
          exact ih f2 _ _ (by omega) (by omega)
        · rw [cascade_keep next f1 heap a d hd hc, cascade_keep next f2 heap a d hd hc]

/-- `releaseObject` does not run out of fuel: every larger bound gives the same heap. -/
theorem releaseObject_fuel (next : Nat → hid_device_ref) (heap : Heap) (m : hid_device_ref)
    (fuel : Nat) (h : heap.length + 1 ≤ fuel) :
    releaseObject.cascade next fuel heap m = releaseObject next heap m := by
  have := countOnes_le heap
  exact cascade_fuel next fuel (heap.length + 1) heap m (by omega) (by omega)

theorem acquireObject_getElem? (h : Heap) (p : hid_device_ref) (a : Nat) :
    (acquireObject h p)[a]? = (h[a]?).map (acquired p a) := by
  unfold acquireObject
  cases p with
  | none => cases h[a]? <;> simp [acquired]
  | some x =>
    by_cases hx : x = a
    · subst hx
      cases hd : h[x]? with
      | none => simp [hd]
      | some d =>
        have hlt : x < h.length := getElem?_lt_of_some h x d hd
        simp [hd, acquired, List.getElem?_set, hlt]
    · have hne : ¬ (some x = some a) := by simpa using hx
      cases hd : h[x]? with
      | none =>
        have hf : acquired (some x) a = fun d => d := by
          funext d; simp [acquired, hne]
        rw [hf]
        simp only [hd]
        cases h[a]? <;> simp
      | some d =>
        have hf : acquired (some x) a = fun d => d := by
          funext d; simp [acquired, hne]
        rw [hf]
        simp only [hd]
        rw [List.getElem?_set_ne hx]
        cases h[a]? <;> simp

/-- A handle whose count is 0 or less is not deleted by a cascade of destructors: its count
cannot reach 0 by a decrement. -/
theorem cascade_deletes (next : Nat → hid_device_ref) (a : Nat) :
    ∀ (fuel : Nat) (heap : Heap) (m : hid_device_ref) (x : CHIDDevice),
      heap[a]? = some x → x.m_nRefCount ≤ 0 →
      ∃ y, (releaseObject.cascade next fuel heap m)[a]? = some y ∧ y.deletes = x.deletes ∧
        y.m_nRefCount ≤ 0 := by
  intro fuel
  induction fuel with
  | zero =>
    intro heap m x hx h0
    cases m with
    | none => exact ⟨x, by rw [cascade_none]; exact hx, rfl, h0⟩
    | some c => exact ⟨x, by rw [releaseObject.cascade]; exact hx, rfl, h0⟩
  | succ f ih =>
    intro heap m x hx h0
    cases m with
    | none => exact ⟨x, by rw [cascade_none]; exact hx, rfl, h0⟩
    | some c =>
      cases hd : heap[c]? with
      | none =>
        refine ⟨x, ?_, rfl, h0⟩
        rw [releaseObject.cascade]
        simp only [hd]
        exact hx
      | some d =>
        by_cases hca : c = a
        · subst hca
          rw [hx] at hd
          cases hd
          rw [cascade_keep next f heap c x hx (by omega)]
          refine ⟨x.DecrementRefCount.2, ?_, rfl, ?_⟩
          · rw [List.getElem?_set_self (getElem?_lt_of_some heap c x hx)]
          · simp only [CHIDDevice.DecrementRefCount]
            omega
        · by_cases hc : d.m_nRefCount = 1
          · rw [cascade_delete next f heap c d hd hc]
            exact ih _ (next c) x (by rw [List.getElem?_set_ne hca]; exact hx) h0
          · rw [cascade_keep next f heap c d hd hc]
            exact ⟨x, by rw [List.getElem?_set_ne hca]; exact hx, rfl, h0⟩

/-- C5, the code at the failing input.  A reference `r` holds the handle at `a`, whose count
is 1 and whose member `next` holds the handle at `b`, whose count is 1 too and whose `next`
is null.  The statement `r = r->next`, which is `SetObject(p)` with `p` the handle at `b`,
first releases the handle at `a`: its count reaches 0, it is deleted, and its destructor
destroys `next`, which takes the count of the handle at `b` to 0 and deletes that handle;
then `r` is made to hold the deleted handle at `b` and its count is incremented to 1.  When
`r` is destroyed afterwards, the count reaches 0 again and the handle at `b` is deleted a
second time. -/
theorem C5_release_before_acquire (next : Nat → hid_device_ref) (heap : Heap) (a b : Nat)
    (da db : CHIDDevice) (hab : a ≠ b) (ha : heap[a]? = some da) (hb : heap[b]? = some db)
    (hca : da.m_nRefCount = 1) (hcb : db.m_nRefCount = 1)
    (hna : next a = some b) (hnb : next b = none) :
    (SetObject next heap (some a) (next a)).2 = some b ∧
    (SetObject next heap (some a) (next a)).1[a]? =
      some { da with m_nRefCount := 0, deletes := da.deletes + 1 } ∧
    (SetObject next heap (some a) (next a)).1[b]? =
      some { db with m_nRefCount := 1, deletes := db.deletes + 1 } ∧
    (SetObject next (SetObject next heap (some a) (next a)).1 (some b) none).1[b]? =
      some { db with m_nRefCount := 0, deletes := db.deletes + 2 } := by
  have hla : a < heap.length := getElem?_lt_of_some heap a da ha
  have hlb : b < heap.length := getElem?_lt_of_some heap b db hb
  have hda : da.DecrementRefCount.2.delete =
      { da with m_nRefCount := 0, deletes := da.deletes + 1 } := by
    simp only [CHIDDevice.DecrementRefCount, CHIDDevice.delete, hca]
    rfl
  have hdb : db.DecrementRefCount.2.delete =
      { db with m_nRefCount := 0, deletes := db.deletes + 1 } := by
    simp only [CHIDDevice.DecrementRefCount, CHIDDevice.delete, hcb]
    rfl
  have hb1 : (heap.set a da.DecrementRefCount.2.delete)[b]? = some db := by
    rw [List.getElem?_set_ne hab]; exact hb
  have hrel : releaseObject next heap (some a) =
      (heap.set a { da with m_nRefCount := 0, deletes := da.deletes + 1 }).set b
        { db with m_nRefCount := 0, deletes := db.deletes + 1 } := by
    unfold releaseObject
    obtain ⟨f, hf⟩ : ∃ f, heap.length = f + 1 := ⟨heap.length - 1, by omega⟩
    rw [hf, cascade_delete next (f + 1) heap a da ha hca, hna,
      cascade_delete next f _ b db hb1 hcb, hnb, cascade_none, hda, hdb]
  have hget : ∀ x, (SetObject next heap (some a) (next a)).1[x]? =
      (((heap.set a { da with m_nRefCount := 0, deletes := da.deletes + 1 }).set b
        { db with m_nRefCount := 0, deletes := db.deletes + 1 })[x]?).map
        (acquired (some b) x) := by
    intro x
    unfold SetObject
    simp only
    rw [acquireObject_getElem?, hrel, hna]
  have hb2 : (SetObject next heap (some a) (next a)).1[b]? =
      some { db with m_nRefCount := 1, deletes := db.deletes + 1 } := by
    rw [hget, List.getElem?_set_self (by simp only [List.length_set]; exact hlb)]
    simp only [Option.map_some', acquired, if_true, CHIDDevice.IncrementRefCount]
    rfl
  refine ⟨hna, ?_, hb2, ?_⟩
  · have hne : ¬ (some b : Option Nat) = some a := fun hx => hab (Option.some.inj hx).symm
    rw [hget, List.getElem?_set_ne (Ne.symm hab), List.getElem?_set_self hla]
    simp only [Option.map_some', acquired, if_neg hne]
  · have hacq : ∀ h2 : Heap, acquireObject h2 none = h2 := fun h2 => rfl
    generalize (SetObject next heap (some a) (next a)).1 = heap2 at hb2 ⊢
    unfold SetObject
    simp only [hacq]
    rw [releaseObject_delete_null next _ b _ hb2 rfl hnb,
      List.getElem?_set_self (getElem?_lt_of_some _ b _ hb2)]
    rfl

/-- Witness of C5: the reference `r` holds the handle with id 7, whose `next` holds the
handle with id 8; after `r = r->next` both are deleted and `r` holds the second, with count
1; after `r` is destroyed the second has been deleted twice. -/
theorem C5_release_before_acquire_witness :
    sampleChain.heap.map (fun d => (d.m_nId, d.m_nRefCount, d.deletes)) =
      [(7, 1, 0), (8, 1, 0)] ∧
    (sampleChain.step (.assignNext 0)).refs = [some 1] ∧
    (sampleChain.step (.assignNext 0)).heap[1]? =
      some { CHIDDevice.new 8 sampleInfo with m_nRefCount := 1, deletes := 1 } ∧
    (sampleChain.run [.assignNext 0, .destroy 0]).heap[1]? =
      some { CHIDDevice.new 8 sampleInfo with m_nRefCount := 0, deletes := 2 } :=
  have h := C5_release_before_acquire sampleChain.nextOf sampleChain.heap 0 1
    sampleRegistered { CHIDDevice.new 8 sampleInfo with m_nRefCount := 1 }
    (by decide) rfl rfl rfl rfl rfl rfl
  ⟨by decide, by decide, h.2.2.1, h.2.2.2⟩

/-! ### The registry and the public entry points -/

theorem getElem?_mid (pre : List CHIDDevice) (x : CHIDDevice) (post : List CHIDDevice) :
    (pre ++ x :: post)[pre.length]? = some x := by
  rw [List.getElem?_append_right (le_refl _)]
  simp

theorem set_mid (pre : List CHIDDevice) (x y : CHIDDevice) (post : List CHIDDevice) :
    (pre ++ x :: post).set pre.length y = pre ++ y :: post := by
  induction pre with
  | nil => rfl
  | cons a as ih => simp [ih]

theorem releaseObject_mid (next : Nat → hid_device_ref) (pre : List CHIDDevice)
    (d : CHIDDevice) (post : List CHIDDevice) (h : 1 ≤ d.m_nRefCount) :
    releaseObject next (pre ++ d.acquire :: post) (some pre.length) = pre ++ d :: post := by
  have hne : d.acquire.m_nRefCount ≠ 1 := by
    simp only [CHIDDevice.acquire, CHIDDevice.IncrementRefCount]
    omega
  rw [releaseObject_keep next _ pre.length d.acquire (getElem?_mid pre d.acquire post) hne,
    set_mid]
  have : d.acquire.DecrementRefCount.2 = d := by
    cases d
    simp [CHIDDevice.acquire, CHIDDevice.IncrementRefCount, CHIDDevice.DecrementRefCount]
  rw [this]

theorem acquireObject_mid (pre : List CHIDDevice) (d : CHIDDevice) (post : List CHIDDevice) :
    acquireObject (pre ++ d :: post) (some pre.length) = pre ++ d.acquire :: post := by
  unfold acquireObject
  simp only [getElem?_mid, set_mid]
  rfl

theorem loop_findAcquire (nDeviceId : Int) (post : List CHIDDevice) :
    ∀ (pre : List CHIDDevice) (d : CHIDDevice) (fuel : Nat), post.length + 1 < fuel →
      (∀ x ∈ d :: post, 1 ≤ x.m_nRefCount) →
      FindDevice.loop nDeviceId fuel (pre ++ d.acquire :: post) (some pre.length) =
        (pre ++ (findAcquire nDeviceId (d :: post)).1,
         (findAcquire nDeviceId (d :: post)).2.map (· + pre.length)) := by
  induction post with
  | nil =>
    intro pre d fuel hf hr
    obtain ⟨f, rfl⟩ : ∃ f, fuel = f + 1 := ⟨fuel - 1, by omega⟩
    obtain ⟨f2, rfl⟩ : ∃ f2, f = f2 + 1 := ⟨f - 1, by simp at hf; omega⟩
    unfold FindDevice.loop
    simp only [getElem?_mid]
    have hid : d.acquire.GetId = d.GetId := rfl
    by_cases hc : d.GetId = nDeviceId
    · simp [hid, hc, findAcquire]
    · have hn : nextRef (pre ++ [d.acquire]) pre.length = none := by
        simp [nextRef]
      simp only [hid, hc, if_false, hn, SetObject]
      rw [releaseObject_mid _ pre d [] (hr d (List.mem_cons_self _ _))]
      simp [acquireObject, FindDevice.loop, findAcquire, hc]
  | cons e post ih =>
    intro pre d fuel hf hr
    obtain ⟨f, rfl⟩ : ∃ f, fuel = f + 1 := ⟨fuel - 1, by omega⟩
    unfold FindDevice.loop
    simp only [getElem?_mid]
    have hid : d.acquire.GetId = d.GetId := rfl
    by_cases hc : d.GetId = nDeviceId
    · simp [hid, hc, findAcquire]
    · have hn : nextRef (pre ++ d.acquire :: e :: post) pre.length = some (pre.length + 1) := by
        simp [nextRef]
      simp only [hid, hc, if_false, hn, SetObject]
      rw [releaseObject_mid _ pre d (e :: post) (hr d (List.mem_cons_self _ _))]
      have e1 : pre ++ d :: e :: post = (pre ++ [d]) ++ e :: post := by simp
      have e2 : pre.length + 1 = (pre ++ [d]).length := by simp
      rw [e1, e2, acquireObject_mid, ih (pre ++ [d]) e f (by simp at hf; omega)
        (fun x hx => hr x (List.mem_cons_of_mem _ hx))]
      have e3 : findAcquire nDeviceId (d :: e :: post) =
          (d :: (findAcquire nDeviceId (e :: post)).1,
           (findAcquire nDeviceId (e :: post)).2.map (· + 1)) := by
        conv => lhs; unfold findAcquire
        simp [hc]
      rw [e3]
      simp only [List.append_assoc, List.singleton_append, List.length_append,
        List.length_singleton, Option.map_map]
      congr 1
      cases (findAcquire nDeviceId (e :: post)).2 with
      | none => rfl
      | some v => simp [Function.comp]; omega

theorem FindDevice_eq (g : Heap) (nDeviceId : Int) (hr : Registered g) :
    FindDevice g nDeviceId = findAcquire nDeviceId g := by
  cases g with
  | nil => simp [FindDevice, g_DevicesRef, SetObject, releaseObject_none, acquireObject,
      FindDevice.loop, findAcquire]
  | cons d post =>
    have h := loop_findAcquire nDeviceId post [] d ((d :: post).length + 1)
      (by simp) (fun x hx => hr x hx)
    simp only [List.nil_append, List.length_nil, Nat.add_zero] at h
    unfold FindDevice
    have h0 : g_DevicesRef (d :: post) = some 0 := by simp [g_DevicesRef]
    simp only [h0, SetObject]
    have h1 : releaseObject (nextRef (d :: post)) (d :: post) none = d :: post :=
      releaseObject_none _ _
    have h2 : acquireObject (d :: post) (some 0) = d.acquire :: post :=
      acquireObject_mid [] d post
    have hmap : ∀ o : Option Nat, o.map (fun x => x) = o := by
      intro o; cases o <;> rfl
    rw [h1, h2, h, hmap]

theorem findAcquire_found (nDeviceId : Int) (pre : List CHIDDevice) (d : CHIDDevice)
    (post : List CHIDDevice) (hpre : ∀ x ∈ pre, x.GetId ≠ nDeviceId)
    (hd : d.GetId = nDeviceId) :
    findAcquire nDeviceId (pre ++ d :: post) = (pre ++ d.acquire :: post, some pre.length) := by
  induction pre with
  | nil => simp [findAcquire, hd]
  | cons x xs ih =>
    have hx : ¬ x.GetId = nDeviceId := hpre x (List.mem_cons_self _ _)
    have := ih (fun y hy => hpre y (List.mem_cons_of_mem _ hy))
    simp [findAcquire, hx, this]

theorem findAcquire_none (nDeviceId : Int) (g : List CHIDDevice)
    (h : ∀ x ∈ g, x.GetId ≠ nDeviceId) : findAcquire nDeviceId g = (g, none) := by
  induction g with
  | nil => rfl
  | cons x xs ih =>
    have hx : ¬ x.GetId = nDeviceId := h x (List.mem_cons_self _ _)
    have := ih (fun y hy => h y (List.mem_cons_of_mem _ hy))
    simp [findAcquire, hx, this]

theorem findAcquire_none_iff (nDeviceId : Int) (g : List CHIDDevice) :
    (findAcquire nDeviceId g).2 = none ↔ ∀ x ∈ g, x.GetId ≠ nDeviceId := by
  induction g with
  | nil => simp [findAcquire]
  | cons x xs ih =>
    by_cases hx : x.GetId = nDeviceId
    · simp [findAcquire, hx]
    · simp [findAcquire, hx, ih]

theorem sampleRegistry_registered : Registered sampleRegistry := by
  unfold Registered; decide

theorem acquire_eq (d : CHIDDevice) :
    d.acquire = { d with m_nRefCount := d.m_nRefCount + 1 } := rfl

theorem FindDevice_found (g : Heap) (nDeviceId : Int) (hr : Registered g)
    (pre : List CHIDDevice) (d : CHIDDevice) (post : List CHIDDevice)
    (hg : g = pre ++ d :: post) (hpre : ∀ x ∈ pre, x.GetId ≠ nDeviceId)
    (hd : d.GetId = nDeviceId) :
    FindDevice g nDeviceId = (pre ++ d.acquire :: post, some pre.length) := by
  rw [FindDevice_eq g nDeviceId hr, hg]
  exact findAcquire_found nDeviceId pre d post hpre hd

theorem FindDevice_none (g : Heap) (nDeviceId : Int) (hr : Registered g)
    (h : ∀ x ∈ g, x.GetId ≠ nDeviceId) : FindDevice g nDeviceId = (g, none) := by
  rw [FindDevice_eq g nDeviceId hr]
  exact findAcquire_none nDeviceId g h

/-- C6: on a registry whose handles are all referenced, `FindDevice(id)` returns a reference
to the first handle of the chain whose `GetId()` is `id`, and the empty reference if and only
if no handle has that id; the handle returned has its count raised by exactly one, and every
other handle and the order of the chain are unchanged. -/
theorem C6_FindDevice (g : Heap) (nDeviceId : Int) (hr : Registered g) :
    (∀ (pre : List CHIDDevice) (d : CHIDDevice) (post : List CHIDDevice),
      g = pre ++ d :: post → (∀ x ∈ pre, x.GetId ≠ nDeviceId) → d.GetId = nDeviceId →
      FindDevice g nDeviceId =
        (pre ++ { d with m_nRefCount := d.m_nRefCount + 1 } :: post, some pre.length)) ∧
    ((FindDevice g nDeviceId).2 = none ↔ ∀ x ∈ g, x.GetId ≠ nDeviceId) ∧
    ((∀ x ∈ g, x.GetId ≠ nDeviceId) → (FindDevice g nDeviceId).1 = g) := by
  refine ⟨?_, ?_, ?_⟩
  · intro pre d post hg hpre hd
    exact FindDevice_found g nDeviceId hr pre d post hg hpre hd
  · rw [FindDevice_eq g nDeviceId hr]
    exact findAcquire_none_iff nDeviceId g
  · intro h
    rw [FindDevice_none g nDeviceId hr h]

/-- Witness of C6: looking up id 8 in the sample registry returns the second handle, whose
count goes from 1 to 2. -/
theorem C6_FindDevice_witness :
    Registered sampleRegistry ∧
    FindDevice sampleRegistry 8 =
      ([{ sampleDevice with m_nRefCount := 1 },
        { CHIDDevice.new 8 sampleInfo with m_nRefCount := 2 }], some 1) :=
  ⟨sampleRegistry_registered,
   (C6_FindDevice sampleRegistry 8 sampleRegistry_registered).1
     [{ sampleDevice with m_nRefCount := 1 }]
     { CHIDDevice.new 8 sampleInfo with m_nRefCount := 1 } [] rfl (by decide) rfl⟩

theorem releaseLocal_none (g : Heap) : releaseLocal g none = g := rfl

theorem releaseLocal_mid (pre : List CHIDDevice) (d : CHIDDevice) (post : List CHIDDevice)
    (h : 1 ≤ d.m_nRefCount) :
    releaseLocal (pre ++ d.acquire :: post) (some pre.length) = pre ++ d :: post := by
  unfold releaseLocal SetObject
  simp only [releaseObject_mid _ pre d post h]
  rfl

/-- C7: for a null device, or a device whose `m_nId` matches no handle of the registry,
`hid_write`, `hid_send_feature_report`, `hid_read_timeout`, `hid_read`,
`hid_get_feature_report`, `hid_get_input_report` and the three string getters return -1 and
`hid_get_device_info` returns `NULL`, for every other argument, and the registry and the
caller's buffers are unchanged. -/
theorem C7_device_not_found (g : Heap) (device : Option hid_device_)
    (h : ∀ dev, device = some dev → Registered g ∧ ∀ x ∈ g, x.GetId ≠ dev.m_nId)
    (data : List Nat) (length : Nat) (milliseconds : Int) (clock : List Nat)
    (string : List Nat) (maxlen : Nat) :
    hid_write g device data length = (-1, g) ∧
    hid_send_feature_report g device data length = (-1, g) ∧
    hid_read_timeout g device data length milliseconds clock = some (-1, data, g) ∧
    hid_read g device data length = some (-1, data, g) ∧
    hid_get_feature_report g device data length = (-1, data, g) ∧
    hid_get_input_report g device data length = (-1, data, g) ∧
    hid_get_manufacturer_string g device string maxlen = (-1, string, g) ∧
    hid_get_product_string g device string maxlen = (-1, string, g) ∧
    hid_get_serial_number_string g device string maxlen = (-1, string, g) ∧
    hid_get_device_info g device = (none, g) := by
  cases device with
  | none => exact ⟨rfl, rfl, rfl, rfl, rfl, rfl, rfl, rfl, rfl, rfl⟩
  | some dev =>
    obtain ⟨hr, hne⟩ := h dev rfl
    have hf := FindDevice_none g dev.m_nId hr hne
    refine ⟨?_, ?_, ?_, ?_, ?_, ?_, ?_, ?_, ?_, ?_⟩ <;>
      simp [hid_write, hid_send_feature_report, hid_read_timeout, hid_read,
        hid_get_feature_report, hid_get_input_report, hid_get_manufacturer_string,
        hid_get_product_string, hid_get_serial_number_string,
        hid_get_device_info, hf, releaseLocal_none]

/-- Witness of C7: a device with id 9 on the sample registry, whose ids are 7 and 8. -/
theorem C7_device_not_found_witness :
    (∀ dev, some (⟨9, 1⟩ : hid_device_) = some dev →
      Registered sampleRegistry ∧ ∀ x ∈ sampleRegistry, x.GetId ≠ dev.m_nId) ∧
    hid_write sampleRegistry (some ⟨9, 1⟩) [1, 2] 2 = (-1, sampleRegistry) ∧
    hid_read_timeout sampleRegistry (some ⟨9, 1⟩) [0, 0] 2 5 [0, 10] =
      some (-1, [0, 0], sampleRegistry) :=
  have h : ∀ dev, some (⟨9, 1⟩ : hid_device_) = some dev →
      Registered sampleRegistry ∧ ∀ x ∈ sampleRegistry, x.GetId ≠ dev.m_nId := by
    intro dev hd
    cases hd
    exact ⟨sampleRegistry_registered, by decide⟩
  ⟨h, (C7_device_not_found sampleRegistry (some ⟨9, 1⟩) h [1, 2] 2 5 [0, 10] [] 0).1,
   (C7_device_not_found sampleRegistry (some ⟨9, 1⟩) h [0, 0] 2 5 [0, 10] [] 0).2.2.1⟩

/-- The part of `hid_read_timeout` after the handle has been found, on a registered
handle: the handle is read with one more reference and gets it back afterwards. -/
theorem hid_read_timeout_found (g : Heap) (dev : hid_device_) (hr : Registered g)
    (pre : List CHIDDevice) (d : CHIDDevice) (post : List CHIDDevice)
    (hg : g = pre ++ d :: post) (hpre : ∀ x ∈ pre, x.GetId ≠ dev.m_nId)
    (hd : d.GetId = dev.m_nId)
    (data : List Nat) (length : Nat) (milliseconds : Int) (clock : List Nat) :
    hid_read_timeout g (some dev) data length milliseconds clock =
      (hid_read_timeout.onDevice d.acquire data length milliseconds clock).map
        (fun res => (res.1, res.2.1,
          releaseLocal (pre ++ res.2.2 :: post) (some pre.length))) := by
  unfold hid_read_timeout
  simp only [FindDevice_found g dev.m_nId hr pre d post hg hpre hd, getElem?_mid, set_mid]

theorem GetInput_acquire (d : CHIDDevice) (data : List Nat) (length : Nat) :
    d.acquire.GetInput data length =
      ((d.GetInput data length).1, (d.GetInput data length).2.1,
        (d.GetInput data length).2.2.acquire) := by
  unfold CHIDDevice.GetInput
  have h1 : d.acquire.m_vecData = d.m_vecData := rfl
  have h2 : d.acquire.m_bIsBLESteamController = d.m_bIsBLESteamController := rfl
  rw [h1, h2]
  by_cases h0 : d.m_vecData.size = 0
  · simp [h0]
  · by_cases hb : d.m_bIsBLESteamController = true
    · simp [h0, hb]; rfl
    · simp [h0, hb]; rfl

theorem GetInput_refcount (d : CHIDDevice) (data : List Nat) (length : Nat) :
    (d.GetInput data length).2.2.m_nRefCount = d.m_nRefCount := by
  unfold CHIDDevice.GetInput
  by_cases h0 : d.m_vecData.size = 0
  · simp [h0]
  · by_cases hb : d.m_bIsBLESteamController = true
    · simp [h0, hb]
    · simp [h0, hb]

/-- C8: for a registered device whose report queue is empty, `hid_read_timeout` with
`milliseconds <= 0`, and hence `hid_read`, returns 0, leaves the caller's buffer as it was and
leaves the registry, the empty queue included, as it was. -/
theorem C8_read_empty (g : Heap) (dev : hid_device_) (hr : Registered g)
    (pre : List CHIDDevice) (d : CHIDDevice) (post : List CHIDDevice)
    (hg : g = pre ++ d :: post) (hpre : ∀ x ∈ pre, x.GetId ≠ dev.m_nId)
    (hd : d.GetId = dev.m_nId) (hempty : d.m_vecData.size = 0)
    (data : List Nat) (length : Nat) (milliseconds : Int) (hms : milliseconds ≤ 0)
    (clock : List Nat) :
    hid_read_timeout g (some dev) data length milliseconds clock = some (0, data, g) ∧
    hid_read g (some dev) data length = some (0, data, g) := by
  have hrc : 1 ≤ d.m_nRefCount := hr d (by rw [hg]; simp)
  have key : ∀ (ms : Int) (cl : List Nat), ms ≤ 0 →
      hid_read_timeout g (some dev) data length ms cl = some (0, data, g) := by
    intro ms cl hle
    rw [hid_read_timeout_found g dev hr pre d post hg hpre hd]
    have hg0 : d.GetInput data length = (0, data, d) := by
      unfold CHIDDevice.GetInput
      simp [hempty]
    unfold hid_read_timeout.onDevice
    simp only [GetInput_acquire, hg0]
    split
    · rename_i hcon
      have := hcon.2
      omega
    · simp only [Option.map_some', releaseLocal_mid pre d post hrc, hg]
  exact ⟨key milliseconds clock hms, key 0 [] (le_refl _)⟩

/-- Witness of C8: reading the device with id 8 of the sample registry, whose queue is
empty. -/
theorem C8_read_empty_witness :
    Registered sampleRegistry ∧
    hid_read_timeout sampleRegistry (some ⟨8, 1⟩) [0, 0] 2 0 [] =
      some (0, [0, 0], sampleRegistry) :=
  ⟨sampleRegistry_registered,
   (C8_read_empty sampleRegistry ⟨8, 1⟩ sampleRegistry_registered
      [{ sampleDevice with m_nRefCount := 1 }]
      { CHIDDevice.new 8 sampleInfo with m_nRefCount := 1 } [] rfl (by decide) rfl rfl
      [0, 0] 2 0 (by decide) []).1⟩

/-- A read that yields at least one byte: for a registered device that is not a BLE Steam
Controller and whose queue is non-empty with an oldest report of `n` bytes, when
`min(n, length)` is at least 1 and in the range of `int`,
`hid_read_timeout(device, data, length, ms)` returns `min(n, length)`, the first
`min(n, length)` bytes of `data` are the first bytes of that report, the rest of `data` is
unchanged, and exactly that oldest report is removed from the queue. -/
theorem hid_read_timeout_oldest (g : Heap) (dev : hid_device_) (hr : Registered g)
    (pre : List CHIDDevice) (d : CHIDDevice) (post : List CHIDDevice)
    (hg : g = pre ++ d :: post) (hpre : ∀ x ∈ pre, x.GetId ≠ dev.m_nId)
    (hd : d.GetId = dev.m_nId) (hble : d.m_bIsBLESteamController = false)
    (b : hid_buffer) (rest : List hid_buffer)
    (hq : d.m_vecData.m_pHead = b :: rest) (hsize : d.m_vecData.size ≠ 0)
    (hbuf : b.size ≤ b.data.length)
    (data : List Nat) (length : Nat) (milliseconds : Int) (clock : List Nat)
    (hpos : 0 < min b.size length)
    (hint : min b.size length < 2147483648) :
    hid_read_timeout g (some dev) data length milliseconds clock =
      some (Int.ofNat (min b.size length), memcpy data 0 b.data (min b.size length),
        pre ++ { d with m_vecData := d.m_vecData.pop_front } :: post) ∧
    (memcpy data 0 b.data (min b.size length)).take (min b.size length) =
      b.report.take (min b.size length) ∧
    (memcpy data 0 b.data (min b.size length)).drop (min b.size length) =
      data.drop (min b.size length) ∧
    d.m_vecData.pop_front.reports = rest.map hid_buffer.report := by
  have hrc : 1 ≤ d.m_nRefCount := hr d (by rw [hg]; simp)
  have hfront : d.m_vecData.front = b := by simp [hid_buffer_pool.front, hq]
  have hmin : (if b.size > length then length else b.size) = min b.size length := by
    split <;> omega
  have hget : d.GetInput data length =
      (Int.ofNat (min b.size length), memcpy data 0 b.data (min b.size length),
        { d with m_vecData := d.m_vecData.pop_front }) := by
    unfold CHIDDevice.GetInput
    simp only [hsize, if_false, hble, hfront, hmin, toInt32_small _ hint]
    rfl
  have hklen : min b.size length ≤ b.data.length := by omega
  refine ⟨?_, ?_, ?_, ?_⟩
  · rw [hid_read_timeout_found g dev hr pre d post hg hpre hd]
    unfold hid_read_timeout.onDevice
    simp only [GetInput_acquire, hget]
    split
    · rename_i hcon
      have h1 : ((min b.size length : Nat) : Int) = 0 := hcon.1
      have h2 := hcon.2
      omega
    · have hrel :=
        releaseLocal_mid pre { d with m_vecData := d.m_vecData.pop_front } post hrc
      simp only [Option.map_some', hrel]
  · rw [memcpy_zero, List.take_append_of_le_length (by simp; omega)]
    simp only [hid_buffer.report, List.take_take]
    congr 1
    omega
  · rw [memcpy_zero, List.drop_append_of_le_length (by simp; omega)]
    rw [List.drop_of_length_le (by simp)]
    simp
  · unfold hid_buffer_pool.reports
    rw [pop_front_head, hq]
    rfl

/-- C9, the code at the failing input.  The queue of the registered handle with id 7 holds
an empty report and the report `[5]`.  `hid_read_timeout(device, data, 2, 1)` returns 1,
not `min(0, 2) = 0`, with the byte 5 in `data`, and leaves the queue empty: the first
`GetInput` removes the empty report and returns 0, which the polling loop reads as no data,
and the second `GetInput` removes the report `[5]` too.  With `milliseconds = 0` the same
call returns 0 and removes the empty report only. -/
theorem C9_read_removes_two :
    Registered [sampleQueued] ∧ sampleQueued.m_bIsBLESteamController = false ∧
    sampleQueued.m_vecData.reports = [[], [5]] ∧
    (hid_read_timeout [sampleQueued] (some ⟨7, 1⟩) [0, 0] 2 1 [0]).map
      (fun r => (r.1, r.2.1, r.2.2.map (fun d => d.m_vecData.reports))) =
      some (1, [5, 0], [[]]) ∧
    (hid_read_timeout [sampleQueued] (some ⟨7, 1⟩) [0, 0] 2 0 []).map
      (fun r => (r.1, r.2.1, r.2.2.map (fun d => d.m_vecData.reports))) =
      some (0, [0, 0], [[[5]]]) := by
  refine ⟨by unfold Registered; decide, by decide, by decide, by decide, by decide⟩

/-- C10, the code at the failing input.  On a registered handle that has been sent the
response bytes `1, 2, 3`, `hid_get_feature_report` and `hid_get_input_report` return 0 and
leave the caller's buffer untouched: on the handle as the code builds it (no request is ever
posted, so `ProcessReportResponse` drops the bytes), and also on a handle whose slot was
awaiting and now holds the bytes. -/
theorem C10_get_report_returns_zero :
    (sampleRegistered.ProcessReportResponse [1, 2, 3] 3 = sampleRegistered ∧
     hid_get_feature_report [sampleRegistered] (some ⟨7, 1⟩) [0, 0, 0, 0] 4 =
       (0, [0, 0, 0, 0], [sampleRegistered]) ∧
     hid_get_input_report [sampleRegistered] (some ⟨7, 1⟩) [0, 0, 0, 0] 4 =
       (0, [0, 0, 0, 0], [sampleRegistered])) ∧
    ((sampleAwaiting.ProcessReportResponse [1, 2, 3] 3).m_reportResponse.report = [1, 2, 3] ∧
     hid_get_feature_report [sampleAwaiting.ProcessReportResponse [1, 2, 3] 3]
       (some ⟨7, 1⟩) [0, 0, 0, 0] 4 =
       (0, [0, 0, 0, 0], [sampleAwaiting.ProcessReportResponse [1, 2, 3] 3]) ∧
     hid_get_input_report [sampleAwaiting.ProcessReportResponse [1, 2, 3] 3]
       (some ⟨7, 1⟩) [0, 0, 0, 0] 4 =
       (0, [0, 0, 0, 0], [sampleAwaiting.ProcessReportResponse [1, 2, 3] 3])) := by
  decide


/-! ### The report response slot -/

/-- C11: `ProcessReportResponse` called on a handle while no request is awaiting leaves the
handle, and so its response buffer, error code and awaiting flag, unchanged for every bytes
argument; in particular a callback that arrives after a response has been processed, stale or
duplicate, changes nothing. -/
theorem C11_stale_response (d : CHIDDevice) (pBuf : List Nat) (nBufSize : Nat)
    (h : d.m_bIsWaitingForReportResponse = false) :
    d.ProcessReportResponse pBuf nBufSize = d ∧
    ∀ (e : CHIDDevice) (b : List Nat) (m : Nat),
      (e.ProcessReportResponse b m).ProcessReportResponse pBuf nBufSize =
        e.ProcessReportResponse b m := by
  constructor
  · simp [CHIDDevice.ProcessReportResponse, h]
  · intro e b m
    by_cases he : e.m_bIsWaitingForReportResponse = true
    · simp [CHIDDevice.ProcessReportResponse, he]
    · simp [CHIDDevice.ProcessReportResponse, he]

/-- Witness of C11: a response sent to a handle that awaits nothing, and a second response
sent after a first one has completed the request. -/
theorem C11_stale_response_witness :
    sampleRegistered.m_bIsWaitingForReportResponse = false ∧
    sampleRegistered.ProcessReportResponse [1, 2, 3] 3 = sampleRegistered ∧
    (sampleAwaiting.ProcessReportResponse [4, 5] 2).ProcessReportResponse [1, 2, 3] 3 =
      sampleAwaiting.ProcessReportResponse [4, 5] 2 :=
  ⟨rfl, (C11_stale_response sampleRegistered [1, 2, 3] 3 rfl).1,
   (C11_stale_response sampleRegistered [1, 2, 3] 3 rfl).2 sampleAwaiting [4, 5] 2⟩

/-! ### `hid_init` -/

theorem hid_init_initialized (s : InitState) (r h : Bool) (hs : s.g_initialized = true) :
    hid_init s r h = (0, s) := by
  simp [hid_init, hs]

theorem hid_init_unregistered (s : InitState) (h : Bool) :
    hid_init s false h = (0, s) := by
  simp [hid_init]

theorem hid_init_first (s : InitState) (h : Bool) (hs : s.g_initialized = false) :
    hid_init s true h =
      (0, { g_initialized := true, handshakes := s.handshakes ++ [(true, h)] }) := by
  cases h <;> simp [hid_init, hs, OHOSSDKVersion]

theorem after_initialized (calls : List (Bool × Bool)) (s : InitState)
    (hs : s.g_initialized = true) : hid_init.after s calls = s := by
  induction calls with
  | nil => rfl
  | cons c cs ih =>
    unfold hid_init.after at ih ⊢
    rw [List.foldl_cons, hid_init_initialized s c.1 c.2 hs]
    exact ih

theorem after_uninitialized (calls : List (Bool × Bool)) (s : InitState)
    (hs : s.g_initialized = false) :
    hid_init.after s calls =
      match calls.find? (fun c => c.1) with
      | none => s
      | some c => { g_initialized := true, handshakes := s.handshakes ++ [(true, c.2)] } := by
  induction calls with
  | nil => rfl
  | cons c cs ih =>
    obtain ⟨r, h⟩ := c
    cases r with
    | false =>
      have e : hid_init.after s ((false, h) :: cs) = hid_init.after s cs := by
        unfold hid_init.after
        rw [List.foldl_cons, hid_init_unregistered]
      rw [e, ih]
      simp [List.find?]
    | true =>
      have e : hid_init.after s ((true, h) :: cs) =
          hid_init.after { g_initialized := true, handshakes := s.handshakes ++ [(true, h)] }
            cs := by
        unfold hid_init.after
        rw [List.foldl_cons, hid_init_first s h hs]
      rw [e, after_initialized cs _ rfl]
      simp [List.find?]

/-- C20: over every sequence of `hid_init` calls each call returns 0; the handshake with the
external service is logged at most once; from a state that is not initialised it is done by
the first call made while the initialise callback is registered, with that call's Bluetooth
hint; a call made after that, or made while the callback is not registered, changes no
state. -/
theorem C20_hid_init (s : InitState) (calls : List (Bool × Bool)) :
    (∀ (t : InitState) (r h : Bool), (hid_init t r h).1 = 0) ∧
    (hid_init.after s calls).handshakes.length ≤ s.handshakes.length + 1 ∧
    (s.g_initialized = false →
      hid_init.after s calls =
        match calls.find? (fun c => c.1) with
        | none => s
        | some c =>
          { g_initialized := true, handshakes := s.handshakes ++ [(true, c.2)] }) ∧
    (s.g_initialized = true → hid_init.after s calls = s) ∧
    (∀ (t : InitState) (r h : Bool), t.g_initialized = true ∨ r = false →
      hid_init t r h = (0, t)) := by
  refine ⟨?_, ?_, after_uninitialized calls s, after_initialized calls s, ?_⟩
  · intro t r h
    unfold hid_init
    split <;> rfl
  · cases hs : s.g_initialized with
    | true => rw [after_initialized calls s hs]; omega
    | false =>
      rw [after_uninitialized calls s hs]
      cases calls.find? (fun c => c.1) with
      | none => simp
      | some c => simp
  · intro t r h hor
    rcases hor with ht | hr
    · exact hid_init_initialized t r h ht
    · subst hr; exact hid_init_unregistered t h

/-- Witness of C20: three calls, the callback registered from the second on: one handshake,
with the hint of the second call. -/
theorem C20_hid_init_witness :
    (⟨false, []⟩ : InitState).g_initialized = false ∧
    hid_init.after ⟨false, []⟩ [(false, true), (true, false), (true, true)] =
      ⟨true, [(true, false)]⟩ :=
  ⟨rfl, ((C20_hid_init ⟨false, []⟩ [(false, true), (true, false), (true, true)]).2.2.1
    rfl).trans (by decide)⟩

/-! ### Opening and closing sessions -/

theorem loop_findPathAcquire (path : List Nat) (post : List CHIDDevice) :
    ∀ (pre : List CHIDDevice) (d : CHIDDevice) (fuel : Nat), post.length + 1 < fuel →
      (∀ x ∈ d :: post, 1 ≤ x.m_nRefCount) →
      hid_open_path.loop path fuel (pre ++ d.acquire :: post) (some pre.length) =
        (pre ++ (findPathAcquire path (d :: post)).1,
         (findPathAcquire path (d :: post)).2.map (· + pre.length)) := by
  induction post with
  | nil =>
    intro pre d fuel hf hr
    obtain ⟨f, rfl⟩ : ∃ f, fuel = f + 1 := ⟨fuel - 1, by omega⟩
    obtain ⟨f2, rfl⟩ : ∃ f2, f = f2 + 1 := ⟨f - 1, by simp at hf; omega⟩
    unfold hid_open_path.loop
    simp only [getElem?_mid]
    have hid : d.acquire.GetDeviceInfo = d.GetDeviceInfo := rfl
    by_cases hc : d.GetDeviceInfo.path = path
    · simp [hid, hc, findPathAcquire]
    · have hn : nextRef (pre ++ [d.acquire]) pre.length = none := by
        simp [nextRef]
      simp only [hid, hc, if_false, hn, SetObject]
      rw [releaseObject_mid _ pre d [] (hr d (List.mem_cons_self _ _))]
      simp [acquireObject, hid_open_path.loop, findPathAcquire, hc]
  | cons e post ih =>
    intro pre d fuel hf hr
    obtain ⟨f, rfl⟩ : ∃ f, fuel = f + 1 := ⟨fuel - 1, by omega⟩
    unfold hid_open_path.loop
    simp only [getElem?_mid]
    have hid : d.acquire.GetDeviceInfo = d.GetDeviceInfo := rfl
    by_cases hc : d.GetDeviceInfo.path = path
    · simp [hid, hc, findPathAcquire]
    · have hn : nextRef (pre ++ d.acquire :: e :: post) pre.length = some (pre.length + 1) := by
        simp [nextRef]
      simp only [hid, hc, if_false, hn, SetObject]
      rw [releaseObject_mid _ pre d (e :: post) (hr d (List.mem_cons_self _ _))]
      have e1 : pre ++ d :: e :: post = (pre ++ [d]) ++ e :: post := by simp
      have e2 : pre.length + 1 = (pre ++ [d]).length := by simp
      rw [e1, e2, acquireObject_mid, ih (pre ++ [d]) e f (by simp at hf; omega)
        (fun x hx => hr x (List.mem_cons_of_mem _ hx))]
      have e3 : findPathAcquire path (d :: e :: post) =
          (d :: (findPathAcquire path (e :: post)).1,
           (findPathAcquire path (e :: post)).2.map (· + 1)) := by
        conv => lhs; unfold findPathAcquire
        simp [hc]
      rw [e3]
      simp only [List.append_assoc, List.singleton_append, List.length_append,
        List.length_singleton, Option.map_map]
      congr 1
      cases (findPathAcquire path (e :: post)).2 with
      | none => rfl
      | some v => simp [Function.comp]; omega

theorem open_search_eq (g : Heap) (path : List Nat) (hr : Registered g) :
    hid_open_path.loop path (g.length + 1) (SetObject (nextRef g) g none (g_DevicesRef g)).1
      (SetObject (nextRef g) g none (g_DevicesRef g)).2 = findPathAcquire path g := by
  cases g with
  | nil => simp [g_DevicesRef, SetObject, releaseObject_none, acquireObject,
      hid_open_path.loop, findPathAcquire]
  | cons d post =>
    have h := loop_findPathAcquire path post [] d ((d :: post).length + 1)
      (by simp) (fun x hx => hr x hx)
    simp only [List.nil_append, List.length_nil, Nat.add_zero] at h
    have h0 : g_DevicesRef (d :: post) = some 0 := by simp [g_DevicesRef]
    simp only [h0, SetObject]
    have h1 : releaseObject (nextRef (d :: post)) (d :: post) none = d :: post :=
      releaseObject_none _ _
    have h2 : acquireObject (d :: post) (some 0) = d.acquire :: post :=
      acquireObject_mid [] d post
    have hmap : ∀ o : Option Nat, o.map (fun x => x) = o := by
      intro o; cases o <;> rfl
    rw [h1, h2, h, hmap]

theorem findPathAcquire_found (path : List Nat) (pre : List CHIDDevice) (d : CHIDDevice)
    (post : List CHIDDevice) (hpre : ∀ x ∈ pre, x.GetDeviceInfo.path ≠ path)
    (hd : d.GetDeviceInfo.path = path) :
    findPathAcquire path (pre ++ d :: post) = (pre ++ d.acquire :: post, some pre.length) := by
  induction pre with
  | nil => simp [findPathAcquire, hd]
  | cons x xs ih =>
    have hx : ¬ x.GetDeviceInfo.path = path := hpre x (List.mem_cons_self _ _)
    have := ih (fun y hy => hpre y (List.mem_cons_of_mem _ hy))
    simp [findPathAcquire, hx, this]

theorem findPathAcquire_none (path : List Nat) (g : List CHIDDevice)
    (h : ∀ x ∈ g, x.GetDeviceInfo.path ≠ path) : findPathAcquire path g = (g, none) := by
  induction g with
  | nil => rfl
  | cons x xs ih =>
    have hx : ¬ x.GetDeviceInfo.path = path := h x (List.mem_cons_self _ _)
    have := ih (fun y hy => h y (List.mem_cons_of_mem _ hy))
    simp [findPathAcquire, hx, this]

/-- `hid_open_path` when no handle of the registry has the path. -/
theorem hid_open_path_no_entry (s : HidState) (path : List Nat) (reply : OpenReply)
    (hr : Registered s.g_Devices) (h : ∀ x ∈ s.g_Devices, x.GetDeviceInfo.path ≠ path) :
    hid_open_path s path reply = (none, s) := by
  obtain ⟨g, ss, opens, closes⟩ := s
  have hs := open_search_eq g path hr
  rw [findPathAcquire_none path g h] at hs
  unfold hid_open_path
  simp only [hs, Option.none_bind, releaseLocal_none]

/-- `hid_open_path` when the first handle with the path has a session object. -/
theorem hid_open_path_live (s : HidState) (path : List Nat) (reply : OpenReply)
    (hr : Registered s.g_Devices)
    (pre : List CHIDDevice) (d : CHIDDevice) (post : List CHIDDevice)
    (hg : s.g_Devices = pre ++ d :: post)
    (hpre : ∀ x ∈ pre, x.GetDeviceInfo.path ≠ path) (hd : d.GetDeviceInfo.path = path)
    (p : Nat) (hp : d.GetDevice = some p) (v : hid_device_)
    (hv : s.sessions[p]? = some (some v)) :
    hid_open_path s path reply =
      (some p,
       { s with
         sessions := List.set s.sessions p
           (some { v with m_nDeviceRefCount := v.m_nDeviceRefCount + 1 }) }) := by
  obtain ⟨g, ss, opens, closes⟩ := s
  simp only at hg hr hv
  subst hg
  have hrc : 1 ≤ d.m_nRefCount := hr d (by simp)
  have hp2 : d.acquire.GetDevice = some p := hp
  have hs := open_search_eq (pre ++ d :: post) path hr
  rw [findPathAcquire_found path pre d post hpre hd] at hs
  unfold hid_open_path
  simp only [hs, Option.some_bind, getElem?_mid, Option.map_some', hp2, hv,
    releaseLocal_mid pre d post hrc]

theorem BOpen_eq (d : CHIDDevice) (reply : OpenReply) (sessions : Sessions) :
    d.BOpen reply sessions =
      if reply.outcome then
        (true, { d.afterWait reply with m_pDevice := some sessions.length },
          sessions ++ [some { m_nId := d.m_nId, m_nDeviceRefCount := 1 }])
      else (false, d.afterWait reply, sessions) := by
  obtain ⟨result, pending, completion⟩ := reply
  cases result <;> cases pending <;> cases completion with
  | none => simp [CHIDDevice.BOpen, CHIDDevice.afterWait, OpenReply.outcome,
      CHIDDevice.SetOpenPending, CHIDDevice.SetOpenResult]
  | some b => cases b <;> simp [CHIDDevice.BOpen, CHIDDevice.afterWait, OpenReply.outcome,
      CHIDDevice.SetOpenPending, CHIDDevice.SetOpenResult]

/-- `hid_open_path` when the first handle with the path has no session object. -/
theorem hid_open_path_fresh (s : HidState) (path : List Nat) (reply : OpenReply)
    (hr : Registered s.g_Devices)
    (pre : List CHIDDevice) (d : CHIDDevice) (post : List CHIDDevice)
    (hg : s.g_Devices = pre ++ d :: post)
    (hpre : ∀ x ∈ pre, x.GetDeviceInfo.path ≠ path) (hd : d.GetDeviceInfo.path = path)
    (hp : d.GetDevice = none) :
    hid_open_path s path reply =
      (if reply.outcome then some s.sessions.length else none,
       openedState s pre d post reply) := by
  obtain ⟨g, ss, opens, closes⟩ := s
  simp only at hg hr
  subst hg
  have hrc : 1 ≤ d.m_nRefCount := hr d (by simp)
  have hrc2 : 1 ≤ d.acquire.m_nRefCount := by
    show 1 ≤ d.m_nRefCount + 1
    omega
  have hp2 : d.acquire.GetDevice = none := hp
  have hacq : (SetObject (nextRef (pre ++ d.acquire :: post)) (pre ++ d.acquire :: post)
      none (some pre.length)).1 =
      pre ++ d.acquire.acquire :: post := by
    simp only [SetObject]
    exact acquireObject_mid pre d.acquire post
  have hs := open_search_eq (pre ++ d :: post) path hr
  rw [findPathAcquire_found path pre d post hpre hd] at hs
  unfold hid_open_path
  simp only [hs, Option.some_bind, getElem?_mid, Option.map_some', hp2, hacq,
    releaseLocal_mid pre d.acquire post hrc2, set_mid, BOpen_eq]
  unfold openedState
  by_cases ho : reply.outcome = true
  · simp only [ho, if_true]
    have e : ({ d.acquire.afterWait reply with m_pDevice := some ss.length } :
        CHIDDevice) =
        ({ d.afterWait reply with m_pDevice := some ss.length } : CHIDDevice).acquire :=
      rfl
    have h1 : 1 ≤ ({ d.afterWait reply with m_pDevice := some ss.length } :
        CHIDDevice).m_nRefCount := hrc
    rw [e, releaseLocal_mid pre _ post h1]
    rfl
  · simp only [ho, if_false, Bool.false_eq_true]
    have e : d.acquire.afterWait reply = (d.afterWait reply).acquire := rfl
    have h1 : 1 ≤ (d.afterWait reply).m_nRefCount := hrc
    rw [e, releaseLocal_mid pre _ post h1]
    rfl

theorem set_set_back {α : Type} (l : List α) (p : Nat) (x y : α) (h : l[p]? = some x) :
    (l.set p y).set p x = l := by
  induction l generalizing p with
  | nil => simp at h
  | cons a as ih =>
    cases p with
    | zero => simp at h; simp [h]
    | succ n => simp at h; simp [ih n h]

theorem getElem?_set_self_of_some {α : Type} (l : List α) (p : Nat) (x y : α)
    (h : l[p]? = some x) : (l.set p y)[p]? = some y := by
  have hlt : p < l.length := by
    by_contra hc
    rw [List.getElem?_eq_none (by omega)] at h
    cases h
  simp [List.getElem?_set, hlt]

theorem openedState_registered (s : HidState) (pre : List CHIDDevice) (d : CHIDDevice)
    (post : List CHIDDevice) (reply : OpenReply) (hr : Registered (pre ++ d :: post)) :
    Registered (openedState s pre d post reply).g_Devices := by
  intro x hx
  simp only [openedState, List.mem_append, List.mem_cons] at hx
  rcases hx with hx | hx | hx
  · exact hr x (by simp [hx])
  · have hd : 1 ≤ d.m_nRefCount := hr d (by simp)
    subst hx
    split <;> exact hd
  · exact hr x (by simp [hx])

/-- C12: if the first registry handle whose path equals `path` has a live session object,
`hid_open_path(path)` returns that same session object, raises its `m_nDeviceRefCount` by
exactly 1 and changes nothing else, the log of bridge open calls included; hence, from a
handle without session, a successful open followed by a second open of the same path return
the same pointer, leave the session with count 2 and have called the bridge open once. -/
theorem C12_open_shares_session (s : HidState) (path : List Nat)
    (hr : Registered s.g_Devices)
    (pre : List CHIDDevice) (d : CHIDDevice) (post : List CHIDDevice)
    (hg : s.g_Devices = pre ++ d :: post)
    (hpre : ∀ x ∈ pre, x.GetDeviceInfo.path ≠ path) (hd : d.GetDeviceInfo.path = path) :
    (∀ (p : Nat) (v : hid_device_) (reply : OpenReply), d.GetDevice = some p →
      s.sessions[p]? = some (some v) →
      hid_open_path s path reply =
        (some p,
         { s with
           sessions := List.set s.sessions p
             (some { v with m_nDeviceRefCount := v.m_nDeviceRefCount + 1 }) })) ∧
    (∀ (reply reply2 : OpenReply), d.GetDevice = none → reply.outcome = true →
      (hid_open_path s path reply).1 = some s.sessions.length ∧
      (hid_open_path (hid_open_path s path reply).2 path reply2).1 =
        (hid_open_path s path reply).1 ∧
      (hid_open_path (hid_open_path s path reply).2 path reply2).2.sessions[s.sessions.length]?
        = some (some { m_nId := d.m_nId, m_nDeviceRefCount := 2 }) ∧
      (hid_open_path (hid_open_path s path reply).2 path reply2).2.opens =
        s.opens ++ [d.m_nId]) := by
  constructor
  · intro p v reply hp hv
    exact hid_open_path_live s path reply hr pre d post hg hpre hd p hp v hv
  · intro reply reply2 hp ho
    rw [hid_open_path_fresh s path reply hr pre d post hg hpre hd hp]
    simp only [ho, if_true]
    have hr2 : Registered (openedState s pre d post reply).g_Devices :=
      openedState_registered s pre d post reply (hg ▸ hr)
    have hg2 : (openedState s pre d post reply).g_Devices =
        pre ++ ({ d.afterWait reply with m_pDevice := some s.sessions.length } : CHIDDevice)
          :: post := by
      simp [openedState, ho]
    have hv2 : (openedState s pre d post reply).sessions[s.sessions.length]? =
        some (some { m_nId := d.m_nId, m_nDeviceRefCount := 1 }) := by
      simp [openedState, ho]
    have hlive := hid_open_path_live (openedState s pre d post reply) path reply2 hr2 pre
      { d.afterWait reply with m_pDevice := some s.sessions.length } post hg2 hpre hd
      s.sessions.length rfl { m_nId := d.m_nId, m_nDeviceRefCount := 1 } hv2
    rw [hlive]
    refine ⟨trivial, rfl, ?_, ?_⟩
    · simp only []
      rw [getElem?_set_self_of_some _ _ _ _ hv2]
      rfl
    · simp [openedState]

/-- Witness of C12: two opens of path `"A"` on the sample state return session 0, with one
bridge open call, for the handle with id 7. -/
theorem C12_open_shares_session_witness :
    Registered sampleClosedState.g_Devices ∧
    (hid_open_path sampleClosedState [65] ⟨true, false, none⟩).1 = some 0 ∧
    (hid_open_path (hid_open_path sampleClosedState [65] ⟨true, false, none⟩).2 [65]
      ⟨false, false, none⟩).1 = some 0 ∧
    (hid_open_path (hid_open_path sampleClosedState [65] ⟨true, false, none⟩).2 [65]
      ⟨false, false, none⟩).2.opens = [7] :=
  have hr : Registered sampleClosedState.g_Devices := by unfold Registered; decide
  have h := (C12_open_shares_session sampleClosedState [65] hr [] sampleRegistered [] rfl
    (by decide) rfl).2 ⟨true, false, none⟩ ⟨false, false, none⟩ rfl rfl
  ⟨hr, h.1, h.2.1.trans h.1, h.2.2.2⟩

theorem BOpen_result (d : CHIDDevice) (reply : OpenReply) (sessions : Sessions) :
    (d.BOpen reply sessions).1 = reply.outcome ∧
    (d.BOpen reply sessions).2.1.m_bOpenResult = reply.outcome := by
  rw [BOpen_eq]
  cases ho : reply.outcome <;> simp [CHIDDevice.afterWait, ho]

/-- C13: when the first registry handle for `path` has no session object, the flag
`m_bOpenResult` that `BOpen` tests is the outcome of the reply; if it is true,
`hid_open_path` returns a session object at a new address, whose `m_nId` is the handle's id
and whose `m_nDeviceRefCount` is 1, and the handle points at it; if it is false,
`hid_open_path` returns `NULL`, no session object is created and the handle's session
pointer stays null. -/
theorem C13_open_creates_session (s : HidState) (path : List Nat) (reply : OpenReply)
    (hr : Registered s.g_Devices)
    (pre : List CHIDDevice) (d : CHIDDevice) (post : List CHIDDevice)
    (hg : s.g_Devices = pre ++ d :: post)
    (hpre : ∀ x ∈ pre, x.GetDeviceInfo.path ≠ path) (hd : d.GetDeviceInfo.path = path)
    (hp : d.GetDevice = none) :
    (d.BOpen reply s.sessions).2.1.m_bOpenResult = reply.outcome ∧
    (reply.outcome = true →
      (hid_open_path s path reply).1 = some s.sessions.length ∧
      s.sessions[s.sessions.length]? = none ∧
      (hid_open_path s path reply).2.sessions =
        s.sessions ++ [some { m_nId := d.GetId, m_nDeviceRefCount := 1 }] ∧
      (hid_open_path s path reply).2.g_Devices =
        pre ++ ({ d.afterWait reply with m_pDevice := some s.sessions.length } : CHIDDevice)
          :: post) ∧
    (reply.outcome = false →
      (hid_open_path s path reply).1 = none ∧
      (hid_open_path s path reply).2.sessions = s.sessions ∧
      (hid_open_path s path reply).2.g_Devices = pre ++ d.afterWait reply :: post ∧
      (d.afterWait reply).GetDevice = none) := by
  refine ⟨(BOpen_result d reply s.sessions).2, ?_, ?_⟩
  · intro ho
    rw [hid_open_path_fresh s path reply hr pre d post hg hpre hd hp]
    simp [openedState, ho, CHIDDevice.GetId]
  · intro ho
    rw [hid_open_path_fresh s path reply hr pre d post hg hpre hd hp]
    simp [openedState, ho]
    exact hp

/-- Witness of C13: a granted open of path `"A"` creates session 0 for the handle with
id 7, a refused one returns `NULL`. -/
theorem C13_open_creates_session_witness :
    Registered sampleClosedState.g_Devices ∧
    hid_open_path sampleClosedState [65] ⟨false, true, some true⟩ =
      (some 0, sampleOpenState) ∧
    (hid_open_path sampleClosedState [65] ⟨false, false, none⟩).1 = none :=
  have hr : Registered sampleClosedState.g_Devices := by unfold Registered; decide
  ⟨hr, by decide,
   ((C13_open_creates_session sampleClosedState [65] ⟨false, false, none⟩ hr []
      sampleRegistered [] rfl (by decide) rfl rfl).2.2 rfl).1⟩

/-- C14, amended: `hid_open_path(path)` called while no registry entry has the path returns
`NULL` and changes nothing, whatever the transport would reply (the bridge is not called);
with a registry entry for the path that has no session object and the transport replying
success it returns a non-null pointer. -/
theorem C14_open_needs_entry (s : HidState) (path : List Nat) (reply : OpenReply)
    (hr : Registered s.g_Devices) :
    ((∀ x ∈ s.g_Devices, x.GetDeviceInfo.path ≠ path) →
      hid_open_path s path reply = (none, s)) ∧
    (∀ (pre : List CHIDDevice) (d : CHIDDevice) (post : List CHIDDevice),
      s.g_Devices = pre ++ d :: post → (∀ x ∈ pre, x.GetDeviceInfo.path ≠ path) →
      d.GetDeviceInfo.path = path → d.GetDevice = none → reply.outcome = true →
      (hid_open_path s path reply).1 = some s.sessions.length) := by
  constructor
  · intro h
    exact hid_open_path_no_entry s path reply hr h
  · intro pre d post hg hpre hd hp ho
    rw [hid_open_path_fresh s path reply hr pre d post hg hpre hd hp]
    simp [ho]

/-- Witness of C14, amended: opening path `"A"` on a registry whose only handle has path
`"B"`. -/
theorem C14_open_needs_entry_witness :
    Registered [sampleOther] ∧
    hid_open_path ⟨[sampleOther], [], [], []⟩ [65] ⟨true, false, none⟩ =
      (none, ⟨[sampleOther], [], [], []⟩) :=
  have hr : Registered [sampleOther] := by unfold Registered; decide
  ⟨hr, (C14_open_needs_entry ⟨[sampleOther], [], [], []⟩ [65] ⟨true, false, none⟩ hr).1
    (by decide)⟩

/-- C14 as stated fails: with no registry entry for path `"A"` (a registry holding only a
handle for `"B"`, or an empty registry) and a transport that would reply success,
`hid_open_path("A")` returns `NULL`. -/
theorem C14_counterexample :
    (∀ x ∈ [sampleOther], x.GetDeviceInfo.path ≠ [65]) ∧
    (hid_open_path ⟨[sampleOther], [], [], []⟩ [65] ⟨true, false, none⟩).1 = none ∧
    (hid_open_path ⟨[], [], [], []⟩ [65] ⟨true, false, none⟩).1 = none := by
  decide

/-- C15, amended: when an open of a handle without session fails, after a timeout as after a
denial, `hid_open_path` returns `NULL` and `hid_error` returns `NULL`; the states after two
failed opens have the same session objects and logs and the same registry up to the private
flag `m_bIsWaitingForOpen` of the handle. -/
theorem C15_open_failures_alike (s : HidState) (path : List Nat) (r1 r2 : OpenReply)
    (hr : Registered s.g_Devices)
    (pre : List CHIDDevice) (d : CHIDDevice) (post : List CHIDDevice)
    (hg : s.g_Devices = pre ++ d :: post)
    (hpre : ∀ x ∈ pre, x.GetDeviceInfo.path ≠ path) (hd : d.GetDeviceInfo.path = path)
    (hp : d.GetDevice = none) (h1 : r1.outcome = false) (h2 : r2.outcome = false) :
    (hid_open_path s path r1).1 = none ∧ (hid_open_path s path r2).1 = none ∧
    hid_error (hid_open_path s path r1).1 = none ∧
    hid_error (hid_open_path s path r2).1 = none ∧
    (hid_open_path s path r1).2.sessions = (hid_open_path s path r2).2.sessions ∧
    (hid_open_path s path r1).2.opens = (hid_open_path s path r2).2.opens ∧
    (hid_open_path s path r1).2.closes = (hid_open_path s path r2).2.closes ∧
    (hid_open_path s path r1).2.g_Devices.map CHIDDevice.forgetPending =
      (hid_open_path s path r2).2.g_Devices.map CHIDDevice.forgetPending := by
  rw [hid_open_path_fresh s path r1 hr pre d post hg hpre hd hp,
    hid_open_path_fresh s path r2 hr pre d post hg hpre hd hp]
  simp [openedState, h1, h2, hid_error, CHIDDevice.forgetPending, CHIDDevice.afterWait]

/-- Witness of C15, amended: a timed-out open and a denied open of path `"A"`. -/
theorem C15_open_failures_alike_witness :
    Registered sampleClosedState.g_Devices ∧
    (hid_open_path sampleClosedState [65] ⟨false, true, none⟩).1 = none ∧
    (hid_open_path sampleClosedState [65] ⟨false, false, none⟩).1 = none :=
  have hr : Registered sampleClosedState.g_Devices := by unfold Registered; decide
  have h := C15_open_failures_alike sampleClosedState [65] ⟨false, true, none⟩
    ⟨false, false, none⟩ hr [] sampleRegistered [] rfl (by decide) rfl rfl rfl rfl
  ⟨hr, h.1, h.2.1⟩

/-- C15 as stated fails: an open that times out (pending, no completion) and an open that is
denied (the bridge returns false, or the completion delivers false) give the caller the same
results: `NULL` from `hid_open_path`, `NULL` from `hid_error`, the same session objects. -/
theorem C15_counterexample :
    (hid_open_path sampleClosedState [65] ⟨false, true, none⟩).1 =
      (hid_open_path sampleClosedState [65] ⟨false, false, none⟩).1 ∧
    hid_error (hid_open_path sampleClosedState [65] ⟨false, true, none⟩).1 =
      hid_error (hid_open_path sampleClosedState [65] ⟨false, false, none⟩).1 ∧
    (hid_open_path sampleClosedState [65] ⟨false, true, none⟩).2.sessions =
      (hid_open_path sampleClosedState [65] ⟨false, false, none⟩).2.sessions ∧
    (hid_open_path sampleClosedState [65] ⟨false, true, none⟩).1 =
      (hid_open_path sampleClosedState [65] ⟨false, true, some false⟩).1 := by
  decide

/-- `ProcessInput` on a queue of fewer than 16 reports appends the payload. -/
theorem ProcessInput_appends (d : CHIDDevice) (p : List Nat) (n : Nat)
    (hsize : d.m_vecData.size = d.m_vecData.m_pHead.length) (hn : n ≤ p.length)
    (hlen : d.m_vecData.reports.length < 16) :
    (d.ProcessInput p n).m_vecData.reports = d.m_vecData.reports ++ [p.take n] := by
  unfold hid_buffer_pool.reports at hlen ⊢
  simp only [hid_buffer_pool.size] at hsize
  simp only [List.length_map] at hlen
  obtain ⟨e, he⟩ := ProcessInput_head d p n ⟨hsize, by omega⟩
  rw [he]
  have : ¬ d.m_vecData.m_pHead.length = 16 := by omega
  simp only [this, if_false, List.map_append, List.map_cons, List.map_nil,
    hid_buffer.report_assign _ _ _ hn]

/-- `hid_close` of the last session reference of a registered device: the count of the
session object is the only thing that changes. -/
theorem hid_close_last (s : HidState) (p : Nat) (v : hid_device_)
    (hv : s.sessions[p]? = some (some v)) (hk : v.m_nDeviceRefCount = 1)
    (hr : Registered s.g_Devices)
    (pre : List CHIDDevice) (d : CHIDDevice) (post : List CHIDDevice)
    (hg : s.g_Devices = pre ++ d :: post) (hpre : ∀ x ∈ pre, x.GetId ≠ v.m_nId)
    (hd : d.GetId = v.m_nId) :
    hid_close s (some p) =
      { s with sessions := List.set s.sessions p (some { v with m_nDeviceRefCount := 0 }) } := by
  obtain ⟨g, ss, opens, closes⟩ := s
  simp only at hv hr hg
  subst hg
  have hrc : 1 ≤ d.m_nRefCount := hr d (by simp)
  have hf := FindDevice_found (pre ++ d :: post) v.m_nId hr pre d post rfl hpre hd
  have hz : v.m_nDeviceRefCount - 1 = 0 := by omega
  unfold hid_close
  simp only [hv, hz, if_true, hf, Option.some_bind, getElem?_mid, Option.map_some',
    CHIDDevice.Close, set_mid, releaseLocal_mid pre d post hrc]

/-- C16, the code at the last close.  When `hid_close` releases the last reference of the
session `p` of a registered device (the count goes from 1 to 0), the count of the session
object becomes 0 and nothing else changes: `CHIDDevice::Close(true)` has an empty body, so
no bridge close call is made (the log `closes` is as before), the registry is as before,
with `m_pDevice` of the handle still pointing at the session, the session object is not
freed, the handle is still found under its id, and a report that arrives for it afterwards
is still queued by `ProcessInput`. -/
theorem C16_last_close (s : HidState) (p : Nat) (v : hid_device_)
    (hv : s.sessions[p]? = some (some v)) (hk : v.m_nDeviceRefCount = 1)
    (hr : Registered s.g_Devices)
    (pre : List CHIDDevice) (d : CHIDDevice) (post : List CHIDDevice)
    (hg : s.g_Devices = pre ++ d :: post) (hpre : ∀ x ∈ pre, x.GetId ≠ v.m_nId)
    (hd : d.GetId = v.m_nId) :
    hid_close s (some p) =
      { s with sessions := List.set s.sessions p (some { v with m_nDeviceRefCount := 0 }) } ∧
    (hid_close s (some p)).closes = s.closes ∧
    (hid_close s (some p)).g_Devices = s.g_Devices ∧
    (hid_close s (some p)).sessions[p]? = some (some { v with m_nDeviceRefCount := 0 }) ∧
    (FindDevice (hid_close s (some p)).g_Devices v.m_nId).2 = some pre.length ∧
    (∀ (e : CHIDDevice) (pBuf : List Nat) (n : Nat),
      (hid_close s (some p)).g_Devices[pre.length]? = some e → n ≤ pBuf.length →
      e.m_vecData.size = e.m_vecData.m_pHead.length → e.m_vecData.reports.length < 16 →
      e = d ∧ e.GetDevice = d.GetDevice ∧
      (e.ProcessInput pBuf n).m_vecData.reports = d.m_vecData.reports ++ [pBuf.take n]) := by
  have hc := hid_close_last s p v hv hk hr pre d post hg hpre hd
  rw [hc]
  refine ⟨rfl, rfl, rfl, ?_, ?_, ?_⟩
  · exact getElem?_set_self_of_some _ _ _ _ hv
  · simp only []
    rw [FindDevice_found s.g_Devices v.m_nId hr pre d post hg hpre hd]
  · intro e pBuf n he hn hsize hlen
    simp only [hg, getElem?_mid, Option.some.injEq] at he
    subst he
    exact ⟨rfl, rfl, ProcessInput_appends d pBuf n hsize hn hlen⟩

/-- Witness of C16: the last close of session 0 of the handle with id 7, which is open
(`GetDevice()` is session 0).  The count of the session becomes 0, no bridge close call is
logged, the handle still exposes session 0 through `GetDevice()`, and the report `[9]` that
arrives afterwards is queued. -/
theorem C16_last_close_witness :
    sampleOpenState.sessions[0]? = some (some ⟨7, 1⟩) ∧
    Registered sampleOpenState.g_Devices ∧
    sampleOpenState.g_Devices.map CHIDDevice.GetDevice = [some 0] ∧
    hid_close sampleOpenState (some 0) =
      { sampleOpenState with sessions := [some { m_nId := 7, m_nDeviceRefCount := 0 }] } ∧
    (hid_close sampleOpenState (some 0)).closes = [] ∧
    (hid_close sampleOpenState (some 0)).g_Devices.map CHIDDevice.GetDevice = [some 0] ∧
    (FindDevice (hid_close sampleOpenState (some 0)).g_Devices 7).2 = some 0 ∧
    (hid_close sampleOpenState (some 0)).g_Devices.map
      (fun d => (d.ProcessInput [9] 1).m_vecData.reports) = [[[9]]] :=
  have hr : Registered sampleOpenState.g_Devices := by unfold Registered; decide
  have h := C16_last_close sampleOpenState 0 ⟨7, 1⟩ rfl rfl hr []
    { sampleRegistered with m_pDevice := some 0, m_bOpenResult := true } [] rfl
    (by simp) rfl
  ⟨rfl, hr, by decide, h.1, h.2.1.trans (by decide),
   (congrArg (fun g => g.map CHIDDevice.GetDevice) h.2.2.1).trans (by decide),
   h.2.2.2.2.1,
   (congrArg (fun g => g.map (fun d => (d.ProcessInput [9] 1).m_vecData.reports))
     h.2.2.1).trans (by decide)⟩

/-- C17: `hid_close(NULL)` changes nothing; `hid_close` on a session whose count is `k > 1`
sets it to `k - 1` and changes nothing else; `hid_open_path` on a path whose handle has a
live session of count at least 1, followed by `hid_close` of the returned pointer, gives
back the state as it was. -/
theorem C17_close_decrements (s : HidState) :
    hid_close s none = s ∧
    (∀ (p : Nat) (v : hid_device_), s.sessions[p]? = some (some v) →
      1 < v.m_nDeviceRefCount →
      hid_close s (some p) =
        { s with
          sessions := List.set s.sessions p
            (some { v with m_nDeviceRefCount := v.m_nDeviceRefCount - 1 }) }) ∧
    (∀ (path : List Nat) (reply : OpenReply) (pre : List CHIDDevice) (d : CHIDDevice)
      (post : List CHIDDevice) (p : Nat) (v : hid_device_),
      Registered s.g_Devices → s.g_Devices = pre ++ d :: post →
      (∀ x ∈ pre, x.GetDeviceInfo.path ≠ path) → d.GetDeviceInfo.path = path →
      d.GetDevice = some p → s.sessions[p]? = some (some v) → 1 ≤ v.m_nDeviceRefCount →
      hid_close (hid_open_path s path reply).2 (hid_open_path s path reply).1 = s) := by
  refine ⟨rfl, ?_, ?_⟩
  · intro p v hv hk
    unfold hid_close
    have hne : ¬ (v.m_nDeviceRefCount - 1 = 0) := by omega
    simp only [hv, hne, if_false]
  · intro path reply pre d post p v hr hg hpre hd hp hv hk
    rw [hid_open_path_live s path reply hr pre d post hg hpre hd p hp v hv]
    unfold hid_close
    have hv2 := getElem?_set_self_of_some s.sessions p (some v)
      (some { v with m_nDeviceRefCount := v.m_nDeviceRefCount + 1 }) hv
    have hne : ¬ (v.m_nDeviceRefCount + 1 - 1 = 0) := by omega
    simp only [hv2, hne, if_false]
    have hback : v.m_nDeviceRefCount + 1 - 1 = v.m_nDeviceRefCount := by omega
    rw [hback]
    have : ({ m_nId := v.m_nId, m_nDeviceRefCount := v.m_nDeviceRefCount } : hid_device_) = v :=
      rfl
    rw [this, set_set_back s.sessions p (some v) _ hv]

/-- Witness of C17: open and close of the already open path `"A"` on the sample state. -/
theorem C17_close_decrements_witness :
    sampleOpenState.sessions[0]? = some (some ⟨7, 1⟩) ∧
    Registered sampleOpenState.g_Devices ∧
    hid_close (hid_open_path sampleOpenState [65] ⟨false, false, none⟩).2
      (hid_open_path sampleOpenState [65] ⟨false, false, none⟩).1 = sampleOpenState :=
  have hr : Registered sampleOpenState.g_Devices := by unfold Registered; decide
  ⟨rfl, hr, (C17_close_decrements sampleOpenState).2.2 [65] ⟨false, false, none⟩ []
    { sampleRegistered with m_pDevice := some 0, m_bOpenResult := true } [] 0 ⟨7, 1⟩ hr rfl
    (by decide) rfl rfl rfl (by decide)⟩

/-! ### Device infos in memory and `hid_enumerate` -/

theorem takeWhile_take_succ (q : Nat → Bool) (l : List Nat) :
    (l.take ((l.takeWhile q).length + 1)).takeWhile q = l.takeWhile q := by
  induction l with
  | nil => simp
  | cons a t ih =>
    by_cases h : q a = true
    · simp [List.takeWhile_cons, h, ih]
    · simp [List.takeWhile_cons, h]

theorem take_takeWhile_length (q : Nat → Bool) (l : List Nat) :
    l.take (l.takeWhile q).length = l.takeWhile q := by
  induction l with
  | nil => simp
  | cons a t ih =>
    by_cases h : q a = true
    · simp [List.takeWhile_cons, h, ih]
    · simp [List.takeWhile_cons, h]

theorem takeWhile_append_stop (q : Nat → Bool) (z : Nat) (hz : q z = false)
    (l t : List Nat) :
    (l.takeWhile q ++ z :: t).takeWhile q = l.takeWhile q := by
  induction l with
  | nil => simp [List.takeWhile_cons, hz]
  | cons a r ih =>
    by_cases h : q a = true
    · simp [List.takeWhile_cons, h, ih]
    · simp [List.takeWhile_cons, h, hz]

theorem Store.block_append (mem extra : Store) (a : Nat) (h : a < mem.length) :
    Store.block (mem ++ extra) a = Store.block mem a := by
  unfold Store.block
  rw [List.getElem?_append_left h]

theorem Store.str_append (mem extra : Store) (a : Nat) (h : a < mem.length) :
    Store.str (mem ++ extra) a = Store.str mem a := by
  unfold Store.str
  rw [Store.block_append mem extra a h]

theorem Store.block_at_end (mem : Store) (b : List Nat) (extra : Store) :
    Store.block (mem ++ some b :: extra) mem.length = b := by
  unfold Store.block
  rw [List.getElem?_append_right (le_refl _)]
  simp

theorem set_at_end (mem : Store) (x y : Option (List Nat)) :
    (mem ++ [x]).set mem.length y = mem ++ [y] := by
  induction mem with
  | nil => rfl
  | cons a as ih => simp [ih]

theorem SDL_strdup_eq (mem : Store) (s : Nat) :
    SDL_strdup mem s =
      (mem ++ [some ((mem.block s).take ((mem.str s).length + 1))], mem.length) := by
  unfold SDL_strdup Store.malloc
  simp only [set_at_end]
  have hb := Store.block_at_end mem (List.replicate ((mem.str s).length + 1) 0) []
  rw [hb]
  simp [memcpy]

theorem CreateWStringFromWString_eq (mem : Store) (pwSrc : Nat) :
    CreateWStringFromWString mem pwSrc = (mem ++ [some (mem.str pwSrc ++ [0])], mem.length) := by
  unfold CreateWStringFromWString Store.malloc
  simp only [set_at_end]
  have hb := Store.block_at_end mem (List.replicate ((mem.str pwSrc).length + 1) 0) []
  rw [hb]
  have h1 : (mem.block pwSrc).take (mem.str pwSrc).length = mem.str pwSrc := by
    unfold Store.str
    exact take_takeWhile_length _ _
  have h2 : memcpy (List.replicate ((mem.str pwSrc).length + 1) 0) 0 (mem.block pwSrc)
      (mem.str pwSrc).length = mem.str pwSrc ++ [0] := by
    simp [memcpy, h1]
  rw [h2]
  simp [poke]

theorem CopyHIDDeviceInfo_eq (mem : Store) (p : hid_device_info_mem) (hs : Stored mem p) :
    CopyHIDDeviceInfo mem p = (mem ++ copyBlocks mem p, copyStruct mem.length p) := by
  have h1 : p.path < mem.length := hs _ (by simp [hid_device_info_mem.blocks])
  have h2 : p.product_string < mem.length := hs _ (by simp [hid_device_info_mem.blocks])
  have h3 : p.manufacturer_string < mem.length := hs _ (by simp [hid_device_info_mem.blocks])
  have h4 : p.serial_number < mem.length := hs _ (by simp [hid_device_info_mem.blocks])
  unfold CopyHIDDeviceInfo
  simp only [SDL_strdup_eq, CreateWStringFromWString_eq]
  rw [Store.str_append mem _ _ h2]
  rw [Store.str_append (mem ++ _) _ _ (by simp; omega), Store.str_append mem _ _ h3]
  rw [Store.str_append ((mem ++ _) ++ _) _ _ (by simp; omega),
    Store.str_append (mem ++ _) _ _ (by simp; omega), Store.str_append mem _ _ h4]
  simp [copyBlocks, copyStruct]

theorem copyBlocks_append (mem extra : Store) (p : hid_device_info_mem) (hs : Stored mem p) :
    copyBlocks (mem ++ extra) p = copyBlocks mem p := by
  have h1 : p.path < mem.length := hs _ (by simp [hid_device_info_mem.blocks])
  have h2 : p.product_string < mem.length := hs _ (by simp [hid_device_info_mem.blocks])
  have h3 : p.manufacturer_string < mem.length := hs _ (by simp [hid_device_info_mem.blocks])
  have h4 : p.serial_number < mem.length := hs _ (by simp [hid_device_info_mem.blocks])
  unfold copyBlocks
  rw [Store.block_append mem extra _ h1, Store.str_append mem extra _ h1,
    Store.str_append mem extra _ h2, Store.str_append mem extra _ h3,
    Store.str_append mem extra _ h4]

theorem Stored_append (mem extra : Store) (p : hid_device_info_mem) (hs : Stored mem p) :
    Stored (mem ++ extra) p := by
  intro b hb
  have := hs b hb
  rw [List.length_append]
  omega

theorem enumFrom_eq (ShouldIgnore : Nat → Nat → Bool) (infoAt : Nat → hid_device_info_mem)
    (v p : Nat) (mem0 : Store) (n : Nat) :
    ∀ (start : Nat) (extra : Store) (root : List hid_device_info_mem),
      (∀ a, start ≤ a → a < start + n → Stored mem0 (infoAt a)) →
      enumFrom ShouldIgnore infoAt v p start n (mem0 ++ extra, root) =
        (mem0 ++ extra ++
          ((List.range' start n).filter
            (fun a => enumKeeps ShouldIgnore v p (infoAt a))).flatMap
              (fun a => copyBlocks mem0 (infoAt a)),
         (layout infoAt (mem0 ++ extra).length
            ((List.range' start n).filter
              (fun a => enumKeeps ShouldIgnore v p (infoAt a)))).reverse ++ root) := by
  induction n with
  | zero =>
    intro start extra root _
    simp [enumFrom, layout]
  | succ n ih =>
    intro start extra root hst
    have hs0 : Stored mem0 (infoAt start) := hst start (le_refl _) (by omega)
    have hrest : ∀ a, start + 1 ≤ a → a < start + 1 + n → Stored mem0 (infoAt a) :=
      fun a h1 h2 => hst a (by omega) (by omega)
    unfold enumFrom
    rw [List.range'_succ, List.filter_cons]
    by_cases hk : enumKeeps ShouldIgnore v p (infoAt start) = true
    · have hstep : enumStep ShouldIgnore infoAt v p start (mem0 ++ extra, root) =
          (mem0 ++ (extra ++ copyBlocks mem0 (infoAt start)),
           copyStruct (mem0 ++ extra).length (infoAt start) :: root) := by
        unfold enumStep
        simp only [hk, if_true]
        rw [CopyHIDDeviceInfo_eq _ _ (Stored_append mem0 extra _ hs0),
          copyBlocks_append mem0 extra _ hs0, List.append_assoc]
      rw [hstep, ih (start + 1) _ _ hrest]
      simp only [hk, if_true, List.flatMap_cons, layout, List.reverse_cons, List.append_assoc]
      have hlen : (mem0 ++ (extra ++ copyBlocks mem0 (infoAt start))).length =
          (mem0 ++ extra).length + 4 := by
        simp [copyBlocks]; omega
      rw [hlen]
      simp
    · have hstep : enumStep ShouldIgnore infoAt v p start (mem0 ++ extra, root) =
          (mem0 ++ extra, root) := by
        unfold enumStep
        simp [hk]
      rw [hstep, ih (start + 1) extra root hrest]
      simp [hk]

theorem enumStep_ite (ShouldIgnore : Nat → Nat → Bool) (infoAt : Nat → hid_device_info_mem)
    (v p : Nat) (a : Nat) (st : Store × List hid_device_info_mem) :
    enumStep ShouldIgnore infoAt v p a st =
      if ShouldIgnore (infoAt a).vendor_id (infoAt a).product_id then st
      else if (v = 0x0 ∨ (infoAt a).vendor_id = v) ∧ (p = 0x0 ∨ (infoAt a).product_id = p) then
        ((CopyHIDDeviceInfo st.1 (infoAt a)).1, (CopyHIDDeviceInfo st.1 (infoAt a)).2 :: st.2)
      else st := by
  unfold enumStep enumKeeps
  by_cases hi : ShouldIgnore (infoAt a).vendor_id (infoAt a).product_id = true
  · simp [hi]
  · by_cases hm : (v = 0 ∨ (infoAt a).vendor_id = v) ∧ (p = 0 ∨ (infoAt a).product_id = p)
    · simp [hi, hm]
    · have hd : (decide (v = 0 ∨ (infoAt a).vendor_id = v) &&
          decide (p = 0 ∨ (infoAt a).product_id = p)) = false := by
        simpa using hm
      simp only [hi, hd, if_neg hm]
      simp

theorem loop_enumFrom (ShouldIgnore : Nat → Nat → Bool) (infoAt : Nat → hid_device_info_mem)
    (v p : Nat) (post : List CHIDDevice) :
    ∀ (pre : List CHIDDevice) (d : CHIDDevice) (fuel : Nat) (mem : Store)
      (root : List hid_device_info_mem), post.length + 1 < fuel →
      (∀ x ∈ d :: post, 1 ≤ x.m_nRefCount) →
      hid_enumerate.loop ShouldIgnore infoAt v p fuel (pre ++ d.acquire :: post)
        (some pre.length) mem root =
        (pre ++ d :: post,
         enumFrom ShouldIgnore infoAt v p pre.length (post.length + 1) (mem, root)) := by
  induction post with
  | nil =>
    intro pre d fuel mem root hf hr
    obtain ⟨f, rfl⟩ : ∃ f, fuel = f + 1 := ⟨fuel - 1, by omega⟩
    obtain ⟨f2, rfl⟩ : ∃ f2, f = f2 + 1 := ⟨f - 1, by simp at hf; omega⟩
    have hn : nextRef (pre ++ [d.acquire]) pre.length = none := by simp [nextRef]
    have hrel : SetObject (nextRef (pre ++ [d.acquire])) (pre ++ [d.acquire])
        (some pre.length) none = (pre ++ [d], none) := by
      simp only [SetObject, releaseObject_mid _ pre d [] (hr d (List.mem_cons_self _ _))]
      rfl
    unfold hid_enumerate.loop
    simp only [getElem?_mid, hn, hrel]
    simp only [hid_enumerate.loop, enumFrom, enumStep_ite, List.length_nil, Nat.zero_add]
    split
    · rfl
    · split <;> rfl
  | cons e post ih =>
    intro pre d fuel mem root hf hr
    obtain ⟨f, rfl⟩ : ∃ f, fuel = f + 1 := ⟨fuel - 1, by omega⟩
    have hn : nextRef (pre ++ d.acquire :: e :: post) pre.length = some (pre.length + 1) := by
      simp [nextRef]
    have e1 : pre ++ d :: e :: post = (pre ++ [d]) ++ e :: post := by simp
    have e2 : pre.length + 1 = (pre ++ [d]).length := by simp
    have hrel : SetObject (nextRef (pre ++ d.acquire :: e :: post))
        (pre ++ d.acquire :: e :: post) (some pre.length)
        (some (pre.length + 1)) = ((pre ++ [d]) ++ e.acquire :: post, some (pre ++ [d]).length) := by
      simp only [SetObject, releaseObject_mid _ pre d (e :: post) (hr d (List.mem_cons_self _ _))]
      rw [e1, e2, acquireObject_mid]
    have hih := fun mem root => ih (pre ++ [d]) e f mem root (by simp at hf; omega)
      (fun x hx => hr x (List.mem_cons_of_mem _ hx))
    unfold hid_enumerate.loop
    simp only [getElem?_mid, hn, hrel, hih]
    have hen : ∀ st, enumFrom ShouldIgnore infoAt v p pre.length (post.length + 1 + 1) st =
        enumFrom ShouldIgnore infoAt v p (pre ++ [d]).length (post.length + 1)
          (enumStep ShouldIgnore infoAt v p pre.length st) := by
      intro st
      conv => lhs; unfold enumFrom
      rw [e2]
    simp only [List.length_cons, hen, enumStep_ite, ← e1]
    split
    · rfl
    · split <;> rfl

theorem hid_enumerate_eq (ShouldIgnore : Nat → Nat → Bool)
    (infoAt : Nat → hid_device_info_mem) (g : Heap) (mem : Store) (v p : Nat)
    (hr : Registered g) :
    hid_enumerate ShouldIgnore infoAt g mem v p =
      (g, enumFrom ShouldIgnore infoAt v p 0 g.length (mem, [])) := by
  cases g with
  | nil => simp [hid_enumerate, g_DevicesRef, SetObject, releaseObject_none, acquireObject,
      hid_enumerate.loop, enumFrom]
  | cons d post =>
    have h := loop_enumFrom ShouldIgnore infoAt v p post [] d ((d :: post).length + 1) mem []
      (by simp) (fun x hx => hr x hx)
    simp only [List.nil_append, List.length_nil] at h
    unfold hid_enumerate
    have h0 : g_DevicesRef (d :: post) = some 0 := by simp [g_DevicesRef]
    simp only [h0, SetObject]
    have h1 : releaseObject (nextRef (d :: post)) (d :: post) none = d :: post :=
      releaseObject_none _ _
    have h2 : acquireObject (d :: post) (some 0) = d.acquire :: post :=
      acquireObject_mid [] d post
    rw [h1, h2, h]
    rfl

theorem Store.load_congr (m1 m2 : Store) (p : hid_device_info_mem)
    (h : ∀ b ∈ p.blocks, m2[b]? = m1[b]?) : m2.load p = m1.load p := by
  have h1 := h p.path (by simp [hid_device_info_mem.blocks])
  have h2 := h p.product_string (by simp [hid_device_info_mem.blocks])
  have h3 := h p.manufacturer_string (by simp [hid_device_info_mem.blocks])
  have h4 := h p.serial_number (by simp [hid_device_info_mem.blocks])
  simp [Store.load, Store.str, Store.block, h1, h2, h3, h4]

theorem Store.load_append (mem extra : Store) (p : hid_device_info_mem) (hs : Stored mem p) :
    Store.load (mem ++ extra) p = Store.load mem p := by
  apply Store.load_congr
  intro b hb
  exact List.getElem?_append_left (hs b hb)

theorem block_append_add (M L : Store) (k : Nat) :
    Store.block (M ++ L) (M.length + k) = ((L[k]?).join).getD [] := by
  unfold Store.block
  rw [List.getElem?_append_right (by omega)]
  have : M.length + k - M.length = k := by omega
  rw [this]

/-- The struct returned by `CopyHIDDeviceInfo` denotes the device info of the original as
soon as its four blocks are in the store. -/
theorem load_copyStruct (mem0 : Store) (M T : Store) (p : hid_device_info_mem) :
    Store.load (M ++ copyBlocks mem0 p ++ T) (copyStruct M.length p) = Store.load mem0 p := by
  have hq : (fun c : Nat => decide (c ≠ 0)) 0 = false := by simp
  have b0 : Store.block (M ++ copyBlocks mem0 p ++ T) M.length =
      (mem0.block p.path).take ((mem0.str p.path).length + 1) := by
    have := block_append_add M (copyBlocks mem0 p ++ T) 0
    rw [List.append_assoc, ← Nat.add_zero M.length, this]
    simp [copyBlocks]
  have b1 : Store.block (M ++ copyBlocks mem0 p ++ T) (M.length + 1) =
      mem0.str p.product_string ++ [0] := by
    rw [List.append_assoc, block_append_add]
    simp [copyBlocks]
  have b2 : Store.block (M ++ copyBlocks mem0 p ++ T) (M.length + 2) =
      mem0.str p.manufacturer_string ++ [0] := by
    rw [List.append_assoc, block_append_add]
    simp [copyBlocks]
  have b3 : Store.block (M ++ copyBlocks mem0 p ++ T) (M.length + 3) =
      mem0.str p.serial_number ++ [0] := by
    rw [List.append_assoc, block_append_add]
    simp [copyBlocks]
  have s0 : Store.str (M ++ copyBlocks mem0 p ++ T) M.length = mem0.str p.path := by
    unfold Store.str
    rw [b0]
    exact takeWhile_take_succ _ _
  have sk : ∀ (k a : Nat), Store.block (M ++ copyBlocks mem0 p ++ T) k = mem0.str a ++ [0] →
      Store.str (M ++ copyBlocks mem0 p ++ T) k = mem0.str a := by
    intro k a hb
    unfold Store.str
    rw [hb]
    exact takeWhile_append_stop _ 0 hq (mem0.block a) []
  simp only [Store.load, copyStruct, s0, sk _ _ b1, sk _ _ b2, sk _ _ b3]

theorem layout_load (infoAt : Nat → hid_device_info_mem) (mem0 : Store) (ks : List Nat) :
    ∀ (M T : Store),
      (layout infoAt M.length ks).map
        (Store.load (M ++ ks.flatMap (fun a => copyBlocks mem0 (infoAt a)) ++ T)) =
      ks.map (fun a => Store.load mem0 (infoAt a)) := by
  induction ks with
  | nil => intro M T; rfl
  | cons a ks ih =>
    intro M T
    simp only [layout, List.map_cons, List.flatMap_cons]
    congr 1
    · have := load_copyStruct mem0 M
        (ks.flatMap (fun a => copyBlocks mem0 (infoAt a)) ++ T) (infoAt a)
      simpa [List.append_assoc] using this
    · have hlen : M.length + 4 = (M ++ copyBlocks mem0 (infoAt a)).length := by
        simp [copyBlocks]
      have := ih (M ++ copyBlocks mem0 (infoAt a)) T
      rw [hlen]
      simpa [List.append_assoc] using this

theorem layout_blocks (infoAt : Nat → hid_device_info_mem) (ks : List Nat) :
    ∀ base, (layout infoAt base ks).flatMap hid_device_info_mem.blocks =
      List.range' base (4 * ks.length) := by
  induction ks with
  | nil => intro base; simp [layout]
  | cons a ks ih =>
    intro base
    simp only [layout, List.flatMap_cons, ih, List.length_cons]
    have h4 : 4 * (ks.length + 1) = 4 * ks.length + 1 + 1 + 1 + 1 := by omega
    rw [h4]
    simp only [List.range', hid_device_info_mem.blocks, copyStruct, List.cons_append,
      List.nil_append, Nat.add_assoc]

/-- The result of `hid_enumerate` on a registry whose handles are all referenced and whose
device infos are stored: the registry as it was, the store extended by four blocks for each
handle kept, and the structs of the kept handles, newest first. -/
theorem hid_enumerate_closed (ShouldIgnore : Nat → Nat → Bool)
    (infoAt : Nat → hid_device_info_mem) (g : Heap) (mem : Store) (v p : Nat)
    (hr : Registered g) (hst : ∀ a, a < g.length → Stored mem (infoAt a)) :
    hid_enumerate ShouldIgnore infoAt g mem v p =
      (g,
       mem ++ (keptAddrs ShouldIgnore infoAt v p g.length).flatMap
         (fun a => copyBlocks mem (infoAt a)),
       (layout infoAt mem.length (keptAddrs ShouldIgnore infoAt v p g.length)).reverse) := by
  rw [hid_enumerate_eq ShouldIgnore infoAt g mem v p hr]
  have h := enumFrom_eq ShouldIgnore infoAt v p mem g.length 0 [] []
    (fun a _ h2 => hst a (by omega))
  simp only [List.append_nil] at h
  rw [h]
  rfl

theorem kept_values (ShouldIgnore : Nat → Nat → Bool) (infoAt : Nat → hid_device_info_mem)
    (mem : Store) (v p : Nat) (l : List CHIDDevice) :
    ∀ start : Nat,
      (∀ (k : Nat) (d : CHIDDevice), l[k]? = some d →
        mem.load (infoAt (start + k)) = d.GetDeviceInfo) →
      ((List.range' start l.length).filter
          (fun a => enumKeeps ShouldIgnore v p (infoAt a))).map
        (fun a => mem.load (infoAt a)) =
      (l.filter (fun d => enumKeepsInfo ShouldIgnore v p d.GetDeviceInfo)).map
        CHIDDevice.GetDeviceInfo := by
  induction l with
  | nil => intro start _; rfl
  | cons d t ih =>
    intro start h
    have h0 : mem.load (infoAt start) = d.GetDeviceInfo := h 0 d (by simp)
    have hk : enumKeeps ShouldIgnore v p (infoAt start) =
        enumKeepsInfo ShouldIgnore v p d.GetDeviceInfo := by
      rw [← h0]
      rfl
    have ht := ih (start + 1) (fun k e he => by
      have := h (k + 1) e (by simpa using he)
      rw [← this]
      congr 2
      omega)
    rw [List.length_cons, List.range'_succ, List.filter_cons, List.filter_cons, hk]
    by_cases hc : enumKeepsInfo ShouldIgnore v p d.GetDeviceInfo = true
    · simp only [hc, if_true, List.map_cons, h0, ht]
    · simp only [hc, if_false, Bool.false_eq_true, ht]

theorem sampleStore_stored : ∀ a, a < [sampleRegistered, sampleOther].length →
    Stored sampleStore (sampleInfoAt a) := by
  intro a _ b hb
  by_cases h : a = 0
  · simp [sampleInfoAt, h, hid_device_info_mem.blocks] at hb
    rcases hb with rfl | rfl | rfl | rfl <;> decide
  · simp [sampleInfoAt, h, hid_device_info_mem.blocks] at hb
    rcases hb with rfl | rfl | rfl | rfl <;> decide

theorem sampleStore_info : ∀ (a : Nat) (d : CHIDDevice),
    [sampleRegistered, sampleOther][a]? = some d →
    sampleStore.load (sampleInfoAt a) = d.GetDeviceInfo := by
  intro a d h
  match a with
  | 0 => simp at h; subst h; decide
  | 1 => simp at h; subst h; decide
  | n + 2 => simp at h

theorem sampleTwo_registered : Registered [sampleRegistered, sampleOther] := by
  unfold Registered; decide

/-- C18: on a registry whose handles are all referenced and whose device infos are stored in
memory, `hid_enumerate(v, p)` leaves the registry as it was and returns exactly one device
info for each handle that `SDL_HIDAPI_ShouldIgnoreDevice` does not mark and whose vendor id is
`v` (or `v = 0`) and whose product id is `p` (or `p = 0`), equal to the device info of that
handle, and none for any other handle (the list is in reverse order of the chain); with
`v = 0` and `p = 0` it returns one for every handle that is not marked. -/
theorem C18_enumerate_filter (ShouldIgnore : Nat → Nat → Bool)
    (infoAt : Nat → hid_device_info_mem) (g : Heap) (mem : Store) (v p : Nat)
    (hr : Registered g) (hst : ∀ a, a < g.length → Stored mem (infoAt a))
    (hinfo : ∀ (a : Nat) (d : CHIDDevice), g[a]? = some d →
      mem.load (infoAt a) = d.GetDeviceInfo) :
    (hid_enumerate ShouldIgnore infoAt g mem v p).1 = g ∧
    (hid_enumerate ShouldIgnore infoAt g mem v p).2.2.map
        (hid_enumerate ShouldIgnore infoAt g mem v p).2.1.load =
      ((g.filter (fun d => !ShouldIgnore d.GetDeviceInfo.vendor_id d.GetDeviceInfo.product_id
          && (decide (v = 0 ∨ d.GetDeviceInfo.vendor_id = v)
          && decide (p = 0 ∨ d.GetDeviceInfo.product_id = p)))).map
        CHIDDevice.GetDeviceInfo).reverse ∧
    (v = 0 → p = 0 →
      (hid_enumerate ShouldIgnore infoAt g mem v p).2.2.map
        (hid_enumerate ShouldIgnore infoAt g mem v p).2.1.load =
      ((g.filter (fun d =>
          !ShouldIgnore d.GetDeviceInfo.vendor_id d.GetDeviceInfo.product_id)).map
        CHIDDevice.GetDeviceInfo).reverse) := by
  have hmain : (hid_enumerate ShouldIgnore infoAt g mem v p).2.2.map
        (hid_enumerate ShouldIgnore infoAt g mem v p).2.1.load =
      ((g.filter (fun d => enumKeepsInfo ShouldIgnore v p d.GetDeviceInfo)).map
        CHIDDevice.GetDeviceInfo).reverse := by
    rw [hid_enumerate_closed ShouldIgnore infoAt g mem v p hr hst]
    simp only [List.map_reverse]
    congr 1
    have h1 := layout_load infoAt mem (keptAddrs ShouldIgnore infoAt v p g.length) mem []
    simp only [List.append_nil] at h1
    rw [h1]
    have h2 := kept_values ShouldIgnore infoAt mem v p g 0 (fun k d hd => by
      rw [Nat.zero_add]; exact hinfo k d hd)
    exact h2
  refine ⟨?_, hmain, ?_⟩
  · rw [hid_enumerate_closed ShouldIgnore infoAt g mem v p hr hst]
  · intro hv hp
    rw [hmain]
    subst hv hp
    simp [enumKeepsInfo]

/-- Witness of C18: enumerating the two sample handles without filter returns their two
device infos, the second handle's first. -/
theorem C18_enumerate_filter_witness :
    Registered [sampleRegistered, sampleOther] ∧
    (hid_enumerate (fun _ _ => false) sampleInfoAt [sampleRegistered, sampleOther]
        sampleStore 0 0).2.2.map
      (hid_enumerate (fun _ _ => false) sampleInfoAt [sampleRegistered, sampleOther]
        sampleStore 0 0).2.1.load =
      [sampleOther.GetDeviceInfo, sampleRegistered.GetDeviceInfo] :=
  ⟨sampleTwo_registered,
   (C18_enumerate_filter (fun _ _ => false) sampleInfoAt [sampleRegistered, sampleOther]
      sampleStore 0 0 sampleTwo_registered sampleStore_stored sampleStore_info).2.1.trans
      (by decide)⟩

theorem free_getElem?_ne (m : Store) (a b : Nat) (h : a ≠ b) : (m.free a)[b]? = m[b]? := by
  unfold Store.free
  exact List.getElem?_set_ne h

theorem FreeHIDDeviceInfo_frame (m : Store) (c : hid_device_info_mem) :
    agreeOutside c.blocks m (FreeHIDDeviceInfo m c) := by
  intro a ha
  simp only [hid_device_info_mem.blocks, List.mem_cons, List.mem_singleton, not_or,
    List.not_mem_nil, or_false] at ha
  obtain ⟨h1, h2, h3, h4⟩ := ha
  unfold FreeHIDDeviceInfo
  rw [free_getElem?_ne _ _ _ (Ne.symm h2), free_getElem?_ne _ _ _ (Ne.symm h3),
    free_getElem?_ne _ _ _ (Ne.symm h4), free_getElem?_ne _ _ _ (Ne.symm h1)]

theorem hid_free_enumeration_frame (devs : List hid_device_info_mem) :
    ∀ m : Store, agreeOutside (devs.flatMap hid_device_info_mem.blocks) m
      (hid_free_enumeration m devs) := by
  induction devs with
  | nil => intro m a _; rfl
  | cons c cs ih =>
    intro m a ha
    simp only [List.flatMap_cons, List.mem_append, not_or] at ha
    unfold hid_free_enumeration
    rw [ih (FreeHIDDeviceInfo m c) a ha.2, FreeHIDDeviceInfo_frame m c a ha.1]

theorem layout_length (infoAt : Nat → hid_device_info_mem) (ks : List Nat) :
    ∀ base, (layout infoAt base ks).length = ks.length := by
  induction ks with
  | nil => intro base; rfl
  | cons a ks ih => intro base; simp [layout, ih]

theorem copyBlocks_flatMap_length (infoAt : Nat → hid_device_info_mem) (mem : Store)
    (ks : List Nat) :
    (ks.flatMap (fun a => copyBlocks mem (infoAt a))).length = 4 * ks.length := by
  induction ks with
  | nil => rfl
  | cons a ks ih =>
    simp only [List.flatMap_cons, List.length_append, ih, List.length_cons]
    simp [copyBlocks]
    omega

/-- C19: when `hid_enumerate` returns the structs `devs` in the store `mem2`: the device
infos they denote are those of the kept registry entries; every block of every returned
struct has been allocated by this call, and no block belongs to two of them; the device info
of every struct stored before the call (a registry entry, a copy from an earlier call) is
unchanged by the call; after any change confined to the blocks of some of the returned
structs, freeing them with `FreeHIDDeviceInfo` or `hid_free_enumeration` included, the
device info of every struct stored before the call and of every other returned struct is
unchanged; and after any change confined to the blocks of a struct stored before the call,
the device info of every returned struct is unchanged. -/
theorem C19_enumerate_own_storage (ShouldIgnore : Nat → Nat → Bool)
    (infoAt : Nat → hid_device_info_mem) (g : Heap) (mem : Store) (v p : Nat)
    (hr : Registered g) (hst : ∀ a, a < g.length → Stored mem (infoAt a))
    (g2 : Heap) (mem2 : Store) (devs : List hid_device_info_mem)
    (hres : hid_enumerate ShouldIgnore infoAt g mem v p = (g2, mem2, devs)) :
    devs.map mem2.load =
      ((keptAddrs ShouldIgnore infoAt v p g.length).map
        (fun a => mem.load (infoAt a))).reverse ∧
    (∀ c ∈ devs, ∀ b ∈ c.blocks, mem.length ≤ b ∧ b < mem2.length) ∧
    (devs.flatMap hid_device_info_mem.blocks).Nodup ∧
    (∀ x, Stored mem x → mem2.load x = mem.load x) ∧
    (∀ ds : List hid_device_info_mem, (∀ c ∈ ds, c ∈ devs) → ∀ m3 : Store,
      agreeOutside (ds.flatMap hid_device_info_mem.blocks) mem2 m3 →
      (∀ x, Stored mem x → m3.load x = mem.load x) ∧
      (∀ c2 ∈ devs, c2 ∉ ds → m3.load c2 = mem2.load c2)) ∧
    (∀ x, Stored mem x → ∀ m3 : Store, agreeOutside x.blocks mem2 m3 →
      ∀ c2 ∈ devs, m3.load c2 = mem2.load c2) ∧
    (∀ c, agreeOutside c.blocks mem2 (FreeHIDDeviceInfo mem2 c)) ∧
    (∀ ds : List hid_device_info_mem,
      agreeOutside (ds.flatMap hid_device_info_mem.blocks) mem2
        (hid_free_enumeration mem2 ds)) ∧
    (∀ ds : List hid_device_info_mem, (∀ c ∈ ds, c ∈ devs) →
      (∀ x, Stored mem x → (hid_free_enumeration mem2 ds).load x = mem.load x) ∧
      (∀ c2 ∈ devs, c2 ∉ ds → (hid_free_enumeration mem2 ds).load c2 = mem2.load c2)) := by
  rw [hid_enumerate_closed ShouldIgnore infoAt g mem v p hr hst] at hres
  simp only [Prod.mk.injEq] at hres
  obtain ⟨_, hm, hd⟩ := hres
  have hblocks : ∀ b, b ∈ devs.flatMap hid_device_info_mem.blocks ↔
      mem.length ≤ b ∧ b < mem2.length := by
    intro b
    have hperm : (devs.flatMap hid_device_info_mem.blocks).Perm
        ((layout infoAt mem.length (keptAddrs ShouldIgnore infoAt v p g.length)).flatMap
          hid_device_info_mem.blocks) := by
      rw [← hd]
      exact List.Perm.flatMap_right _ (List.reverse_perm _)
    rw [hperm.mem_iff, layout_blocks, List.mem_range'_1, ← hm, List.length_append,
      copyBlocks_flatMap_length]
  have hnodup : (devs.flatMap hid_device_info_mem.blocks).Nodup := by
    have hperm : (devs.flatMap hid_device_info_mem.blocks).Perm
        ((layout infoAt mem.length (keptAddrs ShouldIgnore infoAt v p g.length)).flatMap
          hid_device_info_mem.blocks) := by
      rw [← hd]
      exact List.Perm.flatMap_right _ (List.reverse_perm _)
    rw [hperm.nodup_iff, layout_blocks]
    exact List.nodup_range' _ _
  have hfresh : ∀ c ∈ devs, ∀ b ∈ c.blocks, mem.length ≤ b ∧ b < mem2.length := by
    intro c hc b hb
    exact (hblocks b).mp (List.mem_flatMap.mpr ⟨c, hc, hb⟩)
  have hold : ∀ x, Stored mem x → mem2.load x = mem.load x := by
    intro x hx
    rw [← hm]
    exact Store.load_append mem _ x hx
  have hdisj : ∀ c ∈ devs, ∀ c2 ∈ devs, c2 ≠ c → ∀ b ∈ c2.blocks, b ∉ c.blocks := by
    intro c hc c2 hc2 hne b hb hb2
    have hpw := (List.nodup_flatMap.mp hnodup).2
    have hsym : Symmetric (Function.onFun List.Disjoint hid_device_info_mem.blocks) := by
      intro x y hxy
      exact hxy.symm
    have := hpw.forall hsym hc2 hc hne
    exact this hb hb2
  have hframe : ∀ ds : List hid_device_info_mem, (∀ c ∈ ds, c ∈ devs) → ∀ m3 : Store,
      agreeOutside (ds.flatMap hid_device_info_mem.blocks) mem2 m3 →
      (∀ x, Stored mem x → m3.load x = mem.load x) ∧
      (∀ c2 ∈ devs, c2 ∉ ds → m3.load c2 = mem2.load c2) := by
    intro ds hds m3 hag
    constructor
    · intro x hx
      rw [← hold x hx]
      apply Store.load_congr
      intro b hb
      apply hag
      intro hbc
      obtain ⟨c, hc, hbc2⟩ := List.mem_flatMap.mp hbc
      have := (hfresh c (hds c hc) b hbc2).1
      have := hx b hb
      omega
    · intro c2 hc2 hne
      apply Store.load_congr
      intro b hb
      apply hag
      intro hbc
      obtain ⟨c, hc, hbc2⟩ := List.mem_flatMap.mp hbc
      have hcc : c2 ≠ c := fun h => hne (h ▸ hc)
      exact hdisj c (hds c hc) c2 hc2 hcc b hb hbc2
  refine ⟨?_, hfresh, hnodup, hold, hframe, ?_, fun c => FreeHIDDeviceInfo_frame mem2 c,
    fun ds => hid_free_enumeration_frame ds mem2,
    fun ds hds => hframe ds hds _ (hid_free_enumeration_frame ds mem2)⟩
  · rw [← hd, ← hm]
    simp only [List.map_reverse]
    congr 1
    have h1 := layout_load infoAt mem (keptAddrs ShouldIgnore infoAt v p g.length) mem []
    simp only [List.append_nil] at h1
    exact h1
  · intro x hx m3 hag c2 hc2
    apply Store.load_congr
    intro b hb
    apply hag
    intro hbx
    have := (hfresh c2 hc2 b hb).1
    have := hx b hbx
    omega

/-- Witness of C19: the two sample handles are enumerated and the newer copy is freed; the
registry entry of the first handle and the other copy still denote their device infos. -/
theorem C19_enumerate_own_storage_witness :
    Registered [sampleRegistered, sampleOther] ∧
    (hid_enumerate (fun _ _ => false) sampleInfoAt [sampleRegistered, sampleOther]
      sampleStore 0 0).2.2.map hid_device_info_mem.blocks =
      [[12, 13, 14, 15], [8, 9, 10, 11]] ∧
    (hid_free_enumeration
      (hid_enumerate (fun _ _ => false) sampleInfoAt [sampleRegistered, sampleOther]
        sampleStore 0 0).2.1
      [copyStruct 12 (sampleInfoAt 1)]).load (sampleInfoAt 0) =
      sampleStore.load (sampleInfoAt 0) ∧
    (hid_free_enumeration
      (hid_enumerate (fun _ _ => false) sampleInfoAt [sampleRegistered, sampleOther]
        sampleStore 0 0).2.1
      [copyStruct 12 (sampleInfoAt 1)]).load (copyStruct 8 (sampleInfoAt 0)) =
      sampleRegistered.GetDeviceInfo :=
  have h := C19_enumerate_own_storage (fun _ _ => false) sampleInfoAt
    [sampleRegistered, sampleOther] sampleStore 0 0 sampleTwo_registered sampleStore_stored
    _ _ _ rfl
  have hfree := h.2.2.2.2.2.2.2.2 [copyStruct 12 (sampleInfoAt 1)] (by decide)
  ⟨sampleTwo_registered, by decide,
   hfree.1 (sampleInfoAt 0) (sampleStore_stored 0 (by decide)),
   (hfree.2 (copyStruct 8 (sampleInfoAt 0)) (by decide) (by decide)).trans (by decide)⟩

/-! ### Writes, unimplemented entry points and completions -/

/-- C21, the code on a registered device: `hid_write` and `hid_send_feature_report` return 0
for every data buffer and every length (`WriteReport` is `return 0;`), and leave the registry
as it was. -/
theorem C21_write_returns_zero (g : Heap) (dev : hid_device_) (hr : Registered g)
    (pre : List CHIDDevice) (d : CHIDDevice) (post : List CHIDDevice)
    (hg : g = pre ++ d :: post) (hpre : ∀ x ∈ pre, x.GetId ≠ dev.m_nId)
    (hd : d.GetId = dev.m_nId) (data : List Nat) (length : Nat) :
    hid_write g (some dev) data length = (0, g) ∧
    hid_send_feature_report g (some dev) data length = (0, g) := by
  subst hg
  have hrc : 1 ≤ d.m_nRefCount := hr d (by simp)
  have hf := FindDevice_found (pre ++ d :: post) dev.m_nId hr pre d post rfl hpre hd
  unfold hid_write hid_send_feature_report
  simp only [hf, Option.some_bind, getElem?_mid, CHIDDevice.WriteReport,
    releaseLocal_mid pre d post hrc, and_self]

/-- Witness of C21: writing the three bytes `1, 2, 3` to the registered device 7 returns 0,
not 3. -/
theorem C21_write_returns_zero_witness :
    Registered sampleRegistry ∧
    hid_write sampleRegistry (some ⟨7, 1⟩) [1, 2, 3] 3 = (0, sampleRegistry) ∧
    hid_send_feature_report sampleRegistry (some ⟨7, 1⟩) [1, 2, 3] 3 = (0, sampleRegistry) :=
  have hr : Registered sampleRegistry := by unfold Registered; decide
  ⟨hr, C21_write_returns_zero sampleRegistry ⟨7, 1⟩ hr [] sampleRegistered
    [{ CHIDDevice.new 8 sampleInfo with m_nRefCount := 1 }] rfl (by simp) rfl [1, 2, 3] 3⟩

/-- C22: for every argument and every state, `hid_set_nonblocking`,
`hid_get_report_descriptor` and `hid_get_indexed_string` return -1, `hid_open` returns `NULL`
and `hid_error` returns `NULL`; the state and the caller's buffers are unchanged. -/
theorem C22_unimplemented (s : HidState) (device : hid_device_ptr) (nonblock : Int)
    (string_index : Int) (string buf : List Nat) (maxlen buf_size : Nat)
    (vendor_id product_id : Nat) (serial_number : Option (List Nat)) :
    hid_set_nonblocking s device nonblock = (-1, s) ∧
    hid_get_report_descriptor s device buf buf_size = (-1, buf, s) ∧
    hid_get_indexed_string s device string_index string maxlen = (-1, string, s) ∧
    hid_open s vendor_id product_id serial_number = (none, s) ∧
    hid_error device = none :=
  ⟨rfl, rfl, rfl, rfl, rfl⟩

/-- C25: on a handle whose response slot is awaiting, `ProcessReportResponse(b, n)` (with `n`
readable bytes at `b`) leaves a response buffer of size `n` holding the `n` first bytes of `b`,
clears the awaiting flag and sets the error code to 0; every other member, among them the open
flags, the session pointer and the report queue, is unchanged. -/
theorem C25_response_stored (d : CHIDDevice) (b : List Nat) (n : Nat)
    (hw : d.m_bIsWaitingForReportResponse = true) (hn : n ≤ b.length) :
    (d.ProcessReportResponse b n).m_reportResponse.size = n ∧
    (d.ProcessReportResponse b n).m_reportResponse.report = b.take n ∧
    (d.ProcessReportResponse b n).m_bIsWaitingForReportResponse = false ∧
    (d.ProcessReportResponse b n).m_nReportResponseError = 0 ∧
    d.ProcessReportResponse b n =
      { d with m_reportResponse := (d.ProcessReportResponse b n).m_reportResponse,
               m_bIsWaitingForReportResponse := false,
               m_nReportResponseError := 0 } ∧
    (d.ProcessReportResponse b n).m_bIsWaitingForOpen = d.m_bIsWaitingForOpen ∧
    (d.ProcessReportResponse b n).m_bOpenResult = d.m_bOpenResult ∧
    (d.ProcessReportResponse b n).m_pDevice = d.m_pDevice ∧
    (d.ProcessReportResponse b n).m_vecData = d.m_vecData := by
  have e : d.ProcessReportResponse b n =
      { d with m_reportResponse := d.m_reportResponse.assign b n,
               m_bIsWaitingForReportResponse := false,
               m_nReportResponseError := 0 } := by
    unfold CHIDDevice.ProcessReportResponse
    rw [if_pos hw]
  rw [e]
  exact ⟨rfl, hid_buffer.report_assign _ _ _ hn, rfl, rfl, rfl, rfl, rfl, rfl, rfl⟩

/-- Witness of C25: three of the bytes `1, 2, 3, 4` delivered to an awaiting slot. -/
theorem C25_response_stored_witness :
    sampleAwaiting.m_bIsWaitingForReportResponse = true ∧
    (sampleAwaiting.ProcessReportResponse [1, 2, 3, 4] 3).m_reportResponse.size = 3 ∧
    (sampleAwaiting.ProcessReportResponse [1, 2, 3, 4] 3).m_reportResponse.report = [1, 2, 3] ∧
    (sampleAwaiting.ProcessReportResponse [1, 2, 3, 4] 3).m_bIsWaitingForReportResponse
      = false :=
  have h := C25_response_stored sampleAwaiting [1, 2, 3, 4] 3 rfl (by decide)
  ⟨rfl, h.1, h.2.1, h.2.2.1⟩

/-- C27: from every handle state `SetOpenResult` and `ProcessReportResponse` applied in
either order give the same handle; `SetOpenResult` changes at most the open-pending flag and
the open result, `ProcessReportResponse` at most the response buffer, the awaiting flag and
the error code; the report queue, the id and the device info are unchanged. -/
theorem C27_completions_commute (d : CHIDDevice) (bResult : Bool) (pBuf : List Nat)
    (nBufSize : Nat) :
    (d.SetOpenResult bResult).ProcessReportResponse pBuf nBufSize =
      (d.ProcessReportResponse pBuf nBufSize).SetOpenResult bResult ∧
    d.SetOpenResult bResult =
      { d with m_bIsWaitingForOpen := (d.SetOpenResult bResult).m_bIsWaitingForOpen,
               m_bOpenResult := (d.SetOpenResult bResult).m_bOpenResult } ∧
    d.ProcessReportResponse pBuf nBufSize =
      { d with
        m_reportResponse := (d.ProcessReportResponse pBuf nBufSize).m_reportResponse,
        m_bIsWaitingForReportResponse :=
          (d.ProcessReportResponse pBuf nBufSize).m_bIsWaitingForReportResponse,
        m_nReportResponseError :=
          (d.ProcessReportResponse pBuf nBufSize).m_nReportResponseError } ∧
    ((d.SetOpenResult bResult).ProcessReportResponse pBuf nBufSize).m_vecData = d.m_vecData ∧
    ((d.SetOpenResult bResult).ProcessReportResponse pBuf nBufSize).GetId = d.GetId ∧
    ((d.SetOpenResult bResult).ProcessReportResponse pBuf nBufSize).GetDeviceInfo =
      d.GetDeviceInfo := by
  obtain ⟨rc, id, info, dev, ble, vec, wo, res, wr, err, resp, del⟩ := d
  cases wo <;> cases wr <;>
    simp [CHIDDevice.SetOpenResult, CHIDDevice.ProcessReportResponse, CHIDDevice.GetId,
      CHIDDevice.GetDeviceInfo]

/-- C30: `SetOpenResult(b)` on a handle whose open is pending sets the open result to `b`
and clears the pending flag, and changes nothing else; on a handle whose open is not pending
it changes nothing; after `SetOpenPending`, `SetOpenResult(b1)` followed by
`SetOpenResult(b2)` leaves the state of `SetOpenResult(b1)` alone, with open result `b1`. -/
theorem C30_first_completion_wins (d : CHIDDevice) (b b1 b2 : Bool) :
    (d.m_bIsWaitingForOpen = true →
      (d.SetOpenResult b).m_bOpenResult = b ∧
      (d.SetOpenResult b).m_bIsWaitingForOpen = false ∧
      d.SetOpenResult b = { d with m_bOpenResult := b, m_bIsWaitingForOpen := false }) ∧
    (d.m_bIsWaitingForOpen = false → d.SetOpenResult b = d) ∧
    (d.SetOpenPending.SetOpenResult b1).SetOpenResult b2 = d.SetOpenPending.SetOpenResult b1 ∧
    (d.SetOpenPending.SetOpenResult b1).m_bOpenResult = b1 ∧
    (d.SetOpenResult b1).SetOpenResult b2 = d.SetOpenResult b1 := by
  obtain ⟨rc, id, info, dev, ble, vec, wo, res, wr, err, resp, del⟩ := d
  cases wo <;> simp [CHIDDevice.SetOpenResult, CHIDDevice.SetOpenPending]

/-- Witness of C30: a pending open completed with `true`, then with `false`. -/
theorem C30_first_completion_wins_witness :
    sampleRegistered.SetOpenPending.m_bIsWaitingForOpen = true ∧
    (sampleRegistered.SetOpenPending.SetOpenResult true).m_bOpenResult = true ∧
    ((sampleRegistered.SetOpenPending.SetOpenResult true).SetOpenResult false).m_bOpenResult
      = true :=
  have h := C30_first_completion_wins sampleRegistered.SetOpenPending true true false
  ⟨rfl, (h.1 rfl).1, by rw [h.2.2.2.2]; exact (h.1 rfl).1⟩

/-! ### `GetInput`: bounds and the value 0 -/

/-- C28, the code on a Bluetooth Steam Controller handle: when the oldest report has at least
`length` bytes and `data` points to exactly `length` bytes, `GetInput(data, length)` returns
`length + 1` and writes `length + 1` bytes, the byte `0x03` and `length` bytes of the report:
the last byte is written at `data[length]`, past the end of the caller's buffer. -/
theorem C28_ble_overrun (d : CHIDDevice) (data : List Nat) (length : Nat)
    (hble : d.m_bIsBLESteamController = true) (hne : d.m_vecData.size ≠ 0)
    (hsz : length ≤ d.m_vecData.front.size)
    (hbuf : d.m_vecData.front.size ≤ d.m_vecData.front.data.length)
    (hdata : data.length = length) (hint : length + 1 < 2147483648) :
    (d.GetInput data length).1 = Int.ofNat (length + 1) ∧
    (d.GetInput data length).2.1 = 0x03 :: d.m_vecData.front.data.take length ∧
    (d.GetInput data length).2.1.length = length + 1 := by
  have hn : (if d.m_vecData.front.size > length then length else d.m_vecData.front.size)
      = length := by
    split <;> omega
  have hmod : (length + 1) % SIZE_MOD = length + 1 := Nat.mod_eq_of_lt (by simp only [SIZE_MOD]; omega)
  have hd : (d.GetInput data length).2.1 = 0x03 :: d.m_vecData.front.data.take length := by
    unfold CHIDDevice.GetInput
    simp only [hne, if_false, hble, if_true, hn, memcpy, poke]
    simp [hdata]
    omega
  refine ⟨?_, hd, ?_⟩
  · unfold CHIDDevice.GetInput
    simp only [hne, if_false, hble, if_true, hn, hmod]
    exact toInt32_small _ hint
  · rw [hd]
    simp
    omega

/-- Witness of C28: the report `[1, 2]` read into a buffer of 2 bytes: 3 is returned and 3
bytes are written. -/
theorem C28_ble_overrun_witness :
    sampleBLE.m_bIsBLESteamController = true ∧
    sampleBLE.m_vecData.reports = [[1, 2]] ∧
    (sampleBLE.GetInput [0, 0] 2).1 = 3 ∧
    (sampleBLE.GetInput [0, 0] 2).2.1 = [3, 1, 2] :=
  have h := C28_ble_overrun sampleBLE [0, 0] 2 (by decide) (by decide) (by decide)
    (by decide) rfl (by decide)
  ⟨by decide, by decide, h.1, h.2.1⟩

/-- C29, the code on a handle that is not a Bluetooth Steam Controller: when the queue is not
empty and its oldest report has 0 bytes, or `length` is 0, `GetInput` returns 0, leaves
`data` as it was and has removed the oldest report from the queue. -/
theorem C29_zero_after_consuming (d : CHIDDevice) (data : List Nat) (length : Nat)
    (hble : d.m_bIsBLESteamController = false)
    (hq : d.m_vecData.size = d.m_vecData.m_pHead.length)
    (r : hid_buffer) (rs : List hid_buffer) (hrep : d.m_vecData.m_pHead = r :: rs)
    (hz : r.size = 0 ∨ length = 0) :
    d.m_vecData.size ≠ 0 ∧
    (d.GetInput data length).1 = 0 ∧
    (d.GetInput data length).2.1 = data ∧
    (d.GetInput data length).2.2.m_vecData.reports = rs.map hid_buffer.report := by
  have hne : d.m_vecData.size ≠ 0 := by rw [hq, hrep]; simp
  have hfront : d.m_vecData.front = r := by
    unfold hid_buffer_pool.front; rw [hrep]; rfl
  have hn : (if r.size > length then length else r.size) = 0 := by
    split <;> omega
  refine ⟨hne, ?_, ?_, ?_⟩
  · unfold CHIDDevice.GetInput
    simp only [hne, if_false, hble, hfront, hn, Bool.false_eq_true]
    rfl
  · unfold CHIDDevice.GetInput
    simp only [hne, if_false, hble, hfront, hn, Bool.false_eq_true, memcpy]
    simp
  · rw [GetInput_queue]
    have : ¬ d.m_vecData.m_nSize = 0 := hne
    simp only [this, if_false, hid_buffer_pool.reports, pop_front_head, hrep, List.tail_cons]

/-- Witness of C29: the queue `[[], [5]]` read with `length = 2`, and the queue `[[5]]` read
with `length = 0`: both calls return 0 and remove a report. -/
theorem C29_zero_after_consuming_witness :
    (sampleQueued.m_vecData.reports = [[], [5]] ∧
     (sampleQueued.GetInput [0, 0] 2).1 = 0 ∧
     (sampleQueued.GetInput [0, 0] 2).2.2.m_vecData.reports = [[5]]) ∧
    (sampleOneReport.m_vecData.reports = [[5]] ∧
     (sampleOneReport.GetInput [] 0).1 = 0 ∧
     (sampleOneReport.GetInput [] 0).2.2.m_vecData.reports = []) :=
  have h1 := C29_zero_after_consuming sampleQueued [0, 0] 2 (by decide) (by decide)
    (sampleQueued.m_vecData.m_pHead.headD hid_buffer.empty)
    sampleQueued.m_vecData.m_pHead.tail (by decide) (Or.inl (by decide))
  have h2 := C29_zero_after_consuming sampleOneReport [] 0 (by decide) (by decide)
    (sampleOneReport.m_vecData.m_pHead.headD hid_buffer.empty)
    sampleOneReport.m_vecData.m_pHead.tail (by decide) (Or.inr rfl)
  ⟨⟨by decide, h1.2.1, by rw [h1.2.2.2]; decide⟩,
   ⟨by decide, h2.2.1, by rw [h2.2.2.2]; decide⟩⟩

/-! ### The nodes of the report queue -/

theorem sum_map_set (f : RefThread → Int) :
    ∀ (l : List RefThread) (t : Nat) (th x : RefThread), l[t]? = some th →
      ((l.set t x).map f).sum = (l.map f).sum - f th + f x := by
  intro l
  induction l with
  | nil => intro t th x h; cases h
  | cons y ys ih =>
    intro t th x h
    cases t with
    | zero =>
      simp only [List.getElem?_cons_zero, Option.some.injEq] at h
      subst h
      simp only [List.set_cons_zero, List.map_cons, List.sum_cons]
      omega
    | succ n =>
      simp only [List.getElem?_cons_succ] at h
      have := ih n th x h
      simp only [List.set_cons_succ, List.map_cons, List.sum_cons]
      omega

theorem countP_set_add (p : RefThread → Bool) :
    ∀ (l : List RefThread) (t : Nat) (th x : RefThread), l[t]? = some th →
      (l.set t x).countP p + (if p th = true then 1 else 0) =
        l.countP p + (if p x = true then 1 else 0) := by
  intro l
  induction l with
  | nil => intro t th x h; cases h
  | cons y ys ih =>
    intro t th x h
    cases t with
    | zero =>
      simp only [List.getElem?_cons_zero, Option.some.injEq] at h
      subst h
      simp only [List.set_cons_zero, List.countP_cons]
      omega
    | succ n =>
      simp only [List.getElem?_cons_succ] at h
      have := ih n th x h
      simp only [List.set_cons_succ, List.countP_cons]
      omega

theorem le_sum_map (f : RefThread → Int) :
    ∀ (l : List RefThread) (t : Nat) (th : RefThread), (∀ u ∈ l, 0 ≤ f u) →
      l[t]? = some th → f th ≤ (l.map f).sum := by
  intro l
  induction l with
  | nil => intro t th _ h; cases h
  | cons y ys ih =>
    intro t th hnn h
    have hs : 0 ≤ (ys.map f).sum :=
      List.sum_nonneg (fun x hx => by
        obtain ⟨u, hu, rfl⟩ := List.mem_map.1 hx
        exact hnn u (List.mem_cons_of_mem _ hu))
    cases t with
    | zero =>
      simp only [List.getElem?_cons_zero, Option.some.injEq] at h
      subst h
      simp only [List.map_cons, List.sum_cons]
      omega
    | succ n =>
      simp only [List.getElem?_cons_succ] at h
      have := ih n th (fun u hu => hnn u (List.mem_cons_of_mem _ hu)) h
      have := hnn y (List.mem_cons_self _ _)
      simp only [List.map_cons, List.sum_cons]
      omega

theorem disc_tail (extra : Nat) (i : RefInstr) (rest : List RefInstr)
    (h : disciplined_code extra (i :: rest) = true) : disciplined_code extra rest = true := by
  unfold disciplined_code at h
  simp only [Bool.and_eq_true] at h
  exact h.2

theorem disc_nonneg (extra : Nat) (code : List RefInstr)
    (h : disciplined_code extra code = true) : 0 ≤ balance code := by
  cases code with
  | nil => exact le_refl _
  | cons i rest =>
    unfold disciplined_code at h
    simp only [Bool.and_eq_true, decide_eq_true_eq] at h
    exact h.1.1

theorem disc_inc (extra : Nat) (rest : List RefInstr)
    (h : disciplined_code extra (.increment :: rest) = true) :
    1 ≤ (extra : Int) + balance (.increment :: rest) := by
  unfold disciplined_code at h
  simp only [Bool.and_eq_true, Bool.or_eq_true, decide_eq_true_eq] at h
  rcases h.1.2 with h2 | h2
  · exact absurd rfl h2
  · exact h2

theorem wholeCalls_cases (code : List RefInstr) (h : wholeCalls code = true) :
    code = [] ∨
    (∃ rest, code = .lock :: .increment :: .unlock :: rest ∧ wholeCalls rest = true) ∨
    (∃ rest, code = .lock :: .decrement :: .unlock :: .deleteIfZero :: rest ∧
      wholeCalls rest = true) := by
  unfold wholeCalls at h
  split at h
  · exact Or.inl rfl
  · exact Or.inr (Or.inl ⟨_, rfl, h⟩)
  · exact Or.inr (Or.inr ⟨_, rfl, h⟩)
  · exact absurd h (by decide)

theorem mid_lock (rest : List RefInstr) (h : midCall (.lock :: rest)) :
    ∃ r, wholeCalls r = true ∧
      (rest = .increment :: .unlock :: r ∨ rest = .decrement :: .unlock :: .deleteIfZero :: r) := by
  rcases h with h | ⟨r, _, h | h | h | h | h⟩
  · rcases wholeCalls_cases _ h with h1 | ⟨r, h1, h2⟩ | ⟨r, h1, h2⟩
    · cases h1
    · cases h1; exact ⟨r, h2, Or.inl rfl⟩
    · cases h1; exact ⟨r, h2, Or.inr rfl⟩
  all_goals cases h

theorem mid_increment (rest : List RefInstr) (h : midCall (.increment :: rest)) :
    ∃ r, wholeCalls r = true ∧ rest = .unlock :: r := by
  rcases h with h | ⟨r, hr, h | h | h | h | h⟩
  · rcases wholeCalls_cases _ h with h1 | ⟨r, h1, h2⟩ | ⟨r, h1, h2⟩ <;> cases h1
  · cases h; exact ⟨r, hr, rfl⟩
  all_goals cases h

theorem mid_decrement (rest : List RefInstr) (h : midCall (.decrement :: rest)) :
    ∃ r, wholeCalls r = true ∧ rest = .unlock :: .deleteIfZero :: r := by
  rcases h with h | ⟨r, hr, h | h | h | h | h⟩
  · rcases wholeCalls_cases _ h with h1 | ⟨r, h1, h2⟩ | ⟨r, h1, h2⟩ <;> cases h1
  · cases h
  · cases h
  · cases h; exact ⟨r, hr, rfl⟩
  all_goals cases h

theorem mid_unlock (rest : List RefInstr) (h : midCall (.unlock :: rest)) :
    wholeCalls rest = true ∨ ∃ r, wholeCalls r = true ∧ rest = .deleteIfZero :: r := by
  rcases h with h | ⟨r, hr, h | h | h | h | h⟩
  · rcases wholeCalls_cases _ h with h1 | ⟨r, h1, h2⟩ | ⟨r, h1, h2⟩ <;> cases h1
  · cases h
  · cases h; exact Or.inl hr
  · cases h
  · cases h; exact Or.inr ⟨r, hr, rfl⟩
  · cases h

theorem mid_delete (rest : List RefInstr) (h : midCall (.deleteIfZero :: rest)) :
    wholeCalls rest = true := by
  rcases h with h | ⟨r, hr, h | h | h | h | h⟩
  · rcases wholeCalls_cases _ h with h1 | ⟨r, h1, h2⟩ | ⟨r, h1, h2⟩ <;> cases h1
  · cases h
  · cases h
  · cases h
  · cases h
  · cases h; exact hr

theorem deleting_whole (th : RefThread) (h : wholeCalls th.code = true) :
    th.deleting = false := by
  unfold RefThread.deleting
  rcases wholeCalls_cases _ h with h1 | ⟨r, h1, _⟩ | ⟨r, h1, _⟩ <;> rw [h1] <;> simp

theorem deleting_unlock_whole (th : RefThread) (r : List RefInstr)
    (hc : th.code = .unlock :: r) (h : wholeCalls r = true) : th.deleting = false := by
  unfold RefThread.deleting
  rw [hc]
  rcases wholeCalls_cases _ h with h1 | ⟨r, h1, _⟩ | ⟨r, h1, _⟩ <;> rw [h1] <;> simp

theorem deleting_iff (th : RefThread) (r : List RefInstr)
    (hc : th.code = .deleteIfZero :: r ∨ th.code = .unlock :: .deleteIfZero :: r) :
    th.deleting = decide (th.nValue = 0) := by
  unfold RefThread.deleting
  rcases hc with hc | hc <;> rw [hc] <;> simp

theorem deleting_head (th : RefThread) (i : RefInstr) (rest : List RefInstr)
    (hc : th.code = i :: rest) (hi : i = .lock ∨ i = .increment ∨ i = .decrement) :
    th.deleting = false := by
  unfold RefThread.deleting
  rw [hc]
  rcases hi with hi | hi | hi <;> rw [hi] <;> simp

/-- One step of one thread keeps the invariant. -/
theorem step_owned (extra : Nat) (s : RefRace) (t : Nat) (h : s.Owned extra) :
    (s.step t).Owned extra := by
  obtain ⟨h1, h2, h3⟩ := h
  unfold RefRace.step
  cases hth : s.threads[t]? with
  | none => exact ⟨h1, h2, h3⟩
  | some th =>
    simp only
    have hmem : th ∈ s.threads := List.getElem?_mem hth
    obtain ⟨hdisc, hmid⟩ := h2 th hmem
    have hnn : ∀ u ∈ s.threads, 0 ≤ (fun th : RefThread => balance th.code) u :=
      fun u hu => disc_nonneg extra _ (h2 u hu).1
    have hle := le_sum_map (fun th : RefThread => balance th.code) s.threads t th hnn hth
    simp only at hle
    have hset : ∀ x : RefThread, (disciplined_code extra x.code = true ∧ midCall x.code) →
        ∀ u ∈ s.threads.set t x, disciplined_code extra u.code = true ∧ midCall u.code := by
      intro x hx u hu
      rcases List.mem_or_eq_of_mem_set hu with hu2 | hu2
      · exact h2 u hu2
      · rw [hu2]; exact hx
    have hsum : ∀ x : RefThread,
        ((s.threads.set t x).map (fun th : RefThread => balance th.code)).sum =
          (s.threads.map (fun th : RefThread => balance th.code)).sum - balance th.code +
            balance x.code :=
      fun x => sum_map_set (fun th : RefThread => balance th.code) s.threads t th x hth
    have hcnt : ∀ x : RefThread,
        (s.threads.set t x).countP RefThread.deleting +
          (if th.deleting = true then 1 else 0) =
        s.threads.countP RefThread.deleting + (if x.deleting = true then 1 else 0) :=
      fun x => countP_set_add RefThread.deleting s.threads t th x hth
    cases hcode : th.code with
    | nil => exact ⟨h1, h2, h3⟩
    | cons i rest =>
      rw [hcode] at hdisc hmid hle
      have hrest := disc_tail extra i rest hdisc
      have hrnn := disc_nonneg extra rest hrest
      cases i with
      | lock =>
        simp only
        by_cases hfree : s.m_refCountLock = none
        · rw [if_pos hfree]
          obtain ⟨r, hr, hform⟩ := mid_lock rest hmid
          have hb : balance th.code = balance rest := by rw [hcode]; rfl
          have hd1 : th.deleting = false := deleting_head th _ _ hcode (Or.inl rfl)
          have hd2 : ({ th with code := rest } : RefThread).deleting = false := by
            rcases hform with hf | hf
            · exact deleting_head _ _ _ hf (Or.inr (Or.inl rfl))
            · exact deleting_head _ _ _ hf (Or.inr (Or.inr rfl))
          have hc := hcnt { th with code := rest }
          rw [hd1, hd2] at hc
          refine ⟨?_, hset _ ⟨hrest, ?_⟩, ?_⟩
          · simp only [hsum, hb]
            omega
          · rcases hform with hf | hf
            · exact Or.inr ⟨r, hr, Or.inl hf⟩
            · exact Or.inr ⟨r, hr, Or.inr (Or.inr (Or.inl hf))⟩
          · simp only at hc ⊢
            omega
        · rw [if_neg hfree]
          exact ⟨h1, h2, h3⟩
      | increment =>
        simp only
        obtain ⟨r, hr, hform⟩ := mid_increment rest hmid
        have hinc := disc_inc extra rest hdisc
        have hb : balance th.code = balance rest - 1 := by rw [hcode]; rfl
        have hb2 : balance (RefInstr.increment :: rest) = balance rest - 1 := rfl
        have hd1 : th.deleting = false :=
          deleting_head th _ _ hcode (Or.inr (Or.inl rfl))
        have hd2 : ({ code := rest, nValue := s.handle.IncrementRefCount.1 } :
            RefThread).deleting = false := deleting_unlock_whole _ r hform hr
        have hc := hcnt { code := rest, nValue := s.handle.IncrementRefCount.1 }
        rw [hd1, hd2] at hc
        have hpos : 1 ≤ s.handle.m_nRefCount := by omega
        have hz : ¬ s.handle.m_nRefCount = 0 := by omega
        rw [if_neg hz] at h3
        refine ⟨?_, hset _ ⟨hrest, Or.inr ⟨r, hr, Or.inr (Or.inl hform)⟩⟩, ?_⟩
        · simp only [hsum, hb, CHIDDevice.IncrementRefCount]
          omega
        · have hz2 : ¬ s.handle.IncrementRefCount.2.m_nRefCount = 0 := by
            simp only [CHIDDevice.IncrementRefCount]
            omega
          have hdel : s.handle.IncrementRefCount.2.deletes = s.handle.deletes := rfl
          simp only [if_neg hz2, hdel] at hc ⊢
          omega
      | decrement =>
        simp only
        obtain ⟨r, hr, hform⟩ := mid_decrement rest hmid
        have hb : balance th.code = balance rest + 1 := by rw [hcode]; rfl
        have hb2 : balance (RefInstr.decrement :: rest) = balance rest + 1 := rfl
        have hd1 : th.deleting = false :=
          deleting_head th _ _ hcode (Or.inr (Or.inr rfl))
        have hd2 : ({ code := rest, nValue := s.handle.DecrementRefCount.1 } :
            RefThread).deleting = decide (s.handle.DecrementRefCount.1 = 0) :=
          deleting_iff _ r (Or.inr hform)
        have hc := hcnt { code := rest, nValue := s.handle.DecrementRefCount.1 }
        rw [hd1, hd2] at hc
        have hpos : 1 ≤ s.handle.m_nRefCount := by omega
        have hz : ¬ s.handle.m_nRefCount = 0 := by omega
        rw [if_neg hz] at h3
        refine ⟨?_, hset _ ⟨hrest, Or.inr ⟨r, hr, Or.inr (Or.inr (Or.inr (Or.inl hform)))⟩⟩, ?_⟩
        · simp only [hsum, hb, CHIDDevice.DecrementRefCount]
          omega
        · have hdel : s.handle.DecrementRefCount.2.deletes = s.handle.deletes := rfl
          have hcount : s.handle.DecrementRefCount.2.m_nRefCount = s.handle.m_nRefCount - 1 :=
            rfl
          have hval : s.handle.DecrementRefCount.1 = s.handle.m_nRefCount - 1 := rfl
          simp only [hdel, hcount, hval, decide_eq_true_eq, Bool.false_eq_true, if_false,
            Nat.add_zero] at hc ⊢
          by_cases h0 : s.handle.m_nRefCount - 1 = 0
          · simp only [h0, if_true] at hc ⊢
            omega
          · simp only [h0, if_false] at hc ⊢
            omega
      | unlock =>
        simp only
        have hb : balance th.code = balance rest := by rw [hcode]; rfl
        have hd : ({ th with code := rest } : RefThread).deleting = th.deleting := by
          rcases mid_unlock rest hmid with hw | ⟨r, hr, hform⟩
          · rw [deleting_unlock_whole th rest hcode hw]
            exact deleting_whole _ hw
          · rw [deleting_iff th r (Or.inr (by rw [hcode, hform])),
              deleting_iff _ r (Or.inl hform)]
        have hc := hcnt { th with code := rest }
        rw [hd] at hc
        refine ⟨?_, hset _ ⟨hrest, ?_⟩, ?_⟩
        · simp only [hsum, hb]
          omega
        · rcases mid_unlock rest hmid with hw | ⟨r, hr, hform⟩
          · exact Or.inl hw
          · exact Or.inr ⟨r, hr, Or.inr (Or.inr (Or.inr (Or.inr hform)))⟩
        · simp only at hc ⊢
          omega
      | deleteIfZero =>
        simp only
        have hw := mid_delete rest hmid
        have hb : balance th.code = balance rest := by rw [hcode]; rfl
        have hd1 : th.deleting = decide (th.nValue = 0) := deleting_iff th rest (Or.inl hcode)
        have hd2 : ({ th with code := rest } : RefThread).deleting = false :=
          deleting_whole _ hw
        have hc := hcnt { th with code := rest }
        rw [hd1, hd2] at hc
        refine ⟨?_, hset _ ⟨hrest, Or.inl hw⟩, ?_⟩
        · have hcount : (if th.nValue = 0 then s.handle.delete else s.handle).m_nRefCount =
              s.handle.m_nRefCount := by
            split <;> rfl
          simp only [hsum, hb, hcount]
          omega
        · by_cases hv : th.nValue = 0
          · simp only [hv, if_true, decide_True, Bool.false_eq_true, if_false,
              Nat.add_zero] at hc ⊢
            have hcount : s.handle.delete.m_nRefCount = s.handle.m_nRefCount := rfl
            have hdel : s.handle.delete.deletes = s.handle.deletes + 1 := rfl
            rw [hcount, hdel]
            by_cases h0 : s.handle.m_nRefCount = 0
            · simp only [h0, if_true] at h3 ⊢
              omega
            · simp only [h0, if_false] at h3 ⊢
              omega
          · simp only [hv, if_false, decide_False, Bool.false_eq_true, Nat.add_zero] at hc ⊢
            omega

theorem run_owned (extra : Nat) (schedule : List Nat) :
    ∀ s : RefRace, s.Owned extra → (s.run schedule).Owned extra := by
  induction schedule with
  | nil => intro s h; exact h
  | cons t rest ih => intro s h; exact ih _ (step_owned extra s t h)

theorem disc_cons (extra : Nat) (i : RefInstr) (rest : List RefInstr) :
    disciplined_code extra (i :: rest) = true ↔
      0 ≤ balance (i :: rest) ∧
      (i ≠ .increment ∨ 1 ≤ (extra : Int) + balance (i :: rest)) ∧
      disciplined_code extra rest = true := by
  conv => lhs; unfold disciplined_code
  simp only [Bool.and_eq_true, Bool.or_eq_true, decide_eq_true_eq, and_assoc]

theorem owning_code (extra : Nat) :
    ∀ (prog : List RefCall) (held : Nat), RefCall.owning extra held prog = true →
      disciplined_code extra (prog.flatMap RefCall.steps) = true ∧
      wholeCalls (prog.flatMap RefCall.steps) = true ∧
      balance (prog.flatMap RefCall.steps) = held := by
  intro prog
  induction prog with
  | nil =>
    intro held h
    unfold RefCall.owning at h
    simp only [decide_eq_true_eq] at h
    subst h
    exact ⟨rfl, rfl, rfl⟩
  | cons c rest ih =>
    intro held h
    cases c with
    | acquire =>
      unfold RefCall.owning at h
      simp only [Bool.and_eq_true, decide_eq_true_eq] at h
      obtain ⟨hd, hw, hb⟩ := ih (held + 1) h.2
      have hcode : (RefCall.acquire :: rest).flatMap RefCall.steps =
          .lock :: .increment :: .unlock :: rest.flatMap RefCall.steps := rfl
      have hb2 : balance (rest.flatMap RefCall.steps) = (held : Int) + 1 := by
        rw [hb]
        push_cast
        rfl
      have b1 : balance (RefInstr.unlock :: rest.flatMap RefCall.steps) = (held : Int) + 1 :=
        hb2
      have b2 : balance (RefInstr.increment :: .unlock :: rest.flatMap RefCall.steps) =
          (held : Int) := by
        show balance (RefInstr.unlock :: rest.flatMap RefCall.steps) - 1 = _
        omega
      have b3 : balance (RefInstr.lock :: .increment :: .unlock ::
          rest.flatMap RefCall.steps) = (held : Int) := b2
      rw [hcode]
      refine ⟨?_, hw, b3⟩
      exact (disc_cons _ _ _).2 ⟨by omega, Or.inl (by decide),
        (disc_cons _ _ _).2 ⟨by omega, Or.inr (by omega),
          (disc_cons _ _ _).2 ⟨by omega, Or.inl (by decide), hd⟩⟩⟩
    | release =>
      unfold RefCall.owning at h
      simp only [Bool.and_eq_true, decide_eq_true_eq] at h
      obtain ⟨hd, hw, hb⟩ := ih (held - 1) h.2
      have hcode : (RefCall.release :: rest).flatMap RefCall.steps =
          .lock :: .decrement :: .unlock :: .deleteIfZero :: rest.flatMap RefCall.steps := rfl
      have hb2 : balance (rest.flatMap RefCall.steps) = (held : Int) - 1 := by
        rw [hb]
        omega
      have b0 : balance (RefInstr.deleteIfZero :: rest.flatMap RefCall.steps) =
          (held : Int) - 1 := hb2
      have b1 : balance (RefInstr.unlock :: .deleteIfZero :: rest.flatMap RefCall.steps) =
          (held : Int) - 1 := hb2
      have b2 : balance (RefInstr.decrement :: .unlock :: .deleteIfZero ::
          rest.flatMap RefCall.steps) = (held : Int) := by
        show balance (RefInstr.unlock :: .deleteIfZero :: rest.flatMap RefCall.steps) + 1 = _
        omega
      have b3 : balance (RefInstr.lock :: .decrement :: .unlock :: .deleteIfZero ::
          rest.flatMap RefCall.steps) = (held : Int) := b2
      rw [hcode]
      refine ⟨?_, hw, b3⟩
      exact (disc_cons _ _ _).2 ⟨by omega, Or.inl (by decide),
        (disc_cons _ _ _).2 ⟨by omega, Or.inl (by decide),
          (disc_cons _ _ _).2 ⟨by omega, Or.inl (by decide),
            (disc_cons _ _ _).2 ⟨by omega, Or.inl (by decide), hd⟩⟩⟩⟩

theorem start_owned (d : CHIDDevice) (extra : Nat) (threads : List (Nat × List RefCall))
    (hd : d.deletes = 0) (hpos : 1 ≤ d.m_nRefCount)
    (hcount : d.m_nRefCount = (extra : Int) + ((threads.map Prod.fst).sum : Nat))
    (hown : ∀ p ∈ threads, RefCall.owning extra p.1 p.2 = true) :
    (RefRace.start d (threads.map Prod.snd)).Owned extra := by
  have hsum : ∀ l : List (Nat × List RefCall),
      (∀ p ∈ l, RefCall.owning extra p.1 p.2 = true) →
      ((RefRace.start d (l.map Prod.snd)).threads.map
          (fun th : RefThread => balance th.code)).sum =
        (((l.map Prod.fst).sum : Nat) : Int) := by
    intro l
    induction l with
    | nil => intro _; rfl
    | cons p ps ih =>
      intro h
      have h1 := (owning_code extra p.2 p.1 (h p (List.mem_cons_self _ _))).2.2
      have h2 := ih (fun q hq => h q (List.mem_cons_of_mem _ hq))
      simp only [RefRace.start, List.map_cons, List.sum_cons, h1] at h2 ⊢
      rw [h2]
      push_cast
      rfl
  refine ⟨?_, ?_, ?_⟩
  · rw [hsum threads hown]
    exact hcount
  · intro th hth
    unfold RefRace.start at hth
    simp only [List.mem_map] at hth
    obtain ⟨prog, ⟨p, hp, hp2⟩, hth2⟩ := hth
    subst hth2
    subst hp2
    have := owning_code extra p.2 p.1 (hown p hp)
    exact ⟨this.1, Or.inl this.2.1⟩
  · have hz : ¬ d.m_nRefCount = 0 := by omega
    have hc : (RefRace.start d (threads.map Prod.snd)).threads.countP RefThread.deleting
        = 0 := by
      rw [List.countP_eq_zero]
      intro th hth
      unfold RefRace.start at hth
      simp only [List.mem_map] at hth
      obtain ⟨prog, ⟨p, hp, hp2⟩, hth2⟩ := hth
      subst hth2
      subst hp2
      have := owning_code extra p.2 p.1 (hown p hp)
      rw [deleting_whole _ this.2.1]
      exact Bool.false_ne_true
    rw [hc]
    show d.deletes + 0 = if d.m_nRefCount = 0 then 1 else 0
    rw [if_neg hz, hd]

theorem no_calls_left (code : List RefInstr) (hd : disciplined_code 0 code = true)
    (hb : balance code = 0) : RefInstr.increment ∉ code ∧ RefInstr.decrement ∉ code := by
  induction code with
  | nil => exact ⟨List.not_mem_nil _, List.not_mem_nil _⟩
  | cons i rest ih =>
    have hrest := disc_tail 0 i rest hd
    have hnn := disc_nonneg 0 rest hrest
    cases i with
    | increment =>
      have := disc_inc 0 rest hd
      rw [hb] at this
      simp at this
    | decrement =>
      have hb2 : balance (RefInstr.decrement :: rest) = balance rest + 1 := rfl
      omega
    | lock =>
      have hb2 : balance (RefInstr.lock :: rest) = balance rest := rfl
      have := ih hrest (by omega)
      exact ⟨by simp [this.1], by simp [this.2]⟩
    | unlock =>
      have hb2 : balance (RefInstr.unlock :: rest) = balance rest := rfl
      have := ih hrest (by omega)
      exact ⟨by simp [this.1], by simp [this.2]⟩
    | deleteIfZero =>
      have hb2 : balance (RefInstr.deleteIfZero :: rest) = balance rest := rfl
      have := ih hrest (by omega)
      exact ⟨by simp [this.1], by simp [this.2]⟩

theorem owned_facts (extra : Nat) (s : RefRace) (h : s.Owned extra) :
    s.handle.deletes ≤ 1 ∧
    (∀ th ∈ s.threads, th.deleting = true → s.handle.m_nRefCount = 0) ∧
    (1 ≤ s.handle.deletes → s.handle.m_nRefCount = 0) ∧
    (s.handle.m_nRefCount = 0 →
      ∀ u ∈ s.threads, RefInstr.increment ∉ u.code ∧ RefInstr.decrement ∉ u.code) ∧
    ((∀ u ∈ s.threads, u.code = []) → extra = 0 → s.handle.deletes = 1) ∧
    (1 ≤ extra → s.handle.deletes = 0) := by
  obtain ⟨h1, h2, h3⟩ := h
  have hnn : ∀ u ∈ s.threads, 0 ≤ (fun th : RefThread => balance th.code) u :=
    fun u hu => disc_nonneg extra _ (h2 u hu).1
  have hsnn : 0 ≤ (s.threads.map (fun th : RefThread => balance th.code)).sum :=
    List.sum_nonneg (fun x hx => by
      obtain ⟨u, hu, rfl⟩ := List.mem_map.1 hx
      exact hnn u hu)
  refine ⟨?_, ?_, ?_, ?_, ?_, ?_⟩
  · split at h3 <;> omega
  · intro th hth hdel
    have : 0 < s.threads.countP RefThread.deleting :=
      List.countP_pos_iff.2 ⟨th, hth, hdel⟩
    by_contra hc
    rw [if_neg hc] at h3
    omega
  · intro hdel
    by_contra hc
    rw [if_neg hc] at h3
    omega
  · intro hz u hu
    obtain ⟨t, ht⟩ := List.getElem?_of_mem hu
    have hle := le_sum_map (fun th : RefThread => balance th.code) s.threads t u hnn ht
    simp only at hle
    have hu0 := hnn u hu
    simp only at hu0
    have he : extra = 0 := by omega
    have hd := (h2 u hu).1
    rw [he] at hd
    exact no_calls_left u.code hd (by omega)
  · intro hall he
    have hs : (s.threads.map (fun th : RefThread => balance th.code)).sum = 0 := by
      apply List.sum_eq_zero
      intro x hx
      obtain ⟨u, hu, rfl⟩ := List.mem_map.1 hx
      simp only [hall u hu]
      rfl
    have hc : s.threads.countP RefThread.deleting = 0 := by
      rw [List.countP_eq_zero]
      intro u hu
      have : u.deleting = false := by
        unfold RefThread.deleting
        rw [hall u hu]
        simp
      rw [this]
      exact Bool.false_ne_true
    have hz : s.handle.m_nRefCount = 0 := by
      rw [h1, hs, he]
      rfl
    rw [if_pos hz, hc] at h3
    omega
  · intro he
    have hz : ¬ s.handle.m_nRefCount = 0 := by omega
    rw [if_neg hz] at h3
    omega

/-- C23, amended: `DecrementRefCount` decrements inside a critical section of
`m_refCountLock` and returns the value; `SetObject` tests the returned value and deletes after
the mutex has been released.  When every thread uses references as every thread of `hid.cpp`
does (it copies a reference only while one exists that is not being released, its own or one
that is never released, and releases only references it holds), then under every schedule:
the handle is deleted at most once; while a thread is between a decrement that returned 0 and
its `delete`, and after the `delete`, the count is 0; whenever the count is 0 no thread has
an `IncrementRefCount` or a `DecrementRefCount` left to run, so none runs before the
`delete` or after it; when all threads have finished and no reference is kept, the handle has
been deleted exactly once; and it is not deleted while a reference is kept. -/
theorem C23_delete_after_unlock (d : CHIDDevice) (extra : Nat)
    (threads : List (Nat × List RefCall)) (schedule : List Nat) (s : RefRace)
    (hs : s = (RefRace.start d (threads.map Prod.snd)).run schedule)
    (hd : d.deletes = 0) (hpos : 1 ≤ d.m_nRefCount)
    (hcount : d.m_nRefCount = (extra : Int) + ((threads.map Prod.fst).sum : Nat))
    (hown : ∀ p ∈ threads, RefCall.owning extra p.1 p.2 = true) :
    s.handle.deletes ≤ 1 ∧
    (∀ th ∈ s.threads, th.deleting = true → s.handle.m_nRefCount = 0) ∧
    (1 ≤ s.handle.deletes → s.handle.m_nRefCount = 0) ∧
    (s.handle.m_nRefCount = 0 →
      ∀ u ∈ s.threads, RefInstr.increment ∉ u.code ∧ RefInstr.decrement ∉ u.code) ∧
    ((∀ u ∈ s.threads, u.code = []) → extra = 0 → s.handle.deletes = 1) ∧
    (1 ≤ extra → s.handle.deletes = 0) := by
  rw [hs]
  exact owned_facts extra _
    (run_owned extra schedule _ (start_owned d extra threads hd hpos hcount hown))

/-- Witness of C23: two threads hold one reference each to the handle with id 7; thread 1
copies its reference, thread 0 releases its own, thread 1 releases its two.  After the last
decrement and before the `delete` the count is 0 and no call on the count is left; at the end
the handle has been deleted once. -/
theorem C23_delete_after_unlock_witness :
    sampleOwners.handle.m_nRefCount = 2 ∧
    (sampleOwners.run [1, 1, 1, 0, 0, 0, 0, 1, 1, 1, 1, 1, 1, 1]).threads.map
      RefThread.code = [[], [.deleteIfZero]] ∧
    (sampleOwners.run [1, 1, 1, 0, 0, 0, 0, 1, 1, 1, 1, 1, 1, 1]).handle.m_nRefCount = 0 ∧
    (sampleOwners.run [1, 1, 1, 0, 0, 0, 0, 1, 1, 1, 1, 1, 1, 1]).handle.deletes = 0 ∧
    (sampleOwners.run [1, 1, 1, 0, 0, 0, 0, 1, 1, 1, 1, 1, 1, 1, 1]).handle.deletes = 1 :=
  have hown : ∀ p ∈ [(1, [RefCall.release]), (1, [RefCall.acquire, .release, .release])],
      RefCall.owning 0 p.1 p.2 = true := by decide
  have h1 := C23_delete_after_unlock { sampleRegistered with m_nRefCount := 2 } 0
    [(1, [.release]), (1, [.acquire, .release, .release])]
    [1, 1, 1, 0, 0, 0, 0, 1, 1, 1, 1, 1, 1, 1] _ rfl rfl (by decide) (by decide) hown
  have h2 := C23_delete_after_unlock { sampleRegistered with m_nRefCount := 2 } 0
    [(1, [.release]), (1, [.acquire, .release, .release])]
    [1, 1, 1, 0, 0, 0, 0, 1, 1, 1, 1, 1, 1, 1, 1] _ rfl rfl (by decide) (by decide) hown
  ⟨rfl, by decide,
   h1.2.1 { code := [.deleteIfZero], nValue := 0 } (by decide) (by decide),
   by decide, h2.2.2.2.2.1 (by decide) rfl⟩

/-- C23 as stated fails: one thread releases the only reference to the handle with id 7.
The steps of the release are lock, decrement, unlock, and then the test and the `delete`:
after the third step the count is 0, the mutex is free and the handle is not deleted yet;
the fourth step deletes it, outside the critical section. -/
theorem C23_counterexample :
    releaseObject.steps = [.lock, .decrement, .unlock, .deleteIfZero] ∧
    sampleRace.handle.m_nRefCount = 1 ∧
    (sampleRace.run [0, 0]).m_refCountLock = some 0 ∧
    (sampleRace.run [0, 0]).handle.m_nRefCount = 0 ∧
    (sampleRace.run [0, 0, 0]).m_refCountLock = none ∧
    (sampleRace.run [0, 0, 0]).handle.deletes = 0 ∧
    (sampleRace.run [0, 0, 0]).threads.map RefThread.code = [[.deleteIfZero]] ∧
    (sampleRace.run [0, 0, 0, 0]).m_refCountLock = none ∧
    (sampleRace.run [0, 0, 0, 0]).handle.deletes = 1 ∧
    (sampleRace.run [0, 0, 0, 0]).log =
      [(0, .lock), (0, .decrement), (0, .unlock), (0, .deleteIfZero)] := by
  decide

theorem holdAfter_append (t1 t2 : List LockEv) :
    ∀ held, holdAfter held (t1 ++ t2) = holdAfter (holdAfter held t1) t2 := by
  induction t1 with
  | nil => intro held; rfl
  | cons e rest ih =>
    intro held
    cases e with
    | lock m => exact ih (m :: held)
    | unlock m => exact ih (held.erase m)

theorem disciplined_append (t1 t2 : List LockEv) :
    ∀ held, disciplined held (t1 ++ t2) =
      (disciplined held t1 && disciplined (holdAfter held t1) t2) := by
  induction t1 with
  | nil => intro held; simp [disciplined, holdAfter]
  | cons e rest ih =>
    intro held
    cases e with
    | lock m =>
      show (allowedLock held m && disciplined (m :: held) (rest ++ t2)) =
        (allowedLock held m && disciplined (m :: held) rest &&
          disciplined (holdAfter (m :: held) rest) t2)
      rw [ih, Bool.and_assoc]
    | unlock m => exact ih (held.erase m)

theorem OkAt_nil (held : List Mutex) : OkAt held [] := ⟨rfl, rfl⟩

theorem OkAt_append (held : List Mutex) (t1 t2 : List LockEv) (h1 : OkAt held t1)
    (h2 : OkAt held t2) : OkAt held (t1 ++ t2) := by
  unfold OkAt at *
  rw [disciplined_append, holdAfter_append, h1.1, h1.2, h2.1, h2.2]
  exact ⟨rfl, rfl⟩

theorem OkAt_flatMap {α : Type} (held : List Mutex) (f : α → List LockEv) (l : List α)
    (h : ∀ x, OkAt held (f x)) : OkAt held (l.flatMap f) := by
  induction l with
  | nil => exact OkAt_nil held
  | cons x xs ih =>
    rw [List.flatMap_cons]
    exact OkAt_append held _ _ (h x) ih

theorem OkAt_guard (held : List Mutex) (m : Mutex) (scope : List LockEv)
    (ha : allowedLock held m = true) (hs : OkAt (m :: held) scope) :
    OkAt held (hid_mutex_guard m scope) := by
  unfold OkAt hid_mutex_guard at *
  rw [List.append_assoc, List.singleton_append]
  simp only [disciplined, holdAfter, disciplined_append, holdAfter_append, ha, hs.1, hs.2,
    List.erase_cons_head, Bool.and_self, and_self]

theorem OkAt_refCount (held : List Mutex) (a : Nat) :
    OkAt held [.lock (.m_refCountLock a), .unlock (.m_refCountLock a)] := by
  unfold OkAt
  simp only [disciplined, holdAfter, allowedLock, List.erase_cons_head, Bool.and_self,
    and_self]

theorem OkAt_SetObject (held : List Mutex) (c : SetCall) : OkAt held (SetObject.locks c) := by
  unfold SetObject.locks
  apply OkAt_append
  · cases c.m_pObject with
    | none => exact OkAt_nil held
    | some a =>
      exact OkAt_append held _ _ (OkAt_refCount held a)
        (OkAt_flatMap held _ _ (fun x => OkAt_refCount held x))
  · cases c.pObject with
    | none => exact OkAt_nil held
    | some b => exact OkAt_refCount held b

theorem OkAt_calls (held : List Mutex) (l : List SetCall) :
    OkAt held (l.flatMap SetObject.locks) :=
  OkAt_flatMap held _ _ (fun c => OkAt_SetObject held c)

theorem OkAt_FindDevice (held : List Mutex) (loop : List SetCall)
    (ha : allowedLock held .g_DevicesMutex = true) : OkAt held (FindDevice.locks loop) :=
  OkAt_guard held .g_DevicesMutex _ ha (OkAt_calls _ loop)

theorem OkAt_lookup (held : List Mutex) (loop exit : List SetCall)
    (ha : allowedLock held .g_DevicesMutex = true) : OkAt held (lookup.locks loop exit) :=
  OkAt_append held _ _ (OkAt_FindDevice held loop ha) (OkAt_calls held exit)

theorem OkAt_BOpen (a : Nat) (waiting : Bool) (waits : Nat) :
    OkAt [] (CHIDDevice.BOpen.locks a waiting waits) := by
  unfold CHIDDevice.BOpen.locks
  cases waiting with
  | false => exact OkAt_nil []
  | true =>
    rw [if_pos rfl]
    apply OkAt_guard [] (.m_cvLock a) _ rfl
    apply OkAt_flatMap
    intro _
    unfold OkAt
    simp only [disciplined, holdAfter, allowedLock, List.erase_cons_head, List.contains_nil,
      Bool.not_false, Bool.and_self, and_self]

theorem OkAt_GetInput (a : Nat) : OkAt [] (CHIDDevice.GetInput.locks a) :=
  OkAt_guard [] (.m_dataLock a) _ rfl (OkAt_nil _)

theorem OkAt_hid_read_timeout (loop : List SetCall) (found : Option Nat) (polls : Nat)
    (exit : List SetCall) : OkAt [] (hid_read_timeout.locks loop found polls exit) := by
  unfold hid_read_timeout.locks
  refine OkAt_append [] _ _ (OkAt_append [] _ _ (OkAt_FindDevice [] loop rfl) ?_)
    (OkAt_calls [] exit)
  cases found with
  | none => exact OkAt_nil []
  | some a => exact OkAt_flatMap [] _ _ (fun _ => OkAt_GetInput a)

theorem OkAt_CodePath (p : CodePath) : OkAt [] p.locks := by
  cases p with
  | IncrementRefCount a => exact OkAt_refCount [] a
  | DecrementRefCount a => exact OkAt_refCount [] a
  | SetObject c => exact OkAt_SetObject [] c
  | BOpen a waiting waits => exact OkAt_BOpen a waiting waits
  | ProcessInput a => exact OkAt_guard [] (.m_dataLock a) _ rfl (OkAt_nil _)
  | GetInput a => exact OkAt_GetInput a
  | ProcessReportResponse a => exact OkAt_guard [] (.m_cvLock a) _ rfl (OkAt_nil _)
  | FindDevice loop => exact OkAt_FindDevice [] loop rfl
  | hid_enumerate loop => exact OkAt_guard [] .g_DevicesMutex _ rfl (OkAt_calls _ loop)
  | hid_open_path loop bopen exit =>
    show OkAt [] (hid_open_path.locks loop bopen exit)
    unfold hid_open_path.locks
    refine OkAt_append [] _ _ (OkAt_append [] _ _ ?_ ?_) (OkAt_calls [] exit)
    · exact OkAt_guard [] .g_DevicesRefCountMutex _ rfl
        (OkAt_guard _ .g_DevicesMutex _ rfl (OkAt_calls _ loop))
    · match bopen with
      | none => exact OkAt_nil []
      | some (a, waiting, waits) => exact OkAt_BOpen a waiting waits
  | hid_read_timeout loop found polls exit =>
    exact OkAt_hid_read_timeout loop found polls exit
  | hid_read loop found exit => exact OkAt_hid_read_timeout loop found 0 exit
  | hid_close last loop exit =>
    show OkAt [] (hid_close.locks last loop exit)
    unfold hid_close.locks
    apply OkAt_guard [] .g_DevicesRefCountMutex _ rfl
    cases last with
    | false => exact OkAt_nil _
    | true => exact OkAt_lookup _ loop exit rfl
  | hid_write loop exit => exact OkAt_lookup [] loop exit rfl
  | hid_send_feature_report loop exit => exact OkAt_lookup [] loop exit rfl
  | hid_get_feature_report loop exit => exact OkAt_lookup [] loop exit rfl
  | hid_get_input_report loop exit => exact OkAt_lookup [] loop exit rfl
  | hid_get_manufacturer_string loop exit => exact OkAt_lookup [] loop exit rfl
  | hid_get_product_string loop exit => exact OkAt_lookup [] loop exit rfl
  | hid_get_serial_number_string loop exit => exact OkAt_lookup [] loop exit rfl
  | hid_get_device_info loop exit => exact OkAt_lookup [] loop exit rfl
  | _ => exact OkAt_nil []

/-- C24: on every code path of `hid.cpp`, whatever handles it visits and however often it
waits or polls, each `pthread_mutex_lock` respects the lock order (`g_DevicesMutex` is never
taken while a mutex of a handle is held; `m_dataLock` and `m_cvLock` of one handle are never
held together) and no mutex is held at the end; the three orders the claim excludes are
rejected by the check. -/
theorem C24_lock_order (p : CodePath) :
    disciplined [] p.locks = true ∧ holdAfter [] p.locks = [] ∧
    (∀ a, disciplined [] [.lock (.m_refCountLock a), .lock .g_DevicesMutex] = false ∧
      disciplined [] [.lock (.m_dataLock a), .lock (.m_cvLock a)] = false ∧
      disciplined [] [.lock (.m_cvLock a), .lock (.m_dataLock a)] = false) := by
  refine ⟨(OkAt_CodePath p).1, (OkAt_CodePath p).2, ?_⟩
  intro a
  simp [disciplined, allowedLock, Mutex.perHandle]

/-! ### Self-assignment of a reference -/

/-- C31, the code on a self-assignment: `SetObject(p)` on a reference that holds `p` returns
with the reference still holding `p`; when the count of `p` is 1 it deletes `p` (the count
reaches 0 before the increment), whatever the member `next` of `p` holds, and when that
member is null it leaves the deleted handle with count 1; when the count is not 1 it leaves
`p` as it was; no other handle changes, unless `p` is deleted and its destructor releases
the handle that its `next` holds. -/
theorem C31_self_assign (next : Nat → hid_device_ref) (heap : Heap) (a : Nat) (d : CHIDDevice)
    (hd : heap[a]? = some d) :
    (SetObject next heap (some a) (some a)).2 = some a ∧
    (d.m_nRefCount = 1 →
      ∃ e, (SetObject next heap (some a) (some a)).1[a]? = some e ∧
        e.deletes = d.deletes + 1) ∧
    (d.m_nRefCount = 1 → next a = none →
      (SetObject next heap (some a) (some a)).1[a]? =
        some { d with deletes := d.deletes + 1 }) ∧
    (d.m_nRefCount ≠ 1 → (SetObject next heap (some a) (some a)).1[a]? = some d) ∧
    (d.m_nRefCount ≠ 1 ∨ next a = none →
      ∀ b, b ≠ a → (SetObject next heap (some a) (some a)).1[b]? = heap[b]?) := by
  have hla : a < heap.length := getElem?_lt_of_some heap a d hd
  refine ⟨rfl, ?_, ?_, ?_, ?_⟩
  · intro h1
    have hx : (heap.set a d.DecrementRefCount.2.delete)[a]? =
        some d.DecrementRefCount.2.delete := List.getElem?_set_self hla
    obtain ⟨y, hy, hdel, _⟩ := cascade_deletes next a heap.length _ (next a)
      d.DecrementRefCount.2.delete hx
      (by simp only [CHIDDevice.DecrementRefCount, CHIDDevice.delete]; omega)
    unfold SetObject
    simp only
    rw [acquireObject_getElem?]
    unfold releaseObject
    rw [cascade_delete next _ heap a d hd h1, hy]
    refine ⟨acquired (some a) a y, rfl, ?_⟩
    simp only [acquired, if_true, CHIDDevice.IncrementRefCount]
    rw [hdel]
    rfl
  · intro h1 hn
    unfold SetObject
    simp only
    rw [acquireObject_getElem?, releaseObject_delete_null next heap a d hd h1 hn,
      List.getElem?_set_self hla]
    obtain ⟨rc, id, info, dev, ble, vec, wo, res, wr, err, resp, del⟩ := d
    simp only at h1
    subst h1
    simp [acquired, CHIDDevice.DecrementRefCount, CHIDDevice.IncrementRefCount,
      CHIDDevice.delete]
  · intro h1
    unfold SetObject
    simp only
    rw [acquireObject_getElem?, releaseObject_keep next heap a d hd h1,
      List.getElem?_set_self hla]
    obtain ⟨rc, id, info, dev, ble, vec, wo, res, wr, err, resp, del⟩ := d
    simp [acquired, CHIDDevice.DecrementRefCount, CHIDDevice.IncrementRefCount]
  · intro h b hb
    have hne : ¬ (some a : Option Nat) = some b := by
      intro hx
      exact hb (Option.some.inj hx).symm
    unfold SetObject
    simp only
    rw [acquireObject_getElem?]
    have hrel : (releaseObject next heap (some a))[b]? = heap[b]? := by
      by_cases h1 : d.m_nRefCount = 1
      · rcases h with h | h
        · exact absurd h1 h
        · rw [releaseObject_delete_null next heap a d hd h1 h,
            List.getElem?_set_ne (Ne.symm hb)]
      · rw [releaseObject_keep next heap a d hd h1, List.getElem?_set_ne (Ne.symm hb)]
    rw [hrel]
    cases heap[b]? with
    | none => rfl
    | some e => simp [acquired, hne]

/-- Witness of C31: the only reference to the handle with id 7 is assigned to itself, by
`r = r` and by `r = p`: the handle is deleted. -/
theorem C31_self_assign_witness :
    sampleOwner.heap[0]? = some sampleRegistered ∧ sampleRegistered.m_nRefCount = 1 ∧
    (sampleOwner.step (.assignRef 0 0)).heap[0]? =
      some { sampleRegistered with deletes := 1 } ∧
    (sampleOwner.step (.assignPtr 0 (some 0))).heap[0]? =
      some { sampleRegistered with deletes := 1 } :=
  ⟨rfl, rfl,
   (C31_self_assign sampleOwner.nextOf [sampleRegistered] 0 sampleRegistered rfl).2.2.1
     rfl rfl,
   (C31_self_assign sampleOwner.nextOf [sampleRegistered] 0 sampleRegistered rfl).2.2.1
     rfl rfl⟩

/-! ### The joystick list -/

theorem OHOS_AddJoystick_eq (B : GamepadButtons) (s : JoyState) (env : AddEnv)
    (device_id : Int) (name desc : Option (List Nat)) (vendor_id product_id : Int)
    (is_accelerometer : Bool) (button_mask : Nat) (naxes : Int) (axis_mask : Nat)
    (nhats : Int) :
    OHOS_AddJoystick B s env device_id name desc vendor_id product_id is_accelerometer
        button_mask naxes axis_mask nhats =
      if addPasses s env device_id name naxes nhats = true ∧ env.mallocOk = true then
        match env.joystickName with
        | none => (-1, { s with items := s.items ++ [none] })
        | some itemName =>
          (s.numjoysticks + 1,
           linked s env (newItem B env device_id itemName is_accelerometer button_mask naxes
             axis_mask nhats))
      else (-1, s) := by
  unfold OHOS_AddJoystick addPasses
  by_cases h1 : (!env.tvRemoteAsJoystick) = true ∧ naxes < 2 ∧ nhats < 1
  · rw [if_pos h1]
    have : ¬ (env.tvRemoteAsJoystick || decide (2 ≤ naxes) || decide (1 ≤ nhats)) = true := by
      obtain ⟨a, b, c⟩ := h1
      simp at a
      simp [a]
      omega
    simp [this]
  · rw [if_neg h1]
    have h1b : (env.tvRemoteAsJoystick || decide (2 ≤ naxes) || decide (1 ≤ nhats)) = true := by
      rcases Bool.eq_false_or_eq_true env.tvRemoteAsJoystick with ht | ht
      · simp [ht]
      · rw [ht]
        simp only [Bool.false_or, Bool.or_eq_true, decide_eq_true_eq]
        by_contra hc
        exact h1 ⟨by simp [ht], by omega, by omega⟩
    by_cases h2 : (JoystickByDeviceId s device_id).isSome = true ∨ name.isNone = true
    · rw [if_pos h2]
      have : ((JoystickByDeviceId s device_id).isNone && name.isSome) = false := by
        rcases h2 with h | h
        · cases hj : JoystickByDeviceId s device_id with
          | none => rw [hj] at h; simp at h
          | some a => simp
        · cases name with
          | none => simp
          | some n => simp at h
      simp [h1b, this]
    · rw [if_neg h2]
      have h2b : ((JoystickByDeviceId s device_id).isNone && name.isSome) = true := by
        cases hj : JoystickByDeviceId s device_id with
        | some a => rw [hj] at h2; simp at h2
        | none =>
          cases name with
          | none => simp at h2
          | some n => simp
      simp only [Bool.and_eq_true] at h2b
      by_cases h3 : env.hidapiPresent = true
      · simp [h3]
      · have h3b : env.hidapiPresent = false := by simpa using h3
        by_cases h4 : env.mallocOk = true
        · cases hn : env.joystickName with
          | none => simp [h1b, h2b.1, h2b.2, h3b, h4]
          | some nm =>
            simp only [h1b, h2b.1, h2b.2, h3b, h4, Bool.false_eq_true, if_false, Bool.not_true,
              Bool.not_false, Bool.and_self, and_self, if_true]
            cases ht : s.SDL_joylist_tail <;> simp [linked, newItem, addedMask, ht]
        · have h4b : env.mallocOk = false := by simpa using h4
          simp [h3b, h4b]

theorem and_shift_ne_zero (m i : Nat) : m &&& (1 <<< i) ≠ 0 ↔ m.testBit i = true := by
  rw [Nat.one_shiftLeft]
  constructor
  · intro h
    by_contra hb
    apply h
    apply Nat.eq_of_testBit_eq
    intro j
    rw [Nat.testBit_and, Nat.testBit_two_pow, Nat.zero_testBit]
    by_cases hij : i = j
    · subst hij
      simp [hb]
    · simp [hij]
  · intro hb h
    have : (m &&& 2 ^ i).testBit i = true := by
      rw [Nat.testBit_and, Nat.testBit_two_pow_self, hb]
      rfl
    rw [h, Nat.zero_testBit] at this
    exact Bool.noConfusion this

theorem loop_highest (m : Nat) :
    ∀ n, HighestBit m n ((List.range n).foldl
      (fun nb i => if m &&& (1 <<< i) ≠ 0 then Int.ofNat (i + 1) else nb) 0) := by
  intro n
  induction n with
  | zero =>
    left
    exact ⟨rfl, fun j hj => absurd hj (Nat.not_lt_zero j)⟩
  | succ n ih =>
    rw [List.range_succ, List.foldl_append, List.foldl_cons, List.foldl_nil]
    by_cases hb : m.testBit n = true
    · rw [if_pos ((and_shift_ne_zero m n).2 hb)]
      right
      exact ⟨n, Nat.lt_succ_self n, rfl, hb, fun j h1 h2 => by omega⟩
    · rw [if_neg (fun h => hb ((and_shift_ne_zero m n).1 h))]
      have hbf : m.testBit n = false := by simpa using hb
      rcases ih with ⟨h0, hall⟩ | ⟨k, hk, hnb, hbit, hall⟩
      · left
        refine ⟨h0, fun j hj => ?_⟩
        rcases Nat.lt_succ_iff_lt_or_eq.1 hj with h | h
        · exact hall j h
        · rw [h]; exact hbf
      · right
        refine ⟨k, Nat.lt_succ_of_lt hk, hnb, hbit, fun j h1 h2 => ?_⟩
        rcases Nat.lt_succ_iff_lt_or_eq.1 h2 with h | h
        · exact hall j h1 h
        · rw [h]; exact hbf

theorem nbuttonsLoop_highest (m : Nat) : HighestBit m 32 (nbuttonsLoop m 0) :=
  loop_highest m 32

theorem itemAt_append_new (items : List (Option SDL_joylist_item)) (item : SDL_joylist_item) :
    itemAt (items ++ [some item]) items.length = some item := by
  unfold itemAt
  rw [List.getElem?_append_right (Nat.le_refl _)]
  simp

theorem setNext_fields (items : List (Option SDL_joylist_item)) (p : Nat) (v : Option Nat)
    (a : Nat) :
    (itemAt (setNext items p v) a).map (fun it => { it with next := none }) =
      (itemAt items a).map (fun it => { it with next := none }) := by
  unfold setNext
  cases hp : itemAt items p with
  | none => rfl
  | some it =>
    simp only
    unfold itemAt at hp ⊢
    by_cases hpa : p = a
    · subst hpa
      have hlt : p < items.length := by
        by_contra hc
        rw [List.getElem?_eq_none (by omega)] at hp
        exact Option.noConfusion hp
      rw [List.getElem?_set_self hlt]
      cases hx : items[p]? with
      | none => rw [hx] at hp; exact Option.noConfusion hp
      | some o =>
        rw [hx] at hp
        simp only [Option.join] at hp ⊢
        subst hp
        rfl
    · rw [List.getElem?_set_ne hpa]

theorem linked_new_item (s : JoyState) (env : AddEnv) (item : SDL_joylist_item) :
    (itemAt (linked s env item).items s.items.length).map (fun it => { it with next := none })
      = some { item with next := none } := by
  unfold linked
  cases ht : s.SDL_joylist_tail with
  | none => simp only [itemAt_append_new, Option.map_some']
  | some t => simp only [setNext_fields, itemAt_append_new, Option.map_some']

/-- C35: for the item an accepted `OHOS_AddJoystick` creates, with `m` the button mask after
the D-pad bits have been added when `nhats > 0` (a 32-bit value): the stored `nhats` is 0 when
`nhats > 0`; `nbuttons` is `OHOS_MAX_NBUTTONS` when `m` is `0xFFFFFFFF`, 0 when `m` is 0, and
otherwise `k + 1` for the highest set bit `k` of `m`; it lies between 0 and 36. -/
theorem C35_nbuttons (B : GamepadButtons) (s : JoyState) (env : AddEnv) (device_id : Int)
    (name desc : Option (List Nat)) (vendor_id product_id : Int) (is_accelerometer : Bool)
    (button_mask : Nat) (naxes : Int) (axis_mask : Nat) (nhats : Int) (itemName : List Nat)
    (hpass : addPasses s env device_id name naxes nhats = true)
    (hmalloc : env.mallocOk = true) (hname : env.joystickName = some itemName)
    (hmask : addedMask B button_mask nhats < 4294967296) :
    ∃ item : SDL_joylist_item,
      itemAt (OHOS_AddJoystick B s env device_id name desc vendor_id product_id
        is_accelerometer button_mask naxes axis_mask nhats).2.items s.items.length
        = some item ∧
      item.nhats = (if nhats > 0 then 0 else nhats) ∧
      (addedMask B button_mask nhats = 4294967295 → item.nbuttons = OHOS_MAX_NBUTTONS) ∧
      (addedMask B button_mask nhats = 0 → item.nbuttons = 0) ∧
      (addedMask B button_mask nhats ≠ 4294967295 → addedMask B button_mask nhats ≠ 0 →
        ∃ k, k < 32 ∧ item.nbuttons = Int.ofNat (k + 1) ∧
          (addedMask B button_mask nhats).testBit k = true ∧
          ∀ j, k < j → (addedMask B button_mask nhats).testBit j = false) ∧
      0 ≤ item.nbuttons ∧ item.nbuttons ≤ 36 := by
  rw [OHOS_AddJoystick_eq, if_pos ⟨hpass, hmalloc⟩, hname]
  simp only
  have hl := linked_new_item s env
    (newItem B env device_id itemName is_accelerometer button_mask naxes axis_mask nhats)
  cases hi : itemAt (linked s env (newItem B env device_id itemName is_accelerometer
      button_mask naxes axis_mask nhats)).items s.items.length with
  | none => rw [hi] at hl; exact Option.noConfusion hl
  | some item =>
    rw [hi] at hl
    simp only [Option.map_some', Option.some.injEq] at hl
    have hnb : item.nbuttons =
        (if addedMask B button_mask nhats = 4294967295 then OHOS_MAX_NBUTTONS
         else nbuttonsLoop (addedMask B button_mask nhats) 0) := by
      have := congrArg SDL_joylist_item.nbuttons hl
      exact this
    have hnh : item.nhats = (if nhats > 0 then 0 else nhats) := by
      have := congrArg SDL_joylist_item.nhats hl
      exact this
    have hhi := nbuttonsLoop_highest (addedMask B button_mask nhats)
    have hhigh : ∀ j, 32 ≤ j → (addedMask B button_mask nhats).testBit j = false := by
      intro j hj
      apply Nat.testBit_lt_two_pow
      calc addedMask B button_mask nhats < 4294967296 := hmask
        _ = 2 ^ 32 := by norm_num
        _ ≤ 2 ^ j := Nat.pow_le_pow_right (by norm_num) hj
    refine ⟨item, rfl, hnh, ?_, ?_, ?_, ?_, ?_⟩
    · intro h
      rw [hnb, if_pos h]
    · intro h
      have hne : ¬ addedMask B button_mask nhats = 4294967295 := by rw [h]; norm_num
      rw [hnb, if_neg hne]
      rcases hhi with ⟨h0, _⟩ | ⟨k, _, _, hbit, _⟩
      · exact h0
      · rw [h, Nat.zero_testBit] at hbit
        exact Bool.noConfusion hbit
    · intro hne h0
      rw [hnb, if_neg hne]
      rcases hhi with ⟨_, hall⟩ | ⟨k, hk, hk1, hbit, hall⟩
      · exfalso
        apply h0
        apply Nat.eq_of_testBit_eq
        intro j
        rw [Nat.zero_testBit]
        by_cases hj : j < 32
        · exact hall j hj
        · exact hhigh j (by omega)
      · refine ⟨k, hk, hk1, hbit, fun j hj => ?_⟩
        by_cases hj2 : j < 32
        · exact hall j hj hj2
        · exact hhigh j (by omega)
    · rw [hnb]
      split
      · unfold OHOS_MAX_NBUTTONS; omega
      · rcases hhi with ⟨h0, _⟩ | ⟨k, hk, hk1, _, _⟩
        · rw [h0]
        · rw [hk1]; exact Int.ofNat_nonneg _
    · rw [hnb]
      split
      · unfold OHOS_MAX_NBUTTONS; omega
      · rcases hhi with ⟨h0, _⟩ | ⟨k, hk, hk1, _, _⟩
        · rw [h0]; omega
        · rw [hk1]
          have : Int.ofNat (k + 1) = ((k : Int) + 1) := rfl
          omega

/-- Witness of C35: device 7 is added to the empty list with mask 3 and one hat: the mask
becomes `0x7803`, the stored `nhats` is 0 and `nbuttons` is 15; with the mask `0xFFFFFFFF` and
no hat `nbuttons` is 36. -/
theorem C35_nbuttons_witness :
    addPasses JoyState.empty sampleEnv 7 (some [80, 97, 100]) 2 1 = true ∧
    addedMask sampleButtons 3 1 = 30723 ∧
    (∃ item, itemAt (OHOS_AddJoystick sampleButtons JoyState.empty sampleEnv 7
        (some [80, 97, 100]) none 0 0 false 3 2 3 1).2.items 0 = some item ∧
      item.nhats = 0 ∧ item.nbuttons = 15) ∧
    (∃ item, itemAt (OHOS_AddJoystick sampleButtons JoyState.empty sampleEnv 7
        (some [80, 97, 100]) none 0 0 false 4294967295 2 3 0).2.items 0 = some item ∧
      item.nbuttons = 36) := by
  have hm : addedMask sampleButtons 3 1 = 30723 := by decide
  obtain ⟨item, hi, hh, _, _, hk, _, _⟩ := C35_nbuttons sampleButtons JoyState.empty sampleEnv
    7 (some [80, 97, 100]) none 0 0 false 3 2 3 1 [80, 97, 100] (by decide) rfl rfl
    (by decide)
  obtain ⟨item3, hi3, _, hall, _⟩ := C35_nbuttons sampleButtons JoyState.empty sampleEnv
    7 (some [80, 97, 100]) none 0 0 false 4294967295 2 3 0 [80, 97, 100] (by decide) rfl rfl
    (by decide)
  obtain ⟨k, hk32, hnb, hbit, hhigh⟩ := hk (by decide) (by decide)
  rw [hm] at hbit hhigh
  have hk14 : k = 14 := by
    by_contra hne
    rcases Nat.lt_or_gt_of_ne hne with h | h
    · exact absurd (hhigh 14 h) (by decide)
    · have h15 : 15 ≤ k := h
      interval_cases k <;> exact absurd hbit (by decide)
  subst hk14
  exact ⟨by decide, hm, ⟨item, hi, hh.trans (by decide), hnb⟩,
    ⟨item3, hi3, hall (by decide)⟩⟩

theorem decide_and_shift (m i : Nat) : decide (m &&& (1 <<< i) ≠ 0) = m.testBit i := by
  cases hb : m.testBit i with
  | true => exact decide_eq_true ((and_shift_ne_zero m i).2 hb)
  | false =>
    apply decide_eq_false
    intro h
    rw [(and_shift_ne_zero m i).1 h] at hb
    exact Bool.noConfusion hb

theorem hat_event (j k new old : Nat) :
    (if (new ^^^ old) &&& (1 <<< k) ≠ 0 then
      [JoyEvent.SendJoystickButton j k (decide (new &&& (1 <<< k) ≠ 0))] else []) =
    (if Bool.xor (new.testBit k) (old.testBit k) = true then
      [JoyEvent.SendJoystickButton j k (new.testBit k)] else []) := by
  rw [decide_and_shift]
  by_cases h : (new ^^^ old) &&& (1 <<< k) ≠ 0
  · have h2 := (and_shift_ne_zero _ _).1 h
    rw [Nat.testBit_xor] at h2
    rw [if_pos h, if_pos h2]
  · have h2 : ¬ Bool.xor (new.testBit k) (old.testBit k) = true := by
      intro hx
      apply h
      apply (and_shift_ne_zero _ _).2
      rw [Nat.testBit_xor]
      exact hx
    rw [if_neg h, if_neg h2]

theorem hatEvents_eq (B : GamepadButtons) (j new old : Nat) :
    hatEvents B j new old =
      (if (new ^^^ old) &&& (1 <<< B.SDL_GAMEPAD_BUTTON_DPAD_UP) ≠ 0 then
        [JoyEvent.SendJoystickButton j B.SDL_GAMEPAD_BUTTON_DPAD_UP
          (decide (new &&& (1 <<< B.SDL_GAMEPAD_BUTTON_DPAD_UP) ≠ 0))] else []) ++
      (if (new ^^^ old) &&& (1 <<< B.SDL_GAMEPAD_BUTTON_DPAD_DOWN) ≠ 0 then
        [JoyEvent.SendJoystickButton j B.SDL_GAMEPAD_BUTTON_DPAD_DOWN
          (decide (new &&& (1 <<< B.SDL_GAMEPAD_BUTTON_DPAD_DOWN) ≠ 0))] else []) ++
      (if (new ^^^ old) &&& (1 <<< B.SDL_GAMEPAD_BUTTON_DPAD_LEFT) ≠ 0 then
        [JoyEvent.SendJoystickButton j B.SDL_GAMEPAD_BUTTON_DPAD_LEFT
          (decide (new &&& (1 <<< B.SDL_GAMEPAD_BUTTON_DPAD_LEFT) ≠ 0))] else []) ++
      (if (new ^^^ old) &&& (1 <<< B.SDL_GAMEPAD_BUTTON_DPAD_RIGHT) ≠ 0 then
        [JoyEvent.SendJoystickButton j B.SDL_GAMEPAD_BUTTON_DPAD_RIGHT
          (decide (new &&& (1 <<< B.SDL_GAMEPAD_BUTTON_DPAD_RIGHT) ≠ 0))] else []) := by
  rw [hat_event, hat_event, hat_event, hat_event]
  unfold hatEvents dpadButtons
  simp only [List.filter_cons, List.filter_nil]
  generalize Bool.xor (new.testBit B.SDL_GAMEPAD_BUTTON_DPAD_UP)
    (old.testBit B.SDL_GAMEPAD_BUTTON_DPAD_UP) = b1
  generalize Bool.xor (new.testBit B.SDL_GAMEPAD_BUTTON_DPAD_DOWN)
    (old.testBit B.SDL_GAMEPAD_BUTTON_DPAD_DOWN) = b2
  generalize Bool.xor (new.testBit B.SDL_GAMEPAD_BUTTON_DPAD_LEFT)
    (old.testBit B.SDL_GAMEPAD_BUTTON_DPAD_LEFT) = b3
  generalize Bool.xor (new.testBit B.SDL_GAMEPAD_BUTTON_DPAD_RIGHT)
    (old.testBit B.SDL_GAMEPAD_BUTTON_DPAD_RIGHT) = b4
  cases b1 <;> cases b2 <;> cases b3 <;> cases b4 <;> rfl

theorem hatEvents_same (B : GamepadButtons) (j n : Nat) : hatEvents B j n n = [] := by
  unfold hatEvents
  simp

theorem OHOS_OnHat_eq (B : GamepadButtons) (s : JoyState) (device_id hat_id x y : Int)
    (hx : -1 ≤ x ∧ x ≤ 1 ∧ -1 ≤ y ∧ y ≤ 1) (a : Nat) (item : SDL_joylist_item) (j : Nat)
    (ha : JoystickByDeviceId s device_id = some a) (hi : itemAt s.items a = some item)
    (hj : item.joystick = some j) :
    OHOS_OnHat B s device_id hat_id x y =
      (0, if hatState B x y = item.dpad_state then s
          else { s with
                 events := s.events ++ hatEvents B j (hatState B x y) item.dpad_state,
                 items := s.items.set a
                   (some { item with dpad_state := hatState B x y }) }) := by
  have hs : ∀ (dx dy : Nat), (if x < 0 then (0 : Nat) ||| dx
      else if x > 0 then (0 : Nat) ||| dy else 0) =
      (0 : Nat) ||| (if x < 0 then dx else if x > 0 then dy else 0) := by
    intro dx dy
    split
    · rfl
    · split
      · rfl
      · simp
  have hs2 : ∀ (d dx dy : Nat), (if y < 0 then d ||| dx
      else if y > 0 then d ||| dy else d) =
      d ||| (if y < 0 then dx else if y > 0 then dy else 0) := by
    intro d dx dy
    split
    · rfl
    · split
      · rfl
      · simp
  have hr : (x ≥ -1 ∧ x ≤ 1 ∧ y ≥ -1 ∧ y ≤ 1) := ⟨hx.1, hx.2.1, hx.2.2.1, hx.2.2.2⟩
  unfold OHOS_OnHat
  simp only [if_pos hr, ha, Option.some_bind, hi, Option.map_some', hj, hs, hs2]
  rw [← hatState.eq_1 B x y]
  by_cases hd : hatState B x y = item.dpad_state
  · have h0 : ¬ (hatState B x y ^^^ item.dpad_state ≠ 0) := by
      rw [hd]; simp
    rw [if_neg h0, if_pos hd]
  · have h0 : hatState B x y ^^^ item.dpad_state ≠ 0 := by
      intro h
      exact hd (Nat.xor_eq_zero.1 h)
    rw [if_pos h0, if_neg hd, hatEvents_eq]

theorem hatState_bits (B : GamepadButtons) (hB : B.Distinct) (x y : Int) :
    (hatState B x y).testBit B.SDL_GAMEPAD_BUTTON_DPAD_LEFT = decide (x < 0) ∧
    (hatState B x y).testBit B.SDL_GAMEPAD_BUTTON_DPAD_RIGHT = decide (x > 0) ∧
    (hatState B x y).testBit B.SDL_GAMEPAD_BUTTON_DPAD_UP = decide (y < 0) ∧
    (hatState B x y).testBit B.SDL_GAMEPAD_BUTTON_DPAD_DOWN = decide (y > 0) := by
  unfold GamepadButtons.Distinct dpadButtons at hB
  simp only [List.nodup_cons, List.mem_cons, List.mem_singleton, not_or, List.not_mem_nil,
    not_false_eq_true, List.nodup_nil, and_true] at hB
  obtain ⟨⟨h1, h2, h3⟩, ⟨h4, h5⟩, h6⟩ := hB
  have h1s := Ne.symm h1
  have h2s := Ne.symm h2
  have h3s := Ne.symm h3
  have h4s := Ne.symm h4
  have h5s := Ne.symm h5
  have h6s := Ne.symm h6
  unfold hatState
  by_cases c1 : x < 0 <;> by_cases c2 : x > 0 <;> by_cases c3 : y < 0 <;>
    by_cases c4 : y > 0 <;>
    first
    | (exfalso; omega)
    | simp [c1, c2, c3, c4, Nat.testBit_two_pow, Nat.one_shiftLeft, h1, h2, h3, h4, h5, h6,
        h1s, h2s, h3s, h4s, h5s, h6s]

theorem itemAt_set_self (items : List (Option SDL_joylist_item)) (a : Nat)
    (it : SDL_joylist_item) (o : Option SDL_joylist_item) (h : itemAt items a = some it) :
    itemAt (items.set a o) a = o := by
  unfold itemAt at h ⊢
  have hlt : a < items.length := by
    by_contra hc
    rw [List.getElem?_eq_none (by omega)] at h
    exact Option.noConfusion h
  rw [List.getElem?_set_self hlt]
  rfl

theorem itemAt_set_ne (items : List (Option SDL_joylist_item)) (a b : Nat)
    (o : Option SDL_joylist_item) (h : a ≠ b) : itemAt (items.set a o) b = itemAt items b := by
  unfold itemAt
  rw [List.getElem?_set_ne h]

theorem SameLinks_set (items : List (Option SDL_joylist_item)) (a : Nat)
    (it it2 : SDL_joylist_item) (h : itemAt items a = some it)
    (hid : it2.device_id = it.device_id) (hn : it2.next = it.next) :
    SameLinks items (items.set a (some it2)) := by
  refine ⟨List.length_set _ _ _, fun b => ?_⟩
  by_cases hab : a = b
  · subst hab
    rw [itemAt_set_self items a it _ h, h]
    simp [hid, hn]
  · rw [itemAt_set_ne items a b _ hab]

theorem loop_SameLinks (items items2 : List (Option SDL_joylist_item))
    (h : SameLinks items items2) (device_id : Int) :
    ∀ fuel p, JoystickByDeviceId.loop items2 device_id fuel p =
      JoystickByDeviceId.loop items device_id fuel p := by
  intro fuel
  induction fuel with
  | zero => intro p; rfl
  | succ n ih =>
    intro p
    cases p with
    | none => rfl
    | some a =>
      unfold JoystickByDeviceId.loop
      have hb := h.2 a
      cases h1 : itemAt items a with
      | none =>
        rw [h1] at hb
        cases h2 : itemAt items2 a with
        | none => rfl
        | some it2 => rw [h2] at hb; exact Option.noConfusion hb
      | some it =>
        rw [h1] at hb
        cases h2 : itemAt items2 a with
        | none => rw [h2] at hb; exact Option.noConfusion hb
        | some it2 =>
          rw [h2] at hb
          simp only [Option.map_some', Option.some.injEq, Prod.mk.injEq] at hb
          simp only [hb.1, hb.2, ih]

theorem JoystickByDeviceId_SameLinks (s s2 : JoyState) (h : SameLinks s.items s2.items)
    (hh : s2.SDL_joylist = s.SDL_joylist) (device_id : Int) :
    JoystickByDeviceId s2 device_id = JoystickByDeviceId s device_id := by
  unfold JoystickByDeviceId
  rw [h.1, hh, loop_SameLinks _ _ h, loop_SameLinks _ _ h]

theorem OHOS_OnHat_range (B : GamepadButtons) (s : JoyState) (device_id hat_id x y : Int)
    (hx : -1 ≤ x ∧ x ≤ 1 ∧ -1 ≤ y ∧ y ≤ 1) :
    (OHOS_OnHat B s device_id hat_id x y).1 = 0 := by
  have hr : (x ≥ -1 ∧ x ≤ 1 ∧ y ≥ -1 ∧ y ≤ 1) := ⟨hx.1, hx.2.1, hx.2.2.1, hx.2.2.2⟩
  cases ha : JoystickByDeviceId s device_id with
  | none =>
    unfold OHOS_OnHat
    simp only [if_pos hr, ha, Option.none_bind]
  | some a =>
    cases hi : itemAt s.items a with
    | none =>
      unfold OHOS_OnHat
      simp only [if_pos hr, ha, Option.some_bind, hi, Option.map_none']
    | some item =>
      cases hj : item.joystick with
      | none =>
        unfold OHOS_OnHat
        simp only [if_pos hr, ha, Option.some_bind, hi, Option.map_some', hj]
      | some j => rw [OHOS_OnHat_eq B s device_id hat_id x y hx a item j ha hi hj]

theorem OHOS_OnHat_outside (B : GamepadButtons) (s : JoyState) (device_id hat_id x y : Int)
    (hx : x < -1 ∨ 1 < x ∨ y < -1 ∨ 1 < y) :
    OHOS_OnHat B s device_id hat_id x y = (-1, s) := by
  have hr : ¬ (x ≥ -1 ∧ x ≤ 1 ∧ y ≥ -1 ∧ y ≤ 1) := by omega
  unfold OHOS_OnHat
  simp only [if_neg hr]

/-- C32: `OHOS_OnHat` returns -1 and leaves the state as it was exactly when `x` or `y` is
outside `[-1, 1]`; otherwise it returns 0, and when `JoystickByDeviceId` finds an item with an
opened joystick, only the `dpad_state` of that item changes: afterwards its LEFT bit is set iff
`x < 0`, RIGHT iff `x > 0`, UP iff `y < 0`, DOWN iff `y > 0`; the events sent are one
`SDL_SendJoystickButton` for each of the four directions (in the order up, down, left, right)
whose bit differs from the previous `dpad_state`, pressed iff the bit is set in the new state;
the same call repeated returns 0 and changes nothing. -/
theorem C32_OnHat (B : GamepadButtons) (hB : B.Distinct) (s : JoyState)
    (device_id hat_id x y : Int) :
    (((OHOS_OnHat B s device_id hat_id x y).1 = -1 ∧
        (OHOS_OnHat B s device_id hat_id x y).2 = s) ↔
      (x < -1 ∨ 1 < x ∨ y < -1 ∨ 1 < y)) ∧
    (-1 ≤ x ∧ x ≤ 1 ∧ -1 ≤ y ∧ y ≤ 1 →
      (OHOS_OnHat B s device_id hat_id x y).1 = 0 ∧
      ∀ (a : Nat) (item : SDL_joylist_item) (j : Nat),
        JoystickByDeviceId s device_id = some a → itemAt s.items a = some item →
        item.joystick = some j →
        ∃ item2 : SDL_joylist_item,
          itemAt (OHOS_OnHat B s device_id hat_id x y).2.items a = some item2 ∧
          item2 = { item with dpad_state := item2.dpad_state } ∧
          item2.dpad_state.testBit B.SDL_GAMEPAD_BUTTON_DPAD_LEFT = decide (x < 0) ∧
          item2.dpad_state.testBit B.SDL_GAMEPAD_BUTTON_DPAD_RIGHT = decide (x > 0) ∧
          item2.dpad_state.testBit B.SDL_GAMEPAD_BUTTON_DPAD_UP = decide (y < 0) ∧
          item2.dpad_state.testBit B.SDL_GAMEPAD_BUTTON_DPAD_DOWN = decide (y > 0) ∧
          (OHOS_OnHat B s device_id hat_id x y).2.events =
            s.events ++ hatEvents B j item2.dpad_state item.dpad_state ∧
          OHOS_OnHat B (OHOS_OnHat B s device_id hat_id x y).2 device_id hat_id x y =
            (0, (OHOS_OnHat B s device_id hat_id x y).2)) := by
  constructor
  · constructor
    · intro h
      by_contra hc
      have h1 := h.1
      rw [OHOS_OnHat_range B s device_id hat_id x y (by omega)] at h1
      exact absurd h1 (by decide)
    · intro h
      rw [OHOS_OnHat_outside B s device_id hat_id x y h]
      exact ⟨rfl, rfl⟩
  · intro hx
    refine ⟨OHOS_OnHat_range B s device_id hat_id x y hx, ?_⟩
    intro a item j ha hi hj
    have hbits := hatState_bits B hB x y
    rw [OHOS_OnHat_eq B s device_id hat_id x y hx a item j ha hi hj]
    by_cases hd : hatState B x y = item.dpad_state
    · rw [if_pos hd]
      refine ⟨item, hi, rfl, ?_, ?_, ?_, ?_, ?_, ?_⟩
      · rw [← hd]; exact hbits.1
      · rw [← hd]; exact hbits.2.1
      · rw [← hd]; exact hbits.2.2.1
      · rw [← hd]; exact hbits.2.2.2
      · rw [hatEvents_same, List.append_nil]
      · rw [OHOS_OnHat_eq B s device_id hat_id x y hx a item j ha hi hj, if_pos hd]
    · rw [if_neg hd]
      have hi2 : itemAt (s.items.set a (some { item with dpad_state := hatState B x y })) a =
          some { item with dpad_state := hatState B x y } :=
        itemAt_set_self s.items a item _ hi
      refine ⟨{ item with dpad_state := hatState B x y }, hi2, rfl, hbits.1, hbits.2.1,
        hbits.2.2.1, hbits.2.2.2, rfl, ?_⟩
      have hsl : SameLinks s.items
          (s.items.set a (some { item with dpad_state := hatState B x y })) :=
        SameLinks_set s.items a item _ hi rfl rfl
      have ha2 : JoystickByDeviceId
          { s with
            events := s.events ++ hatEvents B j (hatState B x y) item.dpad_state,
            items := s.items.set a (some { item with dpad_state := hatState B x y }) }
          device_id = some a :=
        (JoystickByDeviceId_SameLinks s
          { s with
            events := s.events ++ hatEvents B j (hatState B x y) item.dpad_state,
            items := s.items.set a (some { item with dpad_state := hatState B x y }) }
          hsl rfl device_id).trans ha
      rw [OHOS_OnHat_eq B _ device_id hat_id x y hx a
        { item with dpad_state := hatState B x y } j ha2 hi2 hj]
      simp only [if_true]

/-- Witness of C32: device 7 is opened with the joystick at address 0 and its D-pad is at
rest; the hat event `x = -1, y = 1` returns 0 and sets the LEFT and DOWN bits; the hat event
`x = 2` returns -1 and changes nothing. -/
theorem C32_OnHat_witness :
    sampleButtons.Distinct ∧
    (OHOS_OnHat sampleButtons sampleJoyState 7 0 2 0).1 = -1 ∧
    (OHOS_OnHat sampleButtons sampleJoyState 7 0 2 0).2 = sampleJoyState ∧
    (OHOS_OnHat sampleButtons sampleJoyState 7 0 (-1) 1).1 = 0 ∧
    ∃ item2 : SDL_joylist_item,
      itemAt (OHOS_OnHat sampleButtons sampleJoyState 7 0 (-1) 1).2.items 0 = some item2 ∧
      item2.dpad_state.testBit 13 = true ∧ item2.dpad_state.testBit 14 = false ∧
      item2.dpad_state.testBit 11 = false ∧ item2.dpad_state.testBit 12 = true ∧
      OHOS_OnHat sampleButtons (OHOS_OnHat sampleButtons sampleJoyState 7 0 (-1) 1).2
        7 0 (-1) 1 = (0, (OHOS_OnHat sampleButtons sampleJoyState 7 0 (-1) 1).2) := by
  have hB : sampleButtons.Distinct := by
    unfold GamepadButtons.Distinct
    decide
  have hout := C32_OnHat sampleButtons hB sampleJoyState 7 0 2 0
  have h := C32_OnHat sampleButtons hB sampleJoyState 7 0 (-1) 1
  have hin := h.2 (by decide)
  obtain ⟨item2, h1, _, hl, hr, hu, hd, _, hrep⟩ :=
    hin.2 0 sampleItem 0 (by decide) (by decide) rfl
  have ho := hout.1.2 (Or.inr (Or.inl (by decide)))
  exact ⟨hB, ho.1, ho.2, hin.1, item2, h1, hl.trans (by decide), hr.trans (by decide),
    hu.trans (by decide), hd.trans (by decide), hrep⟩

theorem IsChain_lt (items : List (Option SDL_joylist_item)) :
    ∀ (addrs : List Nat) (head : Option Nat), IsChain items head addrs →
      ∀ a ∈ addrs, ∃ it, itemAt items a = some it := by
  intro addrs
  induction addrs with
  | nil => intro head _ a ha; exact absurd ha (List.not_mem_nil a)
  | cons b rest ih =>
    intro head h a ha
    obtain ⟨_, it, hit, hrest⟩ := h
    rcases List.mem_cons.1 ha with h1 | h1
    · rw [h1]; exact ⟨it, hit⟩
    · exact ih it.next hrest a h1

theorem itemAt_lt (items : List (Option SDL_joylist_item)) (a : Nat) (it : SDL_joylist_item)
    (h : itemAt items a = some it) : a < items.length := by
  unfold itemAt at h
  by_contra hc
  rw [List.getElem?_eq_none (by omega)] at h
  exact Option.noConfusion h

theorem nodup_lt_length (n : Nat) (l : List Nat) (hn : l.Nodup) (hl : ∀ a ∈ l, a < n) :
    l.length ≤ n := by
  have hsub : l ⊆ List.range n := fun a ha => List.mem_range.2 (hl a ha)
  have := (List.subperm_of_subset hn hsub).length_le
  simpa using this

theorem IsChain_length (items : List (Option SDL_joylist_item)) (addrs : List Nat)
    (head : Option Nat) (h : IsChain items head addrs) (hn : addrs.Nodup) :
    addrs.length ≤ items.length :=
  nodup_lt_length _ _ hn (fun a ha => by
    obtain ⟨it, hit⟩ := IsChain_lt items addrs head h a ha
    exact itemAt_lt items a it hit)

theorem IsChain_walk (items : List (Option SDL_joylist_item)) :
    ∀ (addrs : List Nat) (head : Option Nat) (fuel : Nat), IsChain items head addrs →
      addrs.length ≤ fuel → walk items fuel head = addrs := by
  intro addrs
  induction addrs with
  | nil =>
    intro head fuel h _
    have h0 : head = none := h
    subst h0
    cases fuel <;> rfl
  | cons a rest ih =>
    intro head fuel h hf
    obtain ⟨h0, it, hit, hrest⟩ := h
    subst h0
    obtain ⟨f, rfl⟩ : ∃ f, fuel = f + 1 := ⟨fuel - 1, by simp at hf; omega⟩
    unfold walk
    simp only [hit]
    rw [ih it.next f hrest (by simp at hf; omega)]

theorem JoyWf_chain (s : JoyState) (addrs : List Nat)
    (h : IsChain s.items s.SDL_joylist addrs) (hn : addrs.Nodup) : s.chain = addrs := by
  unfold JoyState.chain
  exact IsChain_walk s.items addrs _ _ h
    (Nat.le_succ_of_le (IsChain_length s.items addrs _ h hn))

theorem IsChain_congr (items items2 : List (Option SDL_joylist_item)) :
    ∀ (addrs : List Nat) (head : Option Nat),
      (∀ a ∈ addrs, (itemAt items2 a).map (fun it => it.next) =
        (itemAt items a).map (fun it => it.next)) →
      IsChain items head addrs → IsChain items2 head addrs := by
  intro addrs
  induction addrs with
  | nil => intro head _ h; exact h
  | cons a rest ih =>
    intro head hc h
    obtain ⟨h0, it, hit, hrest⟩ := h
    have ha := hc a (List.mem_cons_self a rest)
    rw [hit] at ha
    cases h2 : itemAt items2 a with
    | none => rw [h2] at ha; exact Option.noConfusion ha
    | some it2 =>
      rw [h2] at ha
      simp only [Option.map_some', Option.some.injEq] at ha
      refine ⟨h0, it2, h2, ?_⟩
      rw [ha]
      exact ih it.next (fun b hb => hc b (List.mem_cons_of_mem a hb)) hrest

theorem deviceIds_congr (items items2 : List (Option SDL_joylist_item)) (addrs : List Nat)
    (hc : ∀ a ∈ addrs, (itemAt items2 a).map (fun it => it.device_id) =
      (itemAt items a).map (fun it => it.device_id)) :
    deviceIds items2 addrs = deviceIds items addrs := by
  unfold deviceIds
  induction addrs with
  | nil => rfl
  | cons a rest ih =>
    rw [List.filterMap_cons, List.filterMap_cons, hc a (List.mem_cons_self a rest),
      ih (fun b hb => hc b (List.mem_cons_of_mem a hb))]

theorem SameLinks_next (items items2 : List (Option SDL_joylist_item))
    (h : SameLinks items items2) (a : Nat) :
    (itemAt items2 a).map (fun it => it.next) = (itemAt items a).map (fun it => it.next) := by
  have := congrArg (Option.map Prod.snd) (h.2 a)
  simpa [Option.map_map, Function.comp] using this

theorem SameLinks_id (items items2 : List (Option SDL_joylist_item))
    (h : SameLinks items items2) (a : Nat) :
    (itemAt items2 a).map (fun it => it.device_id) =
      (itemAt items a).map (fun it => it.device_id) := by
  have := congrArg (Option.map Prod.fst) (h.2 a)
  simpa [Option.map_map, Function.comp] using this

theorem JoyWf_SameLinks (s s2 : JoyState) (h : SameLinks s.items s2.items)
    (h1 : s2.SDL_joylist = s.SDL_joylist) (h2 : s2.SDL_joylist_tail = s.SDL_joylist_tail)
    (h3 : s2.numjoysticks = s.numjoysticks) (hw : JoyWf s) : JoyWf s2 := by
  obtain ⟨addrs, hc, hn, ht, hl, hd⟩ := hw
  refine ⟨addrs, ?_, hn, by rw [h2, ht], by rw [h3, hl], ?_⟩
  · rw [h1]
    exact IsChain_congr s.items s2.items addrs _ (fun a _ => SameLinks_next _ _ h a) hc
  · rw [deviceIds_congr s.items s2.items addrs (fun a _ => SameLinks_id _ _ h a)]
    exact hd

theorem loop_find (items : List (Option SDL_joylist_item)) (device_id : Int) :
    ∀ (addrs : List Nat) (head : Option Nat) (fuel : Nat), IsChain items head addrs →
      addrs.length ≤ fuel →
      JoystickByDeviceId.loop items device_id fuel head =
        addrs.find? (hasId items device_id) := by
  intro addrs
  induction addrs with
  | nil =>
    intro head fuel h _
    have h0 : head = none := h
    subst h0
    cases fuel <;> rfl
  | cons a rest ih =>
    intro head fuel h hf
    obtain ⟨h0, it, hit, hrest⟩ := h
    subst h0
    obtain ⟨f, rfl⟩ : ∃ f, fuel = f + 1 := ⟨fuel - 1, by simp at hf; omega⟩
    unfold JoystickByDeviceId.loop
    simp only [hit]
    by_cases hid : it.device_id = device_id
    · have : hasId items device_id a = true := by
        unfold hasId
        simp [hit, hid]
      rw [if_pos hid, List.find?_cons_of_pos _ this]
    · have : ¬ hasId items device_id a = true := by
        unfold hasId
        simp [hit, hid]
      rw [if_neg hid, List.find?_cons_of_neg _ this]
      exact ih it.next f hrest (by simp at hf; omega)

theorem JoystickByDeviceId_find (s : JoyState) (device_id : Int) (addrs : List Nat)
    (h : IsChain s.items s.SDL_joylist addrs) (hn : addrs.Nodup) :
    JoystickByDeviceId s device_id = addrs.find? (hasId s.items device_id) := by
  unfold JoystickByDeviceId
  rw [loop_find s.items device_id addrs _ _ h
    (Nat.le_succ_of_le (IsChain_length s.items addrs _ h hn))]
  cases addrs.find? (hasId s.items device_id) with
  | some a => rfl
  | none => rfl

theorem mem_deviceIds (items : List (Option SDL_joylist_item)) (device_id : Int)
    (addrs : List Nat) :
    device_id ∈ deviceIds items addrs ↔ ∃ a ∈ addrs, hasId items device_id a = true := by
  unfold deviceIds hasId
  simp only [List.mem_filterMap, decide_eq_true_eq]

theorem find_none_not_mem (items : List (Option SDL_joylist_item)) (device_id : Int)
    (addrs : List Nat) (h : addrs.find? (hasId items device_id) = none) :
    device_id ∉ deviceIds items addrs := by
  intro hm
  obtain ⟨a, ha, hid⟩ := (mem_deviceIds items device_id addrs).1 hm
  have := List.find?_eq_none.1 h a ha
  exact this hid

theorem itemAt_append_lt (items : List (Option SDL_joylist_item))
    (x : Option SDL_joylist_item) (a : Nat) (h : a < items.length) :
    itemAt (items ++ [x]) a = itemAt items a := by
  unfold itemAt
  rw [List.getElem?_append_left h]

theorem itemAt_setNext_ne (items : List (Option SDL_joylist_item)) (p a : Nat)
    (v : Option Nat) (h : p ≠ a) : itemAt (setNext items p v) a = itemAt items a := by
  unfold setNext
  cases itemAt items p with
  | none => rfl
  | some it => exact itemAt_set_ne items p a _ h

theorem itemAt_setNext_self (items : List (Option SDL_joylist_item)) (p : Nat)
    (v : Option Nat) (it : SDL_joylist_item) (h : itemAt items p = some it) :
    itemAt (setNext items p v) p = some { it with next := v } := by
  unfold setNext
  rw [h]
  exact itemAt_set_self items p it _ h

theorem IsChain_snoc (items : List (Option SDL_joylist_item)) (item : SDL_joylist_item)
    (t : Nat) (hnext : item.next = none) :
    ∀ (addrs : List Nat) (head : Option Nat), IsChain items head addrs →
      addrs.getLast? = some t → addrs.Nodup →
      IsChain (setNext (items ++ [some item]) t (some items.length)) head
        (addrs ++ [items.length]) := by
  intro addrs
  induction addrs with
  | nil => intro head _ hl; exact Option.noConfusion hl
  | cons a rest ih =>
    intro head h hl hn
    obtain ⟨h0, it, hit, hrest⟩ := h
    have halt := itemAt_lt items a it hit
    cases rest with
    | nil =>
      have hat : a = t := by
        simpa using hl
      subst hat
      have hnone : it.next = none := hrest
      refine ⟨h0, { it with next := some items.length }, ?_, ?_⟩
      · apply itemAt_setNext_self
        rw [itemAt_append_lt items _ a halt]
        exact hit
      · refine ⟨rfl, item, ?_, ?_⟩
        · rw [itemAt_setNext_ne _ a items.length _ (by omega)]
          exact itemAt_append_new items item
        · rw [hnext]
          rfl
    | cons b rest2 =>
      have hl2 : (b :: rest2).getLast? = some t := by
        rw [List.getLast?_cons_cons] at hl
        exact hl
      have hta : t ≠ a := by
        intro hta
        have hmem : t ∈ b :: rest2 := List.mem_of_getLast?_eq_some hl2
        rw [hta] at hmem
        exact (List.nodup_cons.1 hn).1 hmem
      refine ⟨h0, it, ?_, ?_⟩
      · rw [itemAt_setNext_ne _ t a _ hta, itemAt_append_lt items _ a halt]
        exact hit
      · exact ih it.next hrest hl2 (List.nodup_cons.1 hn).2

theorem linked_fields (s : JoyState) (env : AddEnv) (item : SDL_joylist_item) (a : Nat)
    (ha : a < s.items.length) :
    (itemAt (linked s env item).items a).map SDL_joylist_item.unlinked =
      (itemAt s.items a).map SDL_joylist_item.unlinked := by
  unfold linked
  cases ht : s.SDL_joylist_tail with
  | none => simp only [itemAt_append_lt s.items _ a ha]
  | some t =>
    simp only
    have := setNext_fields (s.items ++ [some item]) t (some s.items.length) a
    rw [itemAt_append_lt s.items _ a ha] at this
    exact this

theorem unlinked_id (o o2 : Option SDL_joylist_item)
    (h : o2.map SDL_joylist_item.unlinked = o.map SDL_joylist_item.unlinked) :
    o2.map (fun it => it.device_id) = o.map (fun it => it.device_id) := by
  have := congrArg (Option.map (fun it : SDL_joylist_item => it.device_id)) h
  simpa [Option.map_map, Function.comp, SDL_joylist_item.unlinked] using this

theorem list_congr (items items2 : List (Option SDL_joylist_item)) (addrs : List Nat)
    (hc : ∀ a ∈ addrs, (itemAt items2 a).map SDL_joylist_item.unlinked =
      (itemAt items a).map SDL_joylist_item.unlinked) :
    addrs.filterMap (fun a => (itemAt items2 a).map SDL_joylist_item.unlinked) =
      addrs.filterMap (fun a => (itemAt items a).map SDL_joylist_item.unlinked) := by
  induction addrs with
  | nil => rfl
  | cons a rest ih =>
    rw [List.filterMap_cons, List.filterMap_cons, hc a (List.mem_cons_self a rest),
      ih (fun b hb => hc b (List.mem_cons_of_mem a hb))]

theorem linked_new_id (s : JoyState) (env : AddEnv) (item : SDL_joylist_item) :
    (itemAt (linked s env item).items s.items.length).map (fun it => it.device_id) =
      some item.device_id := by
  have h := linked_new_item s env item
  cases hx : itemAt (linked s env item).items s.items.length with
  | none => rw [hx] at h; exact Option.noConfusion h
  | some it =>
    rw [hx] at h
    simp only [Option.map_some', Option.some.injEq] at h ⊢
    have h2 := congrArg SDL_joylist_item.device_id h
    exact h2

theorem linked_new_unlinked (s : JoyState) (env : AddEnv) (item : SDL_joylist_item) :
    (itemAt (linked s env item).items s.items.length).map SDL_joylist_item.unlinked =
      some item.unlinked :=
  linked_new_item s env item

theorem unlinked_self (item : SDL_joylist_item) (h : item.next = none) :
    item.unlinked = item := by
  obtain ⟨a1, a2, a3, a4, a5, a6, a7, a8, a9, a10, a11⟩ := item
  simp only at h
  subst h
  rfl

theorem linked_spec (s : JoyState) (env : AddEnv) (item : SDL_joylist_item) (hw : JoyWf s)
    (hnext : item.next = none) (hid : JoystickByDeviceId s item.device_id = none) :
    JoyWf (linked s env item) ∧
    (linked s env item).chain = s.chain ++ [s.items.length] ∧
    (linked s env item).list = s.list ++ [item] := by
  obtain ⟨addrs, hc, hn, ht, hl, hd⟩ := hw
  have hchain := JoyWf_chain s addrs hc hn
  have hlt : ∀ a ∈ addrs, a < s.items.length := fun a ha => by
    obtain ⟨it, hit⟩ := IsChain_lt s.items addrs _ hc a ha
    exact itemAt_lt s.items a it hit
  have hnew : s.items.length ∉ addrs := fun h => Nat.lt_irrefl _ (hlt _ h)
  have hc2 : IsChain (linked s env item).items (linked s env item).SDL_joylist
      (addrs ++ [s.items.length]) := by
    unfold linked
    cases addrs with
    | nil =>
      have h0 : s.SDL_joylist = none := hc
      have ht0 : s.SDL_joylist_tail = none := ht
      simp only [ht0, List.nil_append]
      exact ⟨rfl, item, itemAt_append_new s.items item, by rw [hnext]; rfl⟩
    | cons a rest =>
      obtain ⟨t, hlast⟩ : ∃ t, (a :: rest).getLast? = some t :=
        ⟨(a :: rest).getLast (List.cons_ne_nil a rest), List.getLast?_eq_getLast _ _⟩
      rw [hlast] at ht
      simp only [ht]
      exact IsChain_snoc s.items item t hnext (a :: rest) _ hc hlast hn
  have hn2 : (addrs ++ [s.items.length]).Nodup := by
    rw [List.nodup_append]
    refine ⟨hn, List.nodup_singleton _, ?_⟩
    intro a ha hb
    rw [List.mem_singleton] at hb
    rw [hb] at ha
    exact hnew ha
  have hids : deviceIds (linked s env item).items (addrs ++ [s.items.length]) =
      deviceIds s.items addrs ++ [item.device_id] := by
    unfold deviceIds
    rw [List.filterMap_append]
    congr 1
    · exact deviceIds_congr s.items (linked s env item).items addrs
        (fun a ha => unlinked_id _ _ (linked_fields s env item a (hlt a ha)))
    · simp only [List.filterMap_cons, List.filterMap_nil, linked_new_id]
  have hw2 : JoyWf (linked s env item) := by
    refine ⟨addrs ++ [s.items.length], hc2, hn2, ?_, ?_, ?_⟩
    · unfold linked
      simp
    · show s.numjoysticks + 1 = Int.ofNat (addrs ++ [s.items.length]).length
      rw [hl, List.length_append, List.length_singleton]
      rfl
    · rw [hids, List.nodup_append]
      refine ⟨hd, List.nodup_singleton _, ?_⟩
      intro x hx hy
      rw [List.mem_singleton] at hy
      rw [hy] at hx
      rw [JoystickByDeviceId_find s item.device_id addrs hc hn] at hid
      exact find_none_not_mem s.items item.device_id addrs hid hx
  have hchain2 := JoyWf_chain (linked s env item) _ hc2 hn2
  refine ⟨hw2, by rw [hchain2, hchain], ?_⟩
  unfold JoyState.list
  rw [hchain2, hchain, List.filterMap_append]
  congr 1
  · exact list_congr s.items (linked s env item).items addrs
      (fun a ha => linked_fields s env item a (hlt a ha))
  · simp only [List.filterMap_cons, List.filterMap_nil, linked_new_unlinked,
      unlinked_self item hnext]

theorem append_none_spec (s : JoyState) (hw : JoyWf s) :
    JoyWf { s with items := s.items ++ [none] } ∧
    ({ s with items := s.items ++ [none] } : JoyState).chain = s.chain ∧
    ({ s with items := s.items ++ [none] } : JoyState).list = s.list := by
  obtain ⟨addrs, hc, hn, ht, hl, hd⟩ := hw
  have hchain := JoyWf_chain s addrs hc hn
  have hlt : ∀ a ∈ addrs, a < s.items.length := fun a ha => by
    obtain ⟨it, hit⟩ := IsChain_lt s.items addrs _ hc a ha
    exact itemAt_lt s.items a it hit
  have hc2 : IsChain (s.items ++ [none]) s.SDL_joylist addrs :=
    IsChain_congr s.items _ addrs _
      (fun a ha => by rw [itemAt_append_lt s.items _ a (hlt a ha)]) hc
  have hchain2 := JoyWf_chain { s with items := s.items ++ [none] } addrs hc2 hn
  refine ⟨⟨addrs, hc2, hn, ht, hl, ?_⟩, by rw [hchain2, hchain], ?_⟩
  · rw [deviceIds_congr s.items (s.items ++ [none]) addrs
      (fun a ha => by rw [itemAt_append_lt s.items _ a (hlt a ha)])]
    exact hd
  · unfold JoyState.list
    rw [hchain2, hchain]
    exact list_congr s.items (s.items ++ [none]) addrs
      (fun a ha => by rw [itemAt_append_lt s.items _ a (hlt a ha)])

theorem split_first (p : Nat → Bool) :
    ∀ l : List Nat, (∃ a ∈ l, p a = true) →
      ∃ pre a post, l = pre ++ a :: post ∧ (∀ b ∈ pre, p b = false) ∧ p a = true := by
  intro l
  induction l with
  | nil => intro ⟨a, ha, _⟩; exact absurd ha (List.not_mem_nil a)
  | cons x xs ih =>
    intro ⟨a, ha, hp⟩
    by_cases hx : p x = true
    · exact ⟨[], x, xs, rfl, fun b hb => absurd hb (List.not_mem_nil b), hx⟩
    · have hxf : p x = false := by simpa using hx
      rcases List.mem_cons.1 ha with h | h
      · rw [h] at hp; exact absurd hp hx
      · obtain ⟨pre, a2, post, h1, h2, h3⟩ := ih ⟨a, h, hp⟩
        refine ⟨x :: pre, a2, post, by rw [h1]; rfl, ?_, h3⟩
        intro b hb
        rcases List.mem_cons.1 hb with h4 | h4
        · rw [h4]; exact hxf
        · exact h2 b h4

theorem hasId_true (items : List (Option SDL_joylist_item)) (device_id : Int) (a : Nat)
    (it : SDL_joylist_item) (hit : itemAt items a = some it) :
    hasId items device_id a = true ↔ it.device_id = device_id := by
  unfold hasId
  simp [hit]

theorem remove_loop_found (items : List (Option SDL_joylist_item)) (device_id : Int)
    (a : Nat) (post : List Nat) :
    ∀ (pre : List Nat) (head : Option Nat) (fuel : Nat) (prev : Option Nat),
      IsChain items head (pre ++ a :: post) → (∀ b ∈ pre, hasId items device_id b = false) →
      hasId items device_id a = true → (pre ++ a :: post).length ≤ fuel →
      OHOS_RemoveJoystick.loop items device_id fuel prev head =
        ((match pre.getLast? with
          | some p => some p
          | none => prev), some a) := by
  intro pre
  induction pre with
  | nil =>
    intro head fuel prev h _ ha hf
    obtain ⟨h0, it, hit, _⟩ := h
    subst h0
    obtain ⟨f, rfl⟩ : ∃ f, fuel = f + 1 := ⟨fuel - 1, by simp at hf; omega⟩
    unfold OHOS_RemoveJoystick.loop
    simp only [hit, if_pos ((hasId_true items device_id a it hit).1 ha), List.getLast?_nil]
  | cons b rest ih =>
    intro head fuel prev h hpre ha hf
    obtain ⟨h0, itb, hitb, hrest⟩ := h
    subst h0
    obtain ⟨f, rfl⟩ : ∃ f, fuel = f + 1 := ⟨fuel - 1, by simp at hf; omega⟩
    have hb : ¬ itb.device_id = device_id := by
      intro hc
      have := hpre b (List.mem_cons_self b rest)
      rw [(hasId_true items device_id b itb hitb).2 hc] at this
      exact Bool.noConfusion this
    unfold OHOS_RemoveJoystick.loop
    simp only [hitb, if_neg hb]
    rw [ih itb.next f (some b) hrest (fun c hc => hpre c (List.mem_cons_of_mem b hc)) ha
      (by simp at hf ⊢; omega)]
    cases rest with
    | nil => rfl
    | cons c rest2 =>
      rw [List.getLast?_cons_cons]
      cases hl : (c :: rest2).getLast? with
      | some p => rfl
      | none =>
        exact absurd hl (by simp)

theorem remove_loop_none (items : List (Option SDL_joylist_item)) (device_id : Int) :
    ∀ (addrs : List Nat) (head : Option Nat) (fuel : Nat) (prev : Option Nat),
      IsChain items head addrs → (∀ b ∈ addrs, hasId items device_id b = false) →
      (OHOS_RemoveJoystick.loop items device_id fuel prev head).2 = none := by
  intro addrs
  induction addrs with
  | nil =>
    intro head fuel prev h _
    have h0 : head = none := h
    subst h0
    cases fuel <;> rfl
  | cons b rest ih =>
    intro head fuel prev h hpre
    obtain ⟨h0, itb, hitb, hrest⟩ := h
    subst h0
    cases fuel with
    | zero => rfl
    | succ f =>
      have hb : ¬ itb.device_id = device_id := by
        intro hc
        have := hpre b (List.mem_cons_self b rest)
        rw [(hasId_true items device_id b itb hitb).2 hc] at this
        exact Bool.noConfusion this
      unfold OHOS_RemoveJoystick.loop
      simp only [hitb, if_neg hb]
      exact ih itb.next f (some b) hrest (fun c hc => hpre c (List.mem_cons_of_mem b hc))

theorem IsChain_unlink (items : List (Option SDL_joylist_item)) (a : Nat)
    (it : SDL_joylist_item) (post : List Nat) (p : Nat) (hit : itemAt items a = some it) :
    ∀ (pre : List Nat) (head : Option Nat), IsChain items head (pre ++ a :: post) →
      pre.getLast? = some p → (pre ++ a :: post).Nodup →
      IsChain ((setNext items p it.next).set a none) head (pre ++ post) := by
  intro pre
  induction pre with
  | nil => intro head _ hl; exact Option.noConfusion hl
  | cons b rest ih =>
    intro head h hl hn
    obtain ⟨h0, itb, hitb, hrest⟩ := h
    have hn1 := List.nodup_cons.1 hn
    have hba : b ≠ a := by
      intro hc
      apply hn1.1
      rw [hc]
      exact List.mem_append_right _ (List.mem_cons_self a post)
    cases rest with
    | nil =>
      have hbp : b = p := by simpa using hl
      subst hbp
      obtain ⟨h1, it2, hit2, hpost⟩ := hrest
      rw [hit] at hit2
      have hit3 : it = it2 := Option.some.inj hit2
      subst hit3
      refine ⟨h0, { itb with next := it.next }, ?_, ?_⟩
      · rw [itemAt_set_ne _ a b _ (Ne.symm hba)]
        exact itemAt_setNext_self items b it.next itb hitb
      · apply IsChain_congr items _ post it.next _ hpost
        intro c hc
        have hca : a ≠ c := by
          intro hx
          have hn2 : (a :: post).Nodup := hn1.2
          apply (List.nodup_cons.1 hn2).1
          rw [hx]
          exact hc
        have hcb : b ≠ c := by
          intro hx
          apply hn1.1
          rw [hx]
          exact List.mem_cons_of_mem a hc
        rw [itemAt_set_ne _ a c _ hca, itemAt_setNext_ne _ b c _ hcb]
    | cons c rest2 =>
      have hl2 : (c :: rest2).getLast? = some p := by
        rw [List.getLast?_cons_cons] at hl
        exact hl
      have hpb : p ≠ b := by
        intro hx
        have hmem : p ∈ c :: rest2 := List.mem_of_getLast?_eq_some hl2
        apply hn1.1
        rw [← hx]
        exact List.mem_append_left _ hmem
      refine ⟨h0, itb, ?_, ih itb.next hrest hl2 hn1.2⟩
      rw [itemAt_set_ne _ a b _ (Ne.symm hba), itemAt_setNext_ne _ p b _ hpb]
      exact hitb

theorem remove_not_found (s : JoyState) (device_id : Int) (addrs : List Nat)
    (hc : IsChain s.items s.SDL_joylist addrs)
    (hn : ∀ b ∈ addrs, hasId s.items device_id b = false) :
    OHOS_RemoveJoystick s device_id = (-1, s) := by
  unfold OHOS_RemoveJoystick
  simp only [remove_loop_none s.items device_id addrs _ _ none hc hn, Option.none_bind]

theorem remove_found (s : JoyState) (device_id : Int) (pre : List Nat) (a : Nat)
    (post : List Nat) (item : SDL_joylist_item)
    (hc : IsChain s.items s.SDL_joylist (pre ++ a :: post)) (hnd : (pre ++ a :: post).Nodup)
    (hpre : ∀ b ∈ pre, hasId s.items device_id b = false)
    (hit : itemAt s.items a = some item) (hid : item.device_id = device_id) :
    OHOS_RemoveJoystick s device_id = (s.numjoysticks - 1, removed s pre.getLast? a item) := by
  have hl := remove_loop_found s.items device_id a post pre s.SDL_joylist
    (s.items.length + 1) none hc hpre ((hasId_true s.items device_id a item hit).2 hid)
    (Nat.le_succ_of_le (IsChain_length s.items _ _ hc hnd))
  have hl2 : OHOS_RemoveJoystick.loop s.items device_id (s.items.length + 1) none
      s.SDL_joylist = (pre.getLast?, some a) := by
    rw [hl]
    cases pre.getLast? <;> rfl
  unfold OHOS_RemoveJoystick removed
  simp only [hl2, Option.some_bind, hit, Option.map_some']

theorem getLast_append_cons (pre : List Nat) (a : Nat) (post : List Nat) :
    (pre ++ a :: post).getLast? = some ((a :: post).getLast (List.cons_ne_nil a post)) := by
  rw [List.getLast?_eq_getLast _ (by simp), List.getLast_append_of_ne_nil]

theorem removed_tail (s : JoyState) (pre : List Nat) (a : Nat) (post : List Nat)
    (item : SDL_joylist_item) (hnd : (pre ++ a :: post).Nodup)
    (ht : s.SDL_joylist_tail = (pre ++ a :: post).getLast?) :
    (removed s pre.getLast? a item).SDL_joylist_tail = (pre ++ post).getLast? := by
  unfold removed
  simp only
  cases post with
  | nil =>
    have : s.SDL_joylist_tail = some a := by
      rw [ht, getLast_append_cons]
      rfl
    rw [if_pos this.symm, List.append_nil]
  | cons c rest =>
    have h1 : s.SDL_joylist_tail = some ((c :: rest).getLast (List.cons_ne_nil c rest)) := by
      rw [ht, getLast_append_cons]
      rfl
    have hne : ¬ some a = s.SDL_joylist_tail := by
      intro hx
      rw [h1] at hx
      have hmem : a ∈ c :: rest := by
        rw [Option.some.inj hx]
        exact List.getLast_mem _
      have hn2 : (a :: c :: rest).Nodup := (List.nodup_append.1 hnd).2.1
      exact (List.nodup_cons.1 hn2).1 hmem
    rw [if_neg hne, h1, List.getLast?_eq_getLast _ (by simp),
      List.getLast_append_of_ne_nil]

theorem removed_fields (s : JoyState) (pre : List Nat) (a : Nat) (post : List Nat)
    (item : SDL_joylist_item) (hnd : (pre ++ a :: post).Nodup) (b : Nat)
    (hb : b ∈ pre ++ post) :
    (itemAt (removed s pre.getLast? a item).items b).map SDL_joylist_item.unlinked =
      (itemAt s.items b).map SDL_joylist_item.unlinked := by
  have hm := List.nodup_cons.1 (List.nodup_middle.1 hnd)
  have hab : a ≠ b := fun hx => hm.1 (hx ▸ hb)
  unfold removed
  simp only
  rw [itemAt_set_ne _ a b _ hab]
  cases pre.getLast? with
  | none => rfl
  | some p => exact setNext_fields s.items p item.next b

theorem removed_chain (s : JoyState) (pre : List Nat) (a : Nat) (post : List Nat)
    (item : SDL_joylist_item) (hc : IsChain s.items s.SDL_joylist (pre ++ a :: post))
    (hnd : (pre ++ a :: post).Nodup) (hit : itemAt s.items a = some item) :
    IsChain (removed s pre.getLast? a item).items (removed s pre.getLast? a item).SDL_joylist
      (pre ++ post) := by
  cases h : pre.getLast? with
  | none =>
    have hp : pre = [] := List.getLast?_eq_none_iff.1 h
    subst hp
    obtain ⟨_, it, hit2, hpost⟩ := hc
    rw [hit] at hit2
    have he : item = it := Option.some.inj hit2
    subst he
    have hna : a ∉ post := (List.nodup_cons.1 hnd).1
    unfold removed
    simp only [List.nil_append]
    exact IsChain_congr s.items _ post item.next
      (fun c hc2 => by rw [itemAt_set_ne _ a c _ (fun hx => hna (hx ▸ hc2))]) hpost
  | some p =>
    unfold removed
    simp only
    exact IsChain_unlink s.items a item post p hit pre s.SDL_joylist hc h hnd

theorem list_ids (items : List (Option SDL_joylist_item)) (addrs : List Nat) :
    (addrs.filterMap (fun a => (itemAt items a).map SDL_joylist_item.unlinked)).map
      (fun it => it.device_id) = deviceIds items addrs := by
  unfold deviceIds
  rw [List.map_filterMap]
  congr 1
  funext a
  cases itemAt items a <;> rfl

theorem removed_spec (s : JoyState) (pre : List Nat) (a : Nat) (post : List Nat)
    (item : SDL_joylist_item) (hc : IsChain s.items s.SDL_joylist (pre ++ a :: post))
    (hnd : (pre ++ a :: post).Nodup)
    (ht : s.SDL_joylist_tail = (pre ++ a :: post).getLast?)
    (hl : s.numjoysticks = Int.ofNat (pre ++ a :: post).length)
    (hd : (deviceIds s.items (pre ++ a :: post)).Nodup)
    (hit : itemAt s.items a = some item) :
    JoyWf (removed s pre.getLast? a item) ∧
    (removed s pre.getLast? a item).chain = pre ++ post ∧
    (removed s pre.getLast? a item).list =
      (pre ++ post).filterMap (fun b => (itemAt s.items b).map SDL_joylist_item.unlinked) := by
  have hc2 := removed_chain s pre a post item hc hnd hit
  have hn2 : (pre ++ post).Nodup := (List.nodup_cons.1 (List.nodup_middle.1 hnd)).2
  have hchain := JoyWf_chain _ (pre ++ post) hc2 hn2
  have hsub : (pre ++ post).Sublist (pre ++ a :: post) :=
    List.Sublist.append_left (List.sublist_cons_self a post) pre
  refine ⟨⟨pre ++ post, hc2, hn2, removed_tail s pre a post item hnd ht, ?_, ?_⟩, hchain, ?_⟩
  · have h1 : (removed s pre.getLast? a item).numjoysticks = s.numjoysticks - 1 := rfl
    rw [h1, hl]
    simp only [Int.ofNat_eq_coe, List.length_append, List.length_cons]
    omega
  · rw [deviceIds_congr s.items _ (pre ++ post)
      (fun b hb => unlinked_id _ _ (removed_fields s pre a post item hnd b hb))]
    unfold deviceIds at hd ⊢
    exact List.Nodup.sublist (List.Sublist.filterMap _ hsub) hd
  · unfold JoyState.list
    rw [hchain]
    exact list_congr s.items _ (pre ++ post)
      (fun b hb => removed_fields s pre a post item hnd b hb)

theorem remove_cases (s : JoyState) (device_id : Int) (hw : JoyWf s) :
    (device_id ∉ deviceIds s.items s.chain ∧ OHOS_RemoveJoystick s device_id = (-1, s)) ∨
    (∃ pre a post item, s.chain = pre ++ a :: post ∧ itemAt s.items a = some item ∧
      item.device_id = device_id ∧
      OHOS_RemoveJoystick s device_id = (s.numjoysticks - 1, removed s pre.getLast? a item) ∧
      JoyWf (removed s pre.getLast? a item) ∧
      (removed s pre.getLast? a item).chain = pre ++ post ∧
      (removed s pre.getLast? a item).list =
        (pre ++ post).filterMap
          (fun b => (itemAt s.items b).map SDL_joylist_item.unlinked)) := by
  obtain ⟨addrs, hc, hn, ht, hl, hd⟩ := hw
  have hchain := JoyWf_chain s addrs hc hn
  rw [hchain]
  by_cases h : ∃ a ∈ addrs, hasId s.items device_id a = true
  · right
    obtain ⟨pre, a, post, h1, h2, h3⟩ := split_first (hasId s.items device_id) addrs h
    subst h1
    obtain ⟨item, hit⟩ := IsChain_lt s.items _ _ hc a
      (List.mem_append_right _ (List.mem_cons_self a post))
    have hid := (hasId_true s.items device_id a item hit).1 h3
    exact ⟨pre, a, post, item, rfl, hit, hid,
      remove_found s device_id pre a post item hc hn h2 hit hid,
      removed_spec s pre a post item hc hn ht hl hd hit⟩
  · left
    refine ⟨fun hm => h ((mem_deviceIds s.items device_id addrs).1 hm), ?_⟩
    apply remove_not_found s device_id addrs hc
    intro b hb
    cases hx : hasId s.items device_id b with
    | false => rfl
    | true => exact absurd ⟨b, hb, hx⟩ h

theorem remove_wf (s : JoyState) (device_id : Int) (hw : JoyWf s) :
    JoyWf (OHOS_RemoveJoystick s device_id).2 := by
  rcases remove_cases s device_id hw with ⟨_, h⟩ | ⟨pre, a, post, item, _, _, _, h, h2, _⟩
  · rw [h]; exact hw
  · rw [h]; exact h2

theorem addPasses_id (s : JoyState) (env : AddEnv) (device_id : Int)
    (name : Option (List Nat)) (naxes nhats : Int)
    (h : addPasses s env device_id name naxes nhats = true) :
    JoystickByDeviceId s device_id = none ∧ name.isSome = true := by
  unfold addPasses at h
  simp only [Bool.and_eq_true] at h
  exact ⟨Option.isNone_iff_eq_none.1 h.1.1.2, h.1.2⟩

theorem add_wf (B : GamepadButtons) (s : JoyState) (env : AddEnv)
    (device_id : Int) (name desc : Option (List Nat)) (vendor_id product_id : Int)
    (is_accelerometer : Bool) (button_mask : Nat) (naxes : Int) (axis_mask : Nat)
    (nhats : Int) (hw : JoyWf s) :
    JoyWf (OHOS_AddJoystick B s env device_id name desc vendor_id product_id is_accelerometer
      button_mask naxes axis_mask nhats).2 := by
  rw [OHOS_AddJoystick_eq]
  by_cases h : addPasses s env device_id name naxes nhats = true ∧ env.mallocOk = true
  · rw [if_pos h]
    cases env.joystickName with
    | none => exact (append_none_spec s hw).1
    | some itemName =>
      exact (linked_spec s env _ hw rfl
        (addPasses_id s env device_id name naxes nhats h.1).1).1
  · rw [if_neg h]; exact hw

theorem open_cases (s : JoyState) (joystick : Nat) (device_index : Int)
    (r : Int × JoyState) (h : OHOS_JoystickOpen s joystick device_index = some r) :
    r.2 = s ∨ ∃ a item item2 js, itemAt s.items a = some item ∧
      item2.device_id = item.device_id ∧ item2.next = item.next ∧
      r.2 = { s with joysticks := js, items := s.items.set a (some item2) } := by
  unfold OHOS_JoystickOpen at h
  cases hg : GetJoystickByDevIndex s device_index with
  | none => rw [hg] at h; exact Option.noConfusion h
  | some p =>
    rw [hg] at h
    simp only at h
    cases p with
    | none =>
      simp only [Option.none_bind, Option.some.injEq] at h
      left; rw [← h]
    | some a =>
      cases hi : itemAt s.items a with
      | none =>
        simp only [Option.some_bind, hi, Option.map_none', Option.some.injEq] at h
        left; rw [← h]
      | some item =>
        simp only [Option.some_bind, hi, Option.map_some'] at h
        cases hj : item.joystick with
        | some j =>
          simp only [hj, Option.some.injEq] at h
          left; rw [← h]
        | none =>
          simp only [hj, Option.some.injEq] at h
          right
          exact ⟨a, item, { item with joystick := some joystick }, _, hi, rfl, rfl,
            by rw [← h]⟩

theorem open_wf (s : JoyState) (joystick : Nat) (device_index : Int)
    (r : Int × JoyState) (h : OHOS_JoystickOpen s joystick device_index = some r)
    (hw : JoyWf s) : JoyWf r.2 := by
  rcases open_cases s joystick device_index r h with h1 | ⟨a, item, item2, js, hi, h2, h3, h4⟩
  · rw [h1]; exact hw
  · rw [h4]
    exact JoyWf_SameLinks s _ (SameLinks_set s.items a item item2 hi h2 h3) rfl rfl rfl hw

theorem close_wf (s : JoyState) (joystick : Nat) (hw : JoyWf s) :
    JoyWf (OHOS_JoystickClose s joystick) := by
  unfold OHOS_JoystickClose
  cases (s.joysticks[joystick]?).bind (fun j => j.hwdata) with
  | none => exact hw
  | some a =>
    simp only
    cases hi : itemAt s.items a with
    | none => exact hw
    | some item =>
      exact JoyWf_SameLinks s _ (SameLinks_set s.items a item _ hi rfl rfl) rfl rfl rfl hw

theorem onHat_wf (B : GamepadButtons) (s : JoyState) (device_id hat_id x y : Int)
    (hw : JoyWf s) : JoyWf (OHOS_OnHat B s device_id hat_id x y).2 := by
  by_cases hx : -1 ≤ x ∧ x ≤ 1 ∧ -1 ≤ y ∧ y ≤ 1
  · have hr : (x ≥ -1 ∧ x ≤ 1 ∧ y ≥ -1 ∧ y ≤ 1) := ⟨hx.1, hx.2.1, hx.2.2.1, hx.2.2.2⟩
    cases ha : JoystickByDeviceId s device_id with
    | none =>
      unfold OHOS_OnHat
      simp only [if_pos hr, ha, Option.none_bind]
      exact hw
    | some a =>
      cases hi : itemAt s.items a with
      | none =>
        unfold OHOS_OnHat
        simp only [if_pos hr, ha, Option.some_bind, hi, Option.map_none']
        exact hw
      | some item =>
        cases hj : item.joystick with
        | none =>
          unfold OHOS_OnHat
          simp only [if_pos hr, ha, Option.some_bind, hi, Option.map_some', hj]
          exact hw
        | some j =>
          rw [OHOS_OnHat_eq B s device_id hat_id x y hx a item j ha hi hj]
          simp only
          split
          · exact hw
          · exact JoyWf_SameLinks s _ (SameLinks_set s.items a item _ hi rfl rfl)
              rfl rfl rfl hw
  · rw [OHOS_OnHat_outside B s device_id hat_id x y (by omega)]
    exact hw

theorem apply_wf (B : GamepadButtons) (s : JoyState) (op : JoyOp) (hw : JoyWf s) :
    JoyWf (JoyOp.apply B s op) := by
  cases op with
  | OHOS_AddJoystick env device_id name desc vendor_id product_id is_accelerometer
      button_mask naxes axis_mask nhats =>
    exact add_wf B s env device_id name desc vendor_id product_id is_accelerometer
      button_mask naxes axis_mask nhats hw
  | OHOS_RemoveJoystick device_id => exact remove_wf s device_id hw
  | OHOS_JoystickOpen device_index =>
    unfold JoyOp.apply
    simp only
    cases h : OHOS_JoystickOpen
        { s with joysticks := s.joysticks ++
          [{ instance_id := 0, hwdata := none, nhats := 0, nbuttons := 0, naxes := 0 }] }
        s.joysticks.length device_index with
    | none => exact hw
    | some r => exact open_wf _ _ _ r h hw
  | OHOS_JoystickClose joystick => exact close_wf s joystick hw
  | OHOS_OnHat device_id hat_id x y => exact onHat_wf B s device_id hat_id x y hw

theorem empty_wf : JoyWf JoyState.empty :=
  ⟨[], rfl, List.nodup_nil, rfl, rfl, List.nodup_nil⟩

theorem runJoy_wf (B : GamepadButtons) (ops : List JoyOp) :
    ∀ s : JoyState, JoyWf s → JoyWf (runJoy B s ops) := by
  induction ops with
  | nil => intro s hw; exact hw
  | cons op rest ih => intro s hw; exact ih _ (apply_wf B s op hw)

theorem index_loop (items : List (Option SDL_joylist_item)) :
    ∀ (n : Nat) (addrs : List Nat) (head : Option Nat), IsChain items head addrs →
      n ≤ addrs.length → GetJoystickByDevIndex.loop items n head = some addrs[n]? := by
  intro n
  induction n with
  | zero =>
    intro addrs head h _
    cases addrs with
    | nil =>
      have h0 : head = none := h
      rw [h0]; rfl
    | cons a rest =>
      obtain ⟨h0, _⟩ := h
      rw [h0, List.getElem?_cons_zero]; rfl
  | succ n ih =>
    intro addrs head h hl
    cases addrs with
    | nil => exact absurd hl (by simp)
    | cons a rest =>
      obtain ⟨h0, it, hit, hrest⟩ := h
      subst h0
      unfold GetJoystickByDevIndex.loop
      simp only [Option.some_bind, hit]
      rw [ih rest it.next hrest (by simpa using hl), List.getElem?_cons_succ]

theorem list_get (items : List (Option SDL_joylist_item)) :
    ∀ (addrs : List Nat) (head : Option Nat) (n : Nat), IsChain items head addrs →
      (addrs.filterMap (fun a => (itemAt items a).map SDL_joylist_item.unlinked))[n]? =
        (addrs[n]?).bind (fun a => (itemAt items a).map SDL_joylist_item.unlinked) := by
  intro addrs
  induction addrs with
  | nil => intro head n _; rfl
  | cons a rest ih =>
    intro head n h
    obtain ⟨_, it, hit, hrest⟩ := h
    rw [List.filterMap_cons]
    simp only [hit, Option.map_some']
    cases n with
    | zero => simp [hit]
    | succ n =>
      simp only [List.getElem?_cons_succ]
      exact ih it.next n hrest

theorem list_length (items : List (Option SDL_joylist_item)) :
    ∀ (addrs : List Nat) (head : Option Nat), IsChain items head addrs →
      (addrs.filterMap (fun a => (itemAt items a).map SDL_joylist_item.unlinked)).length =
        addrs.length := by
  intro addrs
  induction addrs with
  | nil => intro head _; rfl
  | cons a rest ih =>
    intro head h
    obtain ⟨_, it, hit, hrest⟩ := h
    rw [List.filterMap_cons]
    simp only [hit, Option.map_some', List.length_cons]
    rw [ih it.next hrest]

theorem wf_facts (s : JoyState) (hw : JoyWf s) :
    IsChain s.items s.SDL_joylist s.chain ∧ s.chain.Nodup ∧
    s.numjoysticks = Int.ofNat s.chain.length ∧ s.list.length = s.chain.length ∧
    s.SDL_joylist_tail = s.chain.getLast? ∧
    (s.list.map (fun it => it.device_id)).Nodup ∧
    s.list.map (fun it => it.device_id) = deviceIds s.items s.chain := by
  obtain ⟨addrs, hc, hn, ht, hl, hd⟩ := hw
  have hchain := JoyWf_chain s addrs hc hn
  unfold JoyState.list
  rw [hchain, list_ids]
  exact ⟨hc, hn, hl, list_length s.items addrs _ hc, ht, hd, rfl⟩

theorem add_spec (B : GamepadButtons) (s : JoyState) (env : AddEnv)
    (device_id : Int) (name desc : Option (List Nat)) (vendor_id product_id : Int)
    (is_accelerometer : Bool) (button_mask : Nat) (naxes : Int) (axis_mask : Nat)
    (nhats : Int) (hw : JoyWf s) :
    ((OHOS_AddJoystick B s env device_id name desc vendor_id product_id is_accelerometer
        button_mask naxes axis_mask nhats).1 ≠ -1 →
      ∃ itemName, env.joystickName = some itemName ∧
        (OHOS_AddJoystick B s env device_id name desc vendor_id product_id is_accelerometer
          button_mask naxes axis_mask nhats) =
          (s.numjoysticks + 1, linked s env (newItem B env device_id itemName
            is_accelerometer button_mask naxes axis_mask nhats)) ∧
        (linked s env (newItem B env device_id itemName
            is_accelerometer button_mask naxes axis_mask nhats)).chain =
          s.chain ++ [s.items.length] ∧
        (linked s env (newItem B env device_id itemName
            is_accelerometer button_mask naxes axis_mask nhats)).list =
          s.list ++ [newItem B env device_id itemName
            is_accelerometer button_mask naxes axis_mask nhats]) ∧
    ((OHOS_AddJoystick B s env device_id name desc vendor_id product_id is_accelerometer
        button_mask naxes axis_mask nhats).1 = -1 →
      (OHOS_AddJoystick B s env device_id name desc vendor_id product_id is_accelerometer
        button_mask naxes axis_mask nhats).2.chain = s.chain ∧
      (OHOS_AddJoystick B s env device_id name desc vendor_id product_id is_accelerometer
        button_mask naxes axis_mask nhats).2.list = s.list ∧
      (OHOS_AddJoystick B s env device_id name desc vendor_id product_id is_accelerometer
        button_mask naxes axis_mask nhats).2.SDL_joylist = s.SDL_joylist ∧
      (OHOS_AddJoystick B s env device_id name desc vendor_id product_id is_accelerometer
        button_mask naxes axis_mask nhats).2.SDL_joylist_tail = s.SDL_joylist_tail ∧
      (OHOS_AddJoystick B s env device_id name desc vendor_id product_id is_accelerometer
        button_mask naxes axis_mask nhats).2.numjoysticks = s.numjoysticks) ∧
    (device_id ∈ s.list.map (fun it => it.device_id) ∨ name = none →
      OHOS_AddJoystick B s env device_id name desc vendor_id product_id is_accelerometer
        button_mask naxes axis_mask nhats = (-1, s)) := by
  have hf := wf_facts s hw
  have hnum : 0 ≤ s.numjoysticks := by
    rw [hf.2.2.1]
    exact Int.ofNat_nonneg _
  rw [OHOS_AddJoystick_eq]
  by_cases h : addPasses s env device_id name naxes nhats = true ∧ env.mallocOk = true
  · rw [if_pos h]
    have hp := addPasses_id s env device_id name naxes nhats h.1
    refine ⟨?_, ?_, ?_⟩
    · cases hj : env.joystickName with
      | none => intro hx; exact absurd rfl hx
      | some itemName =>
        intro _
        have hs := linked_spec s env (newItem B env device_id itemName
            is_accelerometer button_mask naxes axis_mask nhats) hw rfl hp.1
        exact ⟨itemName, rfl, rfl, hs.2.1, hs.2.2⟩
    · cases hj : env.joystickName with
      | none =>
        intro _
        have ha := append_none_spec s hw
        exact ⟨ha.2.1, ha.2.2, rfl, rfl, rfl⟩
      | some itemName =>
        intro hx
        have hx2 : s.numjoysticks + 1 = -1 := hx
        omega
    · intro hdup
      exfalso
      rcases hdup with hd | hd
      · rw [hf.2.2.2.2.2.2] at hd
        obtain ⟨addrs, hc, hn, _, _, _⟩ := hw
        have hchain := JoyWf_chain s addrs hc hn
        rw [hchain] at hd
        have hfind := JoystickByDeviceId_find s device_id addrs hc hn
        rw [hp.1] at hfind
        exact find_none_not_mem s.items device_id addrs hfind.symm hd
      · rw [hd] at hp
        exact Bool.noConfusion hp.2
  · rw [if_neg h]
    exact ⟨fun hx => absurd rfl hx, fun _ => ⟨rfl, rfl, rfl, rfl, rfl⟩, fun _ => rfl⟩

theorem get_spec (s : JoyState) (device_index : Int) (hw : JoyWf s) :
    ∃ r, GetJoystickByDevIndex s device_index = some r ∧
      (r = none ↔ (device_index < 0 ∨ device_index ≥ s.numjoysticks)) ∧
      (0 ≤ device_index ∧ device_index < s.numjoysticks →
        ∃ a item, r = some a ∧ s.chain[device_index.toNat]? = some a ∧
          itemAt s.items a = some item ∧
          s.list[device_index.toNat]? = some item.unlinked) := by
  obtain ⟨addrs, hc, hn, ht, hl, hd⟩ := hw
  have hchain := JoyWf_chain s addrs hc hn
  unfold GetJoystickByDevIndex JoyState.list
  rw [hchain]
  by_cases hout : device_index < 0 ∨ device_index ≥ s.numjoysticks
  · rw [if_pos hout]
    exact ⟨none, rfl, iff_of_true rfl hout, fun h => by omega⟩
  · rw [if_neg hout]
    have hlt : device_index.toNat < addrs.length := by
      rw [hl] at hout
      simp only [Int.ofNat_eq_coe] at hout
      omega
    rw [index_loop s.items device_index.toNat addrs _ hc (Nat.le_of_lt hlt)]
    have hget : addrs[device_index.toNat]? = some addrs[device_index.toNat] :=
      List.getElem?_eq_getElem hlt
    obtain ⟨item, hit⟩ := IsChain_lt s.items addrs _ hc addrs[device_index.toNat]
      (List.getElem_mem hlt)
    refine ⟨addrs[device_index.toNat]?, rfl, ?_, fun _ =>
      ⟨addrs[device_index.toNat], item, hget, hget, hit, ?_⟩⟩
    · rw [hget]
      exact iff_of_false (fun hx => Option.noConfusion hx) hout
    · rw [list_get s.items addrs _ _ hc, hget, Option.some_bind, hit]
      rfl

theorem open_spec (s : JoyState) (joystick : Nat) (device_index : Int) (hw : JoyWf s) :
    ∃ q, OHOS_JoystickOpen s joystick device_index = some q ∧ (q.1 = -1 ∨ q.1 = 0) ∧
      (q.1 = -1 ↔ (device_index < 0 ∨ device_index ≥ s.numjoysticks ∨
        ∃ item, s.list[device_index.toNat]? = some item ∧ item.joystick.isSome = true)) ∧
      (q.1 = 0 → ∃ a item, s.chain[device_index.toNat]? = some a ∧
        itemAt s.items a = some item ∧
        itemAt q.2.items a = some { item with joystick := some joystick }) := by
  obtain ⟨r, hg, hnone, hin⟩ := get_spec s device_index hw
  unfold OHOS_JoystickOpen
  rw [hg]
  simp only
  by_cases hout : device_index < 0 ∨ device_index ≥ s.numjoysticks
  · rw [hnone.2 hout]
    refine ⟨(SDL_SetError, s), rfl, Or.inl rfl, iff_of_true rfl ?_, fun hx => ?_⟩
    · rcases hout with h | h
      · exact Or.inl h
      · exact Or.inr (Or.inl h)
    · exact absurd (show (-1 : Int) = 0 from hx) (by decide)
  · obtain ⟨a, item, hr, hch, hit, hli⟩ := hin (by omega)
    rw [hr]
    simp only [Option.some_bind, hit, Option.map_some']
    cases hj : item.joystick with
    | some j =>
      refine ⟨(SDL_SetError, s), rfl, Or.inl rfl, iff_of_true rfl ?_, fun hx => ?_⟩
      · refine Or.inr (Or.inr ⟨item.unlinked, hli, ?_⟩)
        show item.joystick.isSome = true
        rw [hj]; rfl
      · exact absurd (show (-1 : Int) = 0 from hx) (by decide)
    | none =>
      refine ⟨_, rfl, Or.inr rfl,
        iff_of_false (fun hx => absurd (show (0 : Int) = -1 from hx) (by decide)) ?_, fun _ =>
        ⟨a, item, hch, hit, itemAt_set_self s.items a item _ hit⟩⟩
      intro hx
      rcases hx with h | h | ⟨item2, h1, h2⟩
      · exact hout (Or.inl h)
      · exact hout (Or.inr h)
      · rw [hli] at h1
        rw [← Option.some.inj h1] at h2
        have h3 : item.joystick.isSome = true := h2
        rw [hj] at h3
        exact Bool.noConfusion h3

theorem itemAt_set_none (items : List (Option SDL_joylist_item)) (a : Nat) :
    itemAt (items.set a none) a = none := by
  unfold itemAt
  by_cases h : a < items.length
  · rw [List.getElem?_set_self h]; rfl
  · rw [List.getElem?_eq_none (by rw [List.length_set]; omega)]; rfl

theorem remove_spec (s : JoyState) (device_id : Int) (hw : JoyWf s) :
    (device_id ∉ s.list.map (fun it => it.device_id) →
      OHOS_RemoveJoystick s device_id = (-1, s)) ∧
    (device_id ∈ s.list.map (fun it => it.device_id) →
      ∃ l1 item l2 a, a ∈ s.chain ∧ itemAt s.items a = some item ∧
        item.device_id = device_id ∧
        s.list = l1 ++ item.unlinked :: l2 ∧
        (OHOS_RemoveJoystick s device_id).2.list = l1 ++ l2 ∧
        (∀ x ∈ (OHOS_RemoveJoystick s device_id).2.list, x.device_id ≠ device_id) ∧
        (OHOS_RemoveJoystick s device_id).2.numjoysticks = s.numjoysticks - 1 ∧
        (OHOS_RemoveJoystick s device_id).1 = s.numjoysticks - 1 ∧
        itemAt (OHOS_RemoveJoystick s device_id).2.items a = none ∧
        (∀ j joystick, item.joystick = some j → s.joysticks[j]? = some joystick →
          (OHOS_RemoveJoystick s device_id).2.joysticks[j]? =
            some { joystick with hwdata := none }) ∧
        (∀ k, item.joystick ≠ some k →
          (OHOS_RemoveJoystick s device_id).2.joysticks[k]? = s.joysticks[k]?)) := by
  have hf := wf_facts s hw
  rcases remove_cases s device_id hw with
    ⟨h1, h2⟩ | ⟨pre, a, post, item, h1, h2, h3, h4, h5, h6, h7⟩
  · rw [← hf.2.2.2.2.2.2] at h1
    exact ⟨fun _ => h2, fun hx => absurd hx h1⟩
  · have hlist : s.list =
        pre.filterMap (fun b => (itemAt s.items b).map SDL_joylist_item.unlinked) ++
        item.unlinked ::
        post.filterMap (fun b => (itemAt s.items b).map SDL_joylist_item.unlinked) := by
      unfold JoyState.list
      rw [h1, List.filterMap_append, List.filterMap_cons]
      simp only [h2, Option.map_some']
    have hmem : device_id ∈ s.list.map (fun it => it.device_id) := by
      rw [hlist]
      simp only [List.map_append, List.map_cons, List.mem_append, List.mem_cons]
      right; left
      exact h3.symm
    refine ⟨fun hx => absurd hmem hx, fun _ => ?_⟩
    rw [h4]
    refine ⟨_, item, _, a, ?_, h2, h3, hlist, ?_, ?_, rfl, rfl, ?_, ?_, ?_⟩
    · rw [h1]; exact List.mem_append_right _ (List.mem_cons_self a post)
    · show (removed s pre.getLast? a item).list = _
      rw [h7, List.filterMap_append]
    · show ∀ x ∈ (removed s pre.getLast? a item).list, x.device_id ≠ device_id
      rw [h7, List.filterMap_append]
      intro x hx hxid
      have hnd := hf.2.2.2.2.2.1
      rw [hlist] at hnd
      simp only [List.map_append, List.map_cons] at hnd
      have hnm := (List.nodup_cons.1 (List.nodup_middle.1 hnd)).1
      apply hnm
      have hx2 := List.mem_map_of_mem (fun it : SDL_joylist_item => it.device_id) hx
      rw [List.map_append] at hx2
      have h8 : item.unlinked.device_id = device_id := h3
      rw [h8]
      rw [← hxid]
      exact hx2
    · exact itemAt_set_none _ a
    · intro j joystick hj hjs
      show (removed s pre.getLast? a item).joysticks[j]? = _
      unfold removed
      simp only [hj, hjs]
      have hlt : j < s.joysticks.length := by
        by_contra hc
        rw [List.getElem?_eq_none (by omega)] at hjs
        exact Option.noConfusion hjs
      rw [List.getElem?_set_self hlt]
    · intro k hk
      show (removed s pre.getLast? a item).joysticks[k]? = _
      unfold removed
      simp only
      cases hj : item.joystick with
      | none => rfl
      | some j =>
        simp only
        cases hjs : s.joysticks[j]? with
        | none => rfl
        | some joystick =>
          simp only
          rw [List.getElem?_set_ne]
          intro hx
          apply hk
          rw [hj, hx]

theorem chain_nil_iff (s : JoyState) (h : IsChain s.items s.SDL_joylist s.chain) :
    s.chain = [] ↔ s.SDL_joylist = none := by
  constructor
  · intro h0
    rw [h0] at h
    exact h
  · intro h0
    unfold JoyState.chain
    rw [h0]
    rfl

/-- C33: in the state after any sequence of calls that starts from the empty list (adds and
removes, also opens, closes and hat events), the items reachable from `SDL_joylist` form a
chain that ends with a null `next`, `numjoysticks` is their number, `SDL_joylist_tail` is the
last of them (`NULL` exactly when `SDL_joylist` is `NULL`), and their `device_id`s are
distinct.  An `OHOS_AddJoystick` in such a state that does not return -1 appends the new item
at the tail, makes it `SDL_joylist_tail` and returns the new `numjoysticks`, the old one plus
one; one that returns -1 leaves the list, its head, its tail and `numjoysticks` as they were;
and one whose `device_id` is in the list or whose `name` is `NULL` returns -1 and leaves the
whole state as it was. -/
theorem C33_joylist_invariant (B : GamepadButtons) (ops : List JoyOp) (s : JoyState)
    (hs : s = runJoy B JoyState.empty ops) (env : AddEnv) (device_id : Int)
    (name desc : Option (List Nat)) (vendor_id product_id : Int) (is_accelerometer : Bool)
    (button_mask : Nat) (naxes : Int) (axis_mask : Nat) (nhats : Int) (r : Int × JoyState)
    (hr : r = OHOS_AddJoystick B s env device_id name desc vendor_id product_id
      is_accelerometer button_mask naxes axis_mask nhats) :
    (IsChain s.items s.SDL_joylist s.chain ∧ s.list.length = s.chain.length ∧
      s.numjoysticks = Int.ofNat s.chain.length ∧
      s.SDL_joylist_tail = s.chain.getLast? ∧
      (s.SDL_joylist_tail = none ↔ s.SDL_joylist = none) ∧
      (s.list.map (fun it => it.device_id)).Nodup) ∧
    (r.1 ≠ -1 →
      ∃ itemName, env.joystickName = some itemName ∧
        r.2.list = s.list ++ [newItem B env device_id itemName is_accelerometer button_mask
          naxes axis_mask nhats] ∧
        r.2.chain = s.chain ++ [s.items.length] ∧
        r.2.SDL_joylist_tail = some s.items.length ∧
        r.2.numjoysticks = s.numjoysticks + 1 ∧ r.1 = r.2.numjoysticks) ∧
    (r.1 = -1 →
      r.2.list = s.list ∧ r.2.chain = s.chain ∧ r.2.SDL_joylist = s.SDL_joylist ∧
      r.2.SDL_joylist_tail = s.SDL_joylist_tail ∧ r.2.numjoysticks = s.numjoysticks) ∧
    (device_id ∈ s.list.map (fun it => it.device_id) ∨ name = none → r = (-1, s)) := by
  have hw : JoyWf s := by
    rw [hs]
    exact runJoy_wf B ops _ empty_wf
  have hf := wf_facts s hw
  have ha := add_spec B s env device_id name desc vendor_id product_id is_accelerometer
    button_mask naxes axis_mask nhats hw
  rw [← hr] at ha
  refine ⟨⟨hf.1, hf.2.2.2.1, hf.2.2.1, hf.2.2.2.2.1, ?_, hf.2.2.2.2.2.1⟩, ?_,
    fun hx => ⟨(ha.2.1 hx).2.1, (ha.2.1 hx).1, (ha.2.1 hx).2.2⟩, ha.2.2⟩
  · rw [hf.2.2.2.2.1, List.getLast?_eq_none_iff]
    exact chain_nil_iff s hf.1
  · intro hx
    obtain ⟨itemName, h1, h2, h3, h4⟩ := ha.1 hx
    rw [h2]
    exact ⟨itemName, h1, h4, h3, rfl, rfl, rfl⟩

/-- C34: in the state after any sequence of calls that starts from the empty list,
`OHOS_RemoveJoystick(device_id)` returns -1 and leaves the state as it was when no item of
the list has the `device_id`; otherwise the list was `l1 ++ item :: l2` with `item` the item
with the `device_id`, and afterwards it is `l1 ++ l2` and holds no item with the
`device_id`, `numjoysticks` is one less and is the value returned, the item is freed, the
`hwdata` of the joystick opened on the item is `NULL`, and the other joysticks are as they
were. -/
theorem C34_remove (B : GamepadButtons) (ops : List JoyOp) (s : JoyState)
    (hs : s = runJoy B JoyState.empty ops) (device_id : Int) :
    (device_id ∉ s.list.map (fun it => it.device_id) →
      OHOS_RemoveJoystick s device_id = (-1, s)) ∧
    (device_id ∈ s.list.map (fun it => it.device_id) →
      ∃ l1 item l2 a, a ∈ s.chain ∧ itemAt s.items a = some item ∧
        item.device_id = device_id ∧
        s.list = l1 ++ item.unlinked :: l2 ∧
        (OHOS_RemoveJoystick s device_id).2.list = l1 ++ l2 ∧
        (∀ x ∈ (OHOS_RemoveJoystick s device_id).2.list, x.device_id ≠ device_id) ∧
        (OHOS_RemoveJoystick s device_id).2.numjoysticks = s.numjoysticks - 1 ∧
        (OHOS_RemoveJoystick s device_id).1 = s.numjoysticks - 1 ∧
        itemAt (OHOS_RemoveJoystick s device_id).2.items a = none ∧
        (∀ j joystick, item.joystick = some j → s.joysticks[j]? = some joystick →
          (OHOS_RemoveJoystick s device_id).2.joysticks[j]? =
            some { joystick with hwdata := none }) ∧
        (∀ k, item.joystick ≠ some k →
          (OHOS_RemoveJoystick s device_id).2.joysticks[k]? = s.joysticks[k]?)) := by
  have hw : JoyWf s := by
    rw [hs]
    exact runJoy_wf B ops _ empty_wf
  exact remove_spec s device_id hw

/-- C36: in the state after any sequence of calls that starts from the empty list, the
assertion of `GetJoystickByDevIndex(i)` does not fail; the function returns `NULL` exactly
when `i < 0` or `i >= numjoysticks`, and otherwise the address of the item at position `i` of
the list.  `OHOS_JoystickOpen` returns -1 or 0, and -1 exactly when `i` is out of this range
or the item at position `i` has a joystick; when it returns 0 that item has the joystick
passed. -/
theorem C36_index (B : GamepadButtons) (ops : List JoyOp) (s : JoyState)
    (hs : s = runJoy B JoyState.empty ops) (device_index : Int) (joystick : Nat) :
    (∃ r, GetJoystickByDevIndex s device_index = some r ∧
      (r = none ↔ (device_index < 0 ∨ device_index ≥ s.numjoysticks)) ∧
      (0 ≤ device_index ∧ device_index < s.numjoysticks →
        ∃ a item, r = some a ∧ s.chain[device_index.toNat]? = some a ∧
          itemAt s.items a = some item ∧
          s.list[device_index.toNat]? = some item.unlinked)) ∧
    (∃ q, OHOS_JoystickOpen s joystick device_index = some q ∧ (q.1 = -1 ∨ q.1 = 0) ∧
      (q.1 = -1 ↔ (device_index < 0 ∨ device_index ≥ s.numjoysticks ∨
        ∃ item, s.list[device_index.toNat]? = some item ∧ item.joystick.isSome = true)) ∧
      (q.1 = 0 → ∃ a item, s.chain[device_index.toNat]? = some a ∧
        itemAt s.items a = some item ∧
        itemAt q.2.items a = some { item with joystick := some joystick })) := by
  have hw : JoyWf s := by
    rw [hs]
    exact runJoy_wf B ops _ empty_wf
  exact ⟨get_spec s device_index hw, open_spec s joystick device_index hw⟩

theorem sampleItem_only (a : Nat) (item : SDL_joylist_item) (ha : a ∈ sampleJoyState.chain)
    (hit : itemAt sampleJoyState.items a = some item) (hid : item.device_id = 7) :
    item = sampleItem := by
  have hc : sampleJoyState.chain = [0, 1] := by decide
  rw [hc] at ha
  simp only [List.mem_cons, List.mem_singleton, List.not_mem_nil, or_false] at ha
  rcases ha with h | h
  · subst h
    have h0 : itemAt sampleJoyState.items 0 = some sampleItem := by decide
    rw [h0] at hit
    exact (Option.some.inj hit).symm
  · subst h
    have h1 : (itemAt sampleJoyState.items 1).map (fun it => it.device_id) = some 9 := by
      decide
    rw [hit] at h1
    simp only [Option.map_some', Option.some.injEq] at h1
    omega

/-- Witness of C33: after two adds and an open, adding device 5 appends its item at address
2 and returns 3; adding device 7 again returns -1 and changes nothing. -/
theorem C33_joylist_invariant_witness :
    sampleJoyState.numjoysticks = 2 ∧ sampleJoyState.SDL_joylist_tail = some 1 ∧
    (OHOS_AddJoystick sampleButtons sampleJoyState sampleEnv 5 (some [80, 97, 100]) none 0 0
      false 3 2 3 1).1 = 3 ∧
    (OHOS_AddJoystick sampleButtons sampleJoyState sampleEnv 5 (some [80, 97, 100]) none 0 0
      false 3 2 3 1).2.chain = [0, 1, 2] ∧
    (OHOS_AddJoystick sampleButtons sampleJoyState sampleEnv 5 (some [80, 97, 100]) none 0 0
      false 3 2 3 1).2.SDL_joylist_tail = some 2 ∧
    OHOS_AddJoystick sampleButtons sampleJoyState sampleEnv 7 (some [80, 97, 100]) none 0 0
      false 3 2 3 1 = (-1, sampleJoyState) ∧
    (OHOS_AddJoystick sampleButtons sampleJoyState sampleEnv 7 (some [80, 97, 100]) none 0 0
      false 3 2 3 1).2.list = sampleJoyState.list := by
  have h := C33_joylist_invariant sampleButtons sampleJoyOps sampleJoyState rfl sampleEnv 5
    (some [80, 97, 100]) none 0 0 false 3 2 3 1 _ rfl
  have h7 := C33_joylist_invariant sampleButtons sampleJoyOps sampleJoyState rfl sampleEnv 7
    (some [80, 97, 100]) none 0 0 false 3 2 3 1 _ rfl
  obtain ⟨_, _, _, h3, h4, h5, h6⟩ := h.2.1 (by decide)
  have hdup : (7 : Int) ∈ sampleJoyState.list.map (fun it => it.device_id) := by decide
  exact ⟨h.1.2.2.1.trans (by decide), h.1.2.2.2.1.trans (by decide),
    (h6.trans h5).trans (by decide), h3.trans (by decide), h4.trans (by decide),
    h7.2.2.2 (Or.inl hdup), (h7.2.2.1 (by decide)).1⟩

/-- Witness of C34: after two adds and an open of the first device, removing device 7
returns 1, leaves device 9 alone in the list and clears `hwdata` of the joystick at address
0; removing device 5, which is not in the list, returns -1. -/
theorem C34_remove_witness :
    (OHOS_RemoveJoystick sampleJoyState 7).1 = 1 ∧
    (OHOS_RemoveJoystick sampleJoyState 7).2.numjoysticks = 1 ∧
    (∀ x ∈ (OHOS_RemoveJoystick sampleJoyState 7).2.list, x.device_id ≠ 7) ∧
    sampleJoyState.joysticks[0]? =
      some { instance_id := 7, hwdata := some 0, nhats := 0, nbuttons := 15, naxes := 2 } ∧
    (OHOS_RemoveJoystick sampleJoyState 7).2.joysticks[0]? =
      some { instance_id := 7, hwdata := none, nhats := 0, nbuttons := 15, naxes := 2 } ∧
    OHOS_RemoveJoystick sampleJoyState 5 = (-1, sampleJoyState) := by
  have h := C34_remove sampleButtons sampleJoyOps sampleJoyState rfl 7
  have h5 := C34_remove sampleButtons sampleJoyOps sampleJoyState rfl 5
  obtain ⟨l1, item, l2, a, ha, hit, hid, _, _, hx, hn, hr, _, hj, _⟩ := h.2 (by decide)
  have hi := sampleItem_only a item ha hit hid
  subst hi
  have hjs : sampleJoyState.joysticks[0]? =
      some { instance_id := 7, hwdata := some 0, nhats := 0, nbuttons := 15, naxes := 2 } := by
    decide
  exact ⟨hr.trans (by decide), hn.trans (by decide), hx, hjs, hj 0 _ rfl hjs,
    h5.1 (by decide)⟩

/-- Witness of C36: with two items, of which the first is opened, index 1 gives the item at
address 1, index 2 gives `NULL`, and `OHOS_JoystickOpen` returns -1 for index 0 and for index
2 and 0 for index 1. -/
theorem C36_index_witness :
    GetJoystickByDevIndex sampleJoyState 1 = some (some 1) ∧
    GetJoystickByDevIndex sampleJoyState 2 = some none ∧
    (∃ q, OHOS_JoystickOpen sampleJoyState 0 0 = some q ∧ q.1 = -1) ∧
    (∃ q, OHOS_JoystickOpen sampleJoyState 0 2 = some q ∧ q.1 = -1) ∧
    (∃ q, OHOS_JoystickOpen sampleJoyState 0 1 = some q ∧ q.1 = 0) := by
  have h0 := C36_index sampleButtons sampleJoyOps sampleJoyState rfl 0 0
  have h1 := C36_index sampleButtons sampleJoyOps sampleJoyState rfl 1 0
  have h2 := C36_index sampleButtons sampleJoyOps sampleJoyState rfl 2 0
  obtain ⟨r1, hr1, _, hin1⟩ := h1.1
  obtain ⟨a, item, hra, hch, _, _⟩ := hin1 (by decide)
  have hc1 : sampleJoyState.chain[(1 : Int).toNat]? = some 1 := by decide
  rw [hc1] at hch
  obtain ⟨r2, hr2, hnone2, _⟩ := h2.1
  obtain ⟨q0, hq0, _, hiff0, _⟩ := h0.2
  obtain ⟨q2, hq2, _, hiff2, _⟩ := h2.2
  obtain ⟨q1, hq1, hor1, hiff1, _⟩ := h1.2
  refine ⟨?_, ?_, ⟨q0, hq0, ?_⟩, ⟨q2, hq2, ?_⟩, ⟨q1, hq1, ?_⟩⟩
  · rw [hr1, hra, ← Option.some.inj hch]
  · rw [hr2, hnone2.2 (Or.inr (by decide))]
  · exact hiff0.2 (Or.inr (Or.inr ⟨sampleItem.unlinked, by decide, by decide⟩))
  · exact hiff2.2 (Or.inr (Or.inl (by decide)))
  · rcases hor1 with hm | hz
    · exfalso
      rcases hiff1.1 hm with hx | hx | ⟨it, hit, hjo⟩
      · exact absurd hx (by decide)
      · exact absurd hx (by decide)
      · have hl : (sampleJoyState.list[(1 : Int).toNat]?).map (fun i => i.joystick) =
            some none := by decide
        rw [hit] at hl
        simp only [Option.map_some', Option.some.injEq] at hl
        rw [hl] at hjo
        exact Bool.noConfusion hjo
    · exact hz

end OhosHid
